import Mathlib

/-!
# kubeauth: identity resolution, service-account name grammar and user provisioning

A shallow embedding of the Go sources under `internal/cage/kubernetes/v1/rbac`
(`rbac.go`, `identity/query.go`, `identity/identity.go`, `identity/querier.go`,
`identity/registry.go`), of `internal/cage/kubernetes/v1/kubectl/config/config.go`, of
`cmd/kubeauth/add_user/add_user.go` and of `cmd/kubeauth/ctl/ctl.go`, together with theorems
about them.

Conventions of the embedding:

* Go `string` values are Lean `String`s.  The only separator the sources split on is the
  ASCII character `:`, so splitting on characters and splitting on bytes agree.
* A Go `error` is represented by its message (`Error := String`); `nil` is `none`.
* A function that receives a `context.Context` receives a `Context` value that records
  whether the context is already done when it is inspected.
* Calls made through the cluster client are recorded in a call trace, so that statements
  of the form "makes exactly one List call" can be expressed.
* A nil-pointer dereference is a distinct outcome (`Outcome.fault`), never silently
  identified with an error return.
* The clients that `add_user.go` calls are interfaces; their methods return Go's result
  tuples and get the calls made so far as an argument, so that their answers may change
  while `run` is under way.
* The `run` of `ctl.go` gets the state of the caller's context as a function of the calls
  made so far, so that the context may be cancelled while `run` is under way; the executor
  that runs `kubectl` is an interface as well.
* The two argument slices that the `run` of `ctl.go` receives are Go slices over a memory
  of backing arrays, and `append` writes in place while the capacity suffices, so that
  slices which share an array are covered.
* Functions of the Go standard library and of the libraries the sources import
  (`strings`, `fmt`, `strconv`, `github.com/pkg/errors`, `k8s.io/apimachinery`) are given by
  their behaviour on the inputs that occur.
-/

set_option autoImplicit false

namespace Kubeauth

/-! ## Strings and errors -/

/-- Message carried by a Go `error`. -/
abbrev Error := String

/-- Go's `strings.Split(s, sep)` for a separator that is a single character: the pieces
of `s` between the occurrences of `sep`.  `Split "" sep` is `[""]`. -/
def strings.Split (s : String) (sep : Char) : List String :=
  (s.data.splitOn sep).map String.mk

/-- Message of `errors.Wrap(err, msg)` and `errors.Wrapf(err, format, ...)` of
`github.com/pkg/errors`: the new message, a colon and a blank, then the cause. -/
def errors.Wrap (err : Error) (msg : String) : Error :=
  msg ++ ": " ++ err

/-- Message of `errors.WithStack(err)`: the message of the cause, unchanged. -/
def errors.WithStack (err : Error) : Error := err

/-- Go's `strings.Contains(s, substr)`, used to state what an error message contains. -/
def strings.Contains (s substr : String) : Bool :=
  decide (substr.data <:+: s.data)

/-! ## `rbac.go`: the name grammar -/

/-- Source: `ParseServiceAccountUser` (rbac.go:31-43).  Returns `(namespace, basename, err)`. -/
def ParseServiceAccountUser (user : String) : String × String × Option Error :=
  let parts := strings.Split user ':'
  if parts.length ≠ 4 then
    ("", "", some ("service account user [" ++ user ++ "] contains [" ++ toString parts.length
      ++ "] parts, expected 4"))
  else if parts.getD 0 "" ≠ "system" ∨ parts.getD 1 "" ≠ "serviceaccount" then
    ("", "", some ("service account user [" ++ user
      ++ "] does not begin with \x27system:serviceaccount:\x27"))
  else
    (parts.getD 2 "", parts.getD 3 "", none)

/-- Source: `ParseServiceAccountGroup` (rbac.go:49-65).  Returns `(namespace, err)`. -/
def ParseServiceAccountGroup (group : String) : String × Option Error :=
  let parts := strings.Split group ':'
  if parts.length ≠ 2 ∧ parts.length ≠ 3 then
    ("", some ("service account group [" ++ group ++ "] contains [" ++ toString parts.length
      ++ "] parts, expected 2 or 3"))
  else if parts.getD 0 "" ≠ "system" ∨ parts.getD 1 "" ≠ "serviceaccounts" then
    ("", some ("service account group [" ++ group
      ++ "] does not begin with \x27system:serviceaccounts:\x27"))
  else if parts.length = 2 then
    ("", none)
  else
    (parts.getD 2 "", none)

/-- Source: `ParseServiceAccount` (rbac.go:71-83).
Returns `(namespace, basename, isGroup, isValid)`. -/
def ParseServiceAccount (n : String) : String × String × Bool × Bool :=
  let (namespace_, basename, _) := ParseServiceAccountUser n
  if basename = "" then
    let (groupNamespace, err) := ParseServiceAccountGroup n
    if err = none then
      (groupNamespace, "", true, true)
    else
      ("", "", false, false)
  else
    (namespace_, basename, false, true)

/-! ## `rbac.go`: the binding selector -/

/-- Source: `BindingSelector` (rbac.go:15-18). -/
structure BindingSelector where
  RoleName : String
  BindingName : String
deriving DecidableEq, Repr

/-- Source: `NewBindingSelector` (rbac.go:20-26).  Returns `(selector, err)`. -/
def NewBindingSelector (s : String) : Option BindingSelector × Option Error :=
  let parts := strings.Split s ':'
  if parts.length ≠ 2 ∨ parts.getD 0 "" = "" ∨ parts.getD 1 "" = "" then
    (none, some ("selector [" ++ s ++ "] does not use format <role name>:<binding name>"))
  else
    (some { RoleName := parts.getD 0 "", BindingName := parts.getD 1 "" }, none)

/-! ## `v1.go`: object kinds -/

def KindClusterRole : String := "ClusterRole"
def KindClusterRoleBinding : String := "ClusterRoleBinding"
def KindGroup : String := "Group"
def KindRole : String := "Role"
def KindRoleBinding : String := "RoleBinding"
def KindServiceAccount : String := "ServiceAccount"
def KindUser : String := "User"

/-! ## `identity/identity.go` and `identity/query.go`: the data model -/

/-- Source: `IdentitySource` (identity.go:14-17); of the embedded `TypeMeta` and
`ObjectMeta` only the fields the package reads or writes are kept. -/
structure IdentitySource where
  Kind : String := ""
  Name : String := ""
  Namespace : String := ""
deriving DecidableEq, Repr

/-- Source: `Identity` (identity.go:37-46). -/
structure Identity where
  Kind : String := ""
  Name : String := ""
  Namespace : String := ""
  Source : Option IdentitySource := none
  Querier : String := ""
deriving DecidableEq, Repr

/-- Source: `IdentityList` (identity.go:72-75). -/
structure IdentityList where
  Items : List Identity := []
deriving DecidableEq, Repr

/-- A `clientcmdapi.Context` of the kubectl configuration. -/
structure ConfigContext where
  AuthInfo : String := ""
  Cluster : String := ""
  Namespace : String := ""
deriving DecidableEq, Repr

/-- A `clientcmdapi.Config`.  `Contexts` is a Go map; the list holds its entries in the
order in which a `range` over the map visits them in the execution at hand.  `Clusters` is a
Go map as well; the list holds its keys, the cluster objects being never read. -/
structure ClientCmdConfig where
  Contexts : List (String × ConfigContext) := []
  CurrentContext : String := ""
  Clusters : List String := []
deriving DecidableEq, Repr

/-- Source: `Query` (query.go:67-81). -/
structure Query where
  Kind : String := ""
  Name : String := ""
  Namespace : String := ""
  ClientCmdConfig : Option ClientCmdConfig := none
deriving DecidableEq, Repr

/-- Source: the four `QueryOption` constructors (query.go:27-53). -/
inductive QueryOption where
  | QueryNamespace (val : String)
  | QueryKind (val : String)
  | QueryName (val : String)
  | QueryClientCmdConfig (val : Option ClientCmdConfig)
deriving DecidableEq, Repr

/-- The effect of one option on the query under construction. -/
def QueryOption.apply (o : QueryOption) (q : Query) : Query :=
  match o with
  | QueryNamespace val => { q with Namespace := val }
  | QueryKind val => { q with Kind := val }
  | QueryName val => { q with Name := val }
  | QueryClientCmdConfig val => { q with ClientCmdConfig := val }

/-- Source: `NewQuery` (query.go:56-64). -/
def NewQuery (options : List QueryOption) : Query :=
  options.foldl (fun q o => o.apply q) {}

/-! ## The cluster client as the queriers see it -/

/-- State of a `context.Context` when it is inspected. -/
inductive Context where
  | live
  | canceled
  | deadlineExceeded
deriving DecidableEq, Repr

/-- Go's `ctx.Err()`: `nil` while the context is live. -/
def Context.Err : Context → Option Error
  | live => none
  | canceled => some "context canceled"
  | deadlineExceeded => some "context deadline exceeded"

/-- An `rbac.Subject`. -/
structure Subject where
  Kind : String := ""
  APIGroup : String := ""
  Name : String := ""
  Namespace : String := ""
deriving DecidableEq, Repr

/-- The fields of an `rbac.RoleBinding` that the queriers can observe. -/
structure RoleBinding where
  Kind : String := ""
  Name : String := ""
  Namespace : String := ""
  Subjects : List Subject := []
deriving DecidableEq, Repr

/-- The fields of an `rbac.ClusterRoleBinding` that the queriers can observe. -/
structure ClusterRoleBinding where
  Kind : String := ""
  Name : String := ""
  Namespace : String := ""
  Subjects : List Subject := []
deriving DecidableEq, Repr

/-- The fields of a `core.ServiceAccount` that the queriers can observe. -/
structure ServiceAccount where
  Kind : String := ""
  Name : String := ""
  Namespace : String := ""
deriving DecidableEq, Repr

/-- A `meta.ListOptions`; the sources only ever set `FieldSelector`. -/
structure ListOptions where
  FieldSelector : String := ""
deriving DecidableEq, Repr

/-- Source: the client interfaces reachable from `core.Clientset` (core/core.go:24-32) that
the queriers call.  Each method returns Go's result tuple; a list result is a pointer and
may be nil (`none`), which `DefaultClient.List` returns for a not-found answer
(role_binding.go:72-82).  The namespace object returned by `Namespaces.Get` is never read
by the queriers and is left out. -/
structure Clientset where
  NamespacesGet : String → Bool × Option Error
  RoleBindingsList : String → ListOptions → Option (List RoleBinding) × Option Error
  ClusterRoleBindingsList : ListOptions → Option (List ClusterRoleBinding) × Option Error
  ServiceAccountsList : String → ListOptions → Option (List ServiceAccount) × Option Error

/-- One call made through the cluster client. -/
inductive Call where
  | NamespacesGet (name : String)
  | RoleBindingsList (ns : String) (opts : ListOptions)
  | ClusterRoleBindingsList (opts : ListOptions)
  | ServiceAccountsList (ns : String) (opts : ListOptions)
deriving DecidableEq, Repr

/-- How a Go call that returns `(*T, error)` ends: with a value and a nil error, with a
nil value and an error, or by dereferencing a nil pointer. -/
inductive Outcome (α : Type) where
  | ok (val : α)
  | error (err : Error)
  | fault
deriving DecidableEq, Repr

/-- The result of a querier's `Do` together with the client calls it made, in order. -/
structure DoResult where
  out : Outcome IdentityList
  calls : List Call
deriving DecidableEq, Repr

/-! ## `identity/querier.go`: the seven queriers -/

/-- Source: the `Querier` interface (querier.go:26-38); `Label` is its `String()`. -/
structure Querier where
  Label : String
  Compatible : Query → Bool
  Do : Context → Clientset → Query → DoResult

/-- Source: `ConfigUserQuerier.String` (querier.go:46-48). -/
def ConfigUserQuerier.Label : String := "kubeconfig context"

/-- Source: `ConfigUserQuerier.Compatible` (querier.go:53-55). -/
def ConfigUserQuerier.Compatible (query : Query) : Bool :=
  query.Kind == "" || query.Kind == KindUser

/-- Body of the loop at querier.go:73-84 for one context of the configuration. -/
def ConfigUserQuerier.visit (query : Query) (found : IdentityList)
    (entry : String × ConfigContext) : IdentityList :=
  let contextObj := entry.2
  if query.Namespace ≠ "" ∧ query.Namespace ≠ contextObj.Namespace then
    found
  else if query.Name = "" ∨ query.Name = contextObj.AuthInfo then
    { Items := found.Items ++
        [{ Kind := KindUser, Name := contextObj.AuthInfo, Namespace := contextObj.Namespace }] }
  else
    found

/-- Source: `ConfigUserQuerier.Do` (querier.go:60-87). -/
def ConfigUserQuerier.Do (ctx : Context) (_clientset : Clientset) (query : Query) : DoResult :=
  match query.ClientCmdConfig with
  | none =>
    ⟨.error ("[" ++ ConfigUserQuerier.Label ++ "] querier received a nil kubeconfig object"), []⟩
  | some config =>
    match ctx.Err with
    | some e => ⟨.error (errors.Wrap e "query cancelled"), []⟩
    | none => ⟨.ok (config.Contexts.foldl (ConfigUserQuerier.visit query) {}), []⟩

/-- Source: `CoreGroupQuerier.String` (querier.go:102-104). -/
def CoreGroupQuerier.Label : String := "system-defined group"

/-- Source: `CoreGroupQuerier.Compatible` (querier.go:109-111). -/
def CoreGroupQuerier.Compatible (query : Query) : Bool :=
  query.Kind == "" || query.Kind == KindGroup

/-- Body of the loops at querier.go:132-136 and querier.go:185-189. -/
def coreVisit (query : Query) (found : IdentityList) (id : Identity) : IdentityList :=
  if query.Name = "" ∨ query.Name = id.Name then
    { Items := found.Items ++ [id] }
  else
    found

/-- Source: `CoreGroupQuerier.Do` (querier.go:116-139). -/
def CoreGroupQuerier.Do (ctx : Context) (_clientset : Clientset) (query : Query) : DoResult :=
  match ctx.Err with
  | some e => ⟨.error (errors.Wrap e "query cancelled"), []⟩
  | none =>
    let ids : List Identity := [
      { Kind := KindGroup, Name := "system:masters" },
      { Kind := KindGroup, Name := "system:nodes" },
      { Kind := KindGroup, Name := "system:unauthenticated" },
      { Kind := KindGroup, Name := "system:authenticated" }]
    ⟨.ok (ids.foldl (coreVisit query) {}), []⟩

/-- Source: `CoreUserQuerier.String` (querier.go:154-156). -/
def CoreUserQuerier.Label : String := "system-defined user"

/-- Source: `CoreUserQuerier.Compatible` (querier.go:161-163). -/
def CoreUserQuerier.Compatible (query : Query) : Bool :=
  query.Kind == "" || query.Kind == KindUser

/-- Source: `CoreUserQuerier.Do` (querier.go:168-192). -/
def CoreUserQuerier.Do (ctx : Context) (_clientset : Clientset) (query : Query) : DoResult :=
  match ctx.Err with
  | some e => ⟨.error (errors.Wrap e "query cancelled"), []⟩
  | none =>
    let ids : List Identity := [
      { Kind := KindUser, Name := "system:anonymous" },
      { Kind := KindUser, Name := "system:apiserver" },
      { Kind := KindUser, Name := "system:kube-proxy" },
      { Kind := KindUser, Name := "system:kube-controller-manager" },
      { Kind := KindUser, Name := "system:kube-scheduler" }]
    ⟨.ok (ids.foldl (coreVisit query) {}), []⟩

/-- Message of the `errors.Errorf` at querier.go:230, 335, 443 and 521. -/
def namespaceMismatchError (queryNamespace queryName querySaNamespace : String) : Error :=
  "query\x27s namespace [" ++ queryNamespace ++ "] does not match query service account ["
    ++ queryName ++ "]\x27s namespace [" ++ querySaNamespace ++ "] "

/-- Message of the `errors.Errorf` at querier.go:238, 343, 451 and 529. -/
def namespaceNotFoundError (queryName querySaNamespace : String) : Error :=
  "service account [" ++ queryName ++ "] namespace [" ++ querySaNamespace ++ "] not found"

/-- The `match` decision of querier.go:257-271 (and, identically, 362-376) for a subject. -/
def subjectMatch (query : Query) (querySaName : String) (querySaIsGroup querySaIsValid : Bool)
    (s : Subject) : Bool :=
  if query.Name = "" then
    true
  else if querySaIsValid then
    if querySaIsGroup then
      s.Kind == KindGroup && s.Name == query.Name
    else
      s.Kind == KindServiceAccount && s.Name == querySaName
  else
    (query.Kind == "" || s.Kind == query.Kind) && s.Name == query.Name

/-- Source: `RoleSubjectQuerier.String` (querier.go:202-204). -/
def RoleSubjectQuerier.Label : String := "role binding subject"

/-- Source: `RoleSubjectQuerier.Compatible` (querier.go:209-211). -/
def RoleSubjectQuerier.Compatible (query : Query) : Bool :=
  query.Kind == "" || query.Kind == KindUser || query.Kind == KindGroup

/-- Body of the inner loop at querier.go:252-293 for subject `s` of binding `r`. -/
def RoleSubjectQuerier.visit (query : Query) (querySaName : String)
    (querySaIsGroup querySaIsValid : Bool) (r : RoleBinding) (list : IdentityList)
    (s : Subject) : IdentityList :=
  if query.Namespace ≠ "" ∧ query.Namespace ≠ s.Namespace then
    list
  else if subjectMatch query querySaName querySaIsGroup querySaIsValid s then
    { Items := list.Items ++ [{
        Name := s.Name
        Namespace := s.Namespace
        Kind := s.Kind
        Source := some { Name := r.Name, Namespace := r.Namespace, Kind := KindRoleBinding } }] }
  else
    list

/-- Source: `RoleSubjectQuerier.Do` from the `List` call on (querier.go:245-296), entered with
the calls made so far. -/
def RoleSubjectQuerier.scan (clientset : Clientset) (query : Query) (querySaName : String)
    (querySaIsGroup querySaIsValid : Bool) (calls : List Call) : DoResult :=
  let (res, err) := clientset.RoleBindingsList query.Namespace {}
  let calls := calls ++ [Call.RoleBindingsList query.Namespace {}]
  match err with
  | some e => ⟨.error (errors.Wrap e "failed to get role binding list"), calls⟩
  | none =>
    match res with
    | none => ⟨.fault, calls⟩
    | some items =>
      ⟨.ok (items.foldl (fun list r =>
        r.Subjects.foldl
          (RoleSubjectQuerier.visit query querySaName querySaIsGroup querySaIsValid r) list) {}),
        calls⟩

/-- Source: `RoleSubjectQuerier.Do` (querier.go:216-297). -/
def RoleSubjectQuerier.Do (ctx : Context) (clientset : Clientset) (query : Query) : DoResult :=
  match ctx.Err with
  | some e => ⟨.error (errors.Wrap e "query cancelled"), []⟩
  | none =>
    let (querySaNamespace, querySaName, querySaIsGroup, querySaIsValid) :=
      ParseServiceAccount query.Name
    if querySaIsValid = true ∧ querySaNamespace ≠ "" then
      if query.Namespace ≠ "" ∧ querySaNamespace ≠ query.Namespace then
        ⟨.error (namespaceMismatchError query.Namespace query.Name querySaNamespace), []⟩
      else
        let (exists_, err) := clientset.NamespacesGet querySaNamespace
        let calls := [Call.NamespacesGet querySaNamespace]
        match err with
        | some e => ⟨.error (errors.WithStack e), calls⟩
        | none =>
          if exists_ = false then
            ⟨.error (namespaceNotFoundError query.Name querySaNamespace), calls⟩
          else
            RoleSubjectQuerier.scan clientset query querySaName querySaIsGroup querySaIsValid calls
    else
      RoleSubjectQuerier.scan clientset query querySaName querySaIsGroup querySaIsValid []

/-- Source: `ClusterRoleSubjectQuerier.String` (querier.go:307-309). -/
def ClusterRoleSubjectQuerier.Label : String := "cluster role binding subject"

/-- Source: `ClusterRoleSubjectQuerier.Compatible` (querier.go:314-316). -/
def ClusterRoleSubjectQuerier.Compatible (query : Query) : Bool :=
  query.Kind == "" || query.Kind == KindUser || query.Kind == KindGroup

/-- Body of the inner loop at querier.go:357-398 for subject `s` of binding `r`. -/
def ClusterRoleSubjectQuerier.visit (query : Query) (querySaName : String)
    (querySaIsGroup querySaIsValid : Bool) (r : ClusterRoleBinding) (list : IdentityList)
    (s : Subject) : IdentityList :=
  if query.Namespace ≠ "" ∧ query.Namespace ≠ s.Namespace then
    list
  else if subjectMatch query querySaName querySaIsGroup querySaIsValid s then
    { Items := list.Items ++ [{
        Name := s.Name
        Namespace := s.Namespace
        Kind := s.Kind
        Source := some
          { Name := r.Name, Namespace := r.Namespace, Kind := KindClusterRoleBinding } }] }
  else
    list

/-- Source: `ClusterRoleSubjectQuerier.Do` from the `List` call on (querier.go:350-401),
entered with the calls made so far. -/
def ClusterRoleSubjectQuerier.scan (clientset : Clientset) (query : Query)
    (querySaName : String) (querySaIsGroup querySaIsValid : Bool) (calls : List Call) :
    DoResult :=
  let (res, err) := clientset.ClusterRoleBindingsList {}
  let calls := calls ++ [Call.ClusterRoleBindingsList {}]
  match err with
  | some e => ⟨.error (errors.Wrap e "failed to get cluster role binding list"), calls⟩
  | none =>
    match res with
    | none => ⟨.fault, calls⟩
    | some items =>
      ⟨.ok (items.foldl (fun list r =>
        r.Subjects.foldl
          (ClusterRoleSubjectQuerier.visit query querySaName querySaIsGroup querySaIsValid r)
          list) {}),
        calls⟩

/-- Source: `ClusterRoleSubjectQuerier.Do` (querier.go:321-402). -/
def ClusterRoleSubjectQuerier.Do (ctx : Context) (clientset : Clientset) (query : Query) :
    DoResult :=
  match ctx.Err with
  | some e => ⟨.error (errors.Wrap e "query cancelled"), []⟩
  | none =>
    let (querySaNamespace, querySaName, querySaIsGroup, querySaIsValid) :=
      ParseServiceAccount query.Name
    if querySaIsValid = true ∧ querySaNamespace ≠ "" then
      if query.Namespace ≠ "" ∧ querySaNamespace ≠ query.Namespace then
        ⟨.error (namespaceMismatchError query.Namespace query.Name querySaNamespace), []⟩
      else
        let (exists_, err) := clientset.NamespacesGet querySaNamespace
        let calls := [Call.NamespacesGet querySaNamespace]
        match err with
        | some e => ⟨.error (errors.WithStack e), calls⟩
        | none =>
          if exists_ = false then
            ⟨.error (namespaceNotFoundError query.Name querySaNamespace), calls⟩
          else
            ClusterRoleSubjectQuerier.scan clientset query querySaName querySaIsGroup
              querySaIsValid calls
    else
      ClusterRoleSubjectQuerier.scan clientset query querySaName querySaIsGroup
        querySaIsValid []

/-- Source: `ServiceAccountUserQuerier.String` (querier.go:412-414). -/
def ServiceAccountUserQuerier.Label : String := "service account based user"

/-- Source: `ServiceAccountUserQuerier.Compatible` (querier.go:419-421). -/
def ServiceAccountUserQuerier.Compatible (query : Query) : Bool :=
  query.Kind == "" || query.Kind == KindUser || query.Kind == KindServiceAccount

/-- Source: `ServiceAccountUserQuerier.Do` from the assignment of the field selector on
(querier.go:455-474), entered with the calls made so far. -/
def ServiceAccountUserQuerier.scan (clientset : Clientset) (querySaNamespace querySaName : String)
    (calls : List Call) : DoResult :=
  let listOpts : ListOptions := { FieldSelector := "metadata.name=" ++ querySaName }
  let (res, err) := clientset.ServiceAccountsList querySaNamespace listOpts
  let calls := calls ++ [Call.ServiceAccountsList querySaNamespace listOpts]
  match err with
  | some e => ⟨.error (errors.Wrap e "failed to get role list"), calls⟩
  | none =>
    match res with
    | none => ⟨.fault, calls⟩
    | some items =>
      ⟨.ok (items.foldl (fun (list : IdentityList) (s : ServiceAccount) =>
        { Items := list.Items ++
            [{ Name := s.Name, Namespace := s.Namespace, Kind := KindServiceAccount }] }) {}),
        calls⟩

/-- Source: `ServiceAccountUserQuerier.Do` (querier.go:426-475). -/
def ServiceAccountUserQuerier.Do (ctx : Context) (clientset : Clientset) (query : Query) :
    DoResult :=
  match ctx.Err with
  | some e => ⟨.error (errors.Wrap e "query cancelled"), []⟩
  | none =>
    let (querySaNamespace, querySaName, querySaIsGroup, querySaIsValid) :=
      ParseServiceAccount query.Name
    if querySaIsValid = false ∨ querySaIsGroup = true then
      ⟨.ok {}, []⟩
    else if querySaNamespace ≠ "" then
      if query.Namespace ≠ "" ∧ querySaNamespace ≠ query.Namespace then
        ⟨.error (namespaceMismatchError query.Namespace query.Name querySaNamespace), []⟩
      else
        let (exists_, err) := clientset.NamespacesGet querySaNamespace
        let calls := [Call.NamespacesGet querySaNamespace]
        match err with
        | some e => ⟨.error (errors.WithStack e), calls⟩
        | none =>
          if exists_ = false then
            ⟨.error (namespaceNotFoundError query.Name querySaNamespace), calls⟩
          else
            ServiceAccountUserQuerier.scan clientset querySaNamespace querySaName calls
    else
      ServiceAccountUserQuerier.scan clientset querySaNamespace querySaName []

/-- Source: `ServiceAccountGroupQuerier.String` (querier.go:487-489). -/
def ServiceAccountGroupQuerier.Label : String := "service account based group"

/-- Source: `ServiceAccountGroupQuerier.Compatible` (querier.go:494-496). -/
def ServiceAccountGroupQuerier.Compatible (query : Query) : Bool :=
  query.Kind == "" || query.Kind == KindGroup

/-- Source: the list that `ServiceAccountGroupQuerier.Do` returns once the name and its
namespace passed the checks (querier.go:533-543). -/
def ServiceAccountGroupQuerier.found (query : Query) (querySaNamespace : String) :
    IdentityList :=
  { Items := [{ Name := query.Name, Namespace := querySaNamespace, Kind := KindGroup }] }

/-- Source: `ServiceAccountGroupQuerier.Do` (querier.go:501-544). -/
def ServiceAccountGroupQuerier.Do (ctx : Context) (clientset : Clientset) (query : Query) :
    DoResult :=
  match ctx.Err with
  | some e => ⟨.error (errors.Wrap e "query cancelled"), []⟩
  | none =>
    if query.Name = "" then
      ⟨.ok {}, []⟩
    else
      let (querySaNamespace, _, querySaIsGroup, querySaIsValid) :=
        ParseServiceAccount query.Name
      if querySaIsValid = false ∨ querySaIsGroup = false then
        ⟨.ok {}, []⟩
      else if querySaNamespace ≠ "" then
        if query.Namespace ≠ "" ∧ querySaNamespace ≠ query.Namespace then
          ⟨.error (namespaceMismatchError query.Namespace query.Name querySaNamespace), []⟩
        else
          let (exists_, err) := clientset.NamespacesGet querySaNamespace
          let calls := [Call.NamespacesGet querySaNamespace]
          match err with
          | some e => ⟨.error (errors.WithStack e), calls⟩
          | none =>
            if exists_ = false then
              ⟨.error (namespaceNotFoundError query.Name querySaNamespace), calls⟩
            else
              ⟨.ok (ServiceAccountGroupQuerier.found query querySaNamespace), calls⟩
      else
        ⟨.ok (ServiceAccountGroupQuerier.found query querySaNamespace), []⟩

/-! ## `identity/registry.go`: the resolution engine -/

/-- Source: `Registry` (registry.go:19-29). -/
structure Registry where
  CoreGroup : Querier
  CoreUser : Querier
  RoleSubject : Querier
  ClusterRoleSubject : Querier
  ServiceAccountUser : Querier
  ServiceAccountGroup : Querier
  ConfigUser : Querier
  Clientset : Clientset

/-- Source: `NewRegistry` (registry.go:32-43). -/
def NewRegistry (clientset : Clientset) : Registry where
  CoreGroup := ⟨CoreGroupQuerier.Label, CoreGroupQuerier.Compatible, CoreGroupQuerier.Do⟩
  CoreUser := ⟨CoreUserQuerier.Label, CoreUserQuerier.Compatible, CoreUserQuerier.Do⟩
  RoleSubject := ⟨RoleSubjectQuerier.Label, RoleSubjectQuerier.Compatible, RoleSubjectQuerier.Do⟩
  ClusterRoleSubject := ⟨ClusterRoleSubjectQuerier.Label, ClusterRoleSubjectQuerier.Compatible,
    ClusterRoleSubjectQuerier.Do⟩
  ServiceAccountUser := ⟨ServiceAccountUserQuerier.Label, ServiceAccountUserQuerier.Compatible,
    ServiceAccountUserQuerier.Do⟩
  ServiceAccountGroup := ⟨ServiceAccountGroupQuerier.Label,
    ServiceAccountGroupQuerier.Compatible, ServiceAccountGroupQuerier.Do⟩
  ConfigUser := ⟨ConfigUserQuerier.Label, ConfigUserQuerier.Compatible, ConfigUserQuerier.Do⟩
  Clientset := clientset

/-- Source: the `queriers` slice of `Registry.Query` (registry.go:50-61). -/
def Registry.queriers (reg : Registry) (query : Query) : List Querier :=
  [reg.CoreGroup, reg.CoreUser, reg.RoleSubject, reg.ClusterRoleSubject,
    reg.ServiceAccountUser, reg.ServiceAccountGroup]
  ++ (if query.ClientCmdConfig ≠ none then [reg.ConfigUser] else [])

/-- Source: the queriers handed to `g.Go` by the loop at registry.go:91-96, in loop order. -/
def Registry.compatible (reg : Registry) (query : Query) : List Querier :=
  (reg.queriers query).filter (fun querier => querier.Compatible query)

/-- Source: the assignment `item.Querier = querierType` (registry.go:81). -/
def stamp (querierType : String) (item : Identity) : Identity :=
  { item with Querier := querierType }

/-- Where one goroutine started by `g.Go` (registry.go:72-88) stands: it has not called `Do`
yet; it is in the loop over the items that `Do` returned, with these items still to append;
or it has returned. -/
inductive Task where
  | ready (querier : Querier)
  | appending (querierType : String) (items : List Identity)
  | finished

/-- What the goroutines of one `Registry.Query` call share: the context of the errgroup, the
first error the errgroup recorded, the list guarded by the mutex, whether a goroutine
dereferenced a nil pointer, and the client calls made so far. -/
structure Shared where
  gCtx : Context
  err : Option Error := none
  fullList : IdentityList := {}
  faulted : Bool := false
  calls : List Call := []
deriving DecidableEq, Repr

/-- The errgroup's reaction to a goroutine returning the error `e` (`errgroup.Group.Go`):
only the first error is kept, and the group's context is cancelled. -/
def Shared.fail (sh : Shared) (e : Error) : Shared :=
  { sh with
    err := match sh.err with
      | some first => some first
      | none => some e
    gCtx := match sh.gCtx with
      | Context.live => Context.canceled
      | done => done }

/-- One atomic move of the goroutine in state `t`: the call of `Do` with what follows it up to
the loop (registry.go:73-78), one iteration of the loop (registry.go:80-85), or the return
after the loop. -/
def Task.step (clientset : Clientset) (query : Query) (sh : Shared) (t : Task) : Shared × Task :=
  match t with
  | .ready querier =>
    let querierType := querier.Label
    let r := querier.Do sh.gCtx clientset query
    let sh := { sh with calls := sh.calls ++ r.calls }
    match r.out with
    | .error e =>
      (sh.fail (errors.Wrap e ("identity querier [" ++ querierType ++ "] did not finish")),
        .finished)
    | .fault => ({ sh with faulted := true }, .finished)
    | .ok list => (sh, .appending querierType list.Items)
  | .appending querierType (item :: rest) =>
    ({ sh with fullList := { Items := sh.fullList.Items ++ [stamp querierType item] } },
      .appending querierType rest)
  | .appending _ [] => (sh, .finished)
  | .finished => (sh, .finished)

/-- The scheduler lets goroutine `i` make one move.  Nothing moves once a goroutine has
faulted (the process is gone), and an index that names no goroutine is skipped. -/
def schedule (clientset : Clientset) (query : Query) (st : Shared × List Task) (i : Nat) :
    Shared × List Task :=
  if st.1.faulted then st
  else
    match st.2[i]? with
    | none => st
    | some t =>
      let (sh, t) := Task.step clientset query st.1 t
      (sh, st.2.set i t)

/-- The goroutine in state `t` runs until it returns, with no other goroutine moving. -/
def Task.complete (clientset : Clientset) (query : Query) (sh : Shared) (t : Task) : Shared :=
  if sh.faulted then sh
  else
    match Task.step clientset query sh t with
    | (sh, .appending querierType items) =>
      { sh with fullList := { Items := sh.fullList.Items ++ items.map (stamp querierType) } }
    | (sh, _) => sh

/-- Source: `g.Wait()` and the two returns of `Registry.Query` (registry.go:98-102), once
every goroutine has returned. -/
def Shared.wait (sh : Shared) : Outcome IdentityList :=
  if sh.faulted then .fault
  else
    match sh.err with
    | some err => .error (errors.WithStack err)
    | none => .ok sh.fullList

/-- The state in which `Registry.Query` has started its goroutines (registry.go:65-96). -/
def Registry.start (reg : Registry) (ctx : Context) (query : Query) : Shared × List Task :=
  ({ gCtx := ctx }, (reg.compatible query).map Task.ready)

/-- The shared state when every goroutine has returned: the goroutines move as the schedule
`sched` says, and the goroutines the schedule left unfinished then run to their end one
after the other. -/
def Registry.run (reg : Registry) (sched : List Nat) (ctx : Context) (query : Query) : Shared :=
  let st := sched.foldl (schedule reg.Clientset query) (reg.start ctx query)
  st.2.foldl (Task.complete reg.Clientset query) st.1

/-- Source: `Registry.Query` (registry.go:45-103).  The goroutines run concurrently; `sched`
is the order in which they take their moves, so a statement for every `sched` holds for
every interleaving.  A `Do` reads the context on entry only and shares nothing else with the
other goroutines, so its result is fixed by the state of the group's context at the moment
it is called, and the call is one move.  The caller's context is in state `ctx` during the
whole call; the group's context differs from it only once the errgroup has cancelled it. -/
def Registry.Query (reg : Registry) (sched : List Nat) (ctx : Context)
    (options : List QueryOption) : Outcome IdentityList :=
  (reg.run sched ctx (NewQuery options)).wait

/-! ## Go library functions used by `add_user.go` -/

/-- Go's `strings.HasPrefix`. -/
def strings.HasPrefix (s pre : String) : Bool :=
  pre.data.isPrefixOf s.data

/-- The digits of Go's `strconv` (`lowerhex`). -/
def strconv.lowerhex (n : Nat) : Char :=
  "0123456789abcdef".data.getD (n % 16) '0'

/-- The `width` lowest hexadecimal digits of `n`, most significant first. -/
def strconv.hex (width n : Nat) : String :=
  String.mk ((List.range width).reverse.map (fun i => strconv.lowerhex (n / 16 ^ i)))

/-- Go's `strconv.appendEscapedRune` for the double quote as quote character, with
`ASCIIonly` and `graphicOnly` false: a control character below the space and the rune
0x7f are printed as `\x` and two hexadecimal digits.  `isPrint` is the Unicode table
`strconv.IsPrint`. -/
def strconv.escapedRune (isPrint : Char → Bool) (r : Char) : String :=
  if r = Char.ofNat 34 ∨ r = Char.ofNat 92 then
    String.mk [Char.ofNat 92, r]
  else if isPrint r then
    String.mk [r]
  else if r = Char.ofNat 7 then "\x5ca"
  else if r = Char.ofNat 8 then "\x5cb"
  else if r = Char.ofNat 12 then "\x5cf"
  else if r = Char.ofNat 10 then "\x5cn"
  else if r = Char.ofNat 13 then "\x5cr"
  else if r = Char.ofNat 9 then "\x5ct"
  else if r = Char.ofNat 11 then "\x5cv"
  else if r.toNat < 32 ∨ r.toNat = 127 then "\x5cx" ++ strconv.hex 2 r.toNat
  else if r.toNat < 65536 then "\x5cu" ++ strconv.hex 4 r.toNat
  else "\x5cU" ++ strconv.hex 8 r.toNat

/-- Go's `strconv.Quote`, on a string that is valid UTF-8. -/
def strconv.Quote (isPrint : Char → Bool) (s : String) : String :=
  "\x22" ++ String.mk (s.data.flatMap (fun r => (strconv.escapedRune isPrint r).data)) ++ "\x22"

/-- What `fmt` prints for the verb `%q` applied to a `[]string`: the quoted elements,
separated by one space, between square brackets. -/
def fmt.quoted (isPrint : Char → Bool) (a : List String) : String :=
  "[" ++ String.mk (" ".data.intercalate (a.map (fun s => (strconv.Quote isPrint s).data)))
    ++ "]"

/-- `strconv.IsPrint` on ASCII, where it is the range from the space to the tilde; the
runes beyond ASCII are taken as not printable.  Used for concrete evaluations only. -/
def asciiPrint (r : Char) : Bool :=
  decide (32 ≤ r.toNat ∧ r.toNat < 127)

/-- The error `wait.ErrWaitTimeout` of k8s.io/apimachinery. -/
def wait.ErrWaitTimeout : Error := "timed out waiting for the condition"

/-- The function `wait.ExponentialBackoff` of k8s.io/apimachinery for a backoff of `steps`
steps: `condition` is called until it reports done or an error, at most `steps` times, and
`ErrWaitTimeout` is returned when the steps are used up.  The condition works on a state
`σ` and may dereference a nil pointer (`none`).  The sleeps between the calls are not
modelled; what changes with time is covered by the state. -/
def wait.ExponentialBackoff {σ : Type} (condition : σ → Option (Bool × Option Error) × σ) :
    Nat → σ → Outcome Unit × σ
  | 0, s => (.error wait.ErrWaitTimeout, s)
  | steps + 1, s =>
    match condition s with
    | (none, s) => (.fault, s)
    | (some (_, some err), s) => (.error err, s)
    | (some (true, none), s) => (.ok (), s)
    | (some (false, none), s) => wait.ExponentialBackoff condition steps s

/-! ## `config.go`: the parsed kubectl configuration file -/

/-- Source: `File` (config.go:24-35).  `RestConfig` is only handed on to client-go and is
left out. -/
structure File where
  Name : String := ""
  ClientCmdConfig : ClientCmdConfig := {}
deriving DecidableEq, Repr

/-- Source: `File.GetCurrentContext` (config.go:38-49).  It returns either an error or the
name and the object of the current context, which is how the result is given here. -/
def File.GetCurrentContext (f : File) : Except Error (String × ConfigContext) :=
  if f.ClientCmdConfig.Contexts.length = 0 then
    .error "no context configs found"
  else
    match f.ClientCmdConfig.Contexts.lookup f.ClientCmdConfig.CurrentContext with
    | none =>
      .error ("details of current-context [" ++ f.ClientCmdConfig.CurrentContext
        ++ "] not found")
    | some curContext => .ok (f.ClientCmdConfig.CurrentContext, curContext)

/-- Source: `File.GetCurrentCluster` (config.go:52-72).  It returns either an error or the
name of the cluster of the current context with the cluster object; the object is never
read by the callers and is left out. -/
def File.GetCurrentCluster (f : File) : Except Error String :=
  if f.ClientCmdConfig.Clusters.length = 0 then
    .error "no cluster configs found"
  else
    match f.GetCurrentContext with
    | .error err => .error (errors.WithStack err)
    | .ok (_, curContext) =>
      if f.ClientCmdConfig.Clusters.contains curContext.Cluster then
        .ok curContext.Cluster
      else
        .error ("details of current-context [" ++ f.ClientCmdConfig.CurrentContext
          ++ "] cluster [" ++ curContext.Cluster ++ "] not found")

/-! ## `add_user.go`: what `run` works with -/

/-- A `[]byte`. -/
abbrev Bytes := List Nat

/-- The field of a `core.ObjectReference` that `run` reads. -/
structure core.ObjectReference where
  Name : String := ""
deriving DecidableEq, Repr

/-- The field of a `core.ServiceAccount` that `run` reads. -/
structure core.ServiceAccount where
  Secrets : List core.ObjectReference := []
deriving DecidableEq, Repr

/-- The field of a `core.Secret` that `run` reads; `Data` is a Go map. -/
structure core.Secret where
  Data : List (String × Bytes) := []
deriving DecidableEq, Repr

/-- An error returned by a binding client, with what `k8s_errors.IsAlreadyExists` says
about it. -/
structure ApiError where
  Message : Error
  IsAlreadyExists : Bool := false
deriving DecidableEq, Repr

/-- One call that `run` makes to the configuration client, to the cluster clients or to the
file system, with its arguments. -/
inductive RunCall where
  | ConfigParse (filename : String)
  | RolesGet (ns name : String)
  | ClusterRolesGet (name : String)
  | ServiceAccountsGet (ns sa : String)
  | ServiceAccountsCreateBasic (ns sa : String)
  | RoleBindingsCreate (ns name role : String) (subject : Subject)
  | ClusterRoleBindingsCreate (name role : String) (subject : Subject)
  | SecretsGet (ns name : String)
  | TempFile (dir pattern : String)
  | FileWrite (name : String) (b : Bytes)
  | FileSync (name : String)
  | FileClose (name : String)
  | RemoveSafer (name : String)
  | UpsertUserToken (user : String) (token : Bytes)
  | UpsertContext (name cluster ns user : String)
deriving DecidableEq, Repr

/-- Source: the `Client` interface of config.go:75-84.  Every method gets, as its first
argument, the calls that `run` has made so far: the answers of an implementation may depend
on them and so may change during the run.  A method returns Go's result tuple. -/
structure ConfigClient where
  Parse : List RunCall → String → Option File × Option Error
  UpsertUserToken : List RunCall → Context → Option File → String → Bytes → Option Error
  UpsertContext :
    List RunCall → Context → Option File → String → String → String → String → Option Error

/-- Source: the client interfaces of `core.Clientset` (core/core.go:24-32) that `run` calls
(role.go, cluster_role.go, service_account.go, role_binding.go, cluster_role_binding.go,
secret.go).  As for `ConfigClient` the first argument is the calls made so far, and each
method returns Go's result tuple; the objects returned by `Roles.Get`,
`ClusterRoles.Get` and the two `Create` are never read by `run` and are left out. -/
structure ApiClientset where
  RolesGet : List RunCall → String → String → Bool × Option Error
  ClusterRolesGet : List RunCall → String → Bool × Option Error
  ServiceAccountsGet :
    List RunCall → String → String → Option core.ServiceAccount × Bool × Option Error
  ServiceAccountsCreateBasic :
    List RunCall → String → String → Option core.ServiceAccount × Option Error
  RoleBindingsCreate : List RunCall → String → String → String → Subject → Option ApiError
  ClusterRoleBindingsCreate : List RunCall → String → String → Subject → Option ApiError
  SecretsGet : List RunCall → String → String → Option core.Secret × Bool × Option Error

/-- What `run` takes from the process it runs in: the default clients that it creates when
the handler holds none (`NewDefaultClient`, `kubernetes.NewForConfig` with `NewClientset`),
the temporary file (`ioutil.TempFile` and the methods of the `os.File`), and the table
`strconv.IsPrint`. -/
structure Host where
  NewDefaultClient : ConfigClient
  NewForConfig : File → Except Error ApiClientset
  TempFile : List RunCall → String → String → Except Error String
  FileWrite : List RunCall → String → Bytes → Option Error
  FileSync : List RunCall → String → Option Error
  FileClose : List RunCall → String → Option Error
  IsPrint : Char → Bool

/-- Source: `Handler` (add_user.go:42-60), the fields that `run` reads. -/
structure Handler where
  KubeApiClientset : Option ApiClientset := none
  KubectlConfigClient : Option ConfigClient := none
  Cluster : String := ""
  ClusterRoles : List String := []
  ConfigFile : String := ""
  Namespace : String := ""
  Roles : List String := []
  ServiceAccountName : String := ""
  Username : String := ""
  Verbosity : Int := 0

/-- The calls made by `run` so far and the lines it has written to the standard error. -/
structure RunState where
  calls : List RunCall := []
  stderr : List String := []
deriving DecidableEq, Repr

/-- How `run` ended (`ok` for a nil error, `fault` for a nil dereference or an index out
of range), with the calls it made and the lines it wrote, in order. -/
structure RunResult where
  out : Outcome Unit
  calls : List RunCall
  stderr : List String
deriving DecidableEq, Repr

/-- The state after one more call. -/
def RunState.call (st : RunState) (c : RunCall) : RunState :=
  { st with calls := st.calls ++ [c] }

/-- Source: the closure `verbose` (add_user.go:102-106). -/
def RunState.verbose (st : RunState) (verbosity : Int) (msg : String) : RunState :=
  if verbosity > 0 then { st with stderr := st.stderr ++ ["kubeauth: " ++ msg] } else st

/-- The run ends with `out`. -/
def RunState.done (st : RunState) (out : Outcome Unit) : RunResult :=
  ⟨out, st.calls, st.stderr⟩

/-! ## `add_user.go`: `Handler.run` -/

/-- Source: the creation of the API clients (add_user.go:122-130). -/
def Handler.apiClientset (h : Handler) (host : Host) (configFile : Option File)
    (st : RunState) : Except RunResult ApiClientset :=
  match h.KubeApiClientset with
  | some apiClientset => .ok apiClientset
  | none =>
    match configFile with
    | none => .error (st.done .fault)
    | some file =>
      match host.NewForConfig file with
      | .error err =>
        .error (st.done (.error (errors.Wrap err "kubeauth: failed to create API client")))
      | .ok apiClientset => .ok apiClientset

/-- Source: the defaults of the cluster and of the namespace (add_user.go:141-156).
Returns the effective `h.Cluster` and `h.Namespace`. -/
def Handler.defaults (h : Handler) (configFile : Option File) (st : RunState) :
    Except RunResult (String × String) :=
  let cluster : Except RunResult String :=
    if h.Cluster = "" then
      match configFile with
      | none => .error (st.done .fault)
      | some file =>
        match file.GetCurrentCluster with
        | .error err => .error (st.done (.error (errors.Wrap err "kubeauth")))
        | .ok name => .ok name
    else .ok h.Cluster
  match cluster with
  | .error r => .error r
  | .ok cluster =>
    if h.Namespace = "" then
      match configFile with
      | none => .error (st.done .fault)
      | some file =>
        match file.GetCurrentContext with
        | .error err => .error (st.done (.error (errors.Wrap err "kubeauth")))
        | .ok (_, curContext) => .ok (cluster, curContext.Namespace)
    else .ok (cluster, h.Namespace)

/-- Source: the loops that parse the selectors (add_user.go:159-167 and 189-197).  Returns
the bindings, which are pointers, and the messages of the selectors that did not parse. -/
def parseSelectors (selectors : List String) : List (Option BindingSelector) × List String :=
  selectors.foldl (fun (acc : List (Option BindingSelector) × List String) r =>
    match NewBindingSelector r with
    | (_, some err) => (acc.1, acc.2 ++ [err])
    | (binding, none) => (acc.1 ++ [binding], acc.2)) ([], [])

/-- Source: the loop over the role bindings that looks the roles up (add_user.go:173-182),
entered with the names found missing so far. -/
def rolesLookup (apiClientset : ApiClientset) (ns : String) :
    List (Option BindingSelector) → List String → RunState →
      Except RunResult (List String × RunState)
  | [], invalid, st => .ok (invalid, st)
  | none :: _, _, st => .error (st.done .fault)
  | some b :: rest, invalid, st =>
    let (exists_, err) := apiClientset.RolesGet st.calls ns b.RoleName
    let st := st.call (.RolesGet ns b.RoleName)
    match err with
    | some e => .error (st.done (.error (errors.Wrap e "kubeauth")))
    | none =>
      rolesLookup apiClientset ns rest
        (if exists_ then invalid else invalid ++ [b.RoleName]) st

/-- Source: the validation of `--role` (add_user.go:158-186). -/
def Handler.checkRoles (h : Handler) (host : Host) (apiClientset : ApiClientset)
    (ns : String) (st : RunState) : Except RunResult (List (Option BindingSelector) × RunState) :=
  if h.Roles.length > 0 then
    let (roleBindings, invalid) := parseSelectors h.Roles
    if invalid.length > 0 then
      .error (st.done (.error
        ("kubeauth: invalid --role selectors: " ++ fmt.quoted host.IsPrint invalid)))
    else
      match rolesLookup apiClientset ns roleBindings [] st with
      | .error r => .error r
      | .ok (invalid, st) =>
        if invalid.length > 0 then
          .error (st.done (.error
            ("kubeauth: role(s) not found: " ++ fmt.quoted host.IsPrint invalid)))
        else .ok (roleBindings, st)
  else .ok ([], st)

/-- Source: the loop over the cluster role bindings that looks the cluster roles up
(add_user.go:203-212), entered with the names found missing so far. -/
def clusterRolesLookup (apiClientset : ApiClientset) :
    List (Option BindingSelector) → List String → RunState →
      Except RunResult (List String × RunState)
  | [], invalid, st => .ok (invalid, st)
  | none :: _, _, st => .error (st.done .fault)
  | some b :: rest, invalid, st =>
    let (exists_, err) := apiClientset.ClusterRolesGet st.calls b.RoleName
    let st := st.call (.ClusterRolesGet b.RoleName)
    match err with
    | some e => .error (st.done (.error (errors.Wrap e "kubeauth")))
    | none =>
      clusterRolesLookup apiClientset rest
        (if exists_ then invalid else invalid ++ [b.RoleName]) st

/-- Source: the validation of `--cluster-role` (add_user.go:188-216). -/
def Handler.checkClusterRoles (h : Handler) (host : Host) (apiClientset : ApiClientset)
    (st : RunState) : Except RunResult (List (Option BindingSelector) × RunState) :=
  if h.ClusterRoles.length > 0 then
    let (clusterRoleBindings, invalid) := parseSelectors h.ClusterRoles
    if invalid.length > 0 then
      .error (st.done (.error
        ("kubeauth: invalid --cluster-role selectors: " ++ fmt.quoted host.IsPrint invalid)))
    else
      match clusterRolesLookup apiClientset clusterRoleBindings [] st with
      | .error r => .error r
      | .ok (invalid, st) =>
        if invalid.length > 0 then
          .error (st.done (.error
            ("kubeauth: cluster role(s) not found: " ++ fmt.quoted host.IsPrint invalid)))
        else .ok (clusterRoleBindings, st)
  else .ok ([], st)

/-- Source: the service account is got, and created if it does not exist
(add_user.go:220-235).  Returns the pointer `saObj`. -/
def Handler.ensureAccount (h : Handler) (apiClientset : ApiClientset) (ns : String)
    (st : RunState) : Except RunResult (Option core.ServiceAccount × RunState) :=
  let (saObj, exists_, err) := apiClientset.ServiceAccountsGet st.calls ns h.ServiceAccountName
  let st := st.call (.ServiceAccountsGet ns h.ServiceAccountName)
  match err with
  | some e => .error (st.done (.error (errors.Wrap e "kubeauth")))
  | none =>
    if exists_ then
      .ok (saObj, st.verbose h.Verbosity "service account already exists")
    else
      let (saObj, err) := apiClientset.ServiceAccountsCreateBasic st.calls ns h.ServiceAccountName
      let st := st.call (.ServiceAccountsCreateBasic ns h.ServiceAccountName)
      match err with
      | some e => .error (st.done (.error (errors.Wrap e "kubeauth")))
      | none => .ok (saObj, st)

/-- Source: the closure `saTokenAvail` (add_user.go:250-257); `none` when `saObj` is nil. -/
def saTokenAvail (serviceAccountName : String) (saObj : Option core.ServiceAccount) :
    Option Bool :=
  match saObj with
  | none => none
  | some sa =>
    some (sa.Secrets.any (fun s => strings.HasPrefix s.Name (serviceAccountName ++ "-token-")))

/-- Source: the closure `backoffCond` (add_user.go:269-275), on the variable `saObj` and the
state of the run.  The `exists` result of `Get` is dropped, as in the source. -/
def Handler.backoffCond (h : Handler) (apiClientset : ApiClientset) (ns : String)
    (s : Option core.ServiceAccount × RunState) :
    Option (Bool × Option Error) × (Option core.ServiceAccount × RunState) :=
  let (saObj, _, err) := apiClientset.ServiceAccountsGet s.2.calls ns h.ServiceAccountName
  let st := s.2.call (.ServiceAccountsGet ns h.ServiceAccountName)
  match err with
  | some e => (some (false, some (errors.WithStack e)), (saObj, st))
  | none =>
    match saTokenAvail h.ServiceAccountName saObj with
    | none => (none, (saObj, st))
    | some avail => (some (avail, none), (saObj, st))

/-- Source: the wait for the token of the service account (add_user.go:259-281), with
`Steps: 5`. -/
def Handler.waitToken (h : Handler) (apiClientset : ApiClientset) (ns : String)
    (saObj : Option core.ServiceAccount) (st : RunState) :
    Except RunResult (Option core.ServiceAccount × RunState) :=
  match saTokenAvail h.ServiceAccountName saObj with
  | none => .error (st.done .fault)
  | some true => .ok (saObj, st)
  | some false =>
    match wait.ExponentialBackoff (h.backoffCond apiClientset ns) 5 (saObj, st) with
    | (.fault, s) => .error (s.2.done .fault)
    | (.error err, s) =>
      .error (s.2.done (.error
        (errors.Wrap err "kubeauth: secret with service account\x27s token not found")))
    | (.ok _, s) => .ok s

/-- Source: the loop that binds the service account to the roles (add_user.go:285-297). -/
def Handler.bindRoles (h : Handler) (apiClientset : ApiClientset) (ns : String) :
    List (Option BindingSelector) → RunState → Except RunResult RunState
  | [], st => .ok st
  | none :: _, st => .error (st.done .fault)
  | some b :: rest, st =>
    let subject : Subject := { Kind := KindServiceAccount, Name := h.ServiceAccountName }
    let err := apiClientset.RoleBindingsCreate st.calls ns b.BindingName b.RoleName subject
    let st := st.call (.RoleBindingsCreate ns b.BindingName b.RoleName subject)
    match err with
    | some e =>
      if e.IsAlreadyExists then
        h.bindRoles apiClientset ns rest
          (st.verbose h.Verbosity "role binding(s) already exist")
      else .error (st.done (.error (errors.Wrap e.Message "kubeauth")))
    | none => h.bindRoles apiClientset ns rest st

/-- Source: the loop that binds the service account to the cluster roles
(add_user.go:299-311). -/
def Handler.bindClusterRoles (h : Handler) (apiClientset : ApiClientset) (ns : String) :
    List (Option BindingSelector) → RunState → Except RunResult RunState
  | [], st => .ok st
  | none :: _, st => .error (st.done .fault)
  | some b :: rest, st =>
    let subject : Subject :=
      { Namespace := ns, Kind := KindServiceAccount, Name := h.ServiceAccountName }
    let err := apiClientset.ClusterRoleBindingsCreate st.calls b.BindingName b.RoleName subject
    let st := st.call (.ClusterRoleBindingsCreate b.BindingName b.RoleName subject)
    match err with
    | some e =>
      if e.IsAlreadyExists then
        h.bindClusterRoles apiClientset ns rest
          (st.verbose h.Verbosity "cluster role binding(s) already exist")
      else .error (st.done (.error (errors.Wrap e.Message "kubeauth")))
    | none => h.bindClusterRoles apiClientset ns rest st

/-- Source: the secret of the service account is read (add_user.go:315-332).  Returns
`caCrt` and `token`. -/
def Handler.fetchSecret (apiClientset : ApiClientset) (ns : String)
    (saObj : Option core.ServiceAccount) (st : RunState) :
    Except RunResult (Bytes × Bytes × RunState) :=
  match saObj with
  | none => .error (st.done .fault)
  | some sa =>
    match sa.Secrets with
    | [] => .error (st.done .fault)
    | first :: _ =>
      let (secretObj, exists_, err) := apiClientset.SecretsGet st.calls ns first.Name
      let st := st.call (.SecretsGet ns first.Name)
      match err with
      | some e =>
        .error (st.done (.error (errors.Wrap e
          ("kubeauth: failed to query for service account\x27s secret [" ++ first.Name ++ "]"))))
      | none =>
        if exists_ = false then
          .error (st.done (.error
            ("kubeauth: service account\x27s secret [" ++ first.Name ++ "] not found")))
        else
          match secretObj with
          | none => .error (st.done .fault)
          | some secret =>
            match secret.Data.lookup "ca.crt" with
            | none =>
              .error (st.done (.error ("kubeauth: service account\x27s secret [" ++ first.Name
                ++ "] does not contain \x27ca.crt\x27 data")))
            | some caCrt =>
              match secret.Data.lookup "token" with
              | none =>
                .error (st.done (.error ("kubeauth: service account\x27s secret ["
                  ++ first.Name ++ "] does not contain \x27token\x27 data")))
              | some token => .ok (caCrt, token, st)

/-- Source: the temporary file is written and the user and the context are stored
(add_user.go:342-363), from the first statement after the `defer` on. -/
def Handler.store (h : Handler) (host : Host) (configClient : ConfigClient) (ctx : Context)
    (configFile : Option File) (cluster ns : String) (caCrtFilename : String)
    (caCrt token : Bytes) (st : RunState) : Outcome Unit × RunState :=
  let err := host.FileWrite st.calls caCrtFilename caCrt
  let st := st.call (.FileWrite caCrtFilename caCrt)
  match err with
  | some e => (.error (errors.Wrap e "kubeauth: failed to write temporary ca.crt file"), st)
  | none =>
    let err := host.FileSync st.calls caCrtFilename
    let st := st.call (.FileSync caCrtFilename)
    match err with
    | some e => (.error (errors.Wrap e "kubeauth: failed to sync temporary ca.crt file"), st)
    | none =>
      let err := host.FileClose st.calls caCrtFilename
      let st := st.call (.FileClose caCrtFilename)
      match err with
      | some e => (.error (errors.Wrap e "kubeauth: failed to close temporary ca.crt file"), st)
      | none =>
        let err := configClient.UpsertUserToken st.calls ctx configFile h.Username token
        let st := st.call (.UpsertUserToken h.Username token)
        match err with
        | some e => (.error (errors.Wrap e "kubeauth: failed to set user token"), st)
        | none =>
          let _err := configClient.UpsertContext st.calls ctx configFile h.Username cluster ns
            h.Username
          let st := st.call (.UpsertContext h.Username cluster ns h.Username)
          (.ok (), st)

/-- Source: the temporary file is created and, whatever follows, removed when `run`
returns (add_user.go:334-363). -/
def Handler.persist (h : Handler) (host : Host) (configClient : ConfigClient) (ctx : Context)
    (configFile : Option File) (cluster ns : String) (caCrt token : Bytes) (st : RunState) :
    RunResult :=
  let res := host.TempFile st.calls "" "kubeauth.*.ca.crt"
  let st := st.call (.TempFile "" "kubeauth.*.ca.crt")
  match res with
  | .error e =>
    st.done (.error (errors.Wrap e "kubeuath: failed to create temporary ca.crt file"))
  | .ok caCrtFilename =>
    let (out, st) :=
      h.store host configClient ctx configFile cluster ns caCrtFilename caCrt token st
    (st.call (.RemoveSafer caCrtFilename)).done out

/-- Source: the clients are created, the configuration file is parsed and the defaults are
taken (add_user.go:112-156).  Returns the configuration client, the parsed file, the cluster
clients, and the effective cluster and namespace. -/
def Handler.setup (h : Handler) (host : Host) :
    Except RunResult (ConfigClient × Option File × ApiClientset × String × String × RunState) :=
  let configClient := h.KubectlConfigClient.getD host.NewDefaultClient
  let st : RunState := {}
  let (configFile, err) := configClient.Parse st.calls h.ConfigFile
  let st := st.call (.ConfigParse h.ConfigFile)
  match err with
  | some e => .error (st.done (.error (errors.Wrap e "kubeauth")))
  | none =>
    match h.apiClientset host configFile st with
    | .error r => .error r
    | .ok apiClientset =>
      match h.defaults configFile st with
      | .error r => .error r
      | .ok (cluster, ns) => .ok (configClient, configFile, apiClientset, cluster, ns, st)

/-- Source: `Handler.run` (add_user.go:100-364). -/
def Handler.run (h : Handler) (host : Host) (ctx : Context) : RunResult :=
  match h.setup host with
  | .error r => r
  | .ok (configClient, configFile, apiClientset, cluster, ns, st) =>
    match h.checkRoles host apiClientset ns st with
    | .error r => r
    | .ok (roleBindings, st) =>
    match h.checkClusterRoles host apiClientset st with
    | .error r => r
    | .ok (clusterRoleBindings, st) =>
    match h.ensureAccount apiClientset ns st with
    | .error r => r
    | .ok (saObj, st) =>
    match h.waitToken apiClientset ns saObj st with
    | .error r => r
    | .ok (saObj, st) =>
    match h.bindRoles apiClientset ns roleBindings st with
    | .error r => r
    | .ok st =>
    match h.bindClusterRoles apiClientset ns clusterRoleBindings st with
    | .error r => r
    | .ok st =>
    match Handler.fetchSecret apiClientset ns saObj st with
    | .error r => r
    | .ok (caCrt, token, st) =>
      h.persist host configClient ctx configFile cluster ns caCrt token st

/-! ## `identity.go`: an identity as text -/

/-- Source: `IdentitySource.String` (identity.go:20-34). -/
def IdentitySource.asString (i : IdentitySource) : String :=
  let kind := if i.Kind = "" then "<empty Kind>" else i.Kind
  let s := kind ++ " " ++ i.Name
  if i.Namespace ≠ "" then s ++ " of namespace " ++ i.Namespace else s

/-- Source: `Identity.String` (identity.go:49-67). -/
def Identity.asString (i : Identity) : String :=
  let kind := if i.Kind = "" then "<empty Kind>" else i.Kind
  let s := kind ++ " " ++ i.Name
  let s := if i.Namespace ≠ "" then s ++ " of namespace " ++ i.Namespace else s
  let s :=
    match i.Source with
    | some source => s ++ " (from " ++ source.asString ++ ")"
    | none => s
  s ++ " via [" ++ i.Querier ++ "] querier"

/-! ## Go library functions used by `ctl.go` -/

/-- Go's `strconv.Itoa`: the decimal text of an `int`. -/
def strconv.Itoa (i : Int) : String := toString i

/-- Go's `strings.Join(elems, sep)`. -/
def strings.Join (elems : List String) (sep : String) : String := sep.intercalate elems

/-- What `fmt` prints for a `[]string` under the verb `%v`. -/
def fmt.slice (a : List String) : String := "[" ++ strings.Join a " " ++ "]"

/-- The result of `errors.Wrap(err, msg)` of `github.com/pkg/errors` for an `err` that may
be nil: for a nil `err`, `Wrap` returns nil. -/
def errors.WrapNilable (err : Option Error) (msg : String) : Option Error :=
  match err with
  | none => none
  | some e => some (errors.Wrap e msg)

/-! ## Go slices of strings -/

/-- A Go `[]string` value: the backing array it points into (the arrays are numbered), the
index in that array of its first element, its length and its capacity. -/
structure Slice where
  array : Nat
  offset : Nat
  len : Nat
  cap : Nat
deriving DecidableEq, Repr

/-- The backing arrays of the process: `cell a i` is the element `i` of the array `a`, and
the arrays numbered from `next` on are not allocated yet.  `spare` is the choice of the Go
runtime of how much capacity beyond the needed length an `append` that reallocates gives the
new array, for the old capacity and the needed length. -/
structure Memory where
  cell : Nat → Nat → String
  next : Nat
  spare : Nat → Nat → Nat

/-- The elements of the slice `s`. -/
def Memory.read (m : Memory) (s : Slice) : List String :=
  (List.range s.len).map (fun i => m.cell s.array (s.offset + i))

/-- Go's `append(s, xs...)`: when the capacity of `s` suffices, the elements are written
into the backing array of `s` behind its last element, whatever else points there, and the
result is `s` with the new length; otherwise the elements of `s` and `xs` are copied into a
new array.  Returns the memory after the call and the resulting slice. -/
def Memory.append (m : Memory) (s : Slice) (xs : List String) : Memory × Slice :=
  if s.len + xs.length ≤ s.cap then
    (Memory.mk (fun a i =>
        if a = s.array ∧ s.offset + s.len ≤ i ∧ i < s.offset + s.len + xs.length then
          xs.getD (i - (s.offset + s.len)) ""
        else m.cell a i) m.next m.spare,
      Slice.mk s.array s.offset (s.len + xs.length) s.cap)
  else
    (Memory.mk (fun a i => if a = m.next then (m.read s ++ xs).getD i "" else m.cell a i)
        (m.next + 1) m.spare,
      Slice.mk m.next 0 (s.len + xs.length)
        (s.len + xs.length + m.spare s.cap (s.len + xs.length)))

/-! ## `ctl.go`: what `run` works with -/

/-- Source: `handler.Input`, the two fields that `run` reads.  They are slices, which may
share a backing array: `heap` is the memory they point into when `run` is called. -/
structure ctl.Input where
  heap : Memory
  ArgsBeforeDash : Slice
  ArgsAfterDash : Slice

/-- One call that `run` makes to the configuration client, to the namespace client, to the
identity registry or to the executor, with its arguments. -/
inductive ctl.Call where
  | ConfigParse (filename : String)
  | NamespacesGet (name : String)
  | Query (options : List QueryOption)
  | Standard (name : String) (args : List String)
deriving DecidableEq, Repr

/-- Source: the `Executor` interface of `internal/cage/os/exec` as `run` uses it.
`Command(name, args...)` only builds the command value.  `Standard` gets the calls that
`run` has made so far, the state of the context when it is called, the name and the
arguments of the one command; it returns the exit code that `run` reads from its result as
`res.Cmd[kubectlCmd].Code`, and the error.  What the command writes to the streams handed
to `Standard` is not recorded. -/
structure ctl.Executor where
  Standard : List ctl.Call → Context → String → List String → Int × Option Error

/-- What `run` takes from the process it runs in: the default clients and the default
executor that it creates when the handler holds none (`NewDefaultClient`,
`kubernetes.NewForConfig` with `NewClientset`, `cage_exec.CommonExecutor{}`). -/
structure ctl.Host where
  NewDefaultClient : ConfigClient
  NewForConfig : File → Except Error Clientset
  CommonExecutor : ctl.Executor

/-- Source: `Handler` (ctl.go:32-54). -/
structure ctl.Handler where
  KubectlConfigClient : Option ConfigClient := none
  KubeApiClientset : Option Clientset := none
  IdentityRegistry : Option Registry := none
  Executor : Option ctl.Executor := none
  AllNamespaces : Bool := false
  As : String := ""
  AsGroup : List String := []
  Cluster : String := ""
  ConfigFile : String := ""
  Context : String := ""
  Namespace : String := ""
  Verbosity : Int := 0
  usage : String := ""

/-- The calls made by `run` so far and the lines it has written to the standard error. -/
structure ctl.State where
  calls : List ctl.Call := []
  stderr : List String := []
deriving DecidableEq, Repr

/-- How `run` ended: it returned an error, which is nil for `none`; the process exited
through `os.Exit`; or a nil pointer was dereferenced. -/
inductive ctl.Ending where
  | returned (err : Option Error)
  | exited (code : Int)
  | fault
deriving DecidableEq, Repr

/-- How `run` ended, with the calls it made and the lines it wrote, in order. -/
structure ctl.Result where
  ending : ctl.Ending
  calls : List ctl.Call
  stderr : List String
deriving DecidableEq, Repr

/-- The state after one more call. -/
def ctl.State.call (st : ctl.State) (c : ctl.Call) : ctl.State :=
  ctl.State.mk (st.calls ++ [c]) st.stderr

/-- Source: the closure `verbose` (ctl.go:110-114). -/
def ctl.State.verbose (st : ctl.State) (verbosity : Int) (msg : String) : ctl.State :=
  if verbosity > 0 then ctl.State.mk st.calls (st.stderr ++ ["kubeauth: " ++ msg]) else st

/-- The run ends with `ending`. -/
def ctl.State.done (st : ctl.State) (ending : ctl.Ending) : ctl.Result :=
  ⟨ending, st.calls, st.stderr⟩

/-- What the validation in `run` hands to the passthrough: the executor, the parsed file,
the name and the object of the current context, the name of the effective context,
`h.Namespace` as the validation left it, and the state of the run. -/
structure ctl.Validated where
  executor : ctl.Executor
  configFile : File
  currentContextName : String
  currentContext : ConfigContext
  effectiveContextName : String
  Namespace : String
  st : ctl.State

/-! ## `ctl.go`: `Handler.run` -/

/-- Source: the creation of the API clients (ctl.go:132-140). -/
def ctl.Handler.apiClientset (h : ctl.Handler) (host : ctl.Host) (configFile : Option File)
    (st : ctl.State) : Except ctl.Result Clientset :=
  match h.KubeApiClientset with
  | some apiClientset => .ok apiClientset
  | none =>
    match configFile with
    | none => .error (st.done .fault)
    | some file =>
      match host.NewForConfig file with
      | .error err =>
        .error (st.done (.returned
          (some (errors.Wrap err "kubeauth: failed to create API client"))))
      | .ok apiClientset => .ok apiClientset

/-- Source: the executor and the clients are created and the configuration file is parsed
(ctl.go:116-147).  Returns the executor, the pointer to the parsed file, the cluster clients
and the registry. -/
def ctl.Handler.clients (h : ctl.Handler) (host : ctl.Host) :
    Except ctl.Result (ctl.Executor × Option File × Clientset × Registry × ctl.State) :=
  let executor := h.Executor.getD host.CommonExecutor
  let configClient := h.KubectlConfigClient.getD host.NewDefaultClient
  let st : ctl.State := {}
  let (configFile, err) := configClient.Parse [] h.ConfigFile
  let st := st.call (.ConfigParse h.ConfigFile)
  match err with
  | some e => .error (st.done (.returned (some (errors.Wrap e "kubeauth"))))
  | none =>
    match h.apiClientset host configFile st with
    | .error r => .error r
    | .ok apiClientset =>
      let regClient := h.IdentityRegistry.getD (NewRegistry apiClientset)
      .ok (executor, configFile, apiClientset, regClient, st)

/-- Source: the effective namespace is chosen and looked up (ctl.go:193-217).  Returns
`h.Namespace` as the block leaves it. -/
def ctl.Handler.checkNamespace (h : ctl.Handler) (apiClientset : Clientset)
    (effectiveContext : ConfigContext) (effectiveContextName : String) (st : ctl.State) :
    Except ctl.Result (String × ctl.State) :=
  if h.AllNamespaces = false then
    let ns := if h.Namespace = "" then effectiveContext.Namespace else h.Namespace
    let st :=
      if h.Namespace = "" then
        st.verbose h.Verbosity ("defaulting to namespace [" ++ ns ++ "] from context ["
          ++ effectiveContextName ++ "]")
      else st.verbose h.Verbosity ("using --namespace [" ++ ns ++ "]")
    if ns ≠ "" then
      let (exists_, err) := apiClientset.NamespacesGet ns
      let st := st.call (.NamespacesGet ns)
      match err with
      | some e =>
        .error (st.done (.returned
          (some (errors.Wrap e "kubeauth: failed to validate namespace"))))
      | none =>
        if exists_ = false then
          .error (st.done (.returned
            (some ("kubeauth: selected --namespace [" ++ ns ++ "] not found"))))
        else .ok (ns, st)
    else .ok (ns, st)
  else .ok (h.Namespace, st)

/-- Source: the validation of `--as` (ctl.go:227-248).  `ctx` gives the state of the
caller's context, and `sched` the interleaving of the goroutines of `Query`, after the
calls made so far. -/
def ctl.Handler.checkAs (h : ctl.Handler) (regClient : Registry)
    (ctx : List ctl.Call → Kubeauth.Context) (sched : List ctl.Call → List Nat) (configFile : File)
    (ns : String) (st : ctl.State) : Except ctl.Result ctl.State :=
  if h.As ≠ "" then
    let st := st.verbose h.Verbosity ("validating --as [" ++ h.As ++ "]")
    let options := [QueryOption.QueryKind KindUser, QueryOption.QueryNamespace ns,
      QueryOption.QueryName h.As,
      QueryOption.QueryClientCmdConfig (some configFile.ClientCmdConfig)]
    let res := regClient.Query (sched st.calls) (ctx st.calls) options
    let st := st.call (.Query options)
    match res with
    | .fault => .error (st.done .fault)
    | .error e =>
      .error (st.done (.returned (some (errors.Wrap e "kubeauth: query did not complete"))))
    | .ok list =>
      if list.Items.length = 0 then
        .error (st.done (.returned
          (some ("kubeauth: --as identity [" ++ h.As ++ "] not found"))))
      else
        .ok (list.Items.foldl (fun st item =>
          st.verbose h.Verbosity ("--as identity found in [" ++ item.asString ++ "]")) st)
  else .ok st

/-- Source: the loop over the groups of `--as-group` (ctl.go:253-271). -/
def ctl.Handler.checkGroups (h : ctl.Handler) (regClient : Registry)
    (ctx : List ctl.Call → Kubeauth.Context) (sched : List ctl.Call → List Nat) (ns : String) :
    List String → ctl.State → Except ctl.Result ctl.State
  | [], st => .ok st
  | group :: rest, st =>
    let options := [QueryOption.QueryKind KindGroup, QueryOption.QueryNamespace ns,
      QueryOption.QueryName group]
    let res := regClient.Query (sched st.calls) (ctx st.calls) options
    let st := st.call (.Query options)
    match res with
    | .fault => .error (st.done .fault)
    | .error e =>
      .error (st.done (.returned (some (errors.Wrap e "kubeauth: query did not complete"))))
    | .ok list =>
      if list.Items.length = 0 then
        .error (st.done (.returned
          (some ("kubeauth: --as-group identity [" ++ group ++ "] not found"))))
      else
        ctl.Handler.checkGroups h regClient ctx sched ns rest
          (list.Items.foldl (fun st item =>
            st.verbose h.Verbosity ("--as-group [" ++ group ++ "] identity found in ["
              ++ item.asString ++ "]")) st)

/-- Source: the validation of `--as-group` (ctl.go:250-272). -/
def ctl.Handler.checkAsGroup (h : ctl.Handler) (regClient : Registry)
    (ctx : List ctl.Call → Kubeauth.Context) (sched : List ctl.Call → List Nat) (ns : String)
    (st : ctl.State) : Except ctl.Result ctl.State :=
  if h.AsGroup.length > 0 then
    h.checkGroups regClient ctx sched ns h.AsGroup
      (st.verbose h.Verbosity ("validating --as-group " ++ fmt.slice h.AsGroup))
  else .ok st

/-- Source: `run` up to the passthrough (ctl.go:116-272): the clients are created and the
inputs and the impersonation target are validated. -/
def ctl.Handler.validate (h : ctl.Handler) (host : ctl.Host) (ctx : List ctl.Call → Kubeauth.Context)
    (sched : List ctl.Call → List Nat) : Except ctl.Result ctl.Validated :=
  match h.clients host with
  | .error r => .error r
  | .ok (executor, configFile, apiClientset, regClient, st) =>
    if h.As = "" ∧ h.AsGroup.length = 0 then
      .error (st.done (.returned
        (some ("kubeauth: " ++ h.usage ++ "\nmissing --as or --as-group selection"))))
    else if h.Namespace ≠ "" ∧ h.AllNamespaces = true then
      .error (st.done (.returned (some ("kubeauth: " ++ h.usage
        ++ "\n--namespace and --all-namespaces cannot be combined"))))
    else
      match configFile with
      | none => .error (st.done .fault)
      | some file =>
        match file.GetCurrentContext with
        | .error err => .error (st.done (.returned (some (errors.Wrap err "kubeauth"))))
        | .ok (currentContextName, currentContext) =>
          let effectiveContextName :=
            if h.Context = "" then currentContextName else h.Context
          let st :=
            if h.Context = "" then
              st.verbose h.Verbosity ("defaulting to current-context ["
                ++ effectiveContextName ++ "] from file [" ++ file.Name ++ "]")
            else
              st.verbose h.Verbosity ("using --context [" ++ effectiveContextName
                ++ "] from file [" ++ file.Name ++ "]")
          match file.ClientCmdConfig.Contexts.lookup effectiveContextName with
          | none =>
            .error (st.done (.returned (some ("kubeauth: context [" ++ effectiveContextName
              ++ "] not found in config [" ++ file.Name ++ "]"))))
          | some effectiveContext =>
            if h.Cluster ≠ "" ∧ h.Cluster ≠ effectiveContext.Cluster then
              .error (st.done (.returned (some ("kubeauth: selected --cluster [" ++ h.Cluster
                ++ "] differs from effective context\x27s cluster ["
                ++ effectiveContext.Cluster ++ "]"))))
            else
              match h.checkNamespace apiClientset effectiveContext effectiveContextName st with
              | .error r => .error r
              | .ok (ns, st) =>
              match h.checkAs regClient ctx sched file ns st with
              | .error r => .error r
              | .ok st =>
              match h.checkAsGroup regClient ctx sched ns st with
              | .error r => .error r
              | .ok st =>
                .ok ⟨executor, file, currentContextName, currentContext,
                  effectiveContextName, ns, st⟩

/-- Source: the arguments of `kubectl` up to `--v` (ctl.go:276-299); `ns` is `h.Namespace`
as the validation left it.  `kubectlArgs` is the variable of the source together with the
memory it points into: it starts as the caller's slice `input.ArgsBeforeDash`, and every
`append` works on it as Go does, in place while the capacity suffices.  Returns the memory
and the slice after the last of these appends. -/
def ctl.Handler.flagArgs (h : ctl.Handler) (input : ctl.Input) (configFile : File)
    (currentContextName : String) (currentContext : ConfigContext)
    (effectiveContextName ns : String) : Memory × Slice :=
  let useCurrentContext : Bool := effectiveContextName == currentContextName
  let kubectlArgs := (input.heap, input.ArgsBeforeDash)
  let kubectlArgs := kubectlArgs.1.append kubectlArgs.2 ["--kubeconfig", configFile.Name]
  let kubectlArgs :=
    if h.As ≠ "" then kubectlArgs.1.append kubectlArgs.2 ["--as", h.As] else kubectlArgs
  let kubectlArgs :=
    if h.AsGroup.length > 0 then
      h.AsGroup.foldl (fun kubectlArgs group =>
        kubectlArgs.1.append kubectlArgs.2 ["--as-group", group]) kubectlArgs
    else kubectlArgs
  let kubectlArgs :=
    if useCurrentContext = false then
      kubectlArgs.1.append kubectlArgs.2 ["--context", effectiveContextName]
    else kubectlArgs
  let kubectlArgs :=
    if h.Cluster ≠ "" ∧ (useCurrentContext = false ∨ h.Cluster ≠ currentContext.Cluster) then
      kubectlArgs.1.append kubectlArgs.2 ["--cluster", h.Cluster]
    else kubectlArgs
  let kubectlArgs :=
    if h.AllNamespaces = true then kubectlArgs.1.append kubectlArgs.2 ["--all-namespaces"]
    else if ns ≠ "" ∧ ns ≠ currentContext.Namespace then
      kubectlArgs.1.append kubectlArgs.2 ["--namespace", ns]
    else kubectlArgs
  kubectlArgs.1.append kubectlArgs.2 ["--v", strconv.Itoa h.Verbosity]

/-- Source: the arguments of `kubectl` (ctl.go:276-302): to the arguments up to `--v` the
elements that the slice `input.ArgsAfterDash` holds at that moment are appended, and the
elements of the resulting slice are handed to `Executor.Command`. -/
def ctl.Handler.kubectlArgs (h : ctl.Handler) (input : ctl.Input) (configFile : File)
    (currentContextName : String) (currentContext : ConfigContext)
    (effectiveContextName ns : String) : List String :=
  let kubectlArgs := h.flagArgs input configFile currentContextName currentContext
    effectiveContextName ns
  let kubectlArgs :=
    kubectlArgs.1.append kubectlArgs.2 (kubectlArgs.1.read input.ArgsAfterDash)
  kubectlArgs.1.read kubectlArgs.2

/-- Source: the passthrough to `kubectl` (ctl.go:276-316). -/
def ctl.Handler.passthrough (h : ctl.Handler) (input : ctl.Input)
    (ctx : List ctl.Call → Kubeauth.Context) (v : ctl.Validated) : ctl.Result :=
  let kubectlArgs := h.kubectlArgs input v.configFile v.currentContextName v.currentContext
    v.effectiveContextName v.Namespace
  let st := v.st.verbose h.Verbosity ("running: kubectl " ++ strings.Join kubectlArgs " ")
  let (code, err) := v.executor.Standard st.calls (ctx st.calls) "kubectl" kubectlArgs
  let st := st.call (.Standard "kubectl" kubectlArgs)
  if err ≠ none then
    st.done (.exited code)
  else
    let ctxErr := (ctx st.calls).Err
    if ctxErr ≠ none then
      st.done (.returned (errors.WrapNilable err "kubeauth: command cancelled"))
    else
      st.done (.returned none)

/-- Source: `Handler.run` (ctl.go:108-317).  `ctx past` is the state of the caller's context
once the calls `past` have been made, so the context may be cancelled while `run` is under
way; `sched past` is the interleaving of the goroutines of the `Query` that follows the
calls `past`. -/
def ctl.Handler.run (h : ctl.Handler) (host : ctl.Host) (input : ctl.Input)
    (ctx : List ctl.Call → Kubeauth.Context) (sched : List ctl.Call → List Nat) : ctl.Result :=
  match h.validate host ctx sched with
  | .error r => r
  | .ok v => h.passthrough input ctx v

/-! ## Notions used to state the invariants of the resolution engine

Throughout, `ctx` is the state of the context that `Registry.Query` was called with. -/

/-- What the goroutine in state `t` has still to append to the full list, provided its `Do`
(if not yet called) is called with the context `ctx`. -/
def Task.rem (clientset : Clientset) (query : Query) (ctx : Context) : Task → List Identity
  | .ready querier =>
    match (querier.Do ctx clientset query).out with
    | .ok list => list.Items.map (stamp querier.Label)
    | _ => []
  | .appending querierType items => items.map (stamp querierType)
  | .finished => []

/-- A goroutine that has not called `Do` yet and whose `Do` returns a list under `ctx`;
goroutines past their `Do` qualify. -/
def Task.okUnder (clientset : Clientset) (query : Query) (ctx : Context) : Task → Prop
  | .ready querier => ∃ list, (querier.Do ctx clientset query).out = .ok list
  | _ => True

/-- A goroutine that has not called `Do` yet and whose `Do` returns an error under `ctx`. -/
def Task.failsUnder (clientset : Clientset) (query : Query) (ctx : Context) : Task → Prop
  | .ready querier => ∃ e, (querier.Do ctx clientset query).out = .error e
  | _ => False

/-- No goroutine has failed or faulted so far. -/
def Shared.clean (ctx : Context) (sh : Shared) : Prop :=
  sh.gCtx = ctx ∧ sh.err = none ∧ sh.faulted = false

/-- Two lists of identities that share no querier label. -/
def disjointLabels (a b : List Identity) : Prop :=
  ∀ u ∈ a, ∀ w ∈ b, u.Querier ≠ w.Querier

/-- The full list so far followed by everything the goroutines have still to append. -/
def total (clientset : Clientset) (query : Query) (ctx : Context) (st : Shared × List Task) :
    List Identity :=
  st.1.fullList.Items ++ (st.2.map (Task.rem clientset query ctx)).flatten

/-- The shared state of an execution in which no goroutine faulted: while no error is
recorded the group's context is the caller's, afterwards it is the caller's or cancelled,
and a recorded error is the wrapped error of a querier of `ks` whose `Do` fails under the
caller's context. -/
def Shared.sound (clientset : Clientset) (query : Query) (ctx : Context) (ks : List Querier)
    (sh : Shared) : Prop :=
  sh.faulted = false
    ∧ (sh.err = none → sh.gCtx = ctx)
    ∧ (sh.gCtx = ctx ∨ sh.gCtx = Context.canceled)
    ∧ ∀ m, sh.err = some m → ∃ k ∈ ks, ∃ e,
        (k.Do ctx clientset query).out = .error e
          ∧ m = errors.Wrap e ("identity querier [" ++ k.Label ++ "] did not finish")

/-- A querier whose `Do` does not fault, neither under the caller's context nor under a
cancelled one. -/
def Querier.returns (clientset : Clientset) (query : Query) (ctx : Context) (k : Querier) :
    Prop :=
  (k.Do ctx clientset query).out ≠ .fault
    ∧ (k.Do Context.canceled clientset query).out ≠ .fault

/-- A state from which no list can be returned any more: a goroutine has faulted, or an
error is recorded, or the context is still the caller's and some goroutine that has not
called `Do` yet will get an error from it. -/
def blocked (clientset : Clientset) (query : Query) (ctx : Context)
    (st : Shared × List Task) : Prop :=
  st.1.faulted = true ∨ st.1.err ≠ none
    ∨ (st.1.gCtx = ctx ∧ ∃ t ∈ st.2, t.failsUnder clientset query ctx)

/-- Whether a client call is a `Namespaces.Get`. -/
def Call.isNamespacesGet : Call → Bool
  | .NamespacesGet _ => true
  | _ => false

/-- What the namespace checks of querier.go:226-241 (and 331-346, 439-454, 517-532) make of a
`Do` result `r` for a query whose name parsed to the namespace `p`: a mismatch with the query
namespace ends `Do` before any call; otherwise `Namespaces.Get(p)` is the first call and the
only `Namespaces.Get`, and an absent namespace ends `Do` right after it. -/
def namespaceChecked (clientset : Clientset) (q : Query) (p : String) (r : DoResult) : Prop :=
  ((q.Namespace ≠ "" ∧ q.Namespace ≠ p) →
    r = ⟨.error (namespaceMismatchError q.Namespace q.Name p), []⟩) ∧
  (¬ (q.Namespace ≠ "" ∧ q.Namespace ≠ p) →
    r.calls.head? = some (Call.NamespacesGet p)
    ∧ r.calls.filter Call.isNamespacesGet = [Call.NamespacesGet p]
    ∧ (clientset.NamespacesGet p = (false, none) →
        r = ⟨.error (namespaceNotFoundError q.Name p), [Call.NamespacesGet p]⟩))

/-- A state of `Registry.Query` in which nothing has been done but failing: the group's
context is the caller's, no client call was made, nothing was appended to the full list, and
every goroutine either has returned or has not called the `Do` of its querier of `ks` yet. -/
def quiet (ctx : Context) (ks : List Querier) (st : Shared × List Task) : Prop :=
  st.1.gCtx = ctx ∧ st.1.calls = [] ∧ st.1.fullList.Items = []
    ∧ ∀ t ∈ st.2, t = .finished ∨ ∃ k ∈ ks, t = .ready k

/-! ## Notions used to state the properties of `run` -/

/-- The role name of a selector `<role name>:<binding name>`. -/
def selectorRole (s : String) : String :=
  (strings.Split s ':').getD 0 ""

/-- The binding name of a selector `<role name>:<binding name>`. -/
def selectorBinding (s : String) : String :=
  (strings.Split s ':').getD 1 ""

/-- The names, in the order of the selectors, of the roles that `ex` reports as not
existing. -/
def missingRoles (ex : String → Bool) (selectors : List String) : List String :=
  (selectors.map selectorRole).filter (fun n => !ex n)

/-- A name that `strconv.Quote` leaves as it is: every character is printable and is
neither the double quote nor the backslash. -/
def plainName (isPrint : Char → Bool) (n : String) : Prop :=
  ∀ c ∈ n.data, isPrint c = true ∧ c ≠ Char.ofNat 34 ∧ c ≠ Char.ofNat 92

/-- The cluster clients with every already-exists error of a binding `Create` replaced by
success. -/
def ApiClientset.forgive (api : ApiClientset) : ApiClientset :=
  { api with
    RoleBindingsCreate := fun past ns name role subject =>
      (api.RoleBindingsCreate past ns name role subject).filter (fun e => !e.IsAlreadyExists)
    ClusterRoleBindingsCreate := fun past name role subject =>
      (api.ClusterRoleBindingsCreate past name role subject).filter
        (fun e => !e.IsAlreadyExists) }

/-- The handler with its cluster clients, if it holds any, replaced by the forgiving
ones. -/
def Handler.forgive (h : Handler) : Handler :=
  { h with KubeApiClientset := h.KubeApiClientset.map ApiClientset.forgive }

/-- The process with its default cluster clients replaced by the forgiving ones. -/
def Host.forgive (host : Host) : Host :=
  { host with NewForConfig := fun file => (host.NewForConfig file).map ApiClientset.forgive }

/-- Two states of `run` with the same calls; they may differ in what was written to the
standard error. -/
def RunState.agree (a b : RunState) : Prop :=
  a.calls = b.calls

/-- Two results of `run` with the same outcome and the same calls. -/
def RunResult.agree (a b : RunResult) : Prop :=
  a.out = b.out ∧ a.calls = b.calls

/-- Whether a call creates a binding. -/
def RunCall.isCreate : RunCall → Bool
  | .RoleBindingsCreate _ _ _ _ => true
  | .ClusterRoleBindingsCreate _ _ _ => true
  | _ => false

/-- Whether a call stores something in the configuration. -/
def RunCall.isUpsert : RunCall → Bool
  | .UpsertUserToken _ _ => true
  | .UpsertContext _ _ _ _ => true
  | _ => false

/-- The answer of the cluster to the call `c`, made after the calls `past`, if `c` creates a
binding: the error returned, or `none` for success (and for any other call). -/
def createAnswer (api : ApiClientset) (past : List RunCall) : RunCall → Option ApiError
  | .RoleBindingsCreate ns name role subject =>
    api.RoleBindingsCreate past ns name role subject
  | .ClusterRoleBindingsCreate name role subject =>
    api.ClusterRoleBindingsCreate past name role subject
  | _ => none

/-- Every binding `Create` among `calls` was answered with success or with an already-exists
error. -/
def forgiven (api : ApiClientset) (calls : List RunCall) : Prop :=
  ∀ pre c post, calls = pre ++ c :: post →
    ∀ e, createAnswer api pre c = some e → e.IsAlreadyExists = true

/-- No call among `calls` stores something in the configuration. -/
def noUpsert (calls : List RunCall) : Prop :=
  ∀ c ∈ calls, c.isUpsert = false

/-- The calls `after` are the calls `before` followed by calls that neither create a binding
nor store something in the configuration. -/
def quietExt (before after : List RunCall) : Prop :=
  ∃ added, after = before ++ added ∧ ∀ c ∈ added, c.isCreate = false ∧ c.isUpsert = false

/-- The run `r` was ended by a binding `Create`: its last call is a `Create` that the
cluster answered with an error other than already-exists, `r` returns that error wrapped,
and before it every `Create` was forgiven and nothing was stored in the configuration. -/
def stoppedByCreate (api : ApiClientset) (r : RunResult) : Prop :=
  ∃ s c e, r.calls = s ++ [c] ∧ forgiven api s ∧ noUpsert s
    ∧ createAnswer api s c = some e ∧ e.IsAlreadyExists = false
    ∧ r.out = .error (errors.Wrap e.Message "kubeauth")

/-- The binding `Create` calls that the selectors of `run` ask for, in the order in which
`run` makes them: for each `--role` selector `<role>:<binding>` the creation of the role
binding `<binding>` of the role `<role>` in the namespace `ns`, then for each
`--cluster-role` selector the creation of the cluster role binding, each time for the
service account as the subject. -/
def Handler.creates (h : Handler) (ns : String) : List RunCall :=
  h.Roles.map (fun s => RunCall.RoleBindingsCreate ns (selectorBinding s) (selectorRole s)
      (Subject.mk KindServiceAccount "" h.ServiceAccountName ""))
    ++ h.ClusterRoles.map (fun s => RunCall.ClusterRoleBindingsCreate (selectorBinding s)
      (selectorRole s) (Subject.mk KindServiceAccount "" h.ServiceAccountName ns))

/-- Every binding `Create` of `cs`, made in this order after the calls `past`, is answered
with success or with an already-exists error. -/
def forgivenAfter (api : ApiClientset) (past cs : List RunCall) : Prop :=
  ∀ made c rest, cs = made ++ c :: rest →
    ∀ e, createAnswer api (past ++ made) c = some e → e.IsAlreadyExists = true

/-- What `run` does once the bindings are created (add_user.go:313-363): it reads the
secret, and writes and stores the credential. -/
def Handler.materialize (h : Handler) (host : Host) (configClient : ConfigClient)
    (ctx : Context) (configFile : Option File) (apiClientset : ApiClientset)
    (cluster ns : String) (saObj : Option core.ServiceAccount) (st : RunState) : RunResult :=
  match Handler.fetchSecret apiClientset ns saObj st with
  | .error r => r
  | .ok (caCrt, token, st) =>
    h.persist host configClient ctx configFile cluster ns caCrt token st

/-! ## Notions used to compare the two binding-subject queriers -/

/-- The identity with the kind of its source, when it has one, replaced by `kind`. -/
def Identity.withSourceKind (kind : String) (id : Identity) : Identity :=
  Identity.mk id.Kind id.Name id.Namespace
    (id.Source.map (fun s => IdentitySource.mk kind s.Name s.Namespace)) id.Querier

/-- The result of a `Do` with every source kind replaced by `kind`: an error and a fault
stay what they are, a list keeps its identities and their order. -/
def Outcome.withSourceKind (kind : String) : Outcome IdentityList → Outcome IdentityList
  | .ok l => .ok (IdentityList.mk (l.Items.map (Identity.withSourceKind kind)))
  | .error e => .error e
  | .fault => .fault

/-- The call with a `RoleBindings.List` replaced by the `ClusterRoleBindings.List` with the
same options. -/
def Call.asCluster : Call → Call
  | .RoleBindingsList _ opts => .ClusterRoleBindingsList opts
  | c => c

/-- What the queriers read of a role binding. -/
def RoleBinding.content (r : RoleBinding) : String × String × List Subject :=
  (r.Name, r.Namespace, r.Subjects)

/-- What the queriers read of a cluster role binding. -/
def ClusterRoleBinding.content (r : ClusterRoleBinding) : String × String × List Subject :=
  (r.Name, r.Namespace, r.Subjects)

/-! ## Notions used to state the properties of ctl's `run` -/

/-- The argument list of `kubectl` in the words of the specification: the pre-dash
arguments; `--kubeconfig` and the file name; `--as` and the user when `--as` is set;
`--as-group` and the group for each group, in order; `--context` and the effective context
name only when it differs from the current-context name; `--cluster` and the cluster only
when `--cluster` is set and the context differs or the cluster differs from the cluster of
the current context; `--all-namespaces` when that flag is set, otherwise `--namespace` and
the effective namespace only when it is non-empty and differs from the namespace of the
current context; `--v` and the decimal verbosity; the post-dash arguments. -/
def passthroughArgs (pre post : List String) (fileName user : String) (groups : List String)
    (effectiveContextName currentContextName cluster currentCluster : String)
    (allNamespaces : Bool) (effectiveNamespace currentNamespace : String) (verbosity : Int) :
    List String :=
  pre ++ ["--kubeconfig", fileName]
    ++ (if user ≠ "" then ["--as", user] else [])
    ++ groups.flatMap (fun g => ["--as-group", g])
    ++ (if effectiveContextName ≠ currentContextName then
          ["--context", effectiveContextName] else [])
    ++ (if cluster ≠ "" ∧ (effectiveContextName ≠ currentContextName
            ∨ cluster ≠ currentCluster) then ["--cluster", cluster] else [])
    ++ (if allNamespaces = true then ["--all-namespaces"]
        else if effectiveNamespace ≠ "" ∧ effectiveNamespace ≠ currentNamespace then
          ["--namespace", effectiveNamespace] else [])
    ++ ["--v", toString verbosity] ++ post

/-- The effective context name: the `--context` value, or the current-context name when
`--context` is empty. -/
def ctl.Handler.effectiveName (h : ctl.Handler) (currentContextName : String) : String :=
  if h.Context = "" then currentContextName else h.Context

/-- The effective namespace: none under `--all-namespaces`; otherwise the `--namespace`
value, or the namespace of the effective context when `--namespace` is empty. -/
def ctl.Handler.effectiveNamespace (h : ctl.Handler) (effectiveContext : ConfigContext) :
    String :=
  if h.AllNamespaces = true then ""
  else if h.Namespace = "" then effectiveContext.Namespace else h.Namespace

/-- Whether the call is a call of the executor. -/
def ctl.Call.isStandard : ctl.Call → Bool
  | .Standard _ _ => true
  | _ => false

/-- No command has been run yet. -/
def noCommand (calls : List ctl.Call) : Prop :=
  ∀ c ∈ calls, c.isStandard = false

/-- An `append` to the slice `s` writes nothing into the elements of the slice `t`: the two
point into different arrays, or `t` lies behind the capacity of `s`, or `t` ends before the
end of `s`, or `s` has no spare capacity. -/
def Slice.apart (s t : Slice) : Prop :=
  t.array ≠ s.array ∨ s.offset + s.cap ≤ t.offset ∨ t.offset + t.len ≤ s.offset + s.len
    ∨ s.cap ≤ s.len

/-- The variable `kubectlArgs` of ctl's `run`, with the memory it points into, holds the
list `l`; and every slice that was apart from the slice `s0` it started from still holds
what it held in the memory `m0` of the start, and is apart from `kubectlArgs`. -/
def argsInv (m0 : Memory) (s0 : Slice) (p : Memory × Slice) (l : List String) : Prop :=
  p.1.read p.2 = l
    ∧ ∀ t : Slice, t.array < m0.next → s0.apart t →
        p.1.read t = m0.read t ∧ t.array < p.1.next ∧ p.2.apart t

/-! ## An in-memory cluster, used for the concrete evaluations -/

/-- A cluster client answering from fixed content without ever failing: `Get` finds the
listed namespaces, and the `List` methods return the stored objects of the requested
namespace (all of them for the empty namespace), service accounts being filtered by the
`metadata.name=` field selector as well. -/
def fakeClientset (namespaces : List String) (roleBindings : List RoleBinding)
    (clusterRoleBindings : List ClusterRoleBinding) (serviceAccounts : List ServiceAccount) :
    Clientset where
  NamespacesGet := fun name => (namespaces.contains name, none)
  RoleBindingsList := fun ns _ =>
    (some (roleBindings.filter (fun r => ns == "" || r.Namespace == ns)), none)
  ClusterRoleBindingsList := fun _ => (some clusterRoleBindings, none)
  ServiceAccountsList := fun ns opts =>
    (some (serviceAccounts.filter (fun a => (ns == "" || a.Namespace == ns)
      && (opts.FieldSelector == "" || opts.FieldSelector == "metadata.name=" ++ a.Name))), none)

/-- A cluster client whose `Get` finds every namespace, whose `RoleBindings.List` reports
not-found the way `DefaultClient.List` does (a nil list and a nil error), whose
`ClusterRoleBindings.List` returns an empty list and whose `ServiceAccounts.List` fails. -/
def brokenClientset : Clientset where
  NamespacesGet := fun _ => (true, none)
  RoleBindingsList := fun _ _ => (none, none)
  ClusterRoleBindingsList := fun _ => (some [], none)
  ServiceAccountsList := fun _ _ => (none, some "connection refused")

/-! ## An in-memory environment for `run`, used for the concrete evaluations -/

/-- A configuration client that parses every file name to `file` and stores without
failing. -/
def fakeConfigClient (file : File) : ConfigClient where
  Parse := fun _ _ => (some file, none)
  UpsertUserToken := fun _ _ _ _ _ => none
  UpsertContext := fun _ _ _ _ _ _ _ => none

/-- The number of `ServiceAccounts.Get` calls among `calls`. -/
def accountGets (calls : List RunCall) : Nat :=
  (calls.filter (fun c => match c with
    | .ServiceAccountsGet _ _ => true
    | _ => false)).length

/-- A cluster that holds the listed roles, cluster roles and secrets; the answer of the
`n`-th `ServiceAccounts.Get` of the run (counted from 0) is `account n` with a nil error;
`CreateBasic` returns an account without secrets; creating a binding whose name is in `bound`
fails with an already-exists error, and creating one whose name is in `denied` fails with
another error. -/
def fakeApiClientset (roles clusterRoles : List String)
    (account : Nat → Option core.ServiceAccount × Bool)
    (secrets : List (String × core.Secret)) (bound denied : List String) : ApiClientset where
  RolesGet := fun _ _ name => (roles.contains name, none)
  ClusterRolesGet := fun _ name => (clusterRoles.contains name, none)
  ServiceAccountsGet := fun calls _ _ =>
    ((account (accountGets calls)).1, (account (accountGets calls)).2, none)
  ServiceAccountsCreateBasic := fun _ _ _ => (some {}, none)
  RoleBindingsCreate := fun _ _ name _ _ =>
    if bound.contains name then some ⟨"already exists", true⟩
    else if denied.contains name then some ⟨"forbidden", false⟩
    else none
  ClusterRoleBindingsCreate := fun _ name _ _ =>
    if bound.contains name then some ⟨"already exists", true⟩
    else if denied.contains name then some ⟨"forbidden", false⟩
    else none
  SecretsGet := fun _ _ name =>
    match secrets.lookup name with
    | some secret => (some secret, true, none)
    | none => (none, false, none)

/-- A process in which the temporary file is always `/tmp/kubeauth.1.ca.crt`, no file
operation fails, and no default cluster client can be created. -/
def fakeHost : Host where
  NewDefaultClient := fakeConfigClient {}
  NewForConfig := fun _ => .error "no cluster"
  TempFile := fun _ _ _ => .ok "/tmp/kubeauth.1.ca.crt"
  FileWrite := fun _ _ _ => none
  FileSync := fun _ _ => none
  FileClose := fun _ _ => none
  IsPrint := asciiPrint

/-- The configuration file of the tests: one context, which is the current one. -/
def fakeFile : File where
  Name := "/kube/config"
  ClientCmdConfig := ClientCmdConfig.mk
    [("ctx", ConfigContext.mk "me" "current-cluster" "current-namespace")] "ctx"
    ["current-cluster"]

/-- The handler of the tests: the account `sa` for the user `user`, with the configuration
client of `fakeFile`, and neither `--cluster` nor `--namespace`. -/
def fakeHandler (api : ApiClientset) (roles clusterRoles : List String) (verbosity : Int) :
    Handler where
  KubeApiClientset := some api
  KubectlConfigClient := some (fakeConfigClient fakeFile)
  ClusterRoles := clusterRoles
  Roles := roles
  ServiceAccountName := "sa"
  Username := "user"
  Verbosity := verbosity

/-- A cluster client whose `Get` finds the listed namespaces and whose `List` methods all
report not-found the way `DefaultClient.List` does (role_binding.go:72-82): a nil list and a
nil error. -/
def notFoundClientset (namespaces : List String) : Clientset where
  NamespacesGet := fun name => (namespaces.contains name, none)
  RoleBindingsList := fun _ _ => (none, none)
  ClusterRoleBindingsList := fun _ => (none, none)
  ServiceAccountsList := fun _ _ => (none, none)

/-- A configuration client that parses every file name to `file` and stores the user, but
whose `UpsertContext` fails with `err`. -/
def contextFailingClient (file : File) (err : Error) : ConfigClient where
  Parse := fun _ _ => (some file, none)
  UpsertUserToken := fun _ _ _ _ _ => none
  UpsertContext := fun _ _ _ _ _ _ _ => some err

/-- The cluster in which the account `sa` exists and refers to the secrets named `names`,
in this order, every one of them stored with a `ca.crt` and with a `token` made of the
length of its name. -/
def secretsApiClientset (names : List String) : ApiClientset :=
  fakeApiClientset [] []
    (fun _ => (some (core.ServiceAccount.mk (names.map core.ObjectReference.mk)), true))
    (names.map (fun n => (n, core.Secret.mk [("ca.crt", [1]), ("token", [n.length])]))) [] []

/-! ## An in-memory environment for ctl's `run`, used for the concrete evaluations -/

/-- An executor whose `Standard` always returns the exit code `code` and the error `err`. -/
def fakeExecutor (code : Int) (err : Option Error) : ctl.Executor where
  Standard := fun _ _ _ _ => (code, err)

/-- A process in which no default cluster client can be created and the default executor
runs every command without error. -/
def fakeCtlHost : ctl.Host where
  NewDefaultClient := fakeConfigClient {}
  NewForConfig := fun _ => .error "no cluster"
  CommonExecutor := fakeExecutor 0 none

/-- A configuration file with two contexts, of which `ctx` is the current one. -/
def fakeFileTwo : File where
  Name := "/kube/config"
  ClientCmdConfig := ClientCmdConfig.mk
    [("ctx", ConfigContext.mk "me" "current-cluster" "current-namespace"),
      ("other", ConfigContext.mk "you" "other-cluster" "other-namespace")] "ctx"
    ["current-cluster", "other-cluster"]

/-- The cluster of the tests: the namespaces `current-namespace` and `other-namespace`, and
nothing else. -/
def fakeCtlClientset : Clientset :=
  fakeClientset ["current-namespace", "other-namespace"] [] [] []

/-- The handler of the tests for the configuration file `file`: the flags `--as`,
`--as-group`, `--context`, `--cluster`, `--namespace`, `--all-namespaces` and `--v` as
given, the cluster `fakeCtlClientset` and an executor that returns no error. -/
def fakeCtlHandler (file : File) (as : String) (asGroup : List String)
    (context cluster ns : String) (allNamespaces : Bool) (verbosity : Int) : ctl.Handler where
  KubectlConfigClient := some (fakeConfigClient file)
  KubeApiClientset := some fakeCtlClientset
  Executor := some (fakeExecutor 0 none)
  AllNamespaces := allNamespaces
  As := as
  AsGroup := asGroup
  Cluster := cluster
  Context := context
  Namespace := ns
  Verbosity := verbosity
  usage := "Usage: kubeauth ctl"

/-- A memory that holds the listed arrays and nothing else; an `append` that reallocates
gets as much spare capacity as the length it needs. -/
def fakeMemory (arrays : List (List String)) : Memory where
  cell := fun a i => (arrays.getD a []).getD i ""
  next := arrays.length
  spare := fun _ needed => needed

/-- The input whose pre-dash and post-dash arguments are two slices with an array of their
own each, filled to its capacity. -/
def separateInput (pre post : List String) : ctl.Input where
  heap := fakeMemory [pre, post]
  ArgsBeforeDash := Slice.mk 0 0 pre.length pre.length
  ArgsAfterDash := Slice.mk 1 0 post.length post.length

/-- The input whose pre-dash and post-dash arguments are cut from the one array `argv` at
the position `n` of the dash: `argv[:n]` and `argv[n:]`. -/
def sharedInput (argv : List String) (n : Nat) : ctl.Input where
  heap := fakeMemory [argv]
  ArgsBeforeDash := Slice.mk 0 0 n argv.length
  ArgsAfterDash := Slice.mk 0 n (argv.length - n) (argv.length - n)

/-- A caller's context that is live until `kubectl` has been run and cancelled from then
on. -/
def cancelledAfterKubectl (past : List ctl.Call) : Context :=
  if past.any ctl.Call.isStandard then Context.canceled
  else Context.live

/-! ### Facts about `strings.Split` -/

theorem Split_ne_nil (s : String) (sep : Char) : strings.Split s sep ≠ [] := by
  unfold strings.Split
  intro h
  have h2 := List.map_eq_nil_iff.mp h
  exact List.splitOnP_ne_nil _ _ h2

/-- Splitting the separator-joined concatenation of separator-free pieces gives the pieces. -/
theorem Split_intercalate (sep : Char) (ls : List (List Char)) (hne : ls ≠ [])
    (h : ∀ l ∈ ls, sep ∉ l) :
    strings.Split (String.mk ([sep].intercalate ls)) sep = ls.map String.mk := by
  unfold strings.Split
  rw [List.splitOn_intercalate ls sep h hne]

/-- Joining the pieces of a split with the separator gives the string back. -/
theorem intercalate_Split (s : String) (sep : Char) :
    [sep].intercalate ((strings.Split s sep).map String.data) = s.data := by
  unfold strings.Split
  rw [List.map_map]
  have : (String.data ∘ String.mk) = id := by
    funext l; rfl
  rw [this, List.map_id]
  exact List.intercalate_splitOn s.data sep

theorem Split_four (a b c d : String) (ha : ':' ∉ a.data) (hb : ':' ∉ b.data)
    (hc : ':' ∉ c.data) (hd : ':' ∉ d.data) :
    strings.Split (a ++ ":" ++ b ++ ":" ++ c ++ ":" ++ d) ':' = [a, b, c, d] := by
  have h := Split_intercalate ':' [a.data, b.data, c.data, d.data] (by simp)
    (by
      intro l hl
      simp only [List.mem_cons, List.mem_singleton, List.not_mem_nil, or_false] at hl
      rcases hl with h | h | h | h <;> subst h <;> assumption)
  have e : (a ++ ":" ++ b ++ ":" ++ c ++ ":" ++ d)
      = String.mk ([':'].intercalate [a.data, b.data, c.data, d.data]) := by
    apply String.ext
    simp [String.data_append, List.intercalate, List.intersperse]
  rw [e, h]
  rfl

theorem Split_three (a b c : String) (ha : ':' ∉ a.data) (hb : ':' ∉ b.data)
    (hc : ':' ∉ c.data) :
    strings.Split (a ++ ":" ++ b ++ ":" ++ c) ':' = [a, b, c] := by
  have h := Split_intercalate ':' [a.data, b.data, c.data] (by simp)
    (by
      intro l hl
      simp only [List.mem_cons, List.mem_singleton, List.not_mem_nil, or_false] at hl
      rcases hl with h | h | h <;> subst h <;> assumption)
  have e : (a ++ ":" ++ b ++ ":" ++ c)
      = String.mk ([':'].intercalate [a.data, b.data, c.data]) := by
    apply String.ext
    simp [String.data_append, List.intercalate, List.intersperse]
  rw [e, h]
  rfl

theorem user_name_eq (n b : String) :
    "system:serviceaccount:" ++ n ++ ":" ++ b
      = "system" ++ ":" ++ "serviceaccount" ++ ":" ++ n ++ ":" ++ b := by
  apply String.ext
  simp [String.data_append]

theorem group_name_eq (ns : String) :
    "system:serviceaccounts:" ++ ns = "system" ++ ":" ++ "serviceaccounts" ++ ":" ++ ns := by
  apply String.ext
  simp [String.data_append]

theorem Split_user_name (n b : String) (hn : ':' ∉ n.data) (hb : ':' ∉ b.data) :
    strings.Split ("system:serviceaccount:" ++ n ++ ":" ++ b) ':'
      = ["system", "serviceaccount", n, b] := by
  rw [user_name_eq]
  exact Split_four "system" "serviceaccount" n b (by decide) (by decide) hn hb

theorem Split_group_name (ns : String) (hn : ':' ∉ ns.data) :
    strings.Split ("system:serviceaccounts:" ++ ns) ':' = ["system", "serviceaccounts", ns] := by
  rw [group_name_eq]
  exact Split_three "system" "serviceaccounts" ns (by decide) (by decide) hn

/-- What `ParseServiceAccount` returns on a well-formed user name. -/
theorem ParseServiceAccount_user (n b : String) (hb : b ≠ "") (hnc : ':' ∉ n.data)
    (hbc : ':' ∉ b.data) :
    ParseServiceAccount ("system:serviceaccount:" ++ n ++ ":" ++ b) = (n, b, false, true) := by
  simp [ParseServiceAccount, ParseServiceAccountUser, Split_user_name n b hnc hbc, hb]

/-- What `ParseServiceAccount` returns on a namespaced group name. -/
theorem ParseServiceAccount_group (ns : String) (hn : ':' ∉ ns.data) :
    ParseServiceAccount ("system:serviceaccounts:" ++ ns) = (ns, "", true, true) := by
  simp [ParseServiceAccount, ParseServiceAccountUser, ParseServiceAccountGroup,
    Split_group_name ns hn]

/-- A name that is not four parts beginning `system`, `serviceaccount` has no basename. -/
theorem ParseServiceAccountUser_of_not_shape (s : String)
    (h : ¬ ((strings.Split s ':').length = 4 ∧ (strings.Split s ':').getD 0 "" = "system"
      ∧ (strings.Split s ':').getD 1 "" = "serviceaccount")) :
    (ParseServiceAccountUser s).2.1 = "" := by
  unfold ParseServiceAccountUser
  simp only []
  split_ifs with a b
  · rfl
  · rfl
  · exfalso
    simp only [not_or, not_not] at a b
    exact h ⟨a, b.1, b.2⟩

/-- A name that is not two or three parts beginning `system`, `serviceaccounts` is rejected
by the group parser. -/
theorem ParseServiceAccountGroup_of_not_shape (s : String)
    (h : ¬ (((strings.Split s ':').length = 2 ∨ (strings.Split s ':').length = 3)
      ∧ (strings.Split s ':').getD 0 "" = "system"
      ∧ (strings.Split s ':').getD 1 "" = "serviceaccounts")) :
    (ParseServiceAccountGroup s).2 ≠ none := by
  unfold ParseServiceAccountGroup
  simp only []
  split_ifs with a b c
  · simp
  · simp
  · exfalso
    simp only [not_or, not_not] at b
    exact h ⟨Or.inl c, b.1, b.2⟩
  · exfalso
    simp only [not_or, not_not, not_and] at a b
    refine h ⟨?_, b.1, b.2⟩
    by_cases l2 : (strings.Split s ':').length = 2
    · exact Or.inl l2
    · exact Or.inr (a l2)

theorem ParseServiceAccount_of_not_shape (s : String)
    (hu : ¬ ((strings.Split s ':').length = 4 ∧ (strings.Split s ':').getD 0 "" = "system"
      ∧ (strings.Split s ':').getD 1 "" = "serviceaccount"))
    (hg : ¬ (((strings.Split s ':').length = 2 ∨ (strings.Split s ':').length = 3)
      ∧ (strings.Split s ':').getD 0 "" = "system"
      ∧ (strings.Split s ':').getD 1 "" = "serviceaccounts")) :
    ParseServiceAccount s = ("", "", false, false) := by
  have h1 := ParseServiceAccountUser_of_not_shape s hu
  have h2 := ParseServiceAccountGroup_of_not_shape s hg
  rcases eu : ParseServiceAccountUser s with ⟨a, b, c⟩
  rcases eg : ParseServiceAccountGroup s with ⟨d, e⟩
  rw [eu] at h1
  rw [eg] at h2
  simp only at h1 h2
  simp [ParseServiceAccount, eu, eg, h1, h2]

/-! ### The scan of the binding subjects as a filter -/

theorem roleSubject_foldl_visit (q : Query) (n : String) (g v : Bool) (r : RoleBinding)
    (subjects : List Subject) (list : IdentityList) :
    subjects.foldl (RoleSubjectQuerier.visit q n g v r) list
      = IdentityList.mk (list.Items ++ (subjects.filter (fun s =>
            decide (q.Namespace = "" ∨ q.Namespace = s.Namespace) && subjectMatch q n g v s)).map
          (fun s => Identity.mk s.Kind s.Name s.Namespace
            (some (IdentitySource.mk KindRoleBinding r.Name r.Namespace)) "")) := by
  induction subjects generalizing list with
  | nil => simp
  | cons s rest ih =>
    rw [List.foldl_cons, ih]
    unfold RoleSubjectQuerier.visit
    by_cases hns : q.Namespace = "" ∨ q.Namespace = s.Namespace
    · have hns2 : ¬ (q.Namespace ≠ "" ∧ q.Namespace ≠ s.Namespace) := by
        rcases hns with h | h <;> simp [h]
      rw [if_neg hns2]
      by_cases hm : subjectMatch q n g v s = true
      · simp [hm, hns, List.filter_cons]
      · simp [hm, hns, List.filter_cons]
    · have hns2 : q.Namespace ≠ "" ∧ q.Namespace ≠ s.Namespace := by
        simp only [not_or] at hns
        exact hns
      rw [if_pos hns2]
      simp [hns, List.filter_cons]

theorem roleSubject_foldl_bindings (q : Query) (n : String) (g v : Bool)
    (items : List RoleBinding) (list : IdentityList) :
    items.foldl (fun list r => r.Subjects.foldl (RoleSubjectQuerier.visit q n g v r) list) list
      = IdentityList.mk (list.Items ++ items.flatMap (fun r => (r.Subjects.filter (fun s =>
            decide (q.Namespace = "" ∨ q.Namespace = s.Namespace) && subjectMatch q n g v s)).map
          (fun s => Identity.mk s.Kind s.Name s.Namespace
            (some (IdentitySource.mk KindRoleBinding r.Name r.Namespace)) ""))) := by
  induction items generalizing list with
  | nil => simp
  | cons r rest ih =>
    rw [List.foldl_cons, ih, roleSubject_foldl_visit]
    simp [List.flatMap_cons]

theorem clusterRoleSubject_foldl_visit (q : Query) (n : String) (g v : Bool)
    (r : ClusterRoleBinding) (subjects : List Subject) (list : IdentityList) :
    subjects.foldl (ClusterRoleSubjectQuerier.visit q n g v r) list
      = IdentityList.mk (list.Items ++ (subjects.filter (fun s =>
            decide (q.Namespace = "" ∨ q.Namespace = s.Namespace) && subjectMatch q n g v s)).map
          (fun s => Identity.mk s.Kind s.Name s.Namespace
            (some (IdentitySource.mk KindClusterRoleBinding r.Name r.Namespace)) "")) := by
  induction subjects generalizing list with
  | nil => simp
  | cons s rest ih =>
    rw [List.foldl_cons, ih]
    unfold ClusterRoleSubjectQuerier.visit
    by_cases hns : q.Namespace = "" ∨ q.Namespace = s.Namespace
    · have hns2 : ¬ (q.Namespace ≠ "" ∧ q.Namespace ≠ s.Namespace) := by
        rcases hns with h | h <;> simp [h]
      rw [if_neg hns2]
      by_cases hm : subjectMatch q n g v s = true
      · simp [hm, hns, List.filter_cons]
      · simp [hm, hns, List.filter_cons]
    · have hns2 : q.Namespace ≠ "" ∧ q.Namespace ≠ s.Namespace := by
        simp only [not_or] at hns
        exact hns
      rw [if_pos hns2]
      simp [hns, List.filter_cons]

theorem clusterRoleSubject_foldl_bindings (q : Query) (n : String) (g v : Bool)
    (items : List ClusterRoleBinding) (list : IdentityList) :
    items.foldl
        (fun list r => r.Subjects.foldl (ClusterRoleSubjectQuerier.visit q n g v r) list) list
      = IdentityList.mk (list.Items ++ items.flatMap (fun r => (r.Subjects.filter (fun s =>
            decide (q.Namespace = "" ∨ q.Namespace = s.Namespace) && subjectMatch q n g v s)).map
          (fun s => Identity.mk s.Kind s.Name s.Namespace
            (some (IdentitySource.mk KindClusterRoleBinding r.Name r.Namespace)) ""))) := by
  induction items generalizing list with
  | nil => simp
  | cons r rest ih =>
    rw [List.foldl_cons, ih, clusterRoleSubject_foldl_visit]
    simp [List.flatMap_cons]

/-- The result of the role-binding scan when `List` returns a list and no error. -/
theorem roleSubject_scan_out (clientset : Clientset) (q : Query) (n : String)
    (g v : Bool) (calls : List Call) (items : List RoleBinding)
    (h : clientset.RoleBindingsList q.Namespace {} = (some items, none)) :
    (RoleSubjectQuerier.scan clientset q n g v calls).out
      = .ok (IdentityList.mk (items.flatMap (fun r => (r.Subjects.filter (fun s =>
            decide (q.Namespace = "" ∨ q.Namespace = s.Namespace) && subjectMatch q n g v s)).map
          (fun s => Identity.mk s.Kind s.Name s.Namespace
            (some (IdentitySource.mk KindRoleBinding r.Name r.Namespace)) "")))) := by
  unfold RoleSubjectQuerier.scan
  rw [h]
  simp only [roleSubject_foldl_bindings]
  simp

/-- The result of the cluster-role-binding scan when `List` returns a list and no error. -/
theorem clusterRoleSubject_scan_out (clientset : Clientset) (q : Query) (n : String)
    (g v : Bool) (calls : List Call) (items : List ClusterRoleBinding)
    (h : clientset.ClusterRoleBindingsList {} = (some items, none)) :
    (ClusterRoleSubjectQuerier.scan clientset q n g v calls).out
      = .ok (IdentityList.mk (items.flatMap (fun r => (r.Subjects.filter (fun s =>
            decide (q.Namespace = "" ∨ q.Namespace = s.Namespace) && subjectMatch q n g v s)).map
          (fun s => Identity.mk s.Kind s.Name s.Namespace
            (some (IdentitySource.mk KindClusterRoleBinding r.Name r.Namespace)) "")))) := by
  unfold ClusterRoleSubjectQuerier.scan
  rw [h]
  simp only [clusterRoleSubject_foldl_bindings]
  simp

/-! ## The name grammar (claims C3, C4, C5) -/

/-- C3: for non-empty `n` and `b` without a colon, `ParseServiceAccount` applied to
`"system:serviceaccount:" + n + ":" + b` returns namespace `n`, basename `b`, isGroup false
and isValid true, and rebuilding the name from the returned namespace and basename gives
the input back. -/
theorem C3_ParseServiceAccount_user_roundtrip (n b : String) (_hn : n ≠ "") (hb : b ≠ "")
    (hnc : ':' ∉ n.data) (hbc : ':' ∉ b.data) :
    ParseServiceAccount ("system:serviceaccount:" ++ n ++ ":" ++ b) = (n, b, false, true) ∧
    "system:serviceaccount:"
        ++ (ParseServiceAccount ("system:serviceaccount:" ++ n ++ ":" ++ b)).1 ++ ":"
        ++ (ParseServiceAccount ("system:serviceaccount:" ++ n ++ ":" ++ b)).2.1
      = "system:serviceaccount:" ++ n ++ ":" ++ b := by
  rw [ParseServiceAccount_user n b hb hnc hbc]
  exact ⟨rfl, rfl⟩

/-- C3 at the name of the default service account of `kube-system`. -/
theorem C3_ParseServiceAccount_user_roundtrip_witness :
    ParseServiceAccount ("system:serviceaccount:" ++ "kube-system" ++ ":" ++ "default")
      = ("kube-system", "default", false, true) ∧
    "system:serviceaccount:"
        ++ (ParseServiceAccount
            ("system:serviceaccount:" ++ "kube-system" ++ ":" ++ "default")).1 ++ ":"
        ++ (ParseServiceAccount
            ("system:serviceaccount:" ++ "kube-system" ++ ":" ++ "default")).2.1
      = "system:serviceaccount:" ++ "kube-system" ++ ":" ++ "default" :=
  C3_ParseServiceAccount_user_roundtrip "kube-system" "default" (by decide) (by decide)
    (by decide) (by decide)

/-- C4: `ParseServiceAccount "system:serviceaccounts"` is the all-namespaces group (empty
namespace and basename, isGroup and isValid true), and for every `ns` without a colon
`ParseServiceAccount ("system:serviceaccounts:" + ns)` is the group of namespace `ns`. -/
theorem C4_ParseServiceAccount_group :
    ParseServiceAccount "system:serviceaccounts" = ("", "", true, true) ∧
    ∀ ns : String, ':' ∉ ns.data →
      ParseServiceAccount ("system:serviceaccounts:" ++ ns) = (ns, "", true, true) :=
  ⟨by decide, ParseServiceAccount_group⟩

/-- C5: `ParseServiceAccount s` reports isValid only if `s` split on the colon is four parts
beginning `system`, `serviceaccount`, or two or three parts beginning `system`,
`serviceaccounts`; every other string, in particular one with five or more parts and a
four-part one with another beginning, yields `("", "", false, false)`. -/
theorem C5_ParseServiceAccount_invalid (s : String) :
    ((ParseServiceAccount s).2.2.2 = true →
      ((strings.Split s ':').length = 4 ∧ (strings.Split s ':').getD 0 "" = "system"
          ∧ (strings.Split s ':').getD 1 "" = "serviceaccount")
      ∨ (((strings.Split s ':').length = 2 ∨ (strings.Split s ':').length = 3)
          ∧ (strings.Split s ':').getD 0 "" = "system"
          ∧ (strings.Split s ':').getD 1 "" = "serviceaccounts")) ∧
    (¬ (((strings.Split s ':').length = 4 ∧ (strings.Split s ':').getD 0 "" = "system"
          ∧ (strings.Split s ':').getD 1 "" = "serviceaccount")
      ∨ (((strings.Split s ':').length = 2 ∨ (strings.Split s ':').length = 3)
          ∧ (strings.Split s ':').getD 0 "" = "system"
          ∧ (strings.Split s ':').getD 1 "" = "serviceaccounts")) →
      ParseServiceAccount s = ("", "", false, false)) ∧
    (5 ≤ (strings.Split s ':').length → ParseServiceAccount s = ("", "", false, false)) ∧
    ((strings.Split s ':').length = 4 →
      ¬ ((strings.Split s ':').getD 0 "" = "system"
          ∧ (strings.Split s ':').getD 1 "" = "serviceaccount") →
      ParseServiceAccount s = ("", "", false, false)) := by
  have key : ¬ (((strings.Split s ':').length = 4 ∧ (strings.Split s ':').getD 0 "" = "system"
          ∧ (strings.Split s ':').getD 1 "" = "serviceaccount")
      ∨ (((strings.Split s ':').length = 2 ∨ (strings.Split s ':').length = 3)
          ∧ (strings.Split s ':').getD 0 "" = "system"
          ∧ (strings.Split s ':').getD 1 "" = "serviceaccounts")) →
      ParseServiceAccount s = ("", "", false, false) := by
    intro h
    simp only [not_or] at h
    exact ParseServiceAccount_of_not_shape s h.1 h.2
  refine ⟨?_, key, ?_, ?_⟩
  · intro hv
    by_contra hcon
    rw [key hcon] at hv
    simp at hv
  · intro h5
    apply key
    omega
  · intro l4 hne
    apply key
    rintro (⟨_, h0, h1⟩ | ⟨hl, _⟩)
    · exact hne ⟨h0, h1⟩
    · omega

/-! ## Compatibility of the queriers (claim C6) -/

/-- C6: each querier's `Compatible` is decided by the query's kind alone and holds exactly
for: the service-account user querier on "", User, ServiceAccount; the service-account group
and core group queriers on "", Group; the core user and config user queriers on "", User;
the two binding-subject queriers on "", User, Group.  Hence the first is false on Group, the
group queriers are false on User and ServiceAccount, and the subject queriers are false on
Role and ServiceAccount. -/
theorem C6_Compatible (q : Query) :
    (ServiceAccountUserQuerier.Compatible q = true
        ↔ q.Kind = "" ∨ q.Kind = KindUser ∨ q.Kind = KindServiceAccount) ∧
    (ServiceAccountGroupQuerier.Compatible q = true ↔ q.Kind = "" ∨ q.Kind = KindGroup) ∧
    (CoreGroupQuerier.Compatible q = true ↔ q.Kind = "" ∨ q.Kind = KindGroup) ∧
    (CoreUserQuerier.Compatible q = true ↔ q.Kind = "" ∨ q.Kind = KindUser) ∧
    (ConfigUserQuerier.Compatible q = true ↔ q.Kind = "" ∨ q.Kind = KindUser) ∧
    (RoleSubjectQuerier.Compatible q = true
        ↔ q.Kind = "" ∨ q.Kind = KindUser ∨ q.Kind = KindGroup) ∧
    (ClusterRoleSubjectQuerier.Compatible q = true
        ↔ q.Kind = "" ∨ q.Kind = KindUser ∨ q.Kind = KindGroup) ∧
    (q.Kind = KindGroup → ServiceAccountUserQuerier.Compatible q = false) ∧
    (q.Kind = KindUser ∨ q.Kind = KindServiceAccount →
      ServiceAccountGroupQuerier.Compatible q = false ∧ CoreGroupQuerier.Compatible q = false) ∧
    (q.Kind = KindRole ∨ q.Kind = KindServiceAccount →
      RoleSubjectQuerier.Compatible q = false
        ∧ ClusterRoleSubjectQuerier.Compatible q = false) := by
  refine ⟨?_, ?_, ?_, ?_, ?_, ?_, ?_, ?_, ?_, ?_⟩
  · simp [ServiceAccountUserQuerier.Compatible, or_assoc]
  · simp [ServiceAccountGroupQuerier.Compatible]
  · simp [CoreGroupQuerier.Compatible]
  · simp [CoreUserQuerier.Compatible]
  · simp [ConfigUserQuerier.Compatible]
  · simp [RoleSubjectQuerier.Compatible, or_assoc]
  · simp [ClusterRoleSubjectQuerier.Compatible, or_assoc]
  · intro h
    rw [ServiceAccountUserQuerier.Compatible, h]
    decide
  · intro h
    rw [ServiceAccountGroupQuerier.Compatible, CoreGroupQuerier.Compatible]
    rcases h with h | h <;> rw [h] <;> decide
  · intro h
    rw [RoleSubjectQuerier.Compatible, ClusterRoleSubjectQuerier.Compatible]
    rcases h with h | h <;> rw [h] <;> decide

/-! ## The binding-subject queriers (claims C7, C8) -/

/-- With an unparsed name the match decision is the literal comparison of name and kind. -/
theorem subjectMatch_literal (q : Query) (n : String) (g : Bool) (s : Subject) :
    (decide (q.Namespace = "" ∨ q.Namespace = s.Namespace) && subjectMatch q n g false s)
      = decide ((q.Namespace = "" ∨ q.Namespace = s.Namespace)
          ∧ (q.Name = "" ∨ (s.Name = q.Name ∧ (q.Kind = "" ∨ s.Kind = q.Kind)))) := by
  unfold subjectMatch
  by_cases h1 : q.Name = ""
  · simp [h1]
  · by_cases h2 : q.Namespace = "" ∨ q.Namespace = s.Namespace
    · by_cases h3 : s.Name = q.Name
      · by_cases h4 : q.Kind = "" ∨ s.Kind = q.Kind
        · rcases h4 with h4 | h4 <;> simp [h1, h2, h3, h4]
        · have h4a := h4
          simp only [not_or] at h4a
          simp [h1, h2, h3, h4, h4a.1, h4a.2]
      · simp [h1, h2, h3]
    · simp [h1, h2]

theorem ParseServiceAccount_empty : ParseServiceAccount "" = ("", "", false, false) := by
  decide

/-- Reading back the `List` answer from a scan that returned a list. -/
theorem roleSubject_scan_ok_inv (clientset : Clientset) (q : Query) (n : String)
    (g v : Bool) (calls : List Call) (l : IdentityList)
    (h : (RoleSubjectQuerier.scan clientset q n g v calls).out = .ok l) :
    ∃ items, clientset.RoleBindingsList q.Namespace {} = (some items, none)
      ∧ l = IdentityList.mk (items.flatMap (fun r => (r.Subjects.filter (fun s =>
            decide (q.Namespace = "" ∨ q.Namespace = s.Namespace) && subjectMatch q n g v s)).map
          (fun s => Identity.mk s.Kind s.Name s.Namespace
            (some (IdentitySource.mk KindRoleBinding r.Name r.Namespace)) ""))) := by
  rcases hl : clientset.RoleBindingsList q.Namespace {} with ⟨res, err⟩
  cases err with
  | some e => simp [RoleSubjectQuerier.scan, hl] at h
  | none =>
    cases res with
    | none => simp [RoleSubjectQuerier.scan, hl] at h
    | some items =>
      rw [roleSubject_scan_out clientset q n g v calls items hl] at h
      injection h with h
      exact ⟨items, rfl, h.symm⟩

theorem clusterRoleSubject_scan_ok_inv (clientset : Clientset) (q : Query) (n : String)
    (g v : Bool) (calls : List Call) (l : IdentityList)
    (h : (ClusterRoleSubjectQuerier.scan clientset q n g v calls).out = .ok l) :
    ∃ items, clientset.ClusterRoleBindingsList {} = (some items, none)
      ∧ l = IdentityList.mk (items.flatMap (fun r => (r.Subjects.filter (fun s =>
            decide (q.Namespace = "" ∨ q.Namespace = s.Namespace) && subjectMatch q n g v s)).map
          (fun s => Identity.mk s.Kind s.Name s.Namespace
            (some (IdentitySource.mk KindClusterRoleBinding r.Name r.Namespace)) ""))) := by
  rcases hl : clientset.ClusterRoleBindingsList {} with ⟨res, err⟩
  cases err with
  | some e => simp [ClusterRoleSubjectQuerier.scan, hl] at h
  | none =>
    cases res with
    | none => simp [ClusterRoleSubjectQuerier.scan, hl] at h
    | some items =>
      rw [clusterRoleSubject_scan_out clientset q n g v calls items hl] at h
      injection h with h
      exact ⟨items, rfl, h.symm⟩

/-- A `Do` that returned a list came through the scan, with the parsed namespace (if any)
consistent with the query and found in the cluster. -/
theorem roleSubject_Do_ok_inv (ctx : Context) (clientset : Clientset) (q : Query)
    (ns n : String) (g v : Bool) (hp : ParseServiceAccount q.Name = (ns, n, g, v))
    (l : IdentityList) (h : (RoleSubjectQuerier.Do ctx clientset q).out = .ok l) :
    (∃ calls, (RoleSubjectQuerier.scan clientset q n g v calls).out = .ok l)
      ∧ (v = true → ns ≠ "" → (q.Namespace = "" ∨ ns = q.Namespace)
          ∧ clientset.NamespacesGet ns = (true, none)) := by
  rcases hg : clientset.NamespacesGet ns with ⟨ex, err⟩
  unfold RoleSubjectQuerier.Do at h
  cases ctx <;> simp only [Context.Err, hp, hg] at h
  · by_cases c1 : v = true ∧ ns ≠ ""
    · rw [if_pos c1] at h
      by_cases c2 : q.Namespace ≠ "" ∧ ns ≠ q.Namespace
      · rw [if_pos c2] at h
        simp at h
      · rw [if_neg c2] at h
        cases err with
        | some e => simp at h
        | none =>
          cases ex with
          | false => simp at h
          | true =>
            simp only [Bool.true_eq_false, if_false] at h
            refine ⟨⟨_, h⟩, fun _ _ => ⟨?_, rfl⟩⟩
            by_cases hq : q.Namespace = ""
            · exact Or.inl hq
            · right
              by_contra hne
              exact c2 ⟨hq, hne⟩
    · rw [if_neg c1] at h
      refine ⟨⟨_, h⟩, fun hv hn => absurd ⟨hv, hn⟩ c1⟩
  · simp at h
  · simp at h

theorem clusterRoleSubject_Do_ok_inv (ctx : Context) (clientset : Clientset) (q : Query)
    (ns n : String) (g v : Bool) (hp : ParseServiceAccount q.Name = (ns, n, g, v))
    (l : IdentityList) (h : (ClusterRoleSubjectQuerier.Do ctx clientset q).out = .ok l) :
    (∃ calls, (ClusterRoleSubjectQuerier.scan clientset q n g v calls).out = .ok l)
      ∧ (v = true → ns ≠ "" → (q.Namespace = "" ∨ ns = q.Namespace)
          ∧ clientset.NamespacesGet ns = (true, none)) := by
  rcases hg : clientset.NamespacesGet ns with ⟨ex, err⟩
  unfold ClusterRoleSubjectQuerier.Do at h
  cases ctx <;> simp only [Context.Err, hp, hg] at h
  · by_cases c1 : v = true ∧ ns ≠ ""
    · rw [if_pos c1] at h
      by_cases c2 : q.Namespace ≠ "" ∧ ns ≠ q.Namespace
      · rw [if_pos c2] at h
        simp at h
      · rw [if_neg c2] at h
        cases err with
        | some e => simp at h
        | none =>
          cases ex with
          | false => simp at h
          | true =>
            simp only [Bool.true_eq_false, if_false] at h
            refine ⟨⟨_, h⟩, fun _ _ => ⟨?_, rfl⟩⟩
            by_cases hq : q.Namespace = ""
            · exact Or.inl hq
            · right
              by_contra hne
              exact c2 ⟨hq, hne⟩
    · rw [if_neg c1] at h
      refine ⟨⟨_, h⟩, fun hv hn => absurd ⟨hv, hn⟩ c1⟩
  · simp at h
  · simp at h

/-- A name that parses as a service-account name is not empty. -/
theorem name_ne_empty_of_valid (name ns n : String) (g : Bool)
    (hp : ParseServiceAccount name = (ns, n, g, true)) : name ≠ "" := by
  intro h
  rw [h, ParseServiceAccount_empty] at hp
  simp at hp


/-- C7: for a query whose name is empty or does not parse as a service-account name, and for
every list of bindings that `List` returns, `RoleSubjectQuerier.Do` returns in scan order
exactly the subjects `s` with (query namespace empty or equal to `s.Namespace`) and (query
name empty, or `s.Name` equal to it and query kind empty or equal to `s.Kind`), each with the
subject's kind, name and namespace and a source of kind RoleBinding carrying the binding's
name and namespace; a subject without namespace never matches a query whose namespace is
set; and `ClusterRoleSubjectQuerier.Do` does the same with source kind ClusterRoleBinding. -/
theorem C7_subject_queriers_literal (clientset : Clientset) (q : Query)
    (hname : q.Name = "" ∨ (ParseServiceAccount q.Name).2.2.2 = false) :
    (∀ bindings : List RoleBinding,
      clientset.RoleBindingsList q.Namespace {} = (some bindings, none) →
      (RoleSubjectQuerier.Do Context.live clientset q).out
        = .ok (IdentityList.mk (bindings.flatMap (fun r => (r.Subjects.filter (fun s =>
            decide ((q.Namespace = "" ∨ q.Namespace = s.Namespace)
              ∧ (q.Name = "" ∨ (s.Name = q.Name ∧ (q.Kind = "" ∨ s.Kind = q.Kind)))))).map
            (fun s => Identity.mk s.Kind s.Name s.Namespace
              (some (IdentitySource.mk KindRoleBinding r.Name r.Namespace)) ""))))
      ∧ ∀ l, (RoleSubjectQuerier.Do Context.live clientset q).out = .ok l →
          q.Namespace ≠ "" → ∀ id ∈ l.Items, id.Namespace ≠ "") ∧
    (∀ bindings : List ClusterRoleBinding,
      clientset.ClusterRoleBindingsList {} = (some bindings, none) →
      (ClusterRoleSubjectQuerier.Do Context.live clientset q).out
        = .ok (IdentityList.mk (bindings.flatMap (fun r => (r.Subjects.filter (fun s =>
            decide ((q.Namespace = "" ∨ q.Namespace = s.Namespace)
              ∧ (q.Name = "" ∨ (s.Name = q.Name ∧ (q.Kind = "" ∨ s.Kind = q.Kind)))))).map
            (fun s => Identity.mk s.Kind s.Name s.Namespace
              (some (IdentitySource.mk KindClusterRoleBinding r.Name r.Namespace)) ""))))
      ∧ ∀ l, (ClusterRoleSubjectQuerier.Do Context.live clientset q).out = .ok l →
          q.Namespace ≠ "" → ∀ id ∈ l.Items, id.Namespace ≠ "") := by
  have hv : (ParseServiceAccount q.Name).2.2.2 = false := by
    rcases hname with h | h
    · rw [h, ParseServiceAccount_empty]
    · exact h
  rcases hp : ParseServiceAccount q.Name with ⟨ns, n, g, v⟩
  rw [hp] at hv
  simp only at hv
  subst hv
  constructor
  · intro bindings hl
    have e : (RoleSubjectQuerier.Do Context.live clientset q).out
        = .ok (IdentityList.mk (bindings.flatMap (fun r => (r.Subjects.filter (fun s =>
            decide ((q.Namespace = "" ∨ q.Namespace = s.Namespace)
              ∧ (q.Name = "" ∨ (s.Name = q.Name ∧ (q.Kind = "" ∨ s.Kind = q.Kind)))))).map
            (fun s => Identity.mk s.Kind s.Name s.Namespace
              (some (IdentitySource.mk KindRoleBinding r.Name r.Namespace)) "")))) := by
      unfold RoleSubjectQuerier.Do
      simp only [Context.Err, hp]
      simp only [Bool.false_eq_true, false_and, if_false]
      rw [roleSubject_scan_out clientset q n g false [] bindings hl]
      simp only [subjectMatch_literal]
    refine ⟨e, ?_⟩
    intro l hl2 hq id hid
    rw [e] at hl2
    injection hl2 with hl2
    subst hl2
    simp only [List.mem_flatMap, List.mem_map, List.mem_filter, decide_eq_true_eq] at hid
    obtain ⟨r, _, s, ⟨_, hc, _⟩, rfl⟩ := hid
    intro hemp
    simp only at hemp
    rcases hc with hc | hc
    · exact hq hc
    · exact hq (hc.trans hemp)
  · intro bindings hl
    have e : (ClusterRoleSubjectQuerier.Do Context.live clientset q).out
        = .ok (IdentityList.mk (bindings.flatMap (fun r => (r.Subjects.filter (fun s =>
            decide ((q.Namespace = "" ∨ q.Namespace = s.Namespace)
              ∧ (q.Name = "" ∨ (s.Name = q.Name ∧ (q.Kind = "" ∨ s.Kind = q.Kind)))))).map
            (fun s => Identity.mk s.Kind s.Name s.Namespace
              (some (IdentitySource.mk KindClusterRoleBinding r.Name r.Namespace)) "")))) := by
      unfold ClusterRoleSubjectQuerier.Do
      simp only [Context.Err, hp]
      simp only [Bool.false_eq_true, false_and, if_false]
      rw [clusterRoleSubject_scan_out clientset q n g false [] bindings hl]
      simp only [subjectMatch_literal]
    refine ⟨e, ?_⟩
    intro l hl2 hq id hid
    rw [e] at hl2
    injection hl2 with hl2
    subst hl2
    simp only [List.mem_flatMap, List.mem_map, List.mem_filter, decide_eq_true_eq] at hid
    obtain ⟨r, _, s, ⟨_, hc, _⟩, rfl⟩ := hid
    intro hemp
    simp only at hemp
    rcases hc with hc | hc
    · exact hq hc
    · exact hq (hc.trans hemp)

/-- C7 at a query for the user `system:anonymous`: of three subjects only the one with that name and kind is returned. -/
theorem C7_subject_queriers_literal_witness :
    (("system:anonymous" = "" ∨ (ParseServiceAccount "system:anonymous").2.2.2 = false)) ∧
    (RoleSubjectQuerier.Do Context.live
        (fakeClientset []
          [RoleBinding.mk "" "rb" "some-namespace"
            [Subject.mk "User" "" "system:anonymous" "some-namespace",
             Subject.mk "Group" "" "system:anonymous" "some-namespace",
             Subject.mk "User" "" "jane" "some-namespace"]] [] [])
        (Query.mk "User" "system:anonymous" "" none)).out
      = .ok (IdentityList.mk [Identity.mk "User" "system:anonymous" "some-namespace"
          (some (IdentitySource.mk "RoleBinding" "rb" "some-namespace")) ""]) :=
  ⟨by decide,
    ((C7_subject_queriers_literal
      (fakeClientset []
          [RoleBinding.mk "" "rb" "some-namespace"
            [Subject.mk "User" "" "system:anonymous" "some-namespace",
             Subject.mk "Group" "" "system:anonymous" "some-namespace",
             Subject.mk "User" "" "jane" "some-namespace"]] [] [])
      (Query.mk "User" "system:anonymous" "" none) (by decide)).1 _ rfl).1.trans (by decide)⟩

/-- C8 as stated fails: with an empty query namespace, the query for
`system:serviceaccount:a:b` (namespace `a` exists) returns the service-account subject `b` of
namespace `c`, whose namespace is not the parsed namespace `a`. -/
theorem C8_counterexample :
    ParseServiceAccount "system:serviceaccount:a:b" = ("a", "b", false, true) ∧
    (fakeClientset ["a", "c"]
        [RoleBinding.mk "" "rb" "c" [Subject.mk "ServiceAccount" "" "b" "c"]]
        [ClusterRoleBinding.mk "" "crb" "" [Subject.mk "ServiceAccount" "" "b" "c"]]
        []).NamespacesGet "a" = (true, none) ∧
    (RoleSubjectQuerier.Do Context.live
        (fakeClientset ["a", "c"]
          [RoleBinding.mk "" "rb" "c" [Subject.mk "ServiceAccount" "" "b" "c"]]
          [ClusterRoleBinding.mk "" "crb" "" [Subject.mk "ServiceAccount" "" "b" "c"]] [])
        (Query.mk "" "system:serviceaccount:a:b" "" none)).out
      = .ok (IdentityList.mk [Identity.mk "ServiceAccount" "b" "c"
          (some (IdentitySource.mk "RoleBinding" "rb" "c")) ""]) ∧
    (ClusterRoleSubjectQuerier.Do Context.live
        (fakeClientset ["a", "c"]
          [RoleBinding.mk "" "rb" "c" [Subject.mk "ServiceAccount" "" "b" "c"]]
          [ClusterRoleBinding.mk "" "crb" "" [Subject.mk "ServiceAccount" "" "b" "c"]] [])
        (Query.mk "" "system:serviceaccount:a:b" "" none)).out
      = .ok (IdentityList.mk [Identity.mk "ServiceAccount" "b" "c"
          (some (IdentitySource.mk "ClusterRoleBinding" "crb" "")) ""]) ∧
    (Identity.mk "ServiceAccount" "b" "c"
      (some (IdentitySource.mk "RoleBinding" "rb" "c")) "").Namespace ≠ "a" := by
  refine ⟨by decide, by decide, by decide, by decide, by decide⟩

/-- What the match decision says about a subject when the query name parsed. -/
theorem subjectMatch_parsed (q : Query) (n : String) (g : Bool) (s : Subject)
    (hne : q.Name ≠ "") (hm : subjectMatch q n g true s = true) :
    (g = false → s.Kind = KindServiceAccount ∧ s.Name = n)
      ∧ (g = true → s.Kind = KindGroup ∧ s.Name = q.Name) := by
  unfold subjectMatch at hm
  rw [if_neg hne] at hm
  cases g <;> simp at hm <;> simp [hm]

/-- C8 (amended): when the query name parses as a service-account user name with namespace
`ns` and basename `bn`, every identity returned by `RoleSubjectQuerier.Do` or by
`ClusterRoleSubjectQuerier.Do` has kind ServiceAccount and name `bn`; when the query
namespace is non-empty its namespace is the query namespace, which is `ns` whenever `ns` is
non-empty (with an empty query namespace the subject's namespace is not compared with `ns`,
and with an empty `ns`, as in `system:serviceaccount::b`, `Do` does not compare the two
namespaces); when the name parses as a group name, every returned identity has kind Group
and the query name as its name. -/
theorem C8_subject_queriers_parsed (ctx : Context) (clientset : Clientset) (q : Query)
    (ns bn : String) (g : Bool) (hp : ParseServiceAccount q.Name = (ns, bn, g, true))
    (l : IdentityList)
    (hl : (RoleSubjectQuerier.Do ctx clientset q).out = .ok l
      ∨ (ClusterRoleSubjectQuerier.Do ctx clientset q).out = .ok l)
    (id : Identity) (hid : id ∈ l.Items) :
    (g = false → id.Kind = KindServiceAccount ∧ id.Name = bn
        ∧ (q.Namespace ≠ "" → id.Namespace = q.Namespace ∧ (ns ≠ "" → id.Namespace = ns)))
      ∧ (g = true → id.Kind = KindGroup ∧ id.Name = q.Name) := by
  have hne := name_ne_empty_of_valid q.Name ns bn g hp
  have main : ∃ s : Subject, id.Kind = s.Kind ∧ id.Name = s.Name ∧ id.Namespace = s.Namespace
      ∧ (q.Namespace = "" ∨ q.Namespace = s.Namespace) ∧ subjectMatch q bn g true s = true
      ∧ (ns ≠ "" → q.Namespace = "" ∨ ns = q.Namespace) := by
    rcases hl with hl | hl
    · obtain ⟨⟨calls, hs⟩, hc⟩ := roleSubject_Do_ok_inv ctx clientset q ns bn g true hp l hl
      obtain ⟨items, _, rfl⟩ := roleSubject_scan_ok_inv clientset q bn g true calls l hs
      simp only [List.mem_flatMap, List.mem_map, List.mem_filter, Bool.and_eq_true,
        decide_eq_true_eq] at hid
      obtain ⟨r, _, s, ⟨_, h1, h2⟩, rfl⟩ := hid
      exact ⟨s, rfl, rfl, rfl, h1, h2, fun h => (hc rfl h).1⟩
    · obtain ⟨⟨calls, hs⟩, hc⟩ :=
        clusterRoleSubject_Do_ok_inv ctx clientset q ns bn g true hp l hl
      obtain ⟨items, _, rfl⟩ :=
        clusterRoleSubject_scan_ok_inv clientset q bn g true calls l hs
      simp only [List.mem_flatMap, List.mem_map, List.mem_filter, Bool.and_eq_true,
        decide_eq_true_eq] at hid
      obtain ⟨r, _, s, ⟨_, h1, h2⟩, rfl⟩ := hid
      exact ⟨s, rfl, rfl, rfl, h1, h2, fun h => (hc rfl h).1⟩
  obtain ⟨s, hk, hn, hs, h1, h2, h3⟩ := main
  have hm := subjectMatch_parsed q bn g s hne h2
  rw [hk, hn, hs]
  refine ⟨fun hg => ⟨(hm.1 hg).1, (hm.1 hg).2, fun hq => ?_⟩, hm.2⟩
  rcases h1 with h1 | h1
  · exact absurd h1 hq
  · refine ⟨h1.symm, fun hnse => ?_⟩
    rcases h3 hnse with h3 | h3
    · exact absurd h3 hq
    · rw [← h1, h3]

/-- C8 (amended) at a query for a service-account user whose namespace is also the query namespace. -/
theorem C8_subject_queriers_parsed_witness :
    (false = false →
      (Identity.mk "ServiceAccount" "some-sa" "some-namespace"
          (some (IdentitySource.mk "RoleBinding" "rb" "some-namespace")) "").Kind
        = KindServiceAccount
      ∧ (Identity.mk "ServiceAccount" "some-sa" "some-namespace"
          (some (IdentitySource.mk "RoleBinding" "rb" "some-namespace")) "").Name = "some-sa"
      ∧ ("some-namespace" ≠ "" →
        (Identity.mk "ServiceAccount" "some-sa" "some-namespace"
          (some (IdentitySource.mk "RoleBinding" "rb" "some-namespace")) "").Namespace
          = "some-namespace"
        ∧ ("some-namespace" ≠ "" →
          (Identity.mk "ServiceAccount" "some-sa" "some-namespace"
            (some (IdentitySource.mk "RoleBinding" "rb" "some-namespace")) "").Namespace
            = "some-namespace")))
    ∧ (false = true →
      (Identity.mk "ServiceAccount" "some-sa" "some-namespace"
          (some (IdentitySource.mk "RoleBinding" "rb" "some-namespace")) "").Kind = KindGroup
      ∧ (Identity.mk "ServiceAccount" "some-sa" "some-namespace"
          (some (IdentitySource.mk "RoleBinding" "rb" "some-namespace")) "").Name
        = "system:serviceaccount:some-namespace:some-sa") :=
  C8_subject_queriers_parsed Context.live
    (fakeClientset ["some-namespace"]
      [RoleBinding.mk "" "rb" "some-namespace"
        [Subject.mk "ServiceAccount" "" "some-sa" "some-namespace",
         Subject.mk "User" "" "some-sa" "some-namespace"]] [] [])
    (Query.mk "ServiceAccount" "system:serviceaccount:some-namespace:some-sa"
      "some-namespace" none)
    "some-namespace" "some-sa" false (by decide)
    (IdentityList.mk [Identity.mk "ServiceAccount" "some-sa" "some-namespace"
      (some (IdentitySource.mk "RoleBinding" "rb" "some-namespace")) ""])
    (Or.inl (by decide))
    (Identity.mk "ServiceAccount" "some-sa" "some-namespace"
      (some (IdentitySource.mk "RoleBinding" "rb" "some-namespace")) "")
    (by decide)

/-! ## The service-account queriers (claims C9, C10) -/

theorem ServiceAccountUserQuerier.foldl_accounts (accounts : List ServiceAccount)
    (list : IdentityList) :
    accounts.foldl (fun (list : IdentityList) (s : ServiceAccount) =>
        IdentityList.mk (list.Items ++ [Identity.mk KindServiceAccount s.Name s.Namespace none ""]))
        list
      = IdentityList.mk (list.Items ++ accounts.map (fun s =>
          Identity.mk KindServiceAccount s.Name s.Namespace none "")) := by
  induction accounts generalizing list with
  | nil => simp
  | cons a rest ih => rw [List.foldl_cons, ih]; simp

/-- C9: with a live context, `ServiceAccountUserQuerier.Do` returns the empty list, no error
and makes no client call when the query name does not parse as a service-account user name
(so for the empty name and for every group name); when the name parses as a user name with
a non-empty namespace `ns` that agrees with the query namespace and exists, its client calls
are the namespace `Get` followed by exactly one `ServiceAccounts.List` in namespace `ns` with
field selector `metadata.name=<basename>`, and it returns one identity per listed account,
in list order, of kind ServiceAccount with the account's name and namespace, for every query
kind. -/
theorem C9_ServiceAccountUserQuerier_Do (clientset : Clientset) (q : Query) :
    (¬ ((ParseServiceAccount q.Name).2.2.2 = true ∧ (ParseServiceAccount q.Name).2.2.1 = false) →
      ServiceAccountUserQuerier.Do Context.live clientset q = ⟨.ok (IdentityList.mk []), []⟩) ∧
    (q.Name = "" →
      ServiceAccountUserQuerier.Do Context.live clientset q = ⟨.ok (IdentityList.mk []), []⟩) ∧
    (∀ ns bn : String, ParseServiceAccount q.Name = (ns, bn, false, true) → ns ≠ "" →
      (q.Namespace = "" ∨ q.Namespace = ns) → clientset.NamespacesGet ns = (true, none) →
      (ServiceAccountUserQuerier.Do Context.live clientset q).calls
          = [Call.NamespacesGet ns,
              Call.ServiceAccountsList ns (ListOptions.mk ("metadata.name=" ++ bn))]
        ∧ ∀ accounts : List ServiceAccount,
            clientset.ServiceAccountsList ns (ListOptions.mk ("metadata.name=" ++ bn))
              = (some accounts, none) →
            (ServiceAccountUserQuerier.Do Context.live clientset q).out
              = .ok (IdentityList.mk (accounts.map (fun a =>
                  Identity.mk KindServiceAccount a.Name a.Namespace none "")))) := by
  have part1 : ¬ ((ParseServiceAccount q.Name).2.2.2 = true
        ∧ (ParseServiceAccount q.Name).2.2.1 = false) →
      ServiceAccountUserQuerier.Do Context.live clientset q
        = ⟨.ok (IdentityList.mk []), []⟩ := by
    intro h
    rcases hp : ParseServiceAccount q.Name with ⟨ns, n, g, v⟩
    rw [hp] at h
    simp only [not_and, Bool.not_eq_false] at h
    unfold ServiceAccountUserQuerier.Do
    simp only [Context.Err, hp]
    have c : v = false ∨ g = true := by
      cases v
      · exact Or.inl rfl
      · exact Or.inr (h rfl)
    rw [if_pos c]
  refine ⟨part1, ?_, ?_⟩
  · intro h
    apply part1
    rw [h, ParseServiceAccount_empty]
    simp
  · intro ns bn hp hns hq hg
    have hcalls : ∀ r : Option (List ServiceAccount) × Option Error,
        clientset.ServiceAccountsList ns (ListOptions.mk ("metadata.name=" ++ bn)) = r →
        ServiceAccountUserQuerier.Do Context.live clientset q
          = ServiceAccountUserQuerier.scan clientset ns bn [Call.NamespacesGet ns] := by
      intro r _
      unfold ServiceAccountUserQuerier.Do
      simp only [Context.Err, hp, hg]
      have c2 : ¬ (q.Namespace ≠ "" ∧ ns ≠ q.Namespace) := by
        rcases hq with h | h <;> simp [h]
      simp [hns, c2]
    have e := hcalls _ rfl
    rw [e]
    constructor
    · unfold ServiceAccountUserQuerier.scan
      rcases hl : clientset.ServiceAccountsList ns (ListOptions.mk ("metadata.name=" ++ bn))
        with ⟨res, err⟩
      simp only [hl]
      cases err with
      | some e => rfl
      | none => cases res <;> rfl
    · intro accounts hl
      unfold ServiceAccountUserQuerier.scan
      simp only [hl]
      have := ServiceAccountUserQuerier.foldl_accounts accounts (IdentityList.mk [])
      simp only [List.nil_append] at this
      exact congrArg Outcome.ok this

/-- C9 at a query for a service-account user and at a query for a group name. -/
theorem C9_ServiceAccountUserQuerier_Do_witness :
    ServiceAccountUserQuerier.Do Context.live
        (fakeClientset ["some-namespace"] [] []
          [ServiceAccount.mk "" "some-sa" "some-namespace",
           ServiceAccount.mk "" "other-sa" "some-namespace",
           ServiceAccount.mk "" "some-sa" "other-namespace"])
        (Query.mk "User" "system:serviceaccount:some-namespace:some-sa" "" none)
      = ⟨.ok (IdentityList.mk [Identity.mk "ServiceAccount" "some-sa" "some-namespace" none ""]),
          [Call.NamespacesGet "some-namespace",
           Call.ServiceAccountsList "some-namespace" (ListOptions.mk "metadata.name=some-sa")]⟩ ∧
    ServiceAccountUserQuerier.Do Context.live
        (fakeClientset ["some-namespace"] [] []
          [ServiceAccount.mk "" "some-sa" "some-namespace"])
        (Query.mk "Group" "system:serviceaccounts:some-namespace" "" none)
      = ⟨.ok (IdentityList.mk []), []⟩ := by
  have h := C9_ServiceAccountUserQuerier_Do
    (fakeClientset ["some-namespace"] [] []
      [ServiceAccount.mk "" "some-sa" "some-namespace",
       ServiceAccount.mk "" "other-sa" "some-namespace",
       ServiceAccount.mk "" "some-sa" "other-namespace"])
    (Query.mk "User" "system:serviceaccount:some-namespace:some-sa" "" none)
  have h2 := h.2.2 "some-namespace" "some-sa" (by decide) (by decide) (by decide) (by decide)
  have h3 := (C9_ServiceAccountUserQuerier_Do
    (fakeClientset ["some-namespace"] [] [] [ServiceAccount.mk "" "some-sa" "some-namespace"])
    (Query.mk "Group" "system:serviceaccounts:some-namespace" "" none)).1 (by decide)
  refine ⟨?_, h3⟩
  have ho := h2.2 [ServiceAccount.mk "" "some-sa" "some-namespace"] (by decide)
  have hc := h2.1
  exact DoResult.mk.injEq _ _ _ _ ▸ ⟨ho.trans (by decide), hc.trans (by decide)⟩

/-- C10: with a live context, `ServiceAccountGroupQuerier.Do` returns the empty list, no
error and makes no client call when the query name is empty or does not parse as a
service-account group name; when the name parses as a group name whose namespace, if it has
one, agrees with the query namespace and exists, it returns exactly one identity, of kind
Group, named by the whole query name, in the parsed namespace, and its only client call (if
any) is the namespace `Get`: it makes no `List` call. -/
theorem C10_ServiceAccountGroupQuerier_Do (clientset : Clientset) (q : Query) :
    (q.Name = "" ∨ ¬ ((ParseServiceAccount q.Name).2.2.2 = true
        ∧ (ParseServiceAccount q.Name).2.2.1 = true) →
      ServiceAccountGroupQuerier.Do Context.live clientset q = ⟨.ok (IdentityList.mk []), []⟩) ∧
    (∀ ns bn : String, ParseServiceAccount q.Name = (ns, bn, true, true) →
      (ns ≠ "" → (q.Namespace = "" ∨ q.Namespace = ns)
        ∧ clientset.NamespacesGet ns = (true, none)) →
      ServiceAccountGroupQuerier.Do Context.live clientset q
        = ⟨.ok (IdentityList.mk [Identity.mk KindGroup q.Name ns none ""]),
            if ns = "" then [] else [Call.NamespacesGet ns]⟩) := by
  constructor
  · intro h
    unfold ServiceAccountGroupQuerier.Do
    simp only [Context.Err]
    by_cases hn : q.Name = ""
    · rw [if_pos hn]
    · rw [if_neg hn]
      rcases h with h | h
      · exact absurd h hn
      · rcases hp : ParseServiceAccount q.Name with ⟨ns, n, g, v⟩
        rw [hp] at h
        simp only [not_and, Bool.not_eq_true] at h
        simp only []
        have c : v = false ∨ g = false := by
          cases v
          · exact Or.inl rfl
          · exact Or.inr (h rfl)
        rw [if_pos c]
  · intro ns bn hp hc
    have hn := name_ne_empty_of_valid q.Name ns bn true hp
    unfold ServiceAccountGroupQuerier.Do
    simp only [Context.Err, hp]
    rw [if_neg hn]
    by_cases hns : ns = ""
    · simp [hns, ServiceAccountGroupQuerier.found]
    · obtain ⟨hq, hg⟩ := hc hns
      have c2 : ¬ (q.Namespace ≠ "" ∧ ns ≠ q.Namespace) := by
        rcases hq with h | h <;> simp [h]
      simp [hns, c2, hg, ServiceAccountGroupQuerier.found]

/-- C10 at a query for a namespaced group name and at a query for another group. -/
theorem C10_ServiceAccountGroupQuerier_Do_witness :
    ServiceAccountGroupQuerier.Do Context.live (fakeClientset ["some-namespace"] [] [] [])
        (Query.mk "Group" "system:serviceaccounts:some-namespace" "" none)
      = ⟨.ok (IdentityList.mk
          [Identity.mk "Group" "system:serviceaccounts:some-namespace" "some-namespace" none ""]),
          [Call.NamespacesGet "some-namespace"]⟩ ∧
    ServiceAccountGroupQuerier.Do Context.live (fakeClientset ["some-namespace"] [] [] [])
        (Query.mk "Group" "system:masters" "" none)
      = ⟨.ok (IdentityList.mk []), []⟩ :=
  ⟨((C10_ServiceAccountGroupQuerier_Do (fakeClientset ["some-namespace"] [] [] [])
      (Query.mk "Group" "system:serviceaccounts:some-namespace" "" none)).2
        "some-namespace" "" (by decide) (fun _ => ⟨by decide, by decide⟩)).trans (by decide),
   (C10_ServiceAccountGroupQuerier_Do (fakeClientset ["some-namespace"] [] [] [])
      (Query.mk "Group" "system:masters" "" none)).1 (Or.inr (by decide))⟩

/-! ## The resolution engine (claims C1, C2) -/

/-! ### Moving the head of one queue to the end of the output -/

theorem flatten_set_perm {α : Type} (Q : List (List α)) (i : Nat) (x : α) (r : List α)
    (h : Q[i]? = some (x :: r)) : (x :: (Q.set i r).flatten).Perm Q.flatten := by
  induction Q generalizing i with
  | nil => simp at h
  | cons l Q ih =>
    cases i with
    | zero =>
      simp only [List.getElem?_cons_zero, Option.some.injEq] at h
      subst h
      simp
    | succ i =>
      simp only [List.getElem?_cons_succ] at h
      simp only [List.set_cons_succ, List.flatten_cons]
      exact (List.perm_middle.symm).trans ((ih i h).append_left l)

theorem flatten_set_filter {α : Type} (p : α → Bool) (Q : List (List α)) (i : Nat) (x : α)
    (r : List α) (h : Q[i]? = some (x :: r))
    (hQ : Q.Pairwise (fun a b => ∀ u ∈ a, ∀ w ∈ b, ¬ (p u = true ∧ p w = true))) :
    [x].filter p ++ ((Q.set i r).flatten).filter p = Q.flatten.filter p := by
  induction Q generalizing i with
  | nil => simp at h
  | cons l Q ih =>
    cases i with
    | zero =>
      simp only [List.getElem?_cons_zero, Option.some.injEq] at h
      subst h
      simp [List.filter_cons]
      split_ifs <;> simp
    | succ i =>
      simp only [List.getElem?_cons_succ] at h
      rw [List.pairwise_cons] at hQ
      simp only [List.set_cons_succ, List.flatten_cons, List.filter_append]
      rw [← ih i h hQ.2, ← List.append_assoc, ← List.append_assoc]
      congr 1
      have hmem : (x :: r) ∈ Q := List.getElem?_mem h
      by_cases hx : p x = true
      · have hl : l.filter p = [] := by
          rw [List.filter_eq_nil_iff]
          intro y hy hpy
          exact hQ.1 _ hmem y hy x (List.mem_cons_self _ _) ⟨hpy, hx⟩
        rw [hl]
        simp
      · simp [List.filter_cons, hx]

theorem pairwise_set_of_imp {α : Type} {R : α → α → Prop} (Q : List α) (i : Nat) (a b : α)
    (hQ : Q.Pairwise R) (hi : Q[i]? = some a) (h1 : ∀ c, R c a → R c b)
    (h2 : ∀ c, R a c → R b c) : (Q.set i b).Pairwise R := by
  induction Q generalizing i with
  | nil => simp
  | cons l Q ih =>
    rw [List.pairwise_cons] at hQ
    cases i with
    | zero =>
      simp only [List.getElem?_cons_zero, Option.some.injEq] at hi
      subst hi
      simp only [List.set_cons_zero, List.pairwise_cons]
      exact ⟨fun c hc => h2 c (hQ.1 c hc), hQ.2⟩
    | succ i =>
      simp only [List.getElem?_cons_succ] at hi
      simp only [List.set_cons_succ, List.pairwise_cons]
      refine ⟨fun c hc => ?_, ih i hQ.2 hi⟩
      rcases List.mem_or_eq_of_mem_set hc with hc | hc
      · exact hQ.1 c hc
      · rw [hc]
        exact h1 l (hQ.1 a (List.getElem?_mem hi))

theorem set_eq_self_of_getElem? {α : Type} (Q : List α) (i : Nat) (a : α)
    (hi : Q[i]? = some a) : Q.set i a = Q := by
  induction Q generalizing i with
  | nil => simp
  | cons l Q ih =>
    cases i with
    | zero =>
      simp only [List.getElem?_cons_zero, Option.some.injEq] at hi
      simp [hi]
    | succ i =>
      simp only [List.getElem?_cons_succ] at hi
      simp [ih i hi]

theorem mem_set_of_ne {α : Type} (Q : List α) (i : Nat) (a b c : α) (ha : a ∈ Q)
    (hi : Q[i]? = some b) (hne : a ≠ b) : a ∈ Q.set i c := by
  induction Q generalizing i with
  | nil => simp at ha
  | cons l Q ih =>
    cases i with
    | zero =>
      simp only [List.getElem?_cons_zero, Option.some.injEq] at hi
      subst hi
      rcases List.mem_cons.mp ha with h | h
      · exact absurd h hne
      · simp [h]
    | succ i =>
      simp only [List.getElem?_cons_succ] at hi
      rcases List.mem_cons.mp ha with h | h
      · simp [h]
      · simp only [List.set_cons_succ, List.mem_cons]
        exact Or.inr (ih i h hi)

/-! ### Executions in which every `Do` returns a list -/

theorem Task.step_ready_live (clientset : Clientset) (query : Query) (ctx : Context) (sh : Shared)
    (querier : Querier) (list : IdentityList) (h1 : sh.gCtx = ctx)
    (hl : (querier.Do ctx clientset query).out = .ok list) :
    Task.step clientset query sh (.ready querier)
      = ({ sh with calls := sh.calls ++ (querier.Do ctx clientset query).calls },
          .appending querier.Label list.Items) := by
  simp only [Task.step, h1, hl]

theorem Task.step_clean (clientset : Clientset) (query : Query) (ctx : Context) (sh : Shared) (t : Task)
    (hsh : sh.clean ctx) (ht : t.okUnder clientset query ctx) :
    (Task.step clientset query sh t).1.clean ctx
      ∧ (Task.step clientset query sh t).2.okUnder clientset query ctx
      ∧ (((Task.step clientset query sh t).1.fullList = sh.fullList
          ∧ (Task.step clientset query sh t).2.rem clientset query ctx = t.rem clientset query ctx)
        ∨ ∃ x, t.rem clientset query ctx = x :: (Task.step clientset query sh t).2.rem clientset query ctx
          ∧ (Task.step clientset query sh t).1.fullList.Items = sh.fullList.Items ++ [x]) := by
  obtain ⟨h1, h2, h3⟩ := hsh
  cases t with
  | ready querier =>
    obtain ⟨list, hl⟩ := ht
    rw [Task.step_ready_live clientset query ctx sh querier list h1 hl]
    refine ⟨⟨h1, h2, h3⟩, trivial, Or.inl ⟨rfl, ?_⟩⟩
    simp only [Task.rem, hl]
  | appending querierType items =>
    cases items with
    | nil => exact ⟨⟨h1, h2, h3⟩, trivial, Or.inl ⟨rfl, rfl⟩⟩
    | cons item rest =>
      exact ⟨⟨h1, h2, h3⟩, trivial, Or.inr ⟨stamp querierType item, rfl, rfl⟩⟩
  | finished => exact ⟨⟨h1, h2, h3⟩, trivial, Or.inl ⟨rfl, rfl⟩⟩

theorem Task.complete_clean (clientset : Clientset) (query : Query) (ctx : Context) (sh : Shared) (t : Task)
    (hsh : sh.clean ctx) (ht : t.okUnder clientset query ctx) :
    (Task.complete clientset query sh t).clean ctx
      ∧ (Task.complete clientset query sh t).fullList.Items
          = sh.fullList.Items ++ t.rem clientset query ctx := by
  obtain ⟨h1, h2, h3⟩ := hsh
  unfold Task.complete
  rw [h3]
  simp only [Bool.false_eq_true, if_false]
  cases t with
  | ready querier =>
    obtain ⟨list, hl⟩ := ht
    rw [Task.step_ready_live clientset query ctx sh querier list h1 hl]
    refine ⟨⟨h1, h2, h3⟩, ?_⟩
    simp only [Task.rem, hl]
  | appending querierType items =>
    cases items with
    | nil => exact ⟨⟨h1, h2, h3⟩, by simp [Task.step, Task.rem]⟩
    | cons item rest => exact ⟨⟨h1, h2, h3⟩, by simp [Task.step, Task.rem]⟩
  | finished => exact ⟨⟨h1, h2, h3⟩, by simp [Task.step, Task.rem]⟩

theorem drain_clean (clientset : Clientset) (query : Query) (ctx : Context) (ts : List Task) (sh : Shared)
    (hsh : sh.clean ctx) (hts : ∀ t ∈ ts, t.okUnder clientset query ctx) :
    (ts.foldl (Task.complete clientset query) sh).clean ctx
      ∧ (ts.foldl (Task.complete clientset query) sh).fullList.Items
          = total clientset query ctx (sh, ts) := by
  induction ts generalizing sh with
  | nil => exact ⟨hsh, by simp [total]⟩
  | cons t ts ih =>
    have hc := Task.complete_clean clientset query ctx sh t hsh (hts t (List.mem_cons_self _ _))
    have := ih (Task.complete clientset query sh t) hc.1
      (fun u hu => hts u (List.mem_cons_of_mem _ hu))
    rw [List.foldl_cons]
    refine ⟨this.1, ?_⟩
    rw [this.2]
    simp only [total, hc.2, List.map_cons, List.flatten_cons, List.append_assoc]

theorem schedule_clean (clientset : Clientset) (query : Query) (ctx : Context) (st : Shared × List Task)
    (i : Nat) (h1 : st.1.clean ctx) (h2 : ∀ t ∈ st.2, t.okUnder clientset query ctx)
    (h3 : (st.2.map (Task.rem clientset query ctx)).Pairwise disjointLabels) :
    (schedule clientset query st i).1.clean ctx
      ∧ (∀ t ∈ (schedule clientset query st i).2, t.okUnder clientset query ctx)
      ∧ ((schedule clientset query st i).2.map (Task.rem clientset query ctx)).Pairwise
          disjointLabels
      ∧ (total clientset query ctx (schedule clientset query st i)).Perm (total clientset query ctx st)
      ∧ ∀ label : String,
          (total clientset query ctx (schedule clientset query st i)).filter
              (fun y => y.Querier == label)
            = (total clientset query ctx st).filter (fun y => y.Querier == label) := by
  obtain ⟨sh, ts⟩ := st
  have hf : sh.faulted = false := h1.2.2
  simp only [schedule, hf]
  cases hi : ts[i]? with
  | none => exact ⟨h1, h2, h3, List.Perm.refl _, fun _ => rfl⟩
  | some t =>
    have ht := h2 t (List.getElem?_mem hi)
    obtain ⟨c1, c2, c3⟩ := Task.step_clean clientset query ctx sh t h1 ht
    simp only [Bool.false_eq_true, if_false]
    have hok : ∀ u ∈ ts.set i (Task.step clientset query sh t).2, u.okUnder clientset query ctx := by
      intro u hu
      rcases List.mem_or_eq_of_mem_set hu with hu | hu
      · exact h2 u hu
      · rw [hu]; exact c2
    have hmap : (ts.map (Task.rem clientset query ctx))[i]? = some (t.rem clientset query ctx) := by
      simp [hi]
    refine ⟨c1, hok, ?_⟩
    rcases c3 with ⟨e1, e2⟩ | ⟨x, e1, e2⟩
    · have hsame : (ts.set i (Task.step clientset query sh t).2).map (Task.rem clientset query ctx)
          = ts.map (Task.rem clientset query ctx) := by
        rw [List.map_set, e2]
        exact set_eq_self_of_getElem? _ i _ hmap
      have htot : total clientset query ctx
          ((Task.step clientset query sh t).1, ts.set i (Task.step clientset query sh t).2)
          = total clientset query ctx (sh, ts) := by
        simp only [total, hsame, e1]
      rw [htot, hsame]
      exact ⟨h3, List.Perm.refl _, fun _ => rfl⟩
    · rw [e1] at hmap
      have hset : (ts.set i (Task.step clientset query sh t).2).map (Task.rem clientset query ctx)
          = (ts.map (Task.rem clientset query ctx)).set i
              ((Task.step clientset query sh t).2.rem clientset query ctx) := List.map_set
      simp only [total, hset, e2]
      refine ⟨?_, ?_, ?_⟩
      · refine pairwise_set_of_imp _ i _ _ h3 hmap ?_ ?_
        · intro c hc u hu w hw
          exact hc u hu w (List.mem_cons_of_mem _ hw)
        · intro c hc u hu w hw
          exact hc u (List.mem_cons_of_mem _ hu) w hw
      · rw [List.append_assoc]
        exact (flatten_set_perm _ i x _ hmap).append_left _
      · intro label
        rw [List.append_assoc, List.filter_append, List.filter_append, List.filter_append]
        congr 1
        refine flatten_set_filter _ _ i x _ hmap (h3.imp ?_)
        intro a b hab u hu w hw hp
        simp only [beq_iff_eq] at hp
        exact hab u hu w hw (hp.1.trans hp.2.symm)

theorem schedule_foldl_clean (clientset : Clientset) (query : Query) (ctx : Context) (sched : List Nat)
    (st : Shared × List Task) (h1 : st.1.clean ctx) (h2 : ∀ t ∈ st.2, t.okUnder clientset query ctx)
    (h3 : (st.2.map (Task.rem clientset query ctx)).Pairwise disjointLabels) :
    (sched.foldl (schedule clientset query) st).1.clean ctx
      ∧ (∀ t ∈ (sched.foldl (schedule clientset query) st).2, t.okUnder clientset query ctx)
      ∧ (total clientset query ctx (sched.foldl (schedule clientset query) st)).Perm
          (total clientset query ctx st)
      ∧ ∀ label : String,
          (total clientset query ctx (sched.foldl (schedule clientset query) st)).filter
              (fun y => y.Querier == label)
            = (total clientset query ctx st).filter (fun y => y.Querier == label) := by
  induction sched generalizing st with
  | nil => exact ⟨h1, h2, List.Perm.refl _, fun _ => rfl⟩
  | cons i sched ih =>
    obtain ⟨a1, a2, a3, a4, a5⟩ := schedule_clean clientset query ctx st i h1 h2 h3
    obtain ⟨b1, b2, b3, b4⟩ := ih (schedule clientset query st i) a1 a2 a3
    rw [List.foldl_cons]
    exact ⟨b1, b2, b3.trans a4, fun label => (b4 label).trans (a5 label)⟩

/-! ### The queriers of `NewRegistry` -/

theorem NewRegistry_labels (clientset : Clientset) (query : Query) :
    (((NewRegistry clientset).queriers query).map (fun k => k.Label)).Nodup
      ∧ ∀ k ∈ (NewRegistry clientset).queriers query, k.Label ≠ "" := by
  cases hc : query.ClientCmdConfig with
  | none =>
    simp [Registry.queriers, NewRegistry, hc, CoreGroupQuerier.Label, CoreUserQuerier.Label,
      RoleSubjectQuerier.Label, ClusterRoleSubjectQuerier.Label,
      ServiceAccountUserQuerier.Label, ServiceAccountGroupQuerier.Label,
      ConfigUserQuerier.Label]
  | some config =>
    simp [Registry.queriers, NewRegistry, hc, CoreGroupQuerier.Label, CoreUserQuerier.Label,
      RoleSubjectQuerier.Label, ClusterRoleSubjectQuerier.Label,
      ServiceAccountUserQuerier.Label, ServiceAccountGroupQuerier.Label,
      ConfigUserQuerier.Label]

theorem NewRegistry_compatible_labels (clientset : Clientset) (query : Query) :
    (((NewRegistry clientset).compatible query).map (fun k => k.Label)).Nodup
      ∧ ∀ k ∈ (NewRegistry clientset).compatible query, k.Label ≠ "" := by
  obtain ⟨h1, h2⟩ := NewRegistry_labels clientset query
  constructor
  · exact List.Nodup.sublist ((List.filter_sublist _).map _) h1
  · intro k hk
    exact h2 k (List.mem_of_mem_filter hk)

theorem filter_flatten_of_nodup (ks : List Querier) (f : Querier → List Identity)
    (hf : ∀ k, ∀ y ∈ f k, y.Querier = k.Label) (hnd : (ks.map (fun k => k.Label)).Nodup)
    (k : Querier) (hk : k ∈ ks) :
    ((ks.map f).flatten).filter (fun y => y.Querier == k.Label) = f k := by
  induction ks with
  | nil => simp at hk
  | cons k0 rest ih =>
    rw [List.map_cons, List.nodup_cons] at hnd
    obtain ⟨hnot, hrest⟩ := hnd
    simp only [List.map_cons, List.flatten_cons, List.filter_append]
    have hself : ∀ k1 : Querier, (f k1).filter (fun y => y.Querier == k1.Label) = f k1 := by
      intro k1
      rw [List.filter_eq_self]
      intro y hy
      simp [hf k1 y hy]
    by_cases hlab : k.Label = k0.Label
    · have hnil : ((rest.map f).flatten).filter (fun y => y.Querier == k.Label) = [] := by
        rw [List.filter_eq_nil_iff]
        intro y hy hq
        simp only [List.mem_flatten, List.mem_map] at hy
        obtain ⟨l, ⟨k1, hk1, rfl⟩, hyl⟩ := hy
        simp only [beq_iff_eq] at hq
        apply hnot
        rw [List.mem_map]
        exact ⟨k1, hk1, by rw [← hf k1 y hyl, hq, hlab]⟩
      have hk0 : k = k0 := by
        rcases List.mem_cons.mp hk with h | h
        · exact h
        · exfalso
          apply hnot
          rw [List.mem_map]
          exact ⟨k, h, hlab⟩
      rw [hnil, hk0, hself]
      simp
    · have hnil : (f k0).filter (fun y => y.Querier == k.Label) = [] := by
        rw [List.filter_eq_nil_iff]
        intro y hy hq
        simp only [beq_iff_eq] at hq
        exact hlab (by rw [← hq, hf k0 y hy])
      have hkr : k ∈ rest := by
        rcases List.mem_cons.mp hk with h | h
        · exact absurd (by rw [h]) hlab
        · exact h
      rw [hnil, ih hrest hkr]
      simp

theorem Task.rem_ready (clientset : Clientset) (query : Query) (ctx : Context) (k : Querier)
    (list : IdentityList) (h : (k.Do ctx clientset query).out = .ok list) :
    (Task.ready k).rem clientset query ctx = list.Items.map (stamp k.Label) := by
  simp only [Task.rem, h]

theorem Task.rem_ready_label (clientset : Clientset) (query : Query) (ctx : Context) (k : Querier) :
    ∀ y ∈ (Task.ready k).rem clientset query ctx, y.Querier = k.Label := by
  intro y hy
  simp only [Task.rem] at hy
  split at hy
  · simp only [List.mem_map] at hy
    obtain ⟨x, _, rfl⟩ := hy
    rfl
  · simp at hy

/-- C1: when the `Do` of every compatible querier returns a list, `Registry.Query` returns,
under every interleaving of the goroutines, a list that is a permutation of the concatenation
of those lists (nothing dropped, nothing added, duplicates kept), every item carrying the
label of the querier that produced it: the items labelled with a querier's label are exactly
that querier's items in their original order, and no label is empty. -/
theorem C1_Query_all_succeed (clientset : Clientset) (ctx : Context)
    (options : List QueryOption) (sched : List Nat) (lists : Querier → IdentityList)
    (hok : ∀ k ∈ (NewRegistry clientset).compatible (NewQuery options),
      (k.Do ctx clientset (NewQuery options)).out = .ok (lists k)) :
    ∃ full : IdentityList,
      (NewRegistry clientset).Query sched ctx options = .ok full
      ∧ full.Items.Perm
          (((NewRegistry clientset).compatible (NewQuery options)).map
            (fun k => (lists k).Items.map (stamp k.Label))).flatten
      ∧ (∀ k ∈ (NewRegistry clientset).compatible (NewQuery options),
          full.Items.filter (fun y => y.Querier == k.Label)
            = (lists k).Items.map (stamp k.Label))
      ∧ ∀ y ∈ full.Items, y.Querier ≠ "" := by
  obtain ⟨hnd, hne⟩ := NewRegistry_compatible_labels clientset (NewQuery options)
  generalize hq : NewQuery options = query at hok hnd hne
  generalize hks : (NewRegistry clientset).compatible query = ks at hok hnd hne
  have hstart : (NewRegistry clientset).start ctx query
      = ({ gCtx := ctx }, ks.map Task.ready) := by
    simp only [Registry.start, hks]
  have hrem : (ks.map Task.ready).map (Task.rem clientset query ctx)
      = ks.map (fun k => (lists k).Items.map (stamp k.Label)) := by
    rw [List.map_map]
    apply List.map_congr_left
    intro k hk
    exact Task.rem_ready clientset query ctx k (lists k) (hok k hk)
  have h1 : ({ gCtx := ctx } : Shared).clean ctx := ⟨rfl, rfl, rfl⟩
  have h2 : ∀ t ∈ ks.map Task.ready, t.okUnder clientset query ctx := by
    intro t ht
    rw [List.mem_map] at ht
    obtain ⟨k, hk, rfl⟩ := ht
    exact ⟨lists k, hok k hk⟩
  have h3 : ((ks.map Task.ready).map (Task.rem clientset query ctx)).Pairwise disjointLabels := by
    rw [List.map_map, List.pairwise_map]
    have hp : ks.Pairwise (fun a b => a.Label ≠ b.Label) := List.pairwise_map.mp hnd
    refine hp.imp ?_
    intro a b hab u hu w hw
    have e1 := Task.rem_ready_label clientset query ctx a u hu
    have e2 := Task.rem_ready_label clientset query ctx b w hw
    rw [e1, e2]
    exact hab
  obtain ⟨a1, a2, a3, a4⟩ := schedule_foldl_clean clientset query ctx sched
    ({ gCtx := ctx }, ks.map Task.ready) h1 h2 h3
  obtain ⟨b1, b2⟩ := drain_clean clientset query ctx
    (sched.foldl (schedule clientset query) ({ gCtx := ctx }, ks.map Task.ready)).2
    (sched.foldl (schedule clientset query) ({ gCtx := ctx }, ks.map Task.ready)).1
    a1 a2
  have htot : total clientset query ctx ({ gCtx := ctx }, ks.map Task.ready)
      = (ks.map (fun k => (lists k).Items.map (stamp k.Label))).flatten := by
    simp only [total, hrem, List.nil_append]
  rw [htot] at a3 a4
  have hrun : (NewRegistry clientset).run sched ctx query
      = ((sched.foldl (schedule clientset query)
            ({ gCtx := ctx }, ks.map Task.ready)).2).foldl
          (Task.complete clientset query)
          (sched.foldl (schedule clientset query)
            ({ gCtx := ctx }, ks.map Task.ready)).1 := by
    simp only [Registry.run, hstart]
    rfl
  refine ⟨((NewRegistry clientset).run sched ctx query).fullList, ?_, ?_, ?_, ?_⟩
  · simp only [Registry.Query, hq, Shared.wait]
    rw [hrun]
    rw [b1.2.2, b1.2.1]
    simp
  · rw [hrun, b2]
    exact a3
  · intro k hk
    rw [hrun, b2, a4 k.Label]
    exact filter_flatten_of_nodup ks (fun k => (lists k).Items.map (stamp k.Label))
      (by
        intro k1 y hy
        simp only [List.mem_map] at hy
        obtain ⟨x, _, rfl⟩ := hy
        rfl) hnd k hk
  · intro y hy
    rw [hrun, b2] at hy
    have hy2 := a3.mem_iff.mp hy
    simp only [List.mem_flatten, List.mem_map] at hy2
    obtain ⟨l, ⟨k, hk, rfl⟩, hyl⟩ := hy2
    simp only [List.mem_map] at hyl
    obtain ⟨x, _, rfl⟩ := hyl
    exact hne k hk

/-- C1 at a concrete cluster, query and schedule: two queriers contribute one item each. -/
theorem C1_Query_all_succeed_witness :
    ∃ full : IdentityList,
      (NewRegistry (fakeClientset ["some-namespace"]
          [RoleBinding.mk "" "rb" "some-namespace"
            [Subject.mk "Group" "" "system:masters" "some-namespace"]] [] [])).Query
        [1, 0, 1, 0, 3] Context.live
        [QueryOption.QueryKind "Group", QueryOption.QueryName "system:masters"] = .ok full
      ∧ full.Items.Perm
        [Identity.mk "Group" "system:masters" "" none "system-defined group",
         Identity.mk "Group" "system:masters" "some-namespace"
          (some (IdentitySource.mk "RoleBinding" "rb" "some-namespace"))
          "role binding subject"] := by
  obtain ⟨full, h1, h2, _, _⟩ := C1_Query_all_succeed
    (fakeClientset ["some-namespace"]
      [RoleBinding.mk "" "rb" "some-namespace"
        [Subject.mk "Group" "" "system:masters" "some-namespace"]] [] [])
    Context.live
    [QueryOption.QueryKind "Group", QueryOption.QueryName "system:masters"]
    [1, 0, 1, 0, 3]
    (fun k =>
      match (k.Do Context.live
        (fakeClientset ["some-namespace"]
          [RoleBinding.mk "" "rb" "some-namespace"
            [Subject.mk "Group" "" "system:masters" "some-namespace"]] [] [])
        (NewQuery [QueryOption.QueryKind "Group", QueryOption.QueryName "system:masters"])).out
      with
      | .ok list => list
      | _ => {})
    (by
      intro k hk
      simp only [Registry.compatible, Registry.queriers, NewRegistry, NewQuery,
        List.foldl_cons, List.foldl_nil, QueryOption.apply] at hk
      simp [CoreGroupQuerier.Compatible, CoreUserQuerier.Compatible,
        RoleSubjectQuerier.Compatible, ClusterRoleSubjectQuerier.Compatible,
        ServiceAccountUserQuerier.Compatible, ServiceAccountGroupQuerier.Compatible,
        KindUser, KindGroup, KindServiceAccount, List.filter_cons] at hk
      rcases hk with h | h | h | h <;> rw [h] <;> decide)
  exact ⟨full, h1, h2.trans (by decide)⟩

/-! ### Executions in which a `Do` returns an error -/

theorem Task.step_sound (clientset : Clientset) (query : Query) (ctx : Context)
    (ks : List Querier) (hks : ∀ k ∈ ks, k.returns clientset query ctx) (sh : Shared)
    (t : Task) (hsh : sh.sound clientset query ctx ks) (ht : ∀ k, t = .ready k → k ∈ ks) :
    (Task.step clientset query sh t).1.sound clientset query ctx ks
      ∧ (∀ k, (Task.step clientset query sh t).2 ≠ .ready k)
      ∧ (sh.err = none → t.failsUnder clientset query ctx →
          (Task.step clientset query sh t).1.err ≠ none)
      ∧ (sh.err ≠ none → (Task.step clientset query sh t).1.err ≠ none) := by
  obtain ⟨j1, j2, j3, j4⟩ := hsh
  cases t with
  | ready k =>
    obtain ⟨hnf1, hnf2⟩ := hks k (ht k rfl)
    have hnf : (k.Do sh.gCtx clientset query).out ≠ .fault := by
      rcases j3 with h | h <;> rw [h] <;> assumption
    cases hout : (k.Do sh.gCtx clientset query).out with
    | ok list =>
      simp only [Task.step, hout]
      refine ⟨⟨j1, j2, j3, j4⟩, ?_, ?_, fun h => h⟩
      · intro k1; simp
      · intro herr hf
        obtain ⟨e, he⟩ := hf
        rw [j2 herr] at hout
        rw [hout] at he
        cases he
    | error e =>
      cases herr : sh.err with
      | none =>
        have hg := j2 herr
        simp only [Task.step, hout, Shared.fail, herr]
        refine ⟨⟨j1, ?_, ?_, ?_⟩, ?_, ?_, ?_⟩
        · intro h; simp at h
        · rw [hg]
          cases ctx
          · right; rfl
          · right; rfl
          · left; rfl
        · intro m hm
          simp only [Option.some.injEq] at hm
          rw [hg] at hout
          exact ⟨k, ht k rfl, e, hout, hm.symm⟩
        · intro k1; simp
        · intro _ _; simp
        · intro _; simp
      | some first =>
        simp only [Task.step, hout, Shared.fail, herr]
        refine ⟨⟨j1, ?_, ?_, ?_⟩, ?_, ?_, ?_⟩
        · intro h; simp at h
        · rcases j3 with h | h
          · rw [h]
            cases ctx
            · right; rfl
            · right; rfl
            · left; rfl
          · rw [h]
            right; rfl
        · intro m hm
          exact j4 m (herr.trans hm)
        · intro k1; simp
        · intro _ _; simp
        · intro _; simp
    | fault => exact absurd hout hnf
  | appending querierType items =>
    cases items with
    | nil =>
      refine ⟨⟨j1, j2, j3, j4⟩, ?_, ?_, ?_⟩
      · intro k1; simp [Task.step]
      · intro _ hf; exact hf.elim
      · intro h; exact h
    | cons item rest =>
      refine ⟨⟨j1, j2, j3, j4⟩, ?_, ?_, ?_⟩
      · intro k1; simp [Task.step]
      · intro _ hf; exact hf.elim
      · intro h; exact h
  | finished =>
    refine ⟨⟨j1, j2, j3, j4⟩, ?_, ?_, ?_⟩
    · intro k1; simp [Task.step]
    · intro _ hf; exact hf.elim
    · intro h; exact h

theorem Task.complete_sound (clientset : Clientset) (query : Query) (ctx : Context) (ks : List Querier)
    (hks : ∀ k ∈ ks, k.returns clientset query ctx) (sh : Shared) (t : Task)
    (hsh : sh.sound clientset query ctx ks) (ht : ∀ k, t = .ready k → k ∈ ks) :
    (Task.complete clientset query sh t).sound clientset query ctx ks
      ∧ (sh.err = none → t.failsUnder clientset query ctx →
          (Task.complete clientset query sh t).err ≠ none)
      ∧ (sh.err ≠ none → (Task.complete clientset query sh t).err ≠ none) := by
  obtain ⟨s1, _, s3, s4⟩ := Task.step_sound clientset query ctx ks hks sh t hsh ht
  have j1 : sh.faulted = false := hsh.1
  unfold Task.complete
  rw [j1]
  simp only [Bool.false_eq_true, if_false]
  rcases hstep : Task.step clientset query sh t with ⟨sh1, t1⟩
  rw [hstep] at s1 s3 s4
  cases t1 with
  | ready k => exact ⟨s1, s3, s4⟩
  | appending querierType items => exact ⟨s1, s3, s4⟩
  | finished => exact ⟨s1, s3, s4⟩

theorem drain_sound (clientset : Clientset) (query : Query) (ctx : Context) (ks : List Querier)
    (hks : ∀ k ∈ ks, k.returns clientset query ctx) (ts : List Task) (sh : Shared)
    (hsh : sh.sound clientset query ctx ks) (hts : ∀ t ∈ ts, ∀ k, t = .ready k → k ∈ ks)
    (hlive : sh.err = none → ∃ t ∈ ts, t.failsUnder clientset query ctx) :
    (ts.foldl (Task.complete clientset query) sh).sound clientset query ctx ks
      ∧ (ts.foldl (Task.complete clientset query) sh).err ≠ none := by
  induction ts generalizing sh with
  | nil =>
    refine ⟨hsh, fun h => ?_⟩
    obtain ⟨t, ht, _⟩ := hlive h
    simp at ht
  | cons t ts ih =>
    obtain ⟨c1, c2, c3⟩ := Task.complete_sound clientset query ctx ks hks sh t hsh
      (hts t (List.mem_cons_self _ _))
    rw [List.foldl_cons]
    refine ih (Task.complete clientset query sh t) c1
      (fun u hu => hts u (List.mem_cons_of_mem _ hu)) ?_
    intro hnone
    have hsn : sh.err = none := by
      by_contra hne
      exact c3 hne hnone
    obtain ⟨t0, ht0, hf⟩ := hlive hsn
    rcases List.mem_cons.mp ht0 with h | h
    · rw [h] at hf
      exact absurd hnone (c2 hsn hf)
    · exact ⟨t0, h, hf⟩

theorem schedule_sound (clientset : Clientset) (query : Query) (ctx : Context) (ks : List Querier)
    (hks : ∀ k ∈ ks, k.returns clientset query ctx) (st : Shared × List Task) (i : Nat)
    (hsh : st.1.sound clientset query ctx ks) (hts : ∀ t ∈ st.2, ∀ k, t = .ready k → k ∈ ks)
    (hlive : st.1.err = none → ∃ t ∈ st.2, t.failsUnder clientset query ctx) :
    (schedule clientset query st i).1.sound clientset query ctx ks
      ∧ (∀ t ∈ (schedule clientset query st i).2, ∀ k, t = .ready k → k ∈ ks)
      ∧ ((schedule clientset query st i).1.err = none →
          ∃ t ∈ (schedule clientset query st i).2, t.failsUnder clientset query ctx) := by
  obtain ⟨sh, ts⟩ := st
  have hf : sh.faulted = false := hsh.1
  simp only [schedule, hf]
  cases hi : ts[i]? with
  | none => exact ⟨hsh, hts, hlive⟩
  | some t =>
    have htm : t ∈ ts := List.getElem?_mem hi
    obtain ⟨s1, s2, s3, s4⟩ := Task.step_sound clientset query ctx ks hks sh t hsh (hts t htm)
    simp only [Bool.false_eq_true, if_false]
    refine ⟨s1, ?_, ?_⟩
    · intro u hu k hk
      rcases List.mem_or_eq_of_mem_set hu with h | h
      · exact hts u h k hk
      · rw [h] at hk
        exact absurd hk (s2 k)
    · intro hnone
      have hsn : sh.err = none := by
        by_contra hne
        exact s4 hne hnone
      obtain ⟨t0, ht0, hfl⟩ := hlive hsn
      have hne : t0 ≠ t := by
        intro h
        rw [h] at hfl
        exact s3 hsn hfl hnone
      exact ⟨t0, mem_set_of_ne ts i t0 t _ ht0 hi hne, hfl⟩

theorem schedule_foldl_sound (clientset : Clientset) (query : Query) (ctx : Context) (ks : List Querier)
    (hks : ∀ k ∈ ks, k.returns clientset query ctx) (sched : List Nat) (st : Shared × List Task)
    (hsh : st.1.sound clientset query ctx ks) (hts : ∀ t ∈ st.2, ∀ k, t = .ready k → k ∈ ks)
    (hlive : st.1.err = none → ∃ t ∈ st.2, t.failsUnder clientset query ctx) :
    (sched.foldl (schedule clientset query) st).1.sound clientset query ctx ks
      ∧ (∀ t ∈ (sched.foldl (schedule clientset query) st).2, ∀ k, t = .ready k → k ∈ ks)
      ∧ ((sched.foldl (schedule clientset query) st).1.err = none →
          ∃ t ∈ (sched.foldl (schedule clientset query) st).2,
            t.failsUnder clientset query ctx) := by
  induction sched generalizing st with
  | nil => exact ⟨hsh, hts, hlive⟩
  | cons i sched ih =>
    obtain ⟨a1, a2, a3⟩ := schedule_sound clientset query ctx ks hks st i hsh hts hlive
    rw [List.foldl_cons]
    exact ih (schedule clientset query st i) a1 a2 a3

/-- Under a cancelled context each of the seven queriers returns an error. -/
theorem NewRegistry_canceled (clientset : Clientset) (query : Query) :
    ∀ k ∈ (NewRegistry clientset).queriers query,
      ∃ e, (k.Do Context.canceled clientset query).out = .error e := by
  intro k hk
  have hall : k.Do = CoreGroupQuerier.Do ∨ k.Do = CoreUserQuerier.Do
      ∨ k.Do = RoleSubjectQuerier.Do ∨ k.Do = ClusterRoleSubjectQuerier.Do
      ∨ k.Do = ServiceAccountUserQuerier.Do ∨ k.Do = ServiceAccountGroupQuerier.Do
      ∨ k.Do = ConfigUserQuerier.Do := by
    simp only [Registry.queriers, NewRegistry, List.mem_append, List.mem_cons,
      List.mem_singleton, List.not_mem_nil, or_false] at hk
    rcases hk with (h | h | h | h | h | h) | h
    · rw [h]; simp
    · rw [h]; simp
    · rw [h]; simp
    · rw [h]; simp
    · rw [h]; simp
    · rw [h]; simp
    · split at h
      · simp only [List.mem_singleton] at h
        rw [h]; simp
      · simp at h
  rcases hall with h | h | h | h | h | h | h <;> rw [h]
  · exact ⟨_, rfl⟩
  · exact ⟨_, rfl⟩
  · exact ⟨_, rfl⟩
  · exact ⟨_, rfl⟩
  · exact ⟨_, rfl⟩
  · exact ⟨_, rfl⟩
  · unfold ConfigUserQuerier.Do
    cases query.ClientCmdConfig with
    | none => exact ⟨_, rfl⟩
    | some config => exact ⟨_, rfl⟩

theorem Task.step_blocked (clientset : Clientset) (query : Query) (ctx : Context) (sh : Shared) (t : Task) :
    (sh.err ≠ none → (Task.step clientset query sh t).1.err ≠ none)
      ∧ (sh.gCtx = ctx → t.failsUnder clientset query ctx →
          (Task.step clientset query sh t).1.err ≠ none)
      ∧ (sh.gCtx = ctx →
          (Task.step clientset query sh t).1.faulted = true
            ∨ (Task.step clientset query sh t).1.err ≠ none
            ∨ (Task.step clientset query sh t).1.gCtx = ctx) := by
  cases t with
  | ready k =>
    cases hout : (k.Do sh.gCtx clientset query).out with
    | ok list =>
      simp only [Task.step, hout]
      refine ⟨fun h => h, ?_, fun h => Or.inr (Or.inr h)⟩
      intro hg hf
      obtain ⟨e, he⟩ := hf
      rw [hg] at hout
      rw [hout] at he
      cases he
    | error e =>
      simp only [Task.step, hout, Shared.fail]
      have hne : (match sh.err with
          | some first => some first
          | none => some (errors.Wrap e ("identity querier [" ++ k.Label ++ "] did not finish")))
          ≠ none := by
        cases sh.err <;> simp
      exact ⟨fun _ => hne, fun _ _ => hne, fun _ => Or.inr (Or.inl hne)⟩
    | fault =>
      simp only [Task.step, hout]
      refine ⟨fun h => h, ?_, fun _ => Or.inl trivial⟩
      intro hg hf
      obtain ⟨e, he⟩ := hf
      rw [hg] at hout
      rw [hout] at he
      cases he
  | appending querierType items =>
    cases items with
    | nil => exact ⟨fun h => h, fun _ hf => hf.elim, fun h => Or.inr (Or.inr h)⟩
    | cons item rest => exact ⟨fun h => h, fun _ hf => hf.elim, fun h => Or.inr (Or.inr h)⟩
  | finished => exact ⟨fun h => h, fun _ hf => hf.elim, fun h => Or.inr (Or.inr h)⟩

theorem Task.complete_blocked (clientset : Clientset) (query : Query) (ctx : Context) (sh : Shared) (t : Task)
    (hf : sh.faulted = false) :
    (sh.err ≠ none → (Task.complete clientset query sh t).err ≠ none)
      ∧ (sh.gCtx = ctx → t.failsUnder clientset query ctx →
          (Task.complete clientset query sh t).err ≠ none)
      ∧ (sh.gCtx = ctx →
          (Task.complete clientset query sh t).faulted = true
            ∨ (Task.complete clientset query sh t).err ≠ none
            ∨ (Task.complete clientset query sh t).gCtx = ctx) := by
  obtain ⟨s1, s2, s3⟩ := Task.step_blocked clientset query ctx sh t
  unfold Task.complete
  rw [hf]
  simp only [Bool.false_eq_true, if_false]
  rcases hstep : Task.step clientset query sh t with ⟨sh1, t1⟩
  rw [hstep] at s1 s2 s3
  cases t1 with
  | ready k => exact ⟨s1, s2, s3⟩
  | appending querierType items => exact ⟨s1, s2, s3⟩
  | finished => exact ⟨s1, s2, s3⟩

theorem drain_blocked (clientset : Clientset) (query : Query) (ctx : Context) (ts : List Task) (sh : Shared)
    (h : blocked clientset query ctx (sh, ts)) :
    (ts.foldl (Task.complete clientset query) sh).faulted = true
      ∨ (ts.foldl (Task.complete clientset query) sh).err ≠ none := by
  induction ts generalizing sh with
  | nil =>
    rcases h with h | h | ⟨_, t, ht, _⟩
    · exact Or.inl h
    · exact Or.inr h
    · simp at ht
  | cons t ts ih =>
    rw [List.foldl_cons]
    apply ih
    cases hf : sh.faulted with
    | true =>
      left
      simp [Task.complete, hf]
    | false =>
      obtain ⟨c1, c2, c3⟩ := Task.complete_blocked clientset query ctx sh t hf
      rcases h with h | h | ⟨hg, t0, ht0, hfl⟩
      · rw [hf] at h
        cases h
      · exact Or.inr (Or.inl (c1 h))
      · rcases List.mem_cons.mp ht0 with e | e
        · rw [e] at hfl
          exact Or.inr (Or.inl (c2 hg hfl))
        · rcases c3 hg with c | c | c
          · exact Or.inl c
          · exact Or.inr (Or.inl c)
          · exact Or.inr (Or.inr ⟨c, t0, e, hfl⟩)

theorem schedule_blocked (clientset : Clientset) (query : Query) (ctx : Context) (st : Shared × List Task)
    (i : Nat) (h : blocked clientset query ctx st) :
    blocked clientset query ctx (schedule clientset query st i) := by
  obtain ⟨sh, ts⟩ := st
  cases hf : sh.faulted with
  | true =>
    simp only [schedule, hf, if_true]
    exact h
  | false =>
    simp only [schedule, hf, Bool.false_eq_true, if_false]
    cases hi : ts[i]? with
    | none => exact h
    | some t =>
      obtain ⟨s1, s2, s3⟩ := Task.step_blocked clientset query ctx sh t
      simp only []
      rcases h with h | h | ⟨hg, t0, ht0, hfl⟩
      · rw [hf] at h
        cases h
      · exact Or.inr (Or.inl (s1 h))
      · by_cases e : t0 = t
        · rw [e] at hfl
          exact Or.inr (Or.inl (s2 hg hfl))
        · rcases s3 hg with c | c | c
          · exact Or.inl c
          · exact Or.inr (Or.inl c)
          · exact Or.inr (Or.inr ⟨c, t0, mem_set_of_ne ts i t0 t _ ht0 hi e, hfl⟩)

theorem schedule_foldl_blocked (clientset : Clientset) (query : Query) (ctx : Context) (sched : List Nat)
    (st : Shared × List Task) (h : blocked clientset query ctx st) :
    blocked clientset query ctx (sched.foldl (schedule clientset query) st) := by
  induction sched generalizing st with
  | nil => exact h
  | cons i sched ih =>
    rw [List.foldl_cons]
    exact ih _ (schedule_blocked clientset query ctx st i h)

theorem Wrap_contains (e : Error) (msg : String) :
    strings.Contains (errors.Wrap e msg) msg = true := by
  unfold strings.Contains errors.Wrap
  rw [decide_eq_true_eq, String.data_append, String.data_append, List.append_assoc]
  exact List.infix_append' [] msg.data _

/-- When the `Do` of at least one compatible querier returns an error, `Registry.Query`
returns, under every interleaving of the goroutines, no list (the lists of the queriers that
succeeded are never returned); and, provided no `Do` dereferences a nil list, it returns an
error: the error of a querier whose `Do` failed, wrapped so that its message contains
`identity querier [<label>] did not finish`. -/
theorem Query_error_of_returns (clientset : Clientset) (ctx : Context) (options : List QueryOption)
    (sched : List Nat)
    (hfail : ∃ k ∈ (NewRegistry clientset).compatible (NewQuery options),
      ∃ e, (k.Do ctx clientset (NewQuery options)).out = .error e) :
    (∀ full, (NewRegistry clientset).Query sched ctx options ≠ .ok full)
    ∧ ((∀ k ∈ (NewRegistry clientset).compatible (NewQuery options),
        (k.Do ctx clientset (NewQuery options)).out ≠ .fault) →
      ∃ k ∈ (NewRegistry clientset).compatible (NewQuery options), ∃ e,
        (k.Do ctx clientset (NewQuery options)).out = .error e
        ∧ (NewRegistry clientset).Query sched ctx options
            = .error (errors.Wrap e ("identity querier [" ++ k.Label ++ "] did not finish"))
        ∧ strings.Contains
            (errors.Wrap e ("identity querier [" ++ k.Label ++ "] did not finish"))
            ("identity querier [" ++ k.Label ++ "] did not finish") = true) := by
  have hcan := NewRegistry_canceled clientset (NewQuery options)
  generalize hq : NewQuery options = query at hfail hcan
  generalize hcompat : (NewRegistry clientset).compatible query = ks at hfail
  have hstart : (NewRegistry clientset).start ctx query
      = ({ gCtx := ctx }, ks.map Task.ready) := by
    simp only [Registry.start, hcompat]
  have hrun : (NewRegistry clientset).run sched ctx query
      = ((sched.foldl (schedule clientset query)
            ({ gCtx := ctx }, ks.map Task.ready)).2).foldl
          (Task.complete clientset query)
          (sched.foldl (schedule clientset query)
            ({ gCtx := ctx }, ks.map Task.ready)).1 := by
    simp only [Registry.run, hstart]
    rfl
  have h3 : ∃ t ∈ ks.map Task.ready, t.failsUnder clientset query ctx := by
    obtain ⟨k, hk, e, he⟩ := hfail
    exact ⟨Task.ready k, List.mem_map.mpr ⟨k, hk, rfl⟩, e, he⟩
  constructor
  · intro full hfull
    have hb : blocked clientset query ctx ({ gCtx := ctx }, ks.map Task.ready) :=
      Or.inr (Or.inr ⟨rfl, h3⟩)
    have hd := drain_blocked clientset query ctx _ _
      (schedule_foldl_blocked clientset query ctx sched _ hb)
    rw [← hrun] at hd
    simp only [Registry.Query, hq, Shared.wait] at hfull
    rcases hd with hd | hd
    · rw [hd] at hfull
      simp at hfull
    · obtain ⟨m, hm⟩ := Option.ne_none_iff_exists'.mp hd
      rw [hm] at hfull
      split at hfull <;> cases hfull
  · intro hret
    have hks : ∀ k ∈ ks, k.returns clientset query ctx := by
      intro k hk
      have hk2 : k ∈ (NewRegistry clientset).queriers query := by
        rw [← hcompat] at hk
        exact List.mem_of_mem_filter hk
      obtain ⟨e, he⟩ := hcan k hk2
      refine ⟨hret k hk, ?_⟩
      rw [he]
      simp
    have h1 : ({ gCtx := ctx } : Shared).sound clientset query ctx ks := by
      refine ⟨rfl, fun _ => rfl, Or.inl rfl, ?_⟩
      intro m hm
      simp at hm
    have h2 : ∀ t ∈ ks.map Task.ready, ∀ k, t = .ready k → k ∈ ks := by
      intro t ht k hk
      rw [List.mem_map] at ht
      obtain ⟨k1, hk1, rfl⟩ := ht
      injection hk with hk
      rw [← hk]
      exact hk1
    obtain ⟨a1, a2, a3⟩ := schedule_foldl_sound clientset query ctx ks hks sched
      ({ gCtx := ctx }, ks.map Task.ready) h1 h2 (fun _ => h3)
    obtain ⟨b1, b2⟩ := drain_sound clientset query ctx ks hks
      (sched.foldl (schedule clientset query) ({ gCtx := ctx }, ks.map Task.ready)).2
      (sched.foldl (schedule clientset query) ({ gCtx := ctx }, ks.map Task.ready)).1
      a1 a2 a3
    rw [← hrun] at b1 b2
    obtain ⟨m, hm⟩ := Option.ne_none_iff_exists'.mp b2
    obtain ⟨k, hk, e, he, hme⟩ := b1.2.2.2 m hm
    have hres : (NewRegistry clientset).Query sched ctx options
        = .error (errors.Wrap e ("identity querier [" ++ k.Label ++ "] did not finish")) := by
      simp only [Registry.Query, hq, Shared.wait, b1.1, hm, hme, errors.WithStack]
      simp
    exact ⟨k, hk, e, he, hres, Wrap_contains _ _⟩

/-- The same at a concrete cluster, query and schedule: the namespace of the queried group
is absent. -/
theorem Query_error_of_returns_example :
    ∃ msg : Error,
      (NewRegistry (fakeClientset ["some-namespace"] [] [] [])).Query [1, 0, 2] Context.live
        [QueryOption.QueryKind "Group", QueryOption.QueryName "system:serviceaccounts:nope"]
        = .error msg
      ∧ strings.Contains msg "did not finish" = true := by
  obtain ⟨k, _, e, _, h, hc⟩ := (Query_error_of_returns
    (fakeClientset ["some-namespace"] [] [] []) Context.live
    [QueryOption.QueryKind "Group", QueryOption.QueryName "system:serviceaccounts:nope"]
    [1, 0, 2]
    ⟨⟨RoleSubjectQuerier.Label, RoleSubjectQuerier.Compatible, RoleSubjectQuerier.Do⟩,
      by
        simp [Registry.compatible, Registry.queriers, NewRegistry, NewQuery,
          QueryOption.apply, CoreGroupQuerier.Compatible, CoreUserQuerier.Compatible,
          RoleSubjectQuerier.Compatible, ClusterRoleSubjectQuerier.Compatible,
          ServiceAccountUserQuerier.Compatible, ServiceAccountGroupQuerier.Compatible,
          KindUser, KindGroup, KindServiceAccount, List.filter_cons],
      "service account [system:serviceaccounts:nope] namespace [nope] not found", by decide⟩).2
    (by
      intro k hk
      simp only [Registry.compatible, Registry.queriers, NewRegistry, NewQuery,
        List.foldl_cons, List.foldl_nil, QueryOption.apply] at hk
      simp [CoreGroupQuerier.Compatible, CoreUserQuerier.Compatible,
        RoleSubjectQuerier.Compatible, ClusterRoleSubjectQuerier.Compatible,
        ServiceAccountUserQuerier.Compatible, ServiceAccountGroupQuerier.Compatible,
        KindUser, KindGroup, KindServiceAccount, List.filter_cons] at hk
      rcases hk with h | h | h | h <;> rw [h] <;> decide)
  refine ⟨_, h, ?_⟩
  simp only [strings.Contains, decide_eq_true_eq] at hc ⊢
  obtain ⟨a, b, hab⟩ := hc
  refine ⟨a ++ "identity querier [".data ++ k.Label.data ++ "] ".data, b, ?_⟩
  rw [← hab]
  simp [String.data_append]

/-! ### Executions in which a `Do` dereferences a nil list -/

theorem Task.complete_faulted (clientset : Clientset) (query : Query) (sh : Shared) (t : Task)
    (h : sh.faulted = true) : Task.complete clientset query sh t = sh := by
  unfold Task.complete
  rw [if_pos h]

theorem drain_faulted (clientset : Clientset) (query : Query) (ts : List Task) (sh : Shared)
    (h : sh.faulted = true) : ts.foldl (Task.complete clientset query) sh = sh := by
  induction ts with
  | nil => rfl
  | cons t ts ih => rw [List.foldl_cons, Task.complete_faulted clientset query sh t h, ih]

theorem Task.complete_fault (clientset : Clientset) (query : Query) (ctx : Context)
    (sh : Shared) (k : Querier) (hsh : sh.clean ctx)
    (hk : (k.Do ctx clientset query).out = .fault) :
    (Task.complete clientset query sh (.ready k)).faulted = true := by
  obtain ⟨h1, -, h3⟩ := hsh
  unfold Task.complete
  rw [h3]
  simp only [Bool.false_eq_true, if_false, Task.step, h1, hk]

/-- C2 fails on the code.  Let the goroutines of `Registry.Query` run one after the other in
the order in which they were started, under a context `ctx`, and let the compatible queriers
be `before`, then `k`, then `after`, where every `Do` of `before` returns a list, the `Do` of
`k` dereferences a nil list, and a `Do` of `after` returns an error.  Then the `Do` of at
least one compatible querier returns an error, and `Query` returns neither a list nor an
error: the goroutine of `k` panics. -/
theorem C2_Query_fault (clientset : Clientset) (ctx : Context) (options : List QueryOption)
    (before after : List Querier) (k : Querier)
    (hks : (NewRegistry clientset).compatible (NewQuery options) = before ++ k :: after)
    (hbefore : ∀ x ∈ before, ∃ l, (x.Do ctx clientset (NewQuery options)).out = .ok l)
    (hk : (k.Do ctx clientset (NewQuery options)).out = .fault)
    (_hfail : ∃ x ∈ after, ∃ e, (x.Do ctx clientset (NewQuery options)).out = .error e) :
    (NewRegistry clientset).Query [] ctx options = .fault := by
  have hrun : (NewRegistry clientset).run [] ctx (NewQuery options)
      = (after.map Task.ready).foldl (Task.complete clientset (NewQuery options))
          (Task.complete clientset (NewQuery options)
            ((before.map Task.ready).foldl (Task.complete clientset (NewQuery options))
              { gCtx := ctx })
            (.ready k)) := by
    simp only [Registry.run, Registry.start, hks, List.foldl_nil, List.map_append,
      List.map_cons, List.foldl_append, List.foldl_cons]
    rfl
  have hclean := (drain_clean clientset (NewQuery options) ctx (before.map Task.ready)
    { gCtx := ctx } ⟨rfl, rfl, rfl⟩ (by
      intro t ht
      obtain ⟨x, hx, rfl⟩ := List.mem_map.1 ht
      exact hbefore x hx)).1
  have hf := Task.complete_fault clientset (NewQuery options) ctx _ k hclean hk
  rw [drain_faulted clientset (NewQuery options) _ _ hf] at hrun
  unfold Registry.Query Shared.wait
  rw [hrun, if_pos hf]

/-- C2 at a query for the user of a service account on a cluster whose `RoleBindings.List`
reports not-found and whose `ServiceAccounts.List` fails: `Query` does not return. -/
theorem C2_Query_fault_witness :
    (ServiceAccountUserQuerier.Do Context.live brokenClientset
        (NewQuery [QueryOption.QueryKind "User",
          QueryOption.QueryName "system:serviceaccount:dev:sa"])).out
      = .error "failed to get role list: connection refused"
    ∧ (NewRegistry brokenClientset).Query [] Context.live
        [QueryOption.QueryKind "User", QueryOption.QueryName "system:serviceaccount:dev:sa"]
      = .fault :=
  ⟨by decide,
    C2_Query_fault brokenClientset Context.live
      [QueryOption.QueryKind "User", QueryOption.QueryName "system:serviceaccount:dev:sa"]
      [⟨CoreUserQuerier.Label, CoreUserQuerier.Compatible, CoreUserQuerier.Do⟩]
      [⟨ClusterRoleSubjectQuerier.Label, ClusterRoleSubjectQuerier.Compatible,
          ClusterRoleSubjectQuerier.Do⟩,
        ⟨ServiceAccountUserQuerier.Label, ServiceAccountUserQuerier.Compatible,
          ServiceAccountUserQuerier.Do⟩]
      ⟨RoleSubjectQuerier.Label, RoleSubjectQuerier.Compatible, RoleSubjectQuerier.Do⟩
      (by
        simp [Registry.compatible, Registry.queriers, NewRegistry, NewQuery,
          QueryOption.apply, CoreGroupQuerier.Compatible, CoreUserQuerier.Compatible,
          RoleSubjectQuerier.Compatible, ClusterRoleSubjectQuerier.Compatible,
          ServiceAccountUserQuerier.Compatible, ServiceAccountGroupQuerier.Compatible,
          KindUser, KindGroup, KindServiceAccount, List.filter_cons])
      (by
        intro x hx
        rw [List.mem_singleton.1 hx]
        exact ⟨IdentityList.mk [], by decide⟩)
      (by decide)
      ⟨⟨ServiceAccountUserQuerier.Label, ServiceAccountUserQuerier.Compatible,
          ServiceAccountUserQuerier.Do⟩, by simp,
        "failed to get role list: connection refused", by decide⟩⟩

/-! ## Further evaluations of the grammar and of the compatibility predicates -/

theorem C4_ParseServiceAccount_group_witness :
    ParseServiceAccount ("system:serviceaccounts:" ++ "kube-system")
      = ("kube-system", "", true, true) ∧
    ParseServiceAccount ("system:serviceaccounts:" ++ "") = ("", "", true, true) :=
  ⟨C4_ParseServiceAccount_group.2 "kube-system" (by decide),
   C4_ParseServiceAccount_group.2 "" (by decide)⟩

/-- C5 at a five-part name and at four-part names with another beginning. -/
theorem C5_ParseServiceAccount_invalid_witness :
    ParseServiceAccount "system:serviceaccount:a:b:c" = ("", "", false, false) ∧
    ParseServiceAccount "system:serviceaccounts:a:b" = ("", "", false, false) ∧
    ParseServiceAccount "system:node:a:b" = ("", "", false, false) :=
  ⟨(C5_ParseServiceAccount_invalid "system:serviceaccount:a:b:c").2.2.1 (by decide),
   (C5_ParseServiceAccount_invalid "system:serviceaccounts:a:b").2.2.2 (by decide) (by decide),
   (C5_ParseServiceAccount_invalid "system:node:a:b").2.2.2 (by decide) (by decide)⟩

/-- C6 at queries of kind Group, User and Role. -/
theorem C6_Compatible_witness :
    ServiceAccountUserQuerier.Compatible (Query.mk "Group" "n" "ns" none) = false ∧
    (ServiceAccountGroupQuerier.Compatible (Query.mk "User" "n" "ns" none) = false
      ∧ CoreGroupQuerier.Compatible (Query.mk "User" "n" "ns" none) = false) ∧
    (RoleSubjectQuerier.Compatible (Query.mk "Role" "n" "ns" none) = false
      ∧ ClusterRoleSubjectQuerier.Compatible (Query.mk "Role" "n" "ns" none) = false) :=
  ⟨(C6_Compatible (Query.mk "Group" "n" "ns" none)).2.2.2.2.2.2.2.1 rfl,
   (C6_Compatible (Query.mk "User" "n" "ns" none)).2.2.2.2.2.2.2.2.1 (Or.inl rfl),
   (C6_Compatible (Query.mk "Role" "n" "ns" none)).2.2.2.2.2.2.2.2.2 (Or.inl rfl)⟩

/-! ## The binding selector (claim C16) -/

/-- C16: `NewBindingSelector s` succeeds exactly when `s` split on the colon is two parts,
both non-empty; then `RoleName` is the first part and `BindingName` the second, both are
non-empty and `RoleName + ":" + BindingName` is `s`; otherwise it returns no selector and an
error, as it does for `":b"`, `"a:"`, `"a:b:c"` and `""`. -/
theorem C16_NewBindingSelector (s : String) :
    (((NewBindingSelector s).2 = none)
      ↔ ((strings.Split s ':').length = 2 ∧ (strings.Split s ':').getD 0 "" ≠ ""
          ∧ (strings.Split s ':').getD 1 "" ≠ "")) ∧
    ((NewBindingSelector s).2 = none →
      ∃ sel, (NewBindingSelector s).1 = some sel
        ∧ sel.RoleName = (strings.Split s ':').getD 0 ""
        ∧ sel.BindingName = (strings.Split s ':').getD 1 ""
        ∧ sel.RoleName ≠ "" ∧ sel.BindingName ≠ ""
        ∧ sel.RoleName ++ ":" ++ sel.BindingName = s) ∧
    ((NewBindingSelector s).2 ≠ none → (NewBindingSelector s).1 = none) ∧
    (NewBindingSelector ":b").1 = none ∧ (NewBindingSelector ":b").2 ≠ none ∧
    (NewBindingSelector "a:").1 = none ∧ (NewBindingSelector "a:").2 ≠ none ∧
    (NewBindingSelector "a:b:c").1 = none ∧ (NewBindingSelector "a:b:c").2 ≠ none ∧
    (NewBindingSelector "").1 = none ∧ (NewBindingSelector "").2 ≠ none := by
  have hiff : ((NewBindingSelector s).2 = none)
      ↔ ((strings.Split s ':').length = 2 ∧ (strings.Split s ':').getD 0 "" ≠ ""
          ∧ (strings.Split s ':').getD 1 "" ≠ "") := by
    unfold NewBindingSelector
    simp only []
    split_ifs with h
    · simp only [reduceCtorEq, false_iff]
      intro hc
      rcases h with h | h | h
      · exact h hc.1
      · exact hc.2.1 h
      · exact hc.2.2 h
    · simp only [not_or, not_not] at h
      simp only [true_iff]
      exact ⟨h.1, h.2.1, h.2.2⟩
  refine ⟨hiff, ?_, ?_, by decide, by decide, by decide, by decide, by decide, by decide,
    by decide, by decide⟩
  · intro hok
    obtain ⟨h2, ha, hb⟩ := hiff.mp hok
    have hcond : ¬ ((strings.Split s ':').length ≠ 2 ∨ (strings.Split s ':').getD 0 "" = ""
        ∨ (strings.Split s ':').getD 1 "" = "") := by
      simp only [not_or, not_not]
      exact ⟨h2, ha, hb⟩
    refine ⟨⟨(strings.Split s ':').getD 0 "", (strings.Split s ':').getD 1 ""⟩,
      ?_, rfl, rfl, ha, hb, ?_⟩
    · unfold NewBindingSelector
      simp only []
      rw [if_neg hcond]
    · have hj := intercalate_Split s ':'
      rcases hs : strings.Split s ':' with _ | ⟨a, _ | ⟨b, _ | ⟨c, rest⟩⟩⟩
      · rw [hs] at h2; simp at h2
      · rw [hs] at h2; simp at h2
      · rw [hs] at hj
        apply String.ext
        simp only [List.getD_cons_zero, List.getD_cons_succ, String.data_append]
        rw [← hj]
        simp [List.intercalate, List.intersperse]
      · rw [hs] at h2; simp at h2
  · intro herr
    unfold NewBindingSelector at herr ⊢
    simp only [] at herr ⊢
    split_ifs with h
    · rfl
    · rw [if_neg h] at herr
      exact absurd rfl herr

/-- C16 at the selector `admin:bind-admin`. -/
theorem C16_NewBindingSelector_witness :
    (NewBindingSelector "admin:bind-admin").1 = some ⟨"admin", "bind-admin"⟩ ∧
    ∃ sel, (NewBindingSelector "admin:bind-admin").1 = some sel
      ∧ sel.RoleName ++ ":" ++ sel.BindingName = "admin:bind-admin" := by
  obtain ⟨sel, h1, _, _, _, _, h6⟩ :=
    (C16_NewBindingSelector "admin:bind-admin").2.1 (by decide)
  exact ⟨by decide, sel, h1, h6⟩

/-! ## The core and config queriers (claims C12, C13) -/

theorem foldl_coreVisit (q : Query) (mk : String → Identity) (hmk : ∀ n, (mk n).Name = n)
    (names : List String) (found : IdentityList) :
    (names.map mk).foldl (coreVisit q) found
      = IdentityList.mk (found.Items
          ++ (names.filter (fun name => decide (q.Name = "" ∨ q.Name = name))).map mk) := by
  induction names generalizing found with
  | nil => simp
  | cons n rest ih =>
    rw [List.map_cons, List.foldl_cons, ih]
    unfold coreVisit
    rw [hmk n]
    by_cases h : q.Name = "" ∨ q.Name = n
    · rw [if_pos h]
      simp [List.filter_cons, h]
    · rw [if_neg h]
      simp [List.filter_cons, h]

theorem coreUser_Do_live (c : Clientset) (x : Query) :
    CoreUserQuerier.Do Context.live c x
      = ⟨.ok (IdentityList.mk ((["system:anonymous", "system:apiserver", "system:kube-proxy",
            "system:kube-controller-manager", "system:kube-scheduler"].filter
              (fun name => decide (x.Name = "" ∨ x.Name = name))).map
            (fun name => Identity.mk KindUser name "" none ""))), []⟩ := by
  have h := foldl_coreVisit x (fun name => Identity.mk KindUser name "" none "") (fun _ => rfl)
    ["system:anonymous", "system:apiserver", "system:kube-proxy",
      "system:kube-controller-manager", "system:kube-scheduler"] {}
  unfold CoreUserQuerier.Do
  simp only [Context.Err]
  rw [← List.nil_append (List.map _ _)]
  exact congrArg (fun l => DoResult.mk (.ok l) []) h

theorem coreGroup_Do_live (c : Clientset) (x : Query) :
    CoreGroupQuerier.Do Context.live c x
      = ⟨.ok (IdentityList.mk ((["system:masters", "system:nodes", "system:unauthenticated",
            "system:authenticated"].filter
              (fun name => decide (x.Name = "" ∨ x.Name = name))).map
            (fun name => Identity.mk KindGroup name "" none ""))), []⟩ := by
  have h := foldl_coreVisit x (fun name => Identity.mk KindGroup name "" none "") (fun _ => rfl)
    ["system:masters", "system:nodes", "system:unauthenticated", "system:authenticated"] {}
  unfold CoreGroupQuerier.Do
  simp only [Context.Err]
  rw [← List.nil_append (List.map _ _)]
  exact congrArg (fun l => DoResult.mk (.ok l) []) h

/-- C12: with a live context `CoreUserQuerier.Do` returns, in the listed order, those of its
five names that equal the query name (all five for an empty query name), each of kind User
with an empty namespace, and makes no client call; `CoreGroupQuerier.Do` does the same with
its four names and kind Group; the result of either depends on the query name alone. -/
theorem C12_core_queriers (clientset : Clientset) (q : Query) :
    CoreUserQuerier.Do Context.live clientset q
      = ⟨.ok (IdentityList.mk ((["system:anonymous", "system:apiserver", "system:kube-proxy",
            "system:kube-controller-manager", "system:kube-scheduler"].filter
              (fun name => decide (q.Name = "" ∨ q.Name = name))).map
            (fun name => Identity.mk KindUser name "" none ""))), []⟩ ∧
    CoreGroupQuerier.Do Context.live clientset q
      = ⟨.ok (IdentityList.mk ((["system:masters", "system:nodes", "system:unauthenticated",
            "system:authenticated"].filter
              (fun name => decide (q.Name = "" ∨ q.Name = name))).map
            (fun name => Identity.mk KindGroup name "" none ""))), []⟩ ∧
    (∀ (clientset2 : Clientset) (q2 : Query), q2.Name = q.Name →
      CoreUserQuerier.Do Context.live clientset2 q2 = CoreUserQuerier.Do Context.live clientset q
      ∧ CoreGroupQuerier.Do Context.live clientset2 q2
          = CoreGroupQuerier.Do Context.live clientset q) := by
  refine ⟨coreUser_Do_live clientset q, coreGroup_Do_live clientset q, ?_⟩
  intro c2 q2 hn
  rw [coreUser_Do_live c2 q2, coreUser_Do_live clientset q,
    coreGroup_Do_live c2 q2, coreGroup_Do_live clientset q, hn]
  exact ⟨rfl, rfl⟩

theorem foldl_configVisit (q : Query) (entries : List (String × ConfigContext))
    (found : IdentityList) :
    entries.foldl (ConfigUserQuerier.visit q) found
      = IdentityList.mk (found.Items
          ++ (entries.filter (fun e => decide ((q.Namespace = "" ∨ q.Namespace = e.2.Namespace)
                ∧ (q.Name = "" ∨ q.Name = e.2.AuthInfo)))).map
              (fun e => Identity.mk KindUser e.2.AuthInfo e.2.Namespace none "")) := by
  induction entries generalizing found with
  | nil => simp
  | cons e rest ih =>
    rw [List.foldl_cons, ih]
    unfold ConfigUserQuerier.visit
    simp only []
    by_cases h1 : q.Namespace ≠ "" ∧ q.Namespace ≠ e.2.Namespace
    · rw [if_pos h1]
      have hn : ¬ ((q.Namespace = "" ∨ q.Namespace = e.2.Namespace)
          ∧ (q.Name = "" ∨ q.Name = e.2.AuthInfo)) := by
        rintro ⟨h | h, _⟩
        · exact h1.1 h
        · exact h1.2 h
      simp [List.filter_cons, hn]
    · rw [if_neg h1]
      have h1b : q.Namespace = "" ∨ q.Namespace = e.2.Namespace := by
        by_contra hc
        exact h1 ⟨fun h => hc (Or.inl h), fun h => hc (Or.inr h)⟩
      by_cases h2 : q.Name = "" ∨ q.Name = e.2.AuthInfo
      · rw [if_pos h2]
        have hy : (q.Namespace = "" ∨ q.Namespace = e.2.Namespace)
            ∧ (q.Name = "" ∨ q.Name = e.2.AuthInfo) := ⟨h1b, h2⟩
        simp [List.filter_cons, hy]
      · rw [if_neg h2]
        have hn : ¬ ((q.Namespace = "" ∨ q.Namespace = e.2.Namespace)
            ∧ (q.Name = "" ∨ q.Name = e.2.AuthInfo)) := fun h => h2 h.2
        simp [List.filter_cons, hn]

/-- C13: `ConfigUserQuerier.Do` returns an error (and no list) when the query carries no
client configuration; with a configuration and a live context it returns one identity for
each context whose namespace passes the namespace filter and whose user passes the name
filter, of kind User with the context's user as name and the context's namespace, and nothing
for the other contexts; listing the contexts in another order permutes the result. -/
theorem C13_ConfigUserQuerier_Do (ctx : Context) (clientset : Clientset)
    (kind name ns : String) (config : ClientCmdConfig) :
    ConfigUserQuerier.Do ctx clientset (Query.mk kind name ns none)
      = ⟨.error "[kubeconfig context] querier received a nil kubeconfig object", []⟩ ∧
    ConfigUserQuerier.Do Context.live clientset (Query.mk kind name ns (some config))
      = ⟨.ok (IdentityList.mk ((config.Contexts.filter
            (fun e => decide ((ns = "" ∨ ns = e.2.Namespace)
              ∧ (name = "" ∨ name = e.2.AuthInfo)))).map
            (fun e => Identity.mk KindUser e.2.AuthInfo e.2.Namespace none ""))), []⟩ ∧
    (∀ config2 : ClientCmdConfig, config2.Contexts.Perm config.Contexts →
      ∃ items, ConfigUserQuerier.Do Context.live clientset (Query.mk kind name ns (some config2))
          = ⟨.ok (IdentityList.mk items), []⟩
        ∧ items.Perm ((config.Contexts.filter
            (fun e => decide ((ns = "" ∨ ns = e.2.Namespace)
              ∧ (name = "" ∨ name = e.2.AuthInfo)))).map
            (fun e => Identity.mk KindUser e.2.AuthInfo e.2.Namespace none ""))) := by
  have hlive : ∀ c : ClientCmdConfig,
      ConfigUserQuerier.Do Context.live clientset (Query.mk kind name ns (some c))
        = ⟨.ok (IdentityList.mk ((c.Contexts.filter
            (fun e => decide ((ns = "" ∨ ns = e.2.Namespace)
              ∧ (name = "" ∨ name = e.2.AuthInfo)))).map
            (fun e => Identity.mk KindUser e.2.AuthInfo e.2.Namespace none ""))), []⟩ := by
    intro c
    unfold ConfigUserQuerier.Do
    simp only [Context.Err, foldl_configVisit]
    rfl
  refine ⟨rfl, hlive config, ?_⟩
  intro c2 hp
  exact ⟨_, hlive c2, (hp.filter _).map _⟩

/-! ## The namespace checks of the service-account aware queriers (claim C11) -/

theorem roleSubject_scan_calls (clientset : Clientset) (q : Query) (n : String)
    (g v : Bool) (calls : List Call) :
    (RoleSubjectQuerier.scan clientset q n g v calls).calls
      = calls ++ [Call.RoleBindingsList q.Namespace {}] := by
  rcases h : clientset.RoleBindingsList q.Namespace {} with ⟨res, err⟩
  unfold RoleSubjectQuerier.scan
  rw [h]
  cases err with
  | some e => rfl
  | none => cases res <;> rfl

theorem clusterRoleSubject_scan_calls (clientset : Clientset) (q : Query) (n : String)
    (g v : Bool) (calls : List Call) :
    (ClusterRoleSubjectQuerier.scan clientset q n g v calls).calls
      = calls ++ [Call.ClusterRoleBindingsList {}] := by
  rcases h : clientset.ClusterRoleBindingsList {} with ⟨res, err⟩
  unfold ClusterRoleSubjectQuerier.scan
  rw [h]
  cases err with
  | some e => rfl
  | none => cases res <;> rfl

theorem serviceAccountUser_scan_calls (clientset : Clientset) (ns n : String)
    (calls : List Call) :
    (ServiceAccountUserQuerier.scan clientset ns n calls).calls
      = calls ++ [Call.ServiceAccountsList ns { FieldSelector := "metadata.name=" ++ n }] := by
  unfold ServiceAccountUserQuerier.scan
  rcases h : clientset.ServiceAccountsList ns (ListOptions.mk ("metadata.name=" ++ n))
    with ⟨res, err⟩
  simp only [h]
  cases err with
  | some e => rfl
  | none => cases res <;> rfl

/-- The shape shared by the four `Do` bodies once the name parsed to a namespace `p`: the
mismatch test, then `Namespaces.Get(p)`, then a rest that makes no `Namespaces.Get`. -/
theorem namespaceChecked_of_shape (clientset : Clientset) (q : Query) (p : String)
    (rest : List Call → DoResult)
    (hrest : ∃ c : Call, c.isNamespacesGet = false
      ∧ ∀ calls, (rest calls).calls = calls ++ [c] ∨ (rest calls).calls = calls) :
    namespaceChecked clientset q p
      (if q.Namespace ≠ "" ∧ p ≠ q.Namespace then
        ⟨.error (namespaceMismatchError q.Namespace q.Name p), []⟩
      else
        match clientset.NamespacesGet p with
        | (exists_, err) =>
          match err with
          | some e => ⟨.error (errors.WithStack e), [Call.NamespacesGet p]⟩
          | none =>
            if exists_ = false then
              ⟨.error (namespaceNotFoundError q.Name p), [Call.NamespacesGet p]⟩
            else
              rest [Call.NamespacesGet p]) := by
  obtain ⟨c, hc, hcalls⟩ := hrest
  constructor
  · intro hm
    rw [if_pos ⟨hm.1, fun h => hm.2 h.symm⟩]
  · intro hm
    rw [if_neg (fun h => hm ⟨h.1, fun h2 => h.2 h2.symm⟩)]
    rcases hg : clientset.NamespacesGet p with ⟨ex, err⟩
    cases err with
    | some e =>
      refine ⟨rfl, rfl, ?_⟩
      intro h
      simp at h
    | none =>
      cases ex with
      | false => exact ⟨rfl, rfl, fun _ => rfl⟩
      | true =>
        simp only [Bool.true_eq_false, if_false]
        refine ⟨?_, ?_, ?_⟩
        · rcases hcalls [Call.NamespacesGet p] with h | h <;> rw [h] <;> rfl
        · rcases hcalls [Call.NamespacesGet p] with h | h <;> rw [h]
          · cases c <;> simp_all [Call.isNamespacesGet]
          · rfl
        · intro h
          simp at h

theorem roleSubject_namespaceChecked (clientset : Clientset) (q : Query) (p n : String)
    (g : Bool) (hp : ParseServiceAccount q.Name = (p, n, g, true)) (hne : p ≠ "") :
    namespaceChecked clientset q p (RoleSubjectQuerier.Do Context.live clientset q) := by
  have h := namespaceChecked_of_shape clientset q p
    (RoleSubjectQuerier.scan clientset q n g true)
    ⟨Call.RoleBindingsList q.Namespace {}, rfl,
      fun calls => Or.inl (roleSubject_scan_calls clientset q n g true calls)⟩
  unfold RoleSubjectQuerier.Do
  simp only [Context.Err, hp]
  rw [if_pos ⟨trivial, hne⟩]
  exact h

theorem clusterRoleSubject_namespaceChecked (clientset : Clientset) (q : Query) (p n : String)
    (g : Bool) (hp : ParseServiceAccount q.Name = (p, n, g, true)) (hne : p ≠ "") :
    namespaceChecked clientset q p (ClusterRoleSubjectQuerier.Do Context.live clientset q) := by
  have h := namespaceChecked_of_shape clientset q p
    (ClusterRoleSubjectQuerier.scan clientset q n g true)
    ⟨Call.ClusterRoleBindingsList {}, rfl,
      fun calls => Or.inl (clusterRoleSubject_scan_calls clientset q n g true calls)⟩
  unfold ClusterRoleSubjectQuerier.Do
  simp only [Context.Err, hp]
  rw [if_pos ⟨trivial, hne⟩]
  exact h

theorem serviceAccountUser_namespaceChecked (clientset : Clientset) (q : Query) (p n : String)
    (hp : ParseServiceAccount q.Name = (p, n, false, true)) (hne : p ≠ "") :
    namespaceChecked clientset q p (ServiceAccountUserQuerier.Do Context.live clientset q) := by
  have h := namespaceChecked_of_shape clientset q p
    (ServiceAccountUserQuerier.scan clientset p n)
    ⟨Call.ServiceAccountsList p (ListOptions.mk ("metadata.name=" ++ n)), rfl,
      fun calls => Or.inl (serviceAccountUser_scan_calls clientset p n calls)⟩
  unfold ServiceAccountUserQuerier.Do
  simp only [Context.Err, hp]
  rw [if_neg (by simp), if_pos hne]
  exact h

theorem serviceAccountGroup_namespaceChecked (clientset : Clientset) (q : Query) (p n : String)
    (hp : ParseServiceAccount q.Name = (p, n, true, true)) (hne : p ≠ "") :
    namespaceChecked clientset q p (ServiceAccountGroupQuerier.Do Context.live clientset q) := by
  have h := namespaceChecked_of_shape clientset q p
    (fun calls => ⟨.ok (ServiceAccountGroupQuerier.found q p), calls⟩)
    ⟨Call.RoleBindingsList "" {}, rfl, fun calls => Or.inr rfl⟩
  unfold ServiceAccountGroupQuerier.Do
  simp only [Context.Err, hp]
  rw [if_neg (name_ne_empty_of_valid q.Name p n true hp), if_neg (by simp), if_pos hne]
  exact h

theorem namespaceMismatchError_contains (queryNamespace queryName querySaNamespace : String) :
    strings.Contains (namespaceMismatchError queryNamespace queryName querySaNamespace)
        queryNamespace = true
    ∧ strings.Contains (namespaceMismatchError queryNamespace queryName querySaNamespace)
        querySaNamespace = true := by
  unfold strings.Contains namespaceMismatchError
  simp only [decide_eq_true_eq, String.data_append, List.append_assoc]
  constructor
  · exact List.infix_append' _ _ _
  · exact ⟨"query\x27s namespace [".data ++ (queryNamespace.data
        ++ ("] does not match query service account [".data ++ (queryName.data
        ++ "]\x27s namespace [".data))), "] ".data, by simp⟩

/-- C11: for a live context and a query whose name parses as a service-account name with a
non-empty namespace `p`, each of `RoleSubjectQuerier.Do`, `ClusterRoleSubjectQuerier.Do` and,
according to the parsed form, `ServiceAccountUserQuerier.Do` (user form) or
`ServiceAccountGroupQuerier.Do` (group form) behaves as follows.  If the query namespace is
non-empty and differs from `p`, `Do` returns no list and an error whose message contains both
namespaces, and makes no client call.  Otherwise its first call is `Namespaces.Get(p)`, that
is its only `Namespaces.Get`, and if the answer is that the namespace is absent `Do` returns
no list and the error `service account [<name>] namespace [<p>] not found` with
`Namespaces.Get(p)` as its only call. -/
theorem C11_namespace_checks (clientset : Clientset) (q : Query) (p n : String) (g : Bool)
    (hp : ParseServiceAccount q.Name = (p, n, g, true)) (hne : p ≠ "") :
    ∀ r ∈ [RoleSubjectQuerier.Do Context.live clientset q,
        ClusterRoleSubjectQuerier.Do Context.live clientset q,
        if g = true then ServiceAccountGroupQuerier.Do Context.live clientset q
        else ServiceAccountUserQuerier.Do Context.live clientset q],
      ((q.Namespace ≠ "" ∧ q.Namespace ≠ p) →
        r = ⟨.error ("query\x27s namespace [" ++ q.Namespace
              ++ "] does not match query service account [" ++ q.Name
              ++ "]\x27s namespace [" ++ p ++ "] "), []⟩
        ∧ (∀ e, r.out = .error e →
            strings.Contains e q.Namespace = true ∧ strings.Contains e p = true)) ∧
      (¬ (q.Namespace ≠ "" ∧ q.Namespace ≠ p) →
        r.calls.head? = some (Call.NamespacesGet p)
        ∧ r.calls.filter Call.isNamespacesGet = [Call.NamespacesGet p]
        ∧ (clientset.NamespacesGet p = (false, none) →
            r = ⟨.error ("service account [" ++ q.Name ++ "] namespace [" ++ p
                  ++ "] not found"), [Call.NamespacesGet p]⟩)) := by
  have key : ∀ r, namespaceChecked clientset q p r →
      ((q.Namespace ≠ "" ∧ q.Namespace ≠ p) →
        r = ⟨.error ("query\x27s namespace [" ++ q.Namespace
              ++ "] does not match query service account [" ++ q.Name
              ++ "]\x27s namespace [" ++ p ++ "] "), []⟩
        ∧ (∀ e, r.out = .error e →
            strings.Contains e q.Namespace = true ∧ strings.Contains e p = true)) ∧
      (¬ (q.Namespace ≠ "" ∧ q.Namespace ≠ p) →
        r.calls.head? = some (Call.NamespacesGet p)
        ∧ r.calls.filter Call.isNamespacesGet = [Call.NamespacesGet p]
        ∧ (clientset.NamespacesGet p = (false, none) →
            r = ⟨.error ("service account [" ++ q.Name ++ "] namespace [" ++ p
                  ++ "] not found"), [Call.NamespacesGet p]⟩)) := by
    intro r hr
    refine ⟨fun hm => ⟨hr.1 hm, ?_⟩, hr.2⟩
    intro e he
    rw [hr.1 hm] at he
    injection he with he
    rw [← he]
    exact namespaceMismatchError_contains q.Namespace q.Name p
  intro r hr
  simp only [List.mem_cons, List.mem_singleton, List.not_mem_nil, or_false] at hr
  rcases hr with rfl | rfl | rfl
  · exact key _ (roleSubject_namespaceChecked clientset q p n g hp hne)
  · exact key _ (clusterRoleSubject_namespaceChecked clientset q p n g hp hne)
  · cases g with
    | true =>
      rw [if_pos rfl]
      exact key _ (serviceAccountGroup_namespaceChecked clientset q p n hp hne)
    | false =>
      rw [if_neg (by simp)]
      exact key _ (serviceAccountUser_namespaceChecked clientset q p n hp hne)

/-- C11 at the query for `system:serviceaccount:ns1:sa`: with the query namespace `ns2`
the role-binding querier fails before any call, and with an empty query namespace on a
cluster without `ns1` the service-account user querier fails right after `Namespaces.Get`. -/
theorem C11_namespace_checks_witness :
    ParseServiceAccount "system:serviceaccount:ns1:sa" = ("ns1", "sa", false, true) ∧
    RoleSubjectQuerier.Do Context.live (fakeClientset ["ns1", "ns2"] [] [] [])
        (Query.mk "" "system:serviceaccount:ns1:sa" "ns2" none)
      = ⟨.error ("query\x27s namespace [ns2] does not match query service account "
          ++ "[system:serviceaccount:ns1:sa]\x27s namespace [ns1] "), []⟩ ∧
    ServiceAccountUserQuerier.Do Context.live (fakeClientset ["ns2"] [] [] [])
        (Query.mk "" "system:serviceaccount:ns1:sa" "" none)
      = ⟨.error "service account [system:serviceaccount:ns1:sa] namespace [ns1] not found",
          [Call.NamespacesGet "ns1"]⟩ :=
  ⟨by decide,
    (((C11_namespace_checks (fakeClientset ["ns1", "ns2"] [] [] [])
      (Query.mk "" "system:serviceaccount:ns1:sa" "ns2" none) "ns1" "sa" false
      (by decide) (by decide) _ (List.mem_cons_self _ _)).1 ⟨by decide, by decide⟩).1).trans
      (by decide),
    (((C11_namespace_checks (fakeClientset ["ns2"] [] [] [])
      (Query.mk "" "system:serviceaccount:ns1:sa" "" none) "ns1" "sa" false
      (by decide) (by decide) _
      (List.mem_cons_of_mem _ (List.mem_cons_of_mem _ (List.mem_cons_self _ _)))).2
        (by decide)).2.2 (by decide)).trans (by decide)⟩

/-! ## The kind of the returned identities (claim C14) -/

theorem kinds_of_ok_eq (k : String) (l0 l : IdentityList) (h : Outcome.ok l0 = Outcome.ok l)
    (h0 : ∀ id ∈ l0.Items, id.Kind = k) : ∀ id ∈ l.Items, id.Kind = k := by
  injection h with h
  subst h
  exact h0

theorem kinds_of_nil (k : String) : ∀ id ∈ (IdentityList.mk []).Items, id.Kind = k :=
  fun _ hid => absurd hid (List.not_mem_nil _)

theorem coreUser_kinds (ctx : Context) (clientset : Clientset) (q : Query) (l : IdentityList)
    (h : (CoreUserQuerier.Do ctx clientset q).out = .ok l) :
    ∀ id ∈ l.Items, id.Kind = KindUser := by
  cases ctx with
  | live =>
    rw [coreUser_Do_live] at h
    injection h with h
    subst h
    intro id hid
    simp only [List.mem_map] at hid
    obtain ⟨name, -, rfl⟩ := hid
    rfl
  | canceled => simp [CoreUserQuerier.Do, Context.Err] at h
  | deadlineExceeded => simp [CoreUserQuerier.Do, Context.Err] at h

theorem coreGroup_kinds (ctx : Context) (clientset : Clientset) (q : Query) (l : IdentityList)
    (h : (CoreGroupQuerier.Do ctx clientset q).out = .ok l) :
    ∀ id ∈ l.Items, id.Kind = KindGroup := by
  cases ctx with
  | live =>
    rw [coreGroup_Do_live] at h
    injection h with h
    subst h
    intro id hid
    simp only [List.mem_map] at hid
    obtain ⟨name, -, rfl⟩ := hid
    rfl
  | canceled => simp [CoreGroupQuerier.Do, Context.Err] at h
  | deadlineExceeded => simp [CoreGroupQuerier.Do, Context.Err] at h

theorem configUser_kinds (ctx : Context) (clientset : Clientset) (q : Query)
    (l : IdentityList) (h : (ConfigUserQuerier.Do ctx clientset q).out = .ok l) :
    ∀ id ∈ l.Items, id.Kind = KindUser := by
  unfold ConfigUserQuerier.Do at h
  cases hc : q.ClientCmdConfig with
  | none => simp [hc] at h
  | some config =>
    cases ctx with
    | live =>
      simp only [hc, Context.Err] at h
      rw [foldl_configVisit] at h
      refine kinds_of_ok_eq _ _ l h ?_
      intro id hid
      simp only [List.mem_append, List.mem_map] at hid
      rcases hid with hid | ⟨e, -, rfl⟩
      · exact absurd hid (List.not_mem_nil _)
      · rfl
    | canceled => simp [hc, Context.Err] at h
    | deadlineExceeded => simp [hc, Context.Err] at h

theorem serviceAccountUser_scan_kinds (clientset : Clientset) (ns n : String)
    (calls : List Call) (l : IdentityList)
    (h : (ServiceAccountUserQuerier.scan clientset ns n calls).out = .ok l) :
    ∀ id ∈ l.Items, id.Kind = KindServiceAccount := by
  unfold ServiceAccountUserQuerier.scan at h
  rcases hl : clientset.ServiceAccountsList ns (ListOptions.mk ("metadata.name=" ++ n))
    with ⟨res, err⟩
  simp only [hl] at h
  cases err with
  | some e => simp at h
  | none =>
    cases res with
    | none => simp at h
    | some accounts =>
      have hf := ServiceAccountUserQuerier.foldl_accounts accounts (IdentityList.mk [])
      simp only [List.nil_append] at hf
      refine kinds_of_ok_eq _ _ l ((congrArg Outcome.ok hf).symm.trans h) ?_
      intro id hid
      simp only [List.mem_map] at hid
      obtain ⟨a, -, rfl⟩ := hid
      rfl

theorem serviceAccountUser_kinds (ctx : Context) (clientset : Clientset) (q : Query)
    (l : IdentityList) (h : (ServiceAccountUserQuerier.Do ctx clientset q).out = .ok l) :
    ∀ id ∈ l.Items, id.Kind = KindServiceAccount := by
  rcases hp : ParseServiceAccount q.Name with ⟨p, n, g, v⟩
  rcases hg : clientset.NamespacesGet p with ⟨ex, err⟩
  unfold ServiceAccountUserQuerier.Do at h
  cases ctx <;> cases err <;> cases ex <;> simp only [Context.Err, hp, hg] at h <;>
    (try split_ifs at h) <;>
    first
    | exact kinds_of_ok_eq _ _ l h (kinds_of_nil _)
    | exact serviceAccountUser_scan_kinds clientset p n _ l h
    | simp at h

theorem serviceAccountGroup_kinds (ctx : Context) (clientset : Clientset) (q : Query)
    (l : IdentityList) (h : (ServiceAccountGroupQuerier.Do ctx clientset q).out = .ok l) :
    ∀ id ∈ l.Items, id.Kind = KindGroup := by
  rcases hp : ParseServiceAccount q.Name with ⟨p, n, g, v⟩
  rcases hg : clientset.NamespacesGet p with ⟨ex, err⟩
  unfold ServiceAccountGroupQuerier.Do at h
  have hfound : ∀ id ∈ (ServiceAccountGroupQuerier.found q p).Items, id.Kind = KindGroup := by
    intro id hid
    simp only [ServiceAccountGroupQuerier.found, List.mem_singleton] at hid
    subst hid
    rfl
  cases ctx <;> cases err <;> cases ex <;> simp only [Context.Err, hp, hg] at h <;>
    (try split_ifs at h) <;>
    first
    | exact kinds_of_ok_eq _ _ l h (kinds_of_nil _)
    | exact kinds_of_ok_eq _ _ l h hfound
    | simp at h

theorem roleSubject_kinds (ctx : Context) (clientset : Clientset) (q : Query)
    (l : IdentityList) (h : (RoleSubjectQuerier.Do ctx clientset q).out = .ok l) :
    ∀ id ∈ l.Items, ∃ items r s,
      clientset.RoleBindingsList q.Namespace {} = (some items, none) ∧ r ∈ items
        ∧ s ∈ r.Subjects
        ∧ id = Identity.mk s.Kind s.Name s.Namespace
            (some (IdentitySource.mk KindRoleBinding r.Name r.Namespace)) "" := by
  rcases hp : ParseServiceAccount q.Name with ⟨p, n, g, v⟩
  obtain ⟨⟨calls, hs⟩, -⟩ := roleSubject_Do_ok_inv ctx clientset q p n g v hp l h
  obtain ⟨items, hl, rfl⟩ := roleSubject_scan_ok_inv clientset q n g v calls l hs
  intro id hid
  simp only [List.mem_flatMap, List.mem_map, List.mem_filter] at hid
  obtain ⟨r, hr, s, ⟨hsr, -⟩, rfl⟩ := hid
  exact ⟨items, r, s, hl, hr, hsr, rfl⟩

theorem clusterRoleSubject_kinds (ctx : Context) (clientset : Clientset) (q : Query)
    (l : IdentityList) (h : (ClusterRoleSubjectQuerier.Do ctx clientset q).out = .ok l) :
    ∀ id ∈ l.Items, ∃ items r s,
      clientset.ClusterRoleBindingsList {} = (some items, none) ∧ r ∈ items
        ∧ s ∈ r.Subjects
        ∧ id = Identity.mk s.Kind s.Name s.Namespace
            (some (IdentitySource.mk KindClusterRoleBinding r.Name r.Namespace)) "" := by
  rcases hp : ParseServiceAccount q.Name with ⟨p, n, g, v⟩
  obtain ⟨⟨calls, hs⟩, -⟩ := clusterRoleSubject_Do_ok_inv ctx clientset q p n g v hp l h
  obtain ⟨items, hl, rfl⟩ := clusterRoleSubject_scan_ok_inv clientset q n g v calls l hs
  intro id hid
  simp only [List.mem_flatMap, List.mem_map, List.mem_filter] at hid
  obtain ⟨r, hr, s, ⟨hsr, -⟩, rfl⟩ := hid
  exact ⟨items, r, s, hl, hr, hsr, rfl⟩

/-- C14 as stated fails: a role binding (and a cluster role binding) whose subject has the
empty kind yields, for the query without filters, an identity whose kind is empty. -/
theorem C14_counterexample :
    (RoleSubjectQuerier.Do Context.live
        (fakeClientset [] [RoleBinding.mk "" "rb" "ns" [Subject.mk "" "" "jane" "ns"]] [] [])
        (Query.mk "" "" "" none)).out
      = .ok (IdentityList.mk [Identity.mk "" "jane" "ns"
          (some (IdentitySource.mk "RoleBinding" "rb" "ns")) ""]) ∧
    (ClusterRoleSubjectQuerier.Do Context.live
        (fakeClientset [] [] [ClusterRoleBinding.mk "" "crb" "" [Subject.mk "" "" "jane" ""]] [])
        (Query.mk "" "" "" none)).out
      = .ok (IdentityList.mk [Identity.mk "" "jane" ""
          (some (IdentitySource.mk "ClusterRoleBinding" "crb" "")) ""]) := by
  constructor <;> decide

/-- C14, amended: every identity returned by the `Do` of `CoreUserQuerier`,
`CoreGroupQuerier`, `ConfigUserQuerier`, `ServiceAccountUserQuerier` or
`ServiceAccountGroupQuerier` has a non-empty kind, for every context, query and cluster
content (listed service accounts get the kind ServiceAccount whatever their own kind is).
Every identity returned by `RoleSubjectQuerier.Do` or `ClusterRoleSubjectQuerier.Do` is made
from a subject of a listed binding and carries that subject's kind unchanged, so its kind
is non-empty exactly when the subject's is; its source always has the kind RoleBinding or
ClusterRoleBinding. -/
theorem C14_identity_kinds (ctx : Context) (clientset : Clientset) (q : Query)
    (l : IdentityList) :
    (∀ r ∈ [CoreUserQuerier.Do ctx clientset q, CoreGroupQuerier.Do ctx clientset q,
        ConfigUserQuerier.Do ctx clientset q, ServiceAccountUserQuerier.Do ctx clientset q,
        ServiceAccountGroupQuerier.Do ctx clientset q],
      r.out = .ok l → ∀ id ∈ l.Items, id.Kind ≠ "") ∧
    ((ServiceAccountUserQuerier.Do ctx clientset q).out = .ok l →
      ∀ id ∈ l.Items, id.Kind = KindServiceAccount) ∧
    ((RoleSubjectQuerier.Do ctx clientset q).out = .ok l →
      ∀ id ∈ l.Items, ∃ items r s,
        clientset.RoleBindingsList q.Namespace {} = (some items, none) ∧ r ∈ items
          ∧ s ∈ r.Subjects ∧ id.Kind = s.Kind ∧ id.Name = s.Name
          ∧ id.Source = some (IdentitySource.mk KindRoleBinding r.Name r.Namespace)) ∧
    ((ClusterRoleSubjectQuerier.Do ctx clientset q).out = .ok l →
      ∀ id ∈ l.Items, ∃ items r s,
        clientset.ClusterRoleBindingsList {} = (some items, none) ∧ r ∈ items
          ∧ s ∈ r.Subjects ∧ id.Kind = s.Kind ∧ id.Name = s.Name
          ∧ id.Source = some (IdentitySource.mk KindClusterRoleBinding r.Name r.Namespace)) ∧
    KindRoleBinding ≠ "" ∧ KindClusterRoleBinding ≠ "" := by
  have ne : ∀ (k : String), k ≠ "" → (∀ id ∈ l.Items, id.Kind = k) →
      ∀ id ∈ l.Items, id.Kind ≠ "" := by
    intro k hk h id hid
    rw [h id hid]
    exact hk
  refine ⟨?_, serviceAccountUser_kinds ctx clientset q l, ?_, ?_, by decide, by decide⟩
  · intro r hr h
    simp only [List.mem_cons, List.mem_singleton, List.not_mem_nil, or_false] at hr
    rcases hr with rfl | rfl | rfl | rfl | rfl
    · exact ne KindUser (by decide) (coreUser_kinds ctx clientset q l h)
    · exact ne KindGroup (by decide) (coreGroup_kinds ctx clientset q l h)
    · exact ne KindUser (by decide) (configUser_kinds ctx clientset q l h)
    · exact ne KindServiceAccount (by decide) (serviceAccountUser_kinds ctx clientset q l h)
    · exact ne KindGroup (by decide) (serviceAccountGroup_kinds ctx clientset q l h)
  · intro h id hid
    obtain ⟨items, r, s, hl, hr, hs, rfl⟩ := roleSubject_kinds ctx clientset q l h id hid
    exact ⟨items, r, s, hl, hr, hs, rfl, rfl, rfl⟩
  · intro h id hid
    obtain ⟨items, r, s, hl, hr, hs, rfl⟩ := clusterRoleSubject_kinds ctx clientset q l h id hid
    exact ⟨items, r, s, hl, hr, hs, rfl, rfl, rfl⟩

/-! ## `Registry.Query` on a context that is already done (claim C15) -/

theorem Shared.fail_done (ctx : Context) (hctx : ctx ≠ Context.live) (sh : Shared)
    (m : Error) (h : sh.gCtx = ctx) :
    (sh.fail m).gCtx = ctx ∧ (sh.fail m).calls = sh.calls
      ∧ (sh.fail m).fullList = sh.fullList := by
  unfold Shared.fail
  refine ⟨?_, rfl, rfl⟩
  cases ctx with
  | live => exact absurd rfl hctx
  | canceled => simp only [h]
  | deadlineExceeded => simp only [h]

theorem Task.step_quiet (clientset : Clientset) (query : Query) (ctx : Context)
    (hctx : ctx ≠ Context.live) (ks : List Querier)
    (hks : ∀ k ∈ ks, ∃ m, k.Do ctx clientset query = ⟨.error m, []⟩)
    (sh : Shared) (ts : List Task) (t : Task) (hq : quiet ctx ks (sh, ts))
    (ht : t = .finished ∨ ∃ k ∈ ks, t = .ready k) :
    quiet ctx ks ((Task.step clientset query sh t).1, ts)
      ∧ (Task.step clientset query sh t).2 = .finished := by
  obtain ⟨hg, hc, hf, hts⟩ := hq
  rcases ht with rfl | ⟨k, hk, rfl⟩
  · exact ⟨⟨hg, hc, hf, hts⟩, rfl⟩
  · obtain ⟨m, hm⟩ := hks k hk
    have hm2 : k.Do sh.gCtx clientset query = ⟨.error m, []⟩ := by
      have hg2 : sh.gCtx = ctx := hg
      rw [hg2]
      exact hm
    unfold Task.step
    simp only [hm2]
    have hd := Shared.fail_done ctx hctx { sh with calls := sh.calls ++ [] }
      (errors.Wrap m ("identity querier [" ++ k.Label ++ "] did not finish")) hg
    refine ⟨⟨hd.1, ?_, ?_, hts⟩, trivial⟩
    · have hc2 : sh.calls = [] := hc
      rw [hd.2.1]
      simp [hc2]
    · rw [hd.2.2]
      exact hf

theorem schedule_quiet (clientset : Clientset) (query : Query) (ctx : Context)
    (hctx : ctx ≠ Context.live) (ks : List Querier)
    (hks : ∀ k ∈ ks, ∃ m, k.Do ctx clientset query = ⟨.error m, []⟩)
    (st : Shared × List Task) (i : Nat) (hq : quiet ctx ks st) :
    quiet ctx ks (schedule clientset query st i) := by
  unfold schedule
  split_ifs with hflt
  · exact hq
  · cases hi : st.2[i]? with
    | none => exact hq
    | some t =>
      have ht := hq.2.2.2 t (List.getElem?_mem hi)
      obtain ⟨h1, h2⟩ := Task.step_quiet clientset query ctx hctx ks hks st.1 st.2 t hq ht
      refine ⟨h1.1, h1.2.1, h1.2.2.1, ?_⟩
      intro u hu
      rcases List.mem_or_eq_of_mem_set hu with hu | hu
      · exact hq.2.2.2 u hu
      · left
        rw [hu]
        exact h2

theorem schedule_foldl_quiet (clientset : Clientset) (query : Query) (ctx : Context)
    (hctx : ctx ≠ Context.live) (ks : List Querier)
    (hks : ∀ k ∈ ks, ∃ m, k.Do ctx clientset query = ⟨.error m, []⟩)
    (sched : List Nat) (st : Shared × List Task) (hq : quiet ctx ks st) :
    quiet ctx ks (sched.foldl (schedule clientset query) st) := by
  induction sched generalizing st with
  | nil => exact hq
  | cons i rest ih =>
    rw [List.foldl_cons]
    exact ih _ (schedule_quiet clientset query ctx hctx ks hks st i hq)

theorem Task.complete_quiet (clientset : Clientset) (query : Query) (ctx : Context)
    (hctx : ctx ≠ Context.live) (ks : List Querier)
    (hks : ∀ k ∈ ks, ∃ m, k.Do ctx clientset query = ⟨.error m, []⟩)
    (sh : Shared) (ts : List Task) (t : Task) (hq : quiet ctx ks (sh, ts))
    (ht : t = .finished ∨ ∃ k ∈ ks, t = .ready k) :
    quiet ctx ks (Task.complete clientset query sh t, ts) := by
  obtain ⟨h1, h2⟩ := Task.step_quiet clientset query ctx hctx ks hks sh ts t hq ht
  unfold Task.complete
  split_ifs with hflt
  · exact hq
  · rcases hs : Task.step clientset query sh t with ⟨sh2, t2⟩
    rw [hs] at h1 h2
    simp only at h2
    subst h2
    exact h1

theorem drain_quiet (clientset : Clientset) (query : Query) (ctx : Context)
    (hctx : ctx ≠ Context.live) (ks : List Querier)
    (hks : ∀ k ∈ ks, ∃ m, k.Do ctx clientset query = ⟨.error m, []⟩)
    (ts : List Task) (sh : Shared) (hq : quiet ctx ks (sh, []))
    (hts : ∀ t ∈ ts, t = .finished ∨ ∃ k ∈ ks, t = .ready k) :
    quiet ctx ks (ts.foldl (Task.complete clientset query) sh, []) := by
  induction ts generalizing sh with
  | nil => exact hq
  | cons t rest ih =>
    rw [List.foldl_cons]
    exact ih _ (Task.complete_quiet clientset query ctx hctx ks hks sh [] t hq
      (hts t (List.mem_cons_self _ _))) (fun u hu => hts u (List.mem_cons_of_mem _ hu))

theorem NewRegistry_done (clientset : Clientset) (query : Query) (ctx : Context) (e : Error)
    (he : ctx.Err = some e) :
    ∀ k ∈ (NewRegistry clientset).queriers query,
      k.Do ctx clientset query = ⟨.error (errors.Wrap e "query cancelled"), []⟩ := by
  intro k hk
  simp only [Registry.queriers, NewRegistry, List.mem_append, List.mem_cons,
    List.mem_singleton, List.not_mem_nil, or_false] at hk
  rcases hk with (h | h | h | h | h | h) | h
  · rw [h]; simp only [CoreGroupQuerier.Do, he]
  · rw [h]; simp only [CoreUserQuerier.Do, he]
  · rw [h]; simp only [RoleSubjectQuerier.Do, he]
  · rw [h]; simp only [ClusterRoleSubjectQuerier.Do, he]
  · rw [h]; simp only [ServiceAccountUserQuerier.Do, he]
  · rw [h]; simp only [ServiceAccountGroupQuerier.Do, he]
  · cases hc : query.ClientCmdConfig with
    | none => simp [hc] at h
    | some config =>
      rw [hc, if_pos (by simp), List.mem_singleton] at h
      rw [h]
      simp only [ConfigUserQuerier.Do, hc, he]

theorem NewRegistry_compatible_nil (clientset : Clientset) (query : Query) :
    (NewRegistry clientset).compatible query = []
      ↔ ¬ (query.Kind = "" ∨ query.Kind = KindUser ∨ query.Kind = KindGroup
            ∨ query.Kind = KindServiceAccount) := by
  simp only [Registry.compatible, Registry.queriers, NewRegistry, List.filter_eq_nil_iff,
    List.mem_append, List.mem_cons, List.mem_singleton, List.not_mem_nil, or_false]
  constructor
  · intro h hk
    have h1 := h _ (Or.inl (Or.inl rfl))
    have h2 := h _ (Or.inl (Or.inr (Or.inl rfl)))
    have h3 := h _ (Or.inl (Or.inr (Or.inr (Or.inr (Or.inr (Or.inl rfl))))))
    simp only [CoreGroupQuerier.Compatible, CoreUserQuerier.Compatible,
      ServiceAccountUserQuerier.Compatible, Bool.or_eq_true, beq_iff_eq] at h1 h2 h3
    rcases hk with hk | hk | hk | hk
    · exact h1 (Or.inl hk)
    · exact h2 (Or.inr hk)
    · exact h1 (Or.inr hk)
    · exact h3 (Or.inr hk)
  · intro hn k hk
    have n1 : query.Kind ≠ "" := fun h => hn (Or.inl h)
    have n2 : query.Kind ≠ KindUser := fun h => hn (Or.inr (Or.inl h))
    have n3 : query.Kind ≠ KindGroup := fun h => hn (Or.inr (Or.inr (Or.inl h)))
    have n4 : query.Kind ≠ KindServiceAccount := fun h => hn (Or.inr (Or.inr (Or.inr h)))
    rcases hk with (h | h | h | h | h | h) | h
    · rw [h]; simp [CoreGroupQuerier.Compatible, n1, n3]
    · rw [h]; simp [CoreUserQuerier.Compatible, n1, n2]
    · rw [h]; simp [RoleSubjectQuerier.Compatible, n1, n2, n3]
    · rw [h]; simp [ClusterRoleSubjectQuerier.Compatible, n1, n2, n3]
    · rw [h]; simp [ServiceAccountUserQuerier.Compatible, n1, n2, n4]
    · rw [h]; simp [ServiceAccountGroupQuerier.Compatible, n1, n3]
    · split at h
      · simp only [List.mem_singleton] at h
        rw [h]; simp [ConfigUserQuerier.Compatible, n1, n2]
      · simp at h

/-- C15 as stated fails: for a query of kind `Role` no querier is compatible, and
`Registry.Query` on an already cancelled context returns an empty list and no error. -/
theorem C15_counterexample :
    (NewRegistry (fakeClientset [] [] [] [])).Query [0, 1] Context.canceled
        [QueryOption.QueryKind "Role"]
      = .ok (IdentityList.mk []) := by
  decide

/-- C15, amended: when `Registry.Query` is called with a context that is already done
(cancelled or past its deadline, `ctx.Err() = e`), then under every interleaving of the
goroutines: every compatible querier's `Do` returns at entry the error
`query cancelled: <e>` and makes no client call; no client call is made and no identity is
appended to the full list during the whole run; if the query's kind is empty, User, Group
or ServiceAccount (so that some querier is compatible) `Query` returns no list and the
cancellation error of one of the compatible queriers, wrapped with
`identity querier [<label>] did not finish`; for any other kind no querier runs and `Query`
returns an empty list and no error.  In no case does it return a non-empty list. -/
theorem C15_Query_done_context (clientset : Clientset) (ctx : Context)
    (options : List QueryOption) (sched : List Nat) (e : Error) (he : ctx.Err = some e) :
    (∀ k ∈ (NewRegistry clientset).compatible (NewQuery options),
      k.Do ctx clientset (NewQuery options)
        = ⟨.error (errors.Wrap e "query cancelled"), []⟩) ∧
    ((NewRegistry clientset).run sched ctx (NewQuery options)).calls = [] ∧
    ((NewRegistry clientset).run sched ctx (NewQuery options)).fullList.Items = [] ∧
    (((NewQuery options).Kind = "" ∨ (NewQuery options).Kind = KindUser
        ∨ (NewQuery options).Kind = KindGroup
        ∨ (NewQuery options).Kind = KindServiceAccount) →
      ∃ k ∈ (NewRegistry clientset).compatible (NewQuery options),
        (NewRegistry clientset).Query sched ctx options
          = .error (errors.Wrap (errors.Wrap e "query cancelled")
              ("identity querier [" ++ k.Label ++ "] did not finish"))) ∧
    (¬ ((NewQuery options).Kind = "" ∨ (NewQuery options).Kind = KindUser
        ∨ (NewQuery options).Kind = KindGroup
        ∨ (NewQuery options).Kind = KindServiceAccount) →
      (NewRegistry clientset).compatible (NewQuery options) = []
        ∧ (NewRegistry clientset).Query sched ctx options = .ok (IdentityList.mk [])) ∧
    (∀ full, (NewRegistry clientset).Query sched ctx options = .ok full → full.Items = []) := by
  have hcan := NewRegistry_canceled clientset (NewQuery options)
  have hdone := NewRegistry_done clientset (NewQuery options) ctx e he
  have hnil := NewRegistry_compatible_nil clientset (NewQuery options)
  have hsub : ∀ k ∈ (NewRegistry clientset).compatible (NewQuery options),
      k ∈ (NewRegistry clientset).queriers (NewQuery options) :=
    fun k hk => List.mem_of_mem_filter hk
  generalize hq : NewQuery options = query at hcan hdone hnil hsub
  generalize hcompat : (NewRegistry clientset).compatible query = ks at hnil hsub
  have hctx : ctx ≠ Context.live := by
    intro h
    rw [h] at he
    simp [Context.Err] at he
  have hD : ∀ k ∈ ks, k.Do ctx clientset query
      = ⟨.error (errors.Wrap e "query cancelled"), []⟩ := fun k hk => hdone k (hsub k hk)
  have hE : ∀ k ∈ ks, ∃ m, k.Do ctx clientset query = ⟨.error m, []⟩ :=
    fun k hk => ⟨_, hD k hk⟩
  have hrun : (NewRegistry clientset).run sched ctx query
      = ((sched.foldl (schedule clientset query)
            ({ gCtx := ctx }, ks.map Task.ready)).2).foldl
          (Task.complete clientset query)
          (sched.foldl (schedule clientset query)
            ({ gCtx := ctx }, ks.map Task.ready)).1 := by
    simp only [Registry.run, Registry.start, hcompat]
    rfl
  have h2 : ∀ t ∈ ks.map Task.ready, ∀ k, t = .ready k → k ∈ ks := by
    intro t ht k hk
    rw [List.mem_map] at ht
    obtain ⟨k1, hk1, rfl⟩ := ht
    injection hk with hk
    rw [← hk]
    exact hk1
  have q0 : quiet ctx ks ({ gCtx := ctx }, ks.map Task.ready) := by
    refine ⟨rfl, rfl, rfl, ?_⟩
    intro t ht
    rw [List.mem_map] at ht
    obtain ⟨k1, hk1, rfl⟩ := ht
    exact Or.inr ⟨k1, hk1, rfl⟩
  have q1 := schedule_foldl_quiet clientset query ctx hctx ks hE sched _ q0
  have q2 := drain_quiet clientset query ctx hctx ks hE
    (sched.foldl (schedule clientset query) ({ gCtx := ctx }, ks.map Task.ready)).2
    (sched.foldl (schedule clientset query) ({ gCtx := ctx }, ks.map Task.ready)).1
    ⟨q1.1, q1.2.1, q1.2.2.1, fun t ht => absurd ht (List.not_mem_nil _)⟩ q1.2.2.2
  rw [← hrun] at q2
  have hpart : ∀ full, (NewRegistry clientset).Query sched ctx options = .ok full →
      full.Items = [] := by
    intro full hfull
    simp only [Registry.Query, hq, Shared.wait] at hfull
    split_ifs at hfull
    split at hfull
    · cases hfull
    · injection hfull with hfull
      rw [← hfull]
      exact q2.2.2.1
  refine ⟨hD, q2.2.1, q2.2.2.1, ?_, ?_, hpart⟩
  · intro hk
    have hne : ks ≠ [] := fun h => (hnil.mp h) hk
    obtain ⟨k0, rest, hks0⟩ := List.exists_cons_of_ne_nil hne
    have hk0 : k0 ∈ ks := by rw [hks0]; exact List.mem_cons_self _ _
    have h3 : ∃ t ∈ ks.map Task.ready, t.failsUnder clientset query ctx :=
      ⟨Task.ready k0, List.mem_map.mpr ⟨k0, hk0, rfl⟩, _, congrArg DoResult.out (hD k0 hk0)⟩
    have hks : ∀ k ∈ ks, k.returns clientset query ctx := by
      intro k hk
      obtain ⟨e2, he2⟩ := hcan k (hsub k hk)
      refine ⟨?_, ?_⟩
      · rw [hD k hk]
        simp
      · rw [he2]
        simp
    have h1 : ({ gCtx := ctx } : Shared).sound clientset query ctx ks := by
      refine ⟨rfl, fun _ => rfl, Or.inl rfl, ?_⟩
      intro m hm
      simp at hm
    obtain ⟨a1, a2, a3⟩ := schedule_foldl_sound clientset query ctx ks hks sched
      ({ gCtx := ctx }, ks.map Task.ready) h1 h2 (fun _ => h3)
    obtain ⟨b1, b2⟩ := drain_sound clientset query ctx ks hks
      (sched.foldl (schedule clientset query) ({ gCtx := ctx }, ks.map Task.ready)).2
      (sched.foldl (schedule clientset query) ({ gCtx := ctx }, ks.map Task.ready)).1
      a1 a2 a3
    rw [← hrun] at b1 b2
    obtain ⟨m, hm⟩ := Option.ne_none_iff_exists'.mp b2
    obtain ⟨k, hk, e2, he2, hme⟩ := b1.2.2.2 m hm
    rw [hD k hk] at he2
    injection he2 with he2
    refine ⟨k, hk, ?_⟩
    simp only [Registry.Query, hq, Shared.wait, b1.1, hm, hme, errors.WithStack, ← he2]
    simp
  · intro hk
    have hks : ks = [] := hnil.mpr hk
    refine ⟨hks, ?_⟩
    simp only [Registry.Query, hq, hrun, hks, List.map_nil]
    have hs : ∀ (l : List Nat) (sh : Shared), l.foldl (schedule clientset query) (sh, [])
        = (sh, []) := by
      intro l sh
      induction l with
      | nil => rfl
      | cons i rest ih =>
        rw [List.foldl_cons]
        have : schedule clientset query (sh, []) i = (sh, []) := by
          unfold schedule
          split_ifs <;> rfl
        rw [this, ih]
    rw [hs]
    rfl

/-- C15 at a cancelled context, for the query without filters and one schedule. -/
theorem C15_Query_done_context_witness :
    Context.canceled.Err = some "context canceled" ∧
    ((NewRegistry (fakeClientset ["ns"] [] [] [])).run [2, 0, 1] Context.canceled
        (NewQuery [])).calls = [] ∧
    ∃ label, (NewRegistry (fakeClientset ["ns"] [] [] [])).Query [2, 0, 1] Context.canceled []
      = .error (errors.Wrap (errors.Wrap "context canceled" "query cancelled")
          ("identity querier [" ++ label ++ "] did not finish")) := by
  have h := C15_Query_done_context (fakeClientset ["ns"] [] [] []) Context.canceled []
    [2, 0, 1] "context canceled" rfl
  obtain ⟨k, -, hk⟩ := h.2.2.2.1 (Or.inl rfl)
  exact ⟨rfl, h.2.1, k.Label, hk⟩

/-! ## add-user: the clients and the defaults -/

theorem defaults_ok (h : Handler) (configFile : Option File) (st : RunState)
    (cluster ns : String) (hd : h.defaults configFile st = .ok (cluster, ns)) :
    (h.Cluster ≠ "" → cluster = h.Cluster)
    ∧ (h.Cluster = "" → ∃ f, configFile = some f ∧ f.GetCurrentCluster = .ok cluster)
    ∧ (h.Namespace ≠ "" → ns = h.Namespace)
    ∧ (h.Namespace = "" → ∃ f name c, configFile = some f
        ∧ f.GetCurrentContext = .ok (name, c) ∧ ns = c.Namespace) := by
  unfold Handler.defaults at hd
  simp only [] at hd
  by_cases hc : h.Cluster = "" <;> by_cases hn : h.Namespace = ""
  · cases configFile with
    | none => simp [hc] at hd
    | some f =>
      simp only [hc, hn, if_true] at hd
      cases hcl : f.GetCurrentCluster with
      | error e => simp [hcl] at hd
      | ok name =>
        cases hcx : f.GetCurrentContext with
        | error e => simp [hcl, hcx] at hd
        | ok p =>
          simp only [hcl, hcx, Except.ok.injEq, Prod.mk.injEq] at hd
          refine ⟨fun hne => absurd hc hne, fun _ => ⟨f, rfl, ?_⟩, fun hne => absurd hn hne,
            fun _ => ⟨f, p.1, p.2, rfl, hcx, hd.2.symm⟩⟩
          rw [← hd.1, hcl]
  · cases configFile with
    | none => simp [hc] at hd
    | some f =>
      simp only [hc, hn, if_true, if_false] at hd
      cases hcl : f.GetCurrentCluster with
      | error e => simp [hcl] at hd
      | ok name =>
        simp only [hcl, Except.ok.injEq, Prod.mk.injEq] at hd
        refine ⟨fun hne => absurd hc hne, fun _ => ⟨f, rfl, ?_⟩, fun _ => hd.2.symm,
          fun he => absurd he hn⟩
        rw [← hd.1, hcl]
  · simp only [hc, hn, if_true, if_false] at hd
    cases configFile with
    | none => simp at hd
    | some f =>
      cases hcx : f.GetCurrentContext with
      | error e => simp [hcx] at hd
      | ok p =>
        simp only [hcx, Except.ok.injEq, Prod.mk.injEq] at hd
        exact ⟨fun _ => hd.1.symm, fun he => absurd he hc, fun hne => absurd hn hne,
          fun _ => ⟨f, p.1, p.2, rfl, hcx, hd.2.symm⟩⟩
  · simp only [hc, hn, if_false, Except.ok.injEq, Prod.mk.injEq] at hd
    exact ⟨fun _ => hd.1.symm, fun he => absurd he hc, fun _ => hd.2.symm,
      fun he => absurd he hn⟩

/-- What a successful `setup` returns: the configuration client of the handler (or the
default one), the file that its `Parse` returned, the only call made so far, and the
cluster and the namespace, each of which is the option of the handler or, when that is
empty, taken from the current context of the file. -/
theorem setup_ok (h : Handler) (host : Host) (cc : ConfigClient) (file : Option File)
    (api : ApiClientset) (cluster ns : String) (st : RunState)
    (hs : h.setup host = .ok (cc, file, api, cluster, ns, st)) :
    st = ⟨[RunCall.ConfigParse h.ConfigFile], []⟩
    ∧ cc = h.KubectlConfigClient.getD host.NewDefaultClient
    ∧ cc.Parse [] h.ConfigFile = (file, none)
    ∧ (h.Cluster ≠ "" → cluster = h.Cluster)
    ∧ (h.Cluster = "" → ∃ f, file = some f ∧ f.GetCurrentCluster = .ok cluster)
    ∧ (h.Namespace ≠ "" → ns = h.Namespace)
    ∧ (h.Namespace = "" → ∃ f name c, file = some f
        ∧ f.GetCurrentContext = .ok (name, c) ∧ ns = c.Namespace) := by
  unfold Handler.setup at hs
  rcases hp : (h.KubectlConfigClient.getD host.NewDefaultClient).Parse [] h.ConfigFile
    with ⟨f0, err⟩
  have hp2 : (h.KubectlConfigClient.getD host.NewDefaultClient).Parse
      ({} : RunState).calls h.ConfigFile = (f0, err) := hp
  simp only [hp2] at hs
  cases err with
  | some e => simp at hs
  | none =>
    simp only [] at hs
    cases ha : h.apiClientset host f0 (RunState.call {} (.ConfigParse h.ConfigFile)) with
    | error r => simp [ha] at hs
    | ok a =>
      cases hd : h.defaults f0 (RunState.call {} (.ConfigParse h.ConfigFile)) with
      | error r => simp [ha, hd] at hs
      | ok p =>
        simp only [ha, hd, Except.ok.injEq, Prod.mk.injEq] at hs
        obtain ⟨h1, h2, h3, h4, h5, h6⟩ := hs
        have hd2 : h.defaults file (RunState.call {} (.ConfigParse h.ConfigFile))
            = .ok (cluster, ns) := by
          rw [← h2, hd, ← h4, ← h5]
        refine ⟨h6.symm, h1.symm, ?_, defaults_ok h file _ cluster ns hd2⟩
        rw [← h1, hp, h2]

/-! ## add-user: the wait for the token (claim C17) -/

theorem append_replicate_succ {α : Type} (l : List α) (c : α) (k : Nat) :
    (l ++ [c]) ++ List.replicate k c = l ++ List.replicate (k + 1) c := by
  rw [List.append_assoc, List.replicate_succ]
  rfl

/-- What `wait.ExponentialBackoff` does with the condition of `run`: it makes `k` calls of
`ServiceAccounts.Get`, at most as many as there are steps, writes nothing, and ends with
nil only after a `Get` that showed the token, with a fault only after a `Get` that returned
a nil account and a nil error, and with an error either after a `Get` that returned an error
or when the steps are used up. -/
theorem backoff_spec (h : Handler) (api : ApiClientset) (ns : String) (steps : Nat)
    (saObj : Option core.ServiceAccount) (st : RunState) :
    ∃ k, k ≤ steps
      ∧ (wait.ExponentialBackoff (h.backoffCond api ns) steps (saObj, st)).2.2.calls
          = st.calls ++ List.replicate k (RunCall.ServiceAccountsGet ns h.ServiceAccountName)
      ∧ (wait.ExponentialBackoff (h.backoffCond api ns) steps (saObj, st)).2.2.stderr
          = st.stderr
      ∧ ((wait.ExponentialBackoff (h.backoffCond api ns) steps (saObj, st)).1 = .ok () →
          1 ≤ k ∧ saTokenAvail h.ServiceAccountName
            (wait.ExponentialBackoff (h.backoffCond api ns) steps (saObj, st)).2.1 = some true)
      ∧ ((wait.ExponentialBackoff (h.backoffCond api ns) steps (saObj, st)).1 = .fault →
          1 ≤ k ∧ ∃ ex, api.ServiceAccountsGet
            (st.calls ++ List.replicate (k - 1)
              (RunCall.ServiceAccountsGet ns h.ServiceAccountName))
            ns h.ServiceAccountName = (none, ex, none))
      ∧ (∀ e, (wait.ExponentialBackoff (h.backoffCond api ns) steps (saObj, st)).1 = .error e →
          (k = steps ∧ e = wait.ErrWaitTimeout)
          ∨ (1 ≤ k ∧ ∃ sa ex e0, api.ServiceAccountsGet
              (st.calls ++ List.replicate (k - 1)
                (RunCall.ServiceAccountsGet ns h.ServiceAccountName))
              ns h.ServiceAccountName = (sa, ex, some e0) ∧ e = errors.WithStack e0)) := by
  induction steps generalizing saObj st with
  | zero =>
    refine ⟨0, Nat.le_refl 0, ?_, rfl, ?_, ?_, ?_⟩
    · simp [wait.ExponentialBackoff]
    · intro hk
      simp [wait.ExponentialBackoff] at hk
    · intro hk
      simp [wait.ExponentialBackoff] at hk
    · intro e he
      simp only [wait.ExponentialBackoff] at he
      injection he with he
      exact Or.inl ⟨rfl, he.symm⟩
  | succ n ih =>
    rcases hg : api.ServiceAccountsGet st.calls ns h.ServiceAccountName with ⟨sa, ex, err⟩
    have hcond : h.backoffCond api ns (saObj, st)
        = (match err with
          | some e => (some (false, some (errors.WithStack e)),
              (sa, st.call (.ServiceAccountsGet ns h.ServiceAccountName)))
          | none =>
            match saTokenAvail h.ServiceAccountName sa with
            | none => (none, (sa, st.call (.ServiceAccountsGet ns h.ServiceAccountName)))
            | some avail =>
              (some (avail, none),
                (sa, st.call (.ServiceAccountsGet ns h.ServiceAccountName)))) := by
      simp only [Handler.backoffCond, hg]
      cases err <;> rfl
    have hzero : st.calls ++ List.replicate (1 - 1)
        (RunCall.ServiceAccountsGet ns h.ServiceAccountName) = st.calls := by
      simp
    have hone : st.calls ++ [RunCall.ServiceAccountsGet ns h.ServiceAccountName]
        = st.calls ++ List.replicate 1 (RunCall.ServiceAccountsGet ns h.ServiceAccountName) :=
      rfl
    cases err with
    | some e0 =>
      have hres : wait.ExponentialBackoff (h.backoffCond api ns) (n + 1) (saObj, st)
          = (.error (errors.WithStack e0),
              (sa, st.call (.ServiceAccountsGet ns h.ServiceAccountName))) := by
        simp only [wait.ExponentialBackoff, hcond]
      rw [hres]
      refine ⟨1, Nat.succ_le_succ (Nat.zero_le n), hone, rfl, ?_, ?_, ?_⟩
      · intro hk
        cases hk
      · intro hk
        cases hk
      · intro e he
        injection he with he
        exact Or.inr ⟨Nat.le_refl 1, sa, ex, e0, by rw [hzero]; exact hg, he.symm⟩
    | none =>
      cases hav : saTokenAvail h.ServiceAccountName sa with
      | none =>
        have hres : wait.ExponentialBackoff (h.backoffCond api ns) (n + 1) (saObj, st)
            = (.fault, (sa, st.call (.ServiceAccountsGet ns h.ServiceAccountName))) := by
          simp only [wait.ExponentialBackoff, hcond, hav]
        rw [hres]
        have hsa : sa = none := by
          cases sa with
          | none => rfl
          | some a => simp [saTokenAvail] at hav
        refine ⟨1, Nat.succ_le_succ (Nat.zero_le n), hone, rfl, ?_, ?_, ?_⟩
        · intro hk
          cases hk
        · intro _
          exact ⟨Nat.le_refl 1, ex, by rw [hzero, ← hsa]; exact hg⟩
        · intro e he
          cases he
      | some avail =>
        cases avail with
        | true =>
          have hres : wait.ExponentialBackoff (h.backoffCond api ns) (n + 1) (saObj, st)
              = (.ok (), (sa, st.call (.ServiceAccountsGet ns h.ServiceAccountName))) := by
            simp only [wait.ExponentialBackoff, hcond, hav]
          rw [hres]
          refine ⟨1, Nat.succ_le_succ (Nat.zero_le n), hone, rfl, ?_, ?_, ?_⟩
          · intro _
            exact ⟨Nat.le_refl 1, hav⟩
          · intro hk
            cases hk
          · intro e he
            cases he
        | false =>
          have hres : wait.ExponentialBackoff (h.backoffCond api ns) (n + 1) (saObj, st)
              = wait.ExponentialBackoff (h.backoffCond api ns) n
                  (sa, st.call (.ServiceAccountsGet ns h.ServiceAccountName)) := by
            simp only [wait.ExponentialBackoff, hcond, hav]
          rw [hres]
          obtain ⟨k, hk, hc, hs, h1, h2, h3⟩ :=
            ih sa (st.call (.ServiceAccountsGet ns h.ServiceAccountName))
          have hcalls : (st.call (RunCall.ServiceAccountsGet ns h.ServiceAccountName)).calls
              = st.calls ++ [RunCall.ServiceAccountsGet ns h.ServiceAccountName] := rfl
          rw [hcalls] at hc h2 h3
          have hpre : ∀ j, 1 ≤ j →
              (st.calls ++ [RunCall.ServiceAccountsGet ns h.ServiceAccountName])
                  ++ List.replicate (j - 1) (RunCall.ServiceAccountsGet ns h.ServiceAccountName)
                = st.calls ++ List.replicate (j + 1 - 1)
                    (RunCall.ServiceAccountsGet ns h.ServiceAccountName) := by
            intro j hj
            rw [append_replicate_succ]
            congr 2
            omega
          refine ⟨k + 1, Nat.succ_le_succ hk, ?_, hs, ?_, ?_, ?_⟩
          · rw [hc, append_replicate_succ]
          · intro hok
            exact ⟨Nat.succ_le_succ (Nat.zero_le k), (h1 hok).2⟩
          · intro hf
            obtain ⟨hk1, ex2, hex⟩ := h2 hf
            rw [hpre k hk1] at hex
            exact ⟨Nat.succ_le_succ (Nat.zero_le k), ex2, hex⟩
          · intro e he
            rcases h3 e he with ⟨hkn, hto⟩ | ⟨hk1, sa2, ex2, e0, hex, hee⟩
            · exact Or.inl ⟨by rw [hkn], hto⟩
            · rw [hpre k hk1] at hex
              exact Or.inr ⟨Nat.succ_le_succ (Nat.zero_le k), sa2, ex2, e0, hex, hee⟩

/-- The part of claim C17 that the code meets.  If the account that `run` holds after the
initial `Get` or `CreateBasic` shows the token, the wait makes no call.  Otherwise it makes
`k` calls of `ServiceAccounts.Get` with `1 ≤ k ≤ 5` and nothing else, and ends in one of
four ways: it proceeds with the account of the last `Get`, which shows the token; or it
returns the wrapped error of the last `Get`; or, after five calls, it returns the wrapped
`ErrWaitTimeout`; or the last `Get` returned a nil account with a nil error and `run` stops
on a nil dereference. -/
theorem waitToken_spec (h : Handler) (api : ApiClientset) (ns : String)
    (saObj : Option core.ServiceAccount) (st : RunState) :
    (saTokenAvail h.ServiceAccountName saObj = some true →
      h.waitToken api ns saObj st = .ok (saObj, st)) ∧
    (saTokenAvail h.ServiceAccountName saObj = some false →
      ∃ k, 1 ≤ k ∧ k ≤ 5 ∧
        ((∃ sa st2, h.waitToken api ns saObj st = .ok (sa, st2)
            ∧ st2.calls = st.calls ++ List.replicate k
                (RunCall.ServiceAccountsGet ns h.ServiceAccountName)
            ∧ st2.stderr = st.stderr
            ∧ saTokenAvail h.ServiceAccountName sa = some true)
        ∨ (∃ out, h.waitToken api ns saObj st = .error ⟨out, st.calls ++ List.replicate k
                (RunCall.ServiceAccountsGet ns h.ServiceAccountName), st.stderr⟩
            ∧ ((k = 5 ∧ out = .error (errors.Wrap wait.ErrWaitTimeout
                  "kubeauth: secret with service account\x27s token not found"))
              ∨ (∃ sa ex e0, api.ServiceAccountsGet
                    (st.calls ++ List.replicate (k - 1)
                      (RunCall.ServiceAccountsGet ns h.ServiceAccountName))
                    ns h.ServiceAccountName = (sa, ex, some e0)
                  ∧ out = .error (errors.Wrap (errors.WithStack e0)
                      "kubeauth: secret with service account\x27s token not found"))
              ∨ (out = .fault ∧ ∃ ex, api.ServiceAccountsGet
                    (st.calls ++ List.replicate (k - 1)
                      (RunCall.ServiceAccountsGet ns h.ServiceAccountName))
                    ns h.ServiceAccountName = (none, ex, none)))))) := by
  constructor
  · intro hav
    simp only [Handler.waitToken, hav]
  · intro hav
    obtain ⟨k, hk, hc, hs, h1, h2, h3⟩ := backoff_spec h api ns 5 saObj st
    rcases hres : wait.ExponentialBackoff (h.backoffCond api ns) 5 (saObj, st)
      with ⟨out, sa, st2⟩
    rw [hres] at hc hs h1 h2 h3
    simp only at hc hs h1 h2 h3
    have hst2 : st2 = ⟨st.calls ++ List.replicate k
        (RunCall.ServiceAccountsGet ns h.ServiceAccountName), st.stderr⟩ := by
      cases st2
      simp only at hc hs
      rw [hc, hs]
    cases out with
    | ok u =>
      obtain ⟨hk1, hav2⟩ := h1 rfl
      refine ⟨k, hk1, hk, Or.inl ⟨sa, st2, ?_, hc, hs, hav2⟩⟩
      simp only [Handler.waitToken, hav, hres]
    | error e =>
      have hw : h.waitToken api ns saObj st = .error ⟨.error (errors.Wrap e
            "kubeauth: secret with service account\x27s token not found"),
          st.calls ++ List.replicate k (RunCall.ServiceAccountsGet ns h.ServiceAccountName),
          st.stderr⟩ := by
        simp only [Handler.waitToken, hav, hres, hst2, RunState.done]
      rcases h3 e rfl with ⟨hk5, hto⟩ | ⟨hk1, sa2, ex2, e0, hex, hee⟩
      · refine ⟨k, by omega, hk, Or.inr ⟨_, hw, Or.inl ⟨hk5, by rw [hto]⟩⟩⟩
      · refine ⟨k, hk1, hk, Or.inr ⟨_, hw, Or.inr (Or.inl ⟨sa2, ex2, e0, hex, by rw [hee]⟩)⟩⟩
    | fault =>
      have hw : h.waitToken api ns saObj st = .error ⟨.fault,
          st.calls ++ List.replicate k (RunCall.ServiceAccountsGet ns h.ServiceAccountName),
          st.stderr⟩ := by
        simp only [Handler.waitToken, hav, hres, hst2, RunState.done]
      obtain ⟨hk1, ex2, hex⟩ := h2 rfl
      exact ⟨k, hk1, hk, Or.inr ⟨_, hw, Or.inr (Or.inr ⟨rfl, ex2, hex⟩)⟩⟩

/-- C17, where the code departs from it: when the account that `run` holds does not show
the token and the first polling `Get` reports the account as not found (a nil account, a
nil error, which is what `DefaultClient.Get` of service_account.go returns in that case),
the wait neither goes on polling nor returns an error: `saTokenAvail` reads the secrets of
the nil account and `run` stops on a nil dereference. -/
theorem C17_waitToken_fault (h : Handler) (api : ApiClientset) (ns : String)
    (saObj : Option core.ServiceAccount) (st : RunState) (ex : Bool)
    (hav : saTokenAvail h.ServiceAccountName saObj = some false)
    (hget : api.ServiceAccountsGet st.calls ns h.ServiceAccountName = (none, ex, none)) :
    h.waitToken api ns saObj st
      = .error ⟨.fault, st.calls ++ [RunCall.ServiceAccountsGet ns h.ServiceAccountName],
          st.stderr⟩ := by
  have hnone : saTokenAvail h.ServiceAccountName none = none := rfl
  simp only [Handler.waitToken, hav, wait.ExponentialBackoff, Handler.backoffCond, hget,
    hnone, RunState.done, RunState.call]

/-- C17 at a cluster whose service account `sa` has no secret yet and is gone when `run`
polls for it: the wait, and with it the whole `run`, ends on a nil dereference after the
first polling `Get`. -/
theorem C17_waitToken_fault_witness :
    (fakeHandler (fakeApiClientset [] []
          (fun n => if n = 0 then (some (core.ServiceAccount.mk []), true) else (none, false))
          [] [] []) [] [] 0).waitToken
        (fakeApiClientset [] []
          (fun n => if n = 0 then (some (core.ServiceAccount.mk []), true) else (none, false))
          [] [] [])
        "ns" (some (core.ServiceAccount.mk []))
        (RunState.mk [RunCall.ServiceAccountsGet "ns" "sa"] [])
      = .error (RunResult.mk .fault [RunCall.ServiceAccountsGet "ns" "sa",
          RunCall.ServiceAccountsGet "ns" "sa"] []) ∧
    (fakeHandler (fakeApiClientset [] []
          (fun n => if n = 0 then (some (core.ServiceAccount.mk []), true) else (none, false))
          [] [] []) [] [] 0).run fakeHost Context.live
      = RunResult.mk .fault [RunCall.ConfigParse "",
          RunCall.ServiceAccountsGet "current-namespace" "sa",
          RunCall.ServiceAccountsGet "current-namespace" "sa"] [] :=
  ⟨C17_waitToken_fault _ _ "ns" (some (core.ServiceAccount.mk []))
      (RunState.mk [RunCall.ServiceAccountsGet "ns" "sa"] []) false (by decide) (by decide),
    by decide⟩

/-! ## add-user: the validation of the selectors (claim C18) -/

theorem NewBindingSelector_ok (s : String) (h : (NewBindingSelector s).2 = none) :
    NewBindingSelector s = (some ⟨selectorRole s, selectorBinding s⟩, none) := by
  unfold NewBindingSelector at h ⊢
  simp only [] at h ⊢
  split_ifs at h ⊢ with c
  rfl

theorem parseSelectors_foldl (selectors : List String)
    (hwf : ∀ s ∈ selectors, (NewBindingSelector s).2 = none)
    (acc : List (Option BindingSelector) × List String) :
    selectors.foldl (fun (acc : List (Option BindingSelector) × List String) r =>
        match NewBindingSelector r with
        | (_, some err) => (acc.1, acc.2 ++ [err])
        | (binding, none) => (acc.1 ++ [binding], acc.2)) acc
      = (acc.1 ++ selectors.map
          (fun s => some (BindingSelector.mk (selectorRole s) (selectorBinding s))), acc.2) := by
  induction selectors generalizing acc with
  | nil => simp
  | cons s rest ih =>
    rw [List.foldl_cons, NewBindingSelector_ok s (hwf s (List.mem_cons_self _ _))]
    simp only []
    rw [ih (fun t ht => hwf t (List.mem_cons_of_mem _ ht))]
    simp

theorem parseSelectors_ok (selectors : List String)
    (hwf : ∀ s ∈ selectors, (NewBindingSelector s).2 = none) :
    parseSelectors selectors
      = (selectors.map
          (fun s => some (BindingSelector.mk (selectorRole s) (selectorBinding s))), []) := by
  unfold parseSelectors
  rw [parseSelectors_foldl selectors hwf]
  rfl

theorem rolesLookup_stable (api : ApiClientset) (ns : String) (ex : String → Bool)
    (selectors : List String)
    (hget : ∀ s ∈ selectors, ∀ past,
      api.RolesGet past ns (selectorRole s) = (ex (selectorRole s), none))
    (invalid : List String) (st : RunState) :
    rolesLookup api ns
        (selectors.map
          (fun s => some (BindingSelector.mk (selectorRole s) (selectorBinding s))))
        invalid st
      = .ok (invalid ++ missingRoles ex selectors,
          ⟨st.calls ++ selectors.map (fun s => RunCall.RolesGet ns (selectorRole s)),
            st.stderr⟩) := by
  induction selectors generalizing invalid st with
  | nil => simp [rolesLookup, missingRoles]
  | cons s rest ih =>
    simp only [List.map_cons, rolesLookup, hget s (List.mem_cons_self _ _) st.calls]
    rw [ih (fun t ht => hget t (List.mem_cons_of_mem _ ht))]
    cases hex : ex (selectorRole s) <;>
      simp [missingRoles, List.filter_cons, hex, RunState.call]

theorem clusterRolesLookup_stable (api : ApiClientset) (ex : String → Bool)
    (selectors : List String)
    (hget : ∀ s ∈ selectors, ∀ past,
      api.ClusterRolesGet past (selectorRole s) = (ex (selectorRole s), none))
    (invalid : List String) (st : RunState) :
    clusterRolesLookup api
        (selectors.map
          (fun s => some (BindingSelector.mk (selectorRole s) (selectorBinding s))))
        invalid st
      = .ok (invalid ++ missingRoles ex selectors,
          ⟨st.calls ++ selectors.map (fun s => RunCall.ClusterRolesGet (selectorRole s)),
            st.stderr⟩) := by
  induction selectors generalizing invalid st with
  | nil => simp [clusterRolesLookup, missingRoles]
  | cons s rest ih =>
    simp only [List.map_cons, clusterRolesLookup, hget s (List.mem_cons_self _ _) st.calls]
    rw [ih (fun t ht => hget t (List.mem_cons_of_mem _ ht))]
    cases hex : ex (selectorRole s) <;>
      simp [missingRoles, List.filter_cons, hex, RunState.call]

theorem infix_intercalate {α : Type} (sep x : List α) (xs : List (List α)) (hx : x ∈ xs) :
    x <:+: sep.intercalate xs := by
  induction xs with
  | nil => cases hx
  | cons y rest ih =>
    cases rest with
    | nil =>
      simp only [List.mem_singleton] at hx
      subst hx
      simp [List.intercalate, List.intersperse]
    | cons z zs =>
      have hstep : sep.intercalate (y :: z :: zs) = y ++ (sep ++ sep.intercalate (z :: zs)) := by
        simp [List.intercalate, List.intersperse]
      rw [hstep]
      rcases List.mem_cons.mp hx with rfl | hx2
      · exact List.prefix_append _ _ |>.isInfix
      · obtain ⟨a, b, hab⟩ := ih hx2
        exact ⟨y ++ sep ++ a, b, by rw [← hab]; simp [List.append_assoc]⟩

theorem quoted_contains (isPrint : Char → Bool) (pre n : String) (l : List String)
    (hn : n ∈ l) :
    strings.Contains (pre ++ fmt.quoted isPrint l) (strconv.Quote isPrint n) = true := by
  unfold strings.Contains fmt.quoted
  rw [decide_eq_true_eq]
  have h1 : (strconv.Quote isPrint n).data
      <:+: " ".data.intercalate (l.map (fun s => (strconv.Quote isPrint s).data)) :=
    infix_intercalate _ _ _ (List.mem_map.mpr ⟨n, hn, rfl⟩)
  obtain ⟨a, b, hab⟩ := h1
  refine ⟨pre.data ++ "[".data ++ a, b ++ "]".data, ?_⟩
  simp only [String.data_append, ← hab, List.append_assoc]

theorem Quote_plain (isPrint : Char → Bool) (n : String) (hp : plainName isPrint n) :
    strconv.Quote isPrint n = "\x22" ++ n ++ "\x22" := by
  unfold strconv.Quote
  have hflat : ∀ l : List Char,
      (∀ c ∈ l, isPrint c = true ∧ c ≠ Char.ofNat 34 ∧ c ≠ Char.ofNat 92) →
      l.flatMap (fun r => (strconv.escapedRune isPrint r).data) = l := by
    intro l hl
    induction l with
    | nil => rfl
    | cons c rest ih =>
      obtain ⟨h1, h2, h3⟩ := hl c (List.mem_cons_self _ _)
      have hc : strconv.escapedRune isPrint c = String.mk [c] := by
        unfold strconv.escapedRune
        rw [if_neg (by rintro (h | h); exact h2 h; exact h3 h), if_pos h1]
      rw [List.flatMap_cons, hc, ih (fun d hd => hl d (List.mem_cons_of_mem _ hd))]
      rfl
  rw [hflat n.data hp]

/-- The escapes of `strconv.Quote` outside the printable characters: the rune 0x7f and a
control character are printed as `\x` and two digits, the line feed as `\n`, and a double
quote and a backslash get a backslash in front. -/
theorem Quote_escapes :
    strconv.Quote asciiPrint (String.mk [Char.ofNat 127]) = "\x22\x5cx7f\x22"
    ∧ strconv.Quote asciiPrint (String.mk [Char.ofNat 1]) = "\x22\x5cx01\x22"
    ∧ strconv.Quote asciiPrint (String.mk [Char.ofNat 10]) = "\x22\x5cn\x22"
    ∧ strconv.Quote asciiPrint (String.mk [Char.ofNat 233]) = "\x22\x5cu00e9\x22"
    ∧ strconv.Quote asciiPrint "a\x22b\x5cc" = "\x22a\x5c\x22b\x5c\x5cc\x22" := by
  refine ⟨?_, ?_, ?_, ?_, ?_⟩ <;> decide

theorem plain_contains (isPrint : Char → Bool) (pre n : String) (l : List String)
    (hn : n ∈ l) (hp : plainName isPrint n) :
    strings.Contains (pre ++ fmt.quoted isPrint l) n = true := by
  have h := quoted_contains isPrint pre n l hn
  unfold strings.Contains at h ⊢
  rw [decide_eq_true_eq] at h ⊢
  rw [Quote_plain isPrint n hp] at h
  refine List.IsInfix.trans ?_ h
  exact ⟨"\x22".data, "\x22".data, by simp [String.data_append]⟩

theorem checkRoles_stable (h : Handler) (host : Host) (api : ApiClientset) (ns : String)
    (ex : String → Bool) (st : RunState)
    (hwf : ∀ s ∈ h.Roles, (NewBindingSelector s).2 = none)
    (hget : ∀ s ∈ h.Roles, ∀ past,
      api.RolesGet past ns (selectorRole s) = (ex (selectorRole s), none)) :
    h.checkRoles host api ns st
      = if missingRoles ex h.Roles = [] then
          .ok (h.Roles.map
              (fun s => some (BindingSelector.mk (selectorRole s) (selectorBinding s))),
            ⟨st.calls ++ h.Roles.map (fun s => RunCall.RolesGet ns (selectorRole s)),
              st.stderr⟩)
        else
          .error ⟨.error ("kubeauth: role(s) not found: "
              ++ fmt.quoted host.IsPrint (missingRoles ex h.Roles)),
            st.calls ++ h.Roles.map (fun s => RunCall.RolesGet ns (selectorRole s)),
            st.stderr⟩ := by
  unfold Handler.checkRoles
  by_cases hl : h.Roles.length > 0
  · rw [if_pos hl, parseSelectors_ok h.Roles hwf]
    simp only [List.length_nil, gt_iff_lt, Nat.lt_irrefl, if_false]
    rw [rolesLookup_stable api ns ex h.Roles hget]
    simp only [List.nil_append]
    by_cases hm : missingRoles ex h.Roles = []
    · rw [if_pos hm, hm]
      simp
    · rw [if_neg hm, if_pos (List.length_pos.mpr hm)]
      rfl
  · rw [if_neg hl]
    have hnil : h.Roles = [] := by
      cases hr : h.Roles with
      | nil => rfl
      | cons a b => rw [hr] at hl; simp at hl
    rw [hnil]
    simp [missingRoles]

theorem checkClusterRoles_stable (h : Handler) (host : Host) (api : ApiClientset)
    (ex : String → Bool) (st : RunState)
    (hwf : ∀ s ∈ h.ClusterRoles, (NewBindingSelector s).2 = none)
    (hget : ∀ s ∈ h.ClusterRoles, ∀ past,
      api.ClusterRolesGet past (selectorRole s) = (ex (selectorRole s), none)) :
    h.checkClusterRoles host api st
      = if missingRoles ex h.ClusterRoles = [] then
          .ok (h.ClusterRoles.map
              (fun s => some (BindingSelector.mk (selectorRole s) (selectorBinding s))),
            ⟨st.calls ++ h.ClusterRoles.map (fun s => RunCall.ClusterRolesGet (selectorRole s)),
              st.stderr⟩)
        else
          .error ⟨.error ("kubeauth: cluster role(s) not found: "
              ++ fmt.quoted host.IsPrint (missingRoles ex h.ClusterRoles)),
            st.calls ++ h.ClusterRoles.map (fun s => RunCall.ClusterRolesGet (selectorRole s)),
            st.stderr⟩ := by
  unfold Handler.checkClusterRoles
  by_cases hl : h.ClusterRoles.length > 0
  · rw [if_pos hl, parseSelectors_ok h.ClusterRoles hwf]
    simp only [List.length_nil, gt_iff_lt, Nat.lt_irrefl, if_false]
    rw [clusterRolesLookup_stable api ex h.ClusterRoles hget]
    simp only [List.nil_append]
    by_cases hm : missingRoles ex h.ClusterRoles = []
    · rw [if_pos hm, hm]
      simp
    · rw [if_neg hm, if_pos (List.length_pos.mpr hm)]
      rfl
  · rw [if_neg hl]
    have hnil : h.ClusterRoles = [] := by
      cases hr : h.ClusterRoles with
      | nil => rfl
      | cons a b => rw [hr] at hl; simp at hl
    rw [hnil]
    simp [missingRoles]

/-- C18 as stated fails: the names of the missing roles are printed with the verb `%q`,
which puts a backslash before a double quote.  For the well-formed selector whose role name
is `a`, a double quote and `b`, and whose role does not exist, the message of the error does
not contain the role name. -/
theorem C18_counterexample :
    (NewBindingSelector "a\x22b:b1").2 = none ∧
    selectorRole "a\x22b:b1" = "a\x22b" ∧
    (fakeHandler (fakeApiClientset ["r1"] [] (fun _ => (none, false)) [] [] [])
        ["a\x22b:b1"] [] 0).run fakeHost Context.live
      = RunResult.mk (.error "kubeauth: role(s) not found: [\x22a\x5c\x22b\x22]")
          [RunCall.ConfigParse "", RunCall.RolesGet "current-namespace" "a\x22b"] [] ∧
    strings.Contains "kubeauth: role(s) not found: [\x22a\x5c\x22b\x22]" "a\x22b" = false := by
  refine ⟨?_, ?_, ?_, ?_⟩ <;> decide

/-- C18, amended.  Let `run` have created its clients and taken its defaults, with the
effective namespace `ns`, and let every lookup of a role be answered (`ex` says which roles
exist).  When all `--role` selectors are well-formed and at least one of their roles does
not exist, `run` looks up the role of every selector, in order, and then fails with the one
error `kubeauth: role(s) not found: ` followed by the `%q` form of the missing names; it
makes no call but `Parse` and these lookups.  The message contains every missing name in
its quoted form, and the name itself if that has neither a double quote, nor a backslash,
nor a character that is not printable.  The same holds for the `--cluster-role` selectors
when the `--role` selectors (if any) are well-formed and their roles exist; the lookups of
the roles then precede those of the cluster roles. -/
theorem C18_missing_roles (h : Handler) (host : Host) (ctx : Context) (cc : ConfigClient)
    (file : Option File) (api : ApiClientset) (cluster ns : String) (st : RunState)
    (ex : String → Bool)
    (hs : h.setup host = .ok (cc, file, api, cluster, ns, st))
    (hwf : ∀ s ∈ h.Roles, (NewBindingSelector s).2 = none) :
    ((∀ s ∈ h.Roles, ∀ past,
        api.RolesGet past ns (selectorRole s) = (ex (selectorRole s), none)) →
      missingRoles ex h.Roles ≠ [] →
      h.run host ctx
        = ⟨.error ("kubeauth: role(s) not found: "
              ++ fmt.quoted host.IsPrint (missingRoles ex h.Roles)),
            RunCall.ConfigParse h.ConfigFile
              :: h.Roles.map (fun s => RunCall.RolesGet ns (selectorRole s)), []⟩
      ∧ ∀ n ∈ missingRoles ex h.Roles,
          strings.Contains ("kubeauth: role(s) not found: "
              ++ fmt.quoted host.IsPrint (missingRoles ex h.Roles))
            (strconv.Quote host.IsPrint n) = true
          ∧ (plainName host.IsPrint n →
              strings.Contains ("kubeauth: role(s) not found: "
                ++ fmt.quoted host.IsPrint (missingRoles ex h.Roles)) n = true)) ∧
    ((∀ s ∈ h.Roles, ∀ past, api.RolesGet past ns (selectorRole s) = (true, none)) →
      (∀ s ∈ h.ClusterRoles, (NewBindingSelector s).2 = none) →
      (∀ s ∈ h.ClusterRoles, ∀ past,
        api.ClusterRolesGet past (selectorRole s) = (ex (selectorRole s), none)) →
      missingRoles ex h.ClusterRoles ≠ [] →
      h.run host ctx
        = ⟨.error ("kubeauth: cluster role(s) not found: "
              ++ fmt.quoted host.IsPrint (missingRoles ex h.ClusterRoles)),
            RunCall.ConfigParse h.ConfigFile
              :: (h.Roles.map (fun s => RunCall.RolesGet ns (selectorRole s))
                ++ h.ClusterRoles.map (fun s => RunCall.ClusterRolesGet (selectorRole s))),
            []⟩
      ∧ ∀ n ∈ missingRoles ex h.ClusterRoles,
          strings.Contains ("kubeauth: cluster role(s) not found: "
              ++ fmt.quoted host.IsPrint (missingRoles ex h.ClusterRoles))
            (strconv.Quote host.IsPrint n) = true
          ∧ (plainName host.IsPrint n →
              strings.Contains ("kubeauth: cluster role(s) not found: "
                ++ fmt.quoted host.IsPrint (missingRoles ex h.ClusterRoles)) n = true)) := by
  have hst := (setup_ok h host cc file api cluster ns st hs).1
  constructor
  · intro hget hmiss
    constructor
    · unfold Handler.run
      simp only [hs]
      rw [checkRoles_stable h host api ns ex st hwf hget, if_neg hmiss, hst]
      rfl
    · intro n hn
      exact ⟨quoted_contains _ _ n _ hn, plain_contains _ _ n _ hn⟩
  · intro hget hwf2 hget2 hmiss
    constructor
    · have hnone : missingRoles (fun _ => true) h.Roles = [] := by
        simp [missingRoles]
      unfold Handler.run
      simp only [hs]
      rw [checkRoles_stable h host api ns (fun _ => true) st hwf hget, if_pos hnone]
      simp only []
      rw [checkClusterRoles_stable h host api ex _ hwf2 hget2, if_neg hmiss, hst]
      simp
    · intro n hn
      exact ⟨quoted_contains _ _ n _ hn, plain_contains _ _ n _ hn⟩

/-- C18 at the roles of the tests: `r1` exists, `invalid-a` and `invalid-b` do not. -/
theorem C18_missing_roles_witness :
    (fakeHandler (fakeApiClientset ["r1"] [] (fun _ => (none, false)) [] [] [])
        ["r1:b1", "invalid-a:b2", "invalid-b:b3"] [] 0).run fakeHost Context.live
      = RunResult.mk
          (.error "kubeauth: role(s) not found: [\x22invalid-a\x22 \x22invalid-b\x22]")
          [RunCall.ConfigParse "", RunCall.RolesGet "current-namespace" "r1",
            RunCall.RolesGet "current-namespace" "invalid-a",
            RunCall.RolesGet "current-namespace" "invalid-b"] [] :=
  (((C18_missing_roles
    (fakeHandler (fakeApiClientset ["r1"] [] (fun _ => (none, false)) [] [] [])
        ["r1:b1", "invalid-a:b2", "invalid-b:b3"] [] 0)
    fakeHost Context.live (fakeConfigClient fakeFile) (some fakeFile)
    (fakeApiClientset ["r1"] [] (fun _ => (none, false)) [] [] [])
    "current-cluster" "current-namespace" (RunState.mk [RunCall.ConfigParse ""] [])
    (fun n => ["r1"].contains n) rfl (by decide)).1
      (fun _ _ _ => rfl) (by decide)).1).trans (by decide)

/-! ## add-user: an account that exists already (claim C19) -/

theorem GetCurrentCluster_ok (f : File) (cluster : String)
    (hc : f.GetCurrentCluster = .ok cluster) :
    ∃ name c, f.GetCurrentContext = .ok (name, c) ∧ cluster = c.Cluster := by
  unfold File.GetCurrentCluster at hc
  split_ifs at hc with h0
  cases hcx : f.GetCurrentContext with
  | error e => simp [hcx] at hc
  | ok p =>
    simp only [hcx] at hc
    split_ifs at hc with h1
    injection hc with hc
    exact ⟨p.1, p.2, rfl, hc.symm⟩

theorem checkRoles_nil (h : Handler) (host : Host) (api : ApiClientset) (ns : String)
    (st : RunState) (hr : h.Roles = []) : h.checkRoles host api ns st = .ok ([], st) := by
  unfold Handler.checkRoles
  rw [hr]
  rfl

theorem checkClusterRoles_nil (h : Handler) (host : Host) (api : ApiClientset)
    (st : RunState) (hr : h.ClusterRoles = []) :
    h.checkClusterRoles host api st = .ok ([], st) := by
  unfold Handler.checkClusterRoles
  rw [hr]
  rfl

theorem ensureAccount_exists (h : Handler) (api : ApiClientset) (ns : String) (st : RunState)
    (saObj : Option core.ServiceAccount)
    (hget : api.ServiceAccountsGet st.calls ns h.ServiceAccountName = (saObj, true, none)) :
    h.ensureAccount api ns st
      = .ok (saObj, (st.call (.ServiceAccountsGet ns h.ServiceAccountName)).verbose
          h.Verbosity "service account already exists") := by
  unfold Handler.ensureAccount
  simp only [hget, if_true]

theorem fetchSecret_ok (api : ApiClientset) (ns : String) (acct : core.ServiceAccount)
    (first : core.ObjectReference) (rest : List core.ObjectReference) (secret : core.Secret)
    (caCrt token : Bytes) (st : RunState)
    (hsec : acct.Secrets = first :: rest)
    (hsg : api.SecretsGet st.calls ns first.Name = (some secret, true, none))
    (hca : secret.Data.lookup "ca.crt" = some caCrt)
    (htok : secret.Data.lookup "token" = some token) :
    Handler.fetchSecret api ns (some acct) st
      = .ok (caCrt, token, st.call (.SecretsGet ns first.Name)) := by
  unfold Handler.fetchSecret
  simp only [hsec, hsg, hca, htok]
  rfl

theorem persist_ok (h : Handler) (host : Host) (cc : ConfigClient) (ctx : Context)
    (file : Option File) (cluster ns name : String) (caCrt token : Bytes) (st : RunState)
    (htmp : host.TempFile st.calls "" "kubeauth.*.ca.crt" = .ok name)
    (hw : ∀ past, host.FileWrite past name caCrt = none)
    (hsy : ∀ past, host.FileSync past name = none)
    (hcl : ∀ past, host.FileClose past name = none)
    (hut : ∀ past, cc.UpsertUserToken past ctx file h.Username token = none) :
    h.persist host cc ctx file cluster ns caCrt token st
      = ⟨.ok (), st.calls ++ [RunCall.TempFile "" "kubeauth.*.ca.crt",
          RunCall.FileWrite name caCrt, RunCall.FileSync name, RunCall.FileClose name,
          RunCall.UpsertUserToken h.Username token,
          RunCall.UpsertContext h.Username cluster ns h.Username,
          RunCall.RemoveSafer name], st.stderr⟩ := by
  unfold Handler.persist
  simp only [htmp, Handler.store, hw, hsy, hcl, hut, RunState.call, RunState.done,
    List.append_assoc, List.singleton_append, List.cons_append, List.nil_append]

/-- C19: let `run` have created its clients and taken its defaults, with no role
selectors.  When `ServiceAccounts.Get` finds the account, its first referenced secret has a
name that begins with `<account>-token-`, `Secrets.Get` finds that secret, and the secret
holds `ca.crt` and `token`, then (the temporary file being written and `UpsertUserToken`
accepted without error) `run` returns nil after exactly these calls, in this order:
`Parse`, one `ServiceAccounts.Get`, `Secrets.Get`, the four operations on the temporary
file, `UpsertUserToken(Username, token)`, `UpsertContext(Username, cluster, ns, Username)`,
and the removal of the temporary file.  So `CreateBasic` is never called and there is no
polling.  The cluster is `--cluster` or, when that is empty, the cluster of the current
context; the namespace is `--namespace` or, when that is empty, the namespace of the
current context. -/
theorem C19_existing_account (h : Handler) (host : Host) (ctx : Context)
    (cc : ConfigClient) (file : Option File) (api : ApiClientset) (cluster ns : String)
    (st : RunState) (acct : core.ServiceAccount) (first : core.ObjectReference)
    (rest : List core.ObjectReference) (secret : core.Secret) (caCrt token : Bytes)
    (name : String)
    (hs : h.setup host = .ok (cc, file, api, cluster, ns, st))
    (hr : h.Roles = []) (hcr : h.ClusterRoles = [])
    (hget : ∀ past, api.ServiceAccountsGet past ns h.ServiceAccountName
      = (some acct, true, none))
    (hsec : acct.Secrets = first :: rest)
    (hpre : strings.HasPrefix first.Name (h.ServiceAccountName ++ "-token-") = true)
    (hsg : ∀ past, api.SecretsGet past ns first.Name = (some secret, true, none))
    (hca : secret.Data.lookup "ca.crt" = some caCrt)
    (htok : secret.Data.lookup "token" = some token)
    (htmp : ∀ past, host.TempFile past "" "kubeauth.*.ca.crt" = .ok name)
    (hw : ∀ past, host.FileWrite past name caCrt = none)
    (hsy : ∀ past, host.FileSync past name = none)
    (hcl : ∀ past, host.FileClose past name = none)
    (hut : ∀ past, cc.UpsertUserToken past ctx file h.Username token = none) :
    (h.run host ctx).out = .ok ()
    ∧ (h.run host ctx).calls
        = [RunCall.ConfigParse h.ConfigFile,
            RunCall.ServiceAccountsGet ns h.ServiceAccountName,
            RunCall.SecretsGet ns first.Name,
            RunCall.TempFile "" "kubeauth.*.ca.crt",
            RunCall.FileWrite name caCrt, RunCall.FileSync name, RunCall.FileClose name,
            RunCall.UpsertUserToken h.Username token,
            RunCall.UpsertContext h.Username cluster ns h.Username,
            RunCall.RemoveSafer name]
    ∧ (h.Cluster ≠ "" → cluster = h.Cluster)
    ∧ (h.Cluster = "" → ∃ f cur c, file = some f ∧ f.GetCurrentContext = .ok (cur, c)
        ∧ cluster = c.Cluster)
    ∧ (h.Namespace ≠ "" → ns = h.Namespace)
    ∧ (h.Namespace = "" → ∃ f cur c, file = some f ∧ f.GetCurrentContext = .ok (cur, c)
        ∧ ns = c.Namespace) := by
  obtain ⟨hst, -, -, hc1, hc2, hn1, hn2⟩ := setup_ok h host cc file api cluster ns st hs
  have hav : ∀ s : RunState, h.waitToken api ns (some acct) s = .ok (some acct, s) := by
    intro s
    refine (waitToken_spec h api ns (some acct) s).1 ?_
    simp only [saTokenAvail, hsec, List.any_cons, hpre, Bool.true_or]
  have hrun : h.run host ctx
      = ⟨.ok (), [RunCall.ConfigParse h.ConfigFile,
            RunCall.ServiceAccountsGet ns h.ServiceAccountName,
            RunCall.SecretsGet ns first.Name,
            RunCall.TempFile "" "kubeauth.*.ca.crt",
            RunCall.FileWrite name caCrt, RunCall.FileSync name, RunCall.FileClose name,
            RunCall.UpsertUserToken h.Username token,
            RunCall.UpsertContext h.Username cluster ns h.Username,
            RunCall.RemoveSafer name],
          (st.verbose h.Verbosity "service account already exists").stderr⟩ := by
    unfold Handler.run
    simp only [hs]
    rw [checkRoles_nil h host api ns st hr]
    simp only []
    rw [checkClusterRoles_nil h host api st hcr]
    simp only []
    rw [ensureAccount_exists h api ns st (some acct) (hget _)]
    simp only []
    rw [hav]
    simp only [Handler.bindRoles, Handler.bindClusterRoles]
    rw [fetchSecret_ok api ns acct first rest secret caCrt token _ hsec (hsg _) hca htok]
    simp only []
    rw [persist_ok h host cc ctx file cluster ns name caCrt token _ (htmp _) hw hsy hcl hut,
      hst]
    unfold RunState.verbose RunState.call
    split_ifs <;> rfl
  refine ⟨by rw [hrun], by rw [hrun], hc1, ?_, hn1, hn2⟩
  intro he
  obtain ⟨f, hf, hcl2⟩ := hc2 he
  obtain ⟨cur, c, hcx, hcc⟩ := GetCurrentCluster_ok f cluster hcl2
  exact ⟨f, cur, c, hf, hcx, hcc⟩

/-- C19 at the account of the tests, with neither `--cluster` nor `--namespace`. -/
theorem C19_existing_account_witness :
    ((fakeHandler (fakeApiClientset [] []
          (fun _ => (some (core.ServiceAccount.mk [core.ObjectReference.mk "sa-token-1abcd"]),
            true))
          [("sa-token-1abcd", core.Secret.mk [("ca.crt", [1]), ("token", [2, 3])])] [] [])
        [] [] 0).run fakeHost Context.live).calls
      = [RunCall.ConfigParse "", RunCall.ServiceAccountsGet "current-namespace" "sa",
          RunCall.SecretsGet "current-namespace" "sa-token-1abcd",
          RunCall.TempFile "" "kubeauth.*.ca.crt",
          RunCall.FileWrite "/tmp/kubeauth.1.ca.crt" [1],
          RunCall.FileSync "/tmp/kubeauth.1.ca.crt",
          RunCall.FileClose "/tmp/kubeauth.1.ca.crt",
          RunCall.UpsertUserToken "user" [2, 3],
          RunCall.UpsertContext "user" "current-cluster" "current-namespace" "user",
          RunCall.RemoveSafer "/tmp/kubeauth.1.ca.crt"] :=
  (C19_existing_account
    (fakeHandler (fakeApiClientset [] []
          (fun _ => (some (core.ServiceAccount.mk [core.ObjectReference.mk "sa-token-1abcd"]),
            true))
          [("sa-token-1abcd", core.Secret.mk [("ca.crt", [1]), ("token", [2, 3])])] [] [])
        [] [] 0)
    fakeHost Context.live (fakeConfigClient fakeFile) (some fakeFile)
    (fakeApiClientset [] []
          (fun _ => (some (core.ServiceAccount.mk [core.ObjectReference.mk "sa-token-1abcd"]),
            true))
          [("sa-token-1abcd", core.Secret.mk [("ca.crt", [1]), ("token", [2, 3])])] [] [])
    "current-cluster" "current-namespace" (RunState.mk [RunCall.ConfigParse ""] [])
    (core.ServiceAccount.mk [core.ObjectReference.mk "sa-token-1abcd"])
    (core.ObjectReference.mk "sa-token-1abcd") []
    (core.Secret.mk [("ca.crt", [1]), ("token", [2, 3])]) [1] [2, 3]
    "/tmp/kubeauth.1.ca.crt" rfl rfl rfl (fun _ => rfl) rfl (by decide) (fun _ => rfl)
    (by decide) (by decide) (fun _ => rfl) (fun _ => rfl) (fun _ => rfl) (fun _ => rfl)
    (fun _ => rfl)).2.1

/-! ## add-user: errors of the binding `Create` (claim C20) -/

theorem setup_forgive (h : Handler) (host : Host) :
    h.forgive.setup host.forgive
      = (h.setup host).map (fun p => (p.1, p.2.1, p.2.2.1.forgive, p.2.2.2)) := by
  unfold Handler.setup
  rcases hp : (h.KubectlConfigClient.getD host.NewDefaultClient).Parse [] h.ConfigFile
    with ⟨f0, err⟩
  have hp1 : (h.KubectlConfigClient.getD host.NewDefaultClient).Parse
      ({} : RunState).calls h.ConfigFile = (f0, err) := hp
  have hp2 : (h.forgive.KubectlConfigClient.getD host.forgive.NewDefaultClient).Parse
      ({} : RunState).calls h.forgive.ConfigFile = (f0, err) := hp
  simp only [hp1, hp2]
  cases err with
  | some e => rfl
  | none =>
    simp only []
    have hd : ∀ st, h.forgive.defaults f0 st = h.defaults f0 st := fun _ => rfl
    have ha : ∀ st, h.forgive.apiClientset host.forgive f0 st
        = (h.apiClientset host f0 st).map ApiClientset.forgive := by
      intro st
      unfold Handler.apiClientset
      cases hk : h.KubeApiClientset with
      | some a =>
        have : h.forgive.KubeApiClientset = some a.forgive := by
          simp [Handler.forgive, hk]
        simp only [this]
        rfl
      | none =>
        have : h.forgive.KubeApiClientset = none := by
          simp [Handler.forgive, hk]
        simp only [this]
        cases f0 with
        | none => rfl
        | some f =>
          simp only [Host.forgive]
          cases host.NewForConfig f <;> rfl
    rw [ha, hd]
    have hc : h.forgive.ConfigFile = h.ConfigFile := rfl
    rw [hc]
    cases h.apiClientset host f0 (RunState.call {} (RunCall.ConfigParse h.ConfigFile)) with
    | error r => rfl
    | ok a =>
      cases h.defaults f0 (RunState.call {} (RunCall.ConfigParse h.ConfigFile)) with
      | error r => rfl
      | ok p => rfl

theorem rolesLookup_forgive (api : ApiClientset) (ns : String)
    (bs : List (Option BindingSelector)) (invalid : List String) (st : RunState) :
    rolesLookup api.forgive ns bs invalid st = rolesLookup api ns bs invalid st := by
  induction bs generalizing invalid st with
  | nil => rfl
  | cons b rest ih =>
    cases b with
    | none => rfl
    | some b =>
      rcases hg : api.RolesGet st.calls ns b.RoleName with ⟨ex, err⟩
      have hg2 : api.forgive.RolesGet st.calls ns b.RoleName = (ex, err) := hg
      simp only [rolesLookup, hg, hg2]
      cases err with
      | some e => rfl
      | none => exact ih _ _

theorem clusterRolesLookup_forgive (api : ApiClientset)
    (bs : List (Option BindingSelector)) (invalid : List String) (st : RunState) :
    clusterRolesLookup api.forgive bs invalid st = clusterRolesLookup api bs invalid st := by
  induction bs generalizing invalid st with
  | nil => rfl
  | cons b rest ih =>
    cases b with
    | none => rfl
    | some b =>
      rcases hg : api.ClusterRolesGet st.calls b.RoleName with ⟨ex, err⟩
      have hg2 : api.forgive.ClusterRolesGet st.calls b.RoleName = (ex, err) := hg
      simp only [clusterRolesLookup, hg, hg2]
      cases err with
      | some e => rfl
      | none => exact ih _ _

theorem checkRoles_forgive (h : Handler) (host : Host) (api : ApiClientset) (ns : String)
    (st : RunState) :
    h.forgive.checkRoles host.forgive api.forgive ns st = h.checkRoles host api ns st := by
  unfold Handler.checkRoles
  simp only [rolesLookup_forgive]
  rfl

theorem checkClusterRoles_forgive (h : Handler) (host : Host) (api : ApiClientset)
    (st : RunState) :
    h.forgive.checkClusterRoles host.forgive api.forgive st
      = h.checkClusterRoles host api st := by
  unfold Handler.checkClusterRoles
  simp only [clusterRolesLookup_forgive]
  rfl

theorem ensureAccount_forgive (h : Handler) (api : ApiClientset) (ns : String)
    (st : RunState) :
    h.forgive.ensureAccount api.forgive ns st = h.ensureAccount api ns st := rfl

theorem waitToken_forgive (h : Handler) (api : ApiClientset) (ns : String)
    (saObj : Option core.ServiceAccount) (st : RunState) :
    h.forgive.waitToken api.forgive ns saObj st = h.waitToken api ns saObj st := rfl

theorem bindRoles_cons (h : Handler) (api : ApiClientset) (ns : String) (b : BindingSelector)
    (rest : List (Option BindingSelector)) (st : RunState) :
    h.bindRoles api ns (some b :: rest) st
      = match api.RoleBindingsCreate st.calls ns b.BindingName b.RoleName
            (Subject.mk KindServiceAccount "" h.ServiceAccountName "") with
        | some e =>
          if e.IsAlreadyExists then
            h.bindRoles api ns rest
              ((st.call (.RoleBindingsCreate ns b.BindingName b.RoleName
                (Subject.mk KindServiceAccount "" h.ServiceAccountName ""))).verbose
                h.Verbosity "role binding(s) already exist")
          else
            .error ⟨.error (errors.Wrap e.Message "kubeauth"),
              st.calls ++ [.RoleBindingsCreate ns b.BindingName b.RoleName
                (Subject.mk KindServiceAccount "" h.ServiceAccountName "")], st.stderr⟩
        | none =>
          h.bindRoles api ns rest
            (st.call (.RoleBindingsCreate ns b.BindingName b.RoleName
              (Subject.mk KindServiceAccount "" h.ServiceAccountName ""))) := by
  simp only [Handler.bindRoles]
  rfl

theorem bindClusterRoles_cons (h : Handler) (api : ApiClientset) (ns : String)
    (b : BindingSelector) (rest : List (Option BindingSelector)) (st : RunState) :
    h.bindClusterRoles api ns (some b :: rest) st
      = match api.ClusterRoleBindingsCreate st.calls b.BindingName b.RoleName
            (Subject.mk KindServiceAccount "" h.ServiceAccountName ns) with
        | some e =>
          if e.IsAlreadyExists then
            h.bindClusterRoles api ns rest
              ((st.call (.ClusterRoleBindingsCreate b.BindingName b.RoleName
                (Subject.mk KindServiceAccount "" h.ServiceAccountName ns))).verbose
                h.Verbosity "cluster role binding(s) already exist")
          else
            .error ⟨.error (errors.Wrap e.Message "kubeauth"),
              st.calls ++ [.ClusterRoleBindingsCreate b.BindingName b.RoleName
                (Subject.mk KindServiceAccount "" h.ServiceAccountName ns)], st.stderr⟩
        | none =>
          h.bindClusterRoles api ns rest
            (st.call (.ClusterRoleBindingsCreate b.BindingName b.RoleName
              (Subject.mk KindServiceAccount "" h.ServiceAccountName ns))) := by
  simp only [Handler.bindClusterRoles]
  rfl

theorem verbose_calls (st : RunState) (verbosity : Int) (msg : String) :
    (st.verbose verbosity msg).calls = st.calls := by
  unfold RunState.verbose
  split_ifs <;> rfl

theorem bindRoles_agree (h : Handler) (api : ApiClientset) (ns : String)
    (bs : List (Option BindingSelector)) (st st2 : RunState) (ha : st.agree st2) :
    (∃ s s2, h.bindRoles api ns bs st = .ok s
        ∧ h.forgive.bindRoles api.forgive ns bs st2 = .ok s2 ∧ s.agree s2)
    ∨ (∃ r r2, h.bindRoles api ns bs st = .error r
        ∧ h.forgive.bindRoles api.forgive ns bs st2 = .error r2 ∧ r.agree r2) := by
  induction bs generalizing st st2 with
  | nil => exact Or.inl ⟨st, st2, rfl, rfl, ha⟩
  | cons b rest ih =>
    cases b with
    | none => exact Or.inr ⟨_, _, rfl, rfl, rfl, ha⟩
    | some b =>
      rw [bindRoles_cons, bindRoles_cons]
      have hc : st2.calls = st.calls := ha.symm
      have hf : api.forgive.RoleBindingsCreate st2.calls ns b.BindingName b.RoleName
            (Subject.mk KindServiceAccount "" h.forgive.ServiceAccountName "")
          = (api.RoleBindingsCreate st.calls ns b.BindingName b.RoleName
              (Subject.mk KindServiceAccount "" h.ServiceAccountName "")).filter
              (fun e => !e.IsAlreadyExists) := by
        rw [hc]
        rfl
      rw [hf]
      have hn : h.forgive.ServiceAccountName = h.ServiceAccountName := rfl
      rw [hn]
      have hcall : ∀ c, (st.call c).agree (st2.call c) := by
        intro c
        unfold RunState.agree RunState.call
        simp only [hc]
      cases hans : api.RoleBindingsCreate st.calls ns b.BindingName b.RoleName
          (Subject.mk KindServiceAccount "" h.ServiceAccountName "") with
      | none => exact ih _ _ (hcall _)
      | some e =>
        cases hae : e.IsAlreadyExists with
        | true =>
          simp only [Option.filter, hae, Bool.not_true, if_true]
          refine ih _ _ ?_
          unfold RunState.agree
          rw [verbose_calls]
          exact hcall _
        | false =>
          simp only [Option.filter, hae, Bool.not_false, if_true]
          refine Or.inr ⟨_, _, rfl, rfl, rfl, ?_⟩
          simp only [hc]

theorem bindClusterRoles_agree (h : Handler) (api : ApiClientset) (ns : String)
    (bs : List (Option BindingSelector)) (st st2 : RunState) (ha : st.agree st2) :
    (∃ s s2, h.bindClusterRoles api ns bs st = .ok s
        ∧ h.forgive.bindClusterRoles api.forgive ns bs st2 = .ok s2 ∧ s.agree s2)
    ∨ (∃ r r2, h.bindClusterRoles api ns bs st = .error r
        ∧ h.forgive.bindClusterRoles api.forgive ns bs st2 = .error r2 ∧ r.agree r2) := by
  induction bs generalizing st st2 with
  | nil => exact Or.inl ⟨st, st2, rfl, rfl, ha⟩
  | cons b rest ih =>
    cases b with
    | none => exact Or.inr ⟨_, _, rfl, rfl, rfl, ha⟩
    | some b =>
      rw [bindClusterRoles_cons, bindClusterRoles_cons]
      have hc : st2.calls = st.calls := ha.symm
      have hf : api.forgive.ClusterRoleBindingsCreate st2.calls b.BindingName b.RoleName
            (Subject.mk KindServiceAccount "" h.forgive.ServiceAccountName ns)
          = (api.ClusterRoleBindingsCreate st.calls b.BindingName b.RoleName
              (Subject.mk KindServiceAccount "" h.ServiceAccountName ns)).filter
              (fun e => !e.IsAlreadyExists) := by
        rw [hc]
        rfl
      rw [hf]
      have hn : h.forgive.ServiceAccountName = h.ServiceAccountName := rfl
      rw [hn]
      have hcall : ∀ c, (st.call c).agree (st2.call c) := by
        intro c
        unfold RunState.agree RunState.call
        simp only [hc]
      cases hans : api.ClusterRoleBindingsCreate st.calls b.BindingName b.RoleName
          (Subject.mk KindServiceAccount "" h.ServiceAccountName ns) with
      | none => exact ih _ _ (hcall _)
      | some e =>
        cases hae : e.IsAlreadyExists with
        | true =>
          simp only [Option.filter, hae, Bool.not_true, if_true]
          refine ih _ _ ?_
          unfold RunState.agree
          rw [verbose_calls]
          exact hcall _
        | false =>
          simp only [Option.filter, hae, Bool.not_false, if_true]
          refine Or.inr ⟨_, _, rfl, rfl, rfl, ?_⟩
          simp only [hc]

theorem fetchSecret_agree (api : ApiClientset) (ns : String)
    (saObj : Option core.ServiceAccount) (st st2 : RunState) (ha : st.agree st2) :
    (∃ caCrt token s s2, Handler.fetchSecret api ns saObj st = .ok (caCrt, token, s)
        ∧ Handler.fetchSecret api.forgive ns saObj st2 = .ok (caCrt, token, s2) ∧ s.agree s2)
    ∨ (∃ r r2, Handler.fetchSecret api ns saObj st = .error r
        ∧ Handler.fetchSecret api.forgive ns saObj st2 = .error r2 ∧ r.agree r2) := by
  obtain ⟨c, e⟩ := st
  obtain ⟨c2, e2⟩ := st2
  have hc : c = c2 := ha
  subst hc
  unfold Handler.fetchSecret
  cases saObj with
  | none => exact Or.inr ⟨_, _, rfl, rfl, rfl, rfl⟩
  | some acct =>
    simp only []
    cases hsec : acct.Secrets with
    | nil => exact Or.inr ⟨_, _, rfl, rfl, rfl, rfl⟩
    | cons first rest =>
      rcases hget : api.SecretsGet c ns first.Name with ⟨obj, ex, err⟩
      have hget2 : api.forgive.SecretsGet c ns first.Name = (obj, ex, err) := hget
      simp only [hget, hget2]
      cases err with
      | some e0 => exact Or.inr ⟨_, _, rfl, rfl, rfl, rfl⟩
      | none =>
        cases ex with
        | false => exact Or.inr ⟨_, _, rfl, rfl, rfl, rfl⟩
        | true =>
          cases obj with
          | none => exact Or.inr ⟨_, _, rfl, rfl, rfl, rfl⟩
          | some secret =>
            cases h1 : secret.Data.lookup "ca.crt" with
            | none =>
              simp only [h1]
              exact Or.inr ⟨_, _, rfl, rfl, rfl, rfl⟩
            | some caCrt =>
              cases h2 : secret.Data.lookup "token" with
              | none =>
                simp only [h1, h2]
                exact Or.inr ⟨_, _, rfl, rfl, rfl, rfl⟩
              | some token =>
                simp only [h1, h2]
                exact Or.inl ⟨_, _, _, _, rfl, rfl, rfl⟩

theorem store_agree (h : Handler) (host : Host) (cc : ConfigClient) (ctx : Context)
    (file : Option File) (cluster ns name : String) (caCrt token : Bytes)
    (st st2 : RunState) (ha : st.agree st2) :
    (h.store host cc ctx file cluster ns name caCrt token st).1
        = (h.forgive.store host.forgive cc ctx file cluster ns name caCrt token st2).1
    ∧ (h.store host cc ctx file cluster ns name caCrt token st).2.calls
        = (h.forgive.store host.forgive cc ctx file cluster ns name caCrt token st2).2.calls := by
  obtain ⟨c, e⟩ := st
  obtain ⟨c2, e2⟩ := st2
  have hc : c = c2 := ha
  subst hc
  unfold Handler.store
  have hw : host.forgive.FileWrite = host.FileWrite := rfl
  have hs : host.forgive.FileSync = host.FileSync := rfl
  have hl : host.forgive.FileClose = host.FileClose := rfl
  have hu : h.forgive.Username = h.Username := rfl
  simp only [hw, hs, hl, hu, RunState.call]
  cases host.FileWrite c name caCrt with
  | some e0 => exact ⟨rfl, rfl⟩
  | none =>
    simp only []
    cases host.FileSync (c ++ [RunCall.FileWrite name caCrt]) name with
    | some e0 => exact ⟨rfl, rfl⟩
    | none =>
      simp only []
      cases host.FileClose
          (c ++ [RunCall.FileWrite name caCrt] ++ [RunCall.FileSync name]) name with
      | some e0 => exact ⟨rfl, rfl⟩
      | none =>
        simp only []
        cases cc.UpsertUserToken (c ++ [RunCall.FileWrite name caCrt]
            ++ [RunCall.FileSync name] ++ [RunCall.FileClose name]) ctx file h.Username
            token with
        | some e0 => exact ⟨rfl, rfl⟩
        | none => exact ⟨rfl, rfl⟩

theorem persist_agree (h : Handler) (host : Host) (cc : ConfigClient) (ctx : Context)
    (file : Option File) (cluster ns : String) (caCrt token : Bytes)
    (st st2 : RunState) (ha : st.agree st2) :
    (h.persist host cc ctx file cluster ns caCrt token st).agree
      (h.forgive.persist host.forgive cc ctx file cluster ns caCrt token st2) := by
  have hc : st.calls = st2.calls := ha
  unfold Handler.persist
  have ht : host.forgive.TempFile = host.TempFile := rfl
  simp only [ht, ← hc]
  cases host.TempFile st.calls "" "kubeauth.*.ca.crt" with
  | error e0 =>
    simp only [RunState.done, RunState.call, RunResult.agree, hc]
    exact ⟨trivial, trivial⟩
  | ok name =>
    have hs := store_agree h host cc ctx file cluster ns name caCrt token
      (st.call (.TempFile "" "kubeauth.*.ca.crt")) (st2.call (.TempFile "" "kubeauth.*.ca.crt"))
      (by unfold RunState.agree RunState.call; simp only [hc])
    simp only [RunState.done, RunResult.agree]
    exact ⟨hs.1, congrArg (fun l => l ++ [RunCall.RemoveSafer name]) hs.2⟩

/-- With the forgiving clients, `run` returns the same outcome after the same calls. -/
theorem run_forgive (h : Handler) (host : Host) (ctx : Context) :
    (h.run host ctx).agree (h.forgive.run host.forgive ctx) := by
  unfold Handler.run
  rw [setup_forgive]
  cases hs : h.setup host with
  | error r => exact ⟨rfl, rfl⟩
  | ok p =>
    obtain ⟨cc, file, api, cluster, ns, st⟩ := p
    simp only [Except.map]
    rw [checkRoles_forgive]
    cases h.checkRoles host api ns st with
    | error r => exact ⟨rfl, rfl⟩
    | ok p1 =>
      obtain ⟨roleBindings, st1⟩ := p1
      simp only []
      rw [checkClusterRoles_forgive]
      cases h.checkClusterRoles host api st1 with
      | error r => exact ⟨rfl, rfl⟩
      | ok p2 =>
        obtain ⟨clusterRoleBindings, st2⟩ := p2
        simp only []
        rw [ensureAccount_forgive]
        cases h.ensureAccount api ns st2 with
        | error r => exact ⟨rfl, rfl⟩
        | ok p3 =>
          obtain ⟨saObj, st3⟩ := p3
          simp only []
          rw [waitToken_forgive]
          cases h.waitToken api ns saObj st3 with
          | error r => exact ⟨rfl, rfl⟩
          | ok p4 =>
            obtain ⟨saObj2, st4⟩ := p4
            simp only []
            rcases bindRoles_agree h api ns roleBindings st4 st4 rfl with
              ⟨s5, t5, e5, f5, a5⟩ | ⟨r, r2, e5, f5, a5⟩
            · rw [e5, f5]
              simp only []
              rcases bindClusterRoles_agree h api ns clusterRoleBindings s5 t5 a5 with
                ⟨s6, t6, e6, f6, a6⟩ | ⟨r, r2, e6, f6, a6⟩
              · rw [e6, f6]
                simp only []
                rcases fetchSecret_agree api ns saObj2 s6 t6 a6 with
                  ⟨caCrt, token, s7, t7, e7, f7, a7⟩ | ⟨r, r2, e7, f7, a7⟩
                · rw [e7, f7]
                  exact persist_agree h host cc ctx file cluster ns caCrt token s7 t7 a7
                · rw [e7, f7]
                  exact a7
              · rw [e6, f6]
                exact a6
            · rw [e5, f5]
              exact a5

theorem createAnswer_of_not_isCreate (api : ApiClientset) (past : List RunCall) (c : RunCall)
    (hc : c.isCreate = false) : createAnswer api past c = none := by
  cases c <;> first | rfl | simp [RunCall.isCreate] at hc

theorem forgiven_nil (api : ApiClientset) : forgiven api [] := by
  intro pre c post h
  simp at h

theorem forgiven_append (api : ApiClientset) (s added : List RunCall) (hs : forgiven api s)
    (ha : ∀ c ∈ added, c.isCreate = false) : forgiven api (s ++ added) := by
  intro pre c post h e he
  have hin : c ∈ added → False := by
    intro hc
    rw [createAnswer_of_not_isCreate api pre c (ha c hc)] at he
    cases he
  rcases List.append_eq_append_iff.mp h with ⟨a, h1, h2⟩ | ⟨a, h1, h2⟩
  · exact (hin (by rw [h2]; simp)).elim
  · cases a with
    | nil =>
      simp only [List.nil_append] at h2
      exact (hin (by rw [← h2]; exact List.mem_cons_self _ _)).elim
    | cons d a2 =>
      simp only [List.cons_append, List.cons.injEq] at h2
      obtain ⟨rfl, h3⟩ := h2
      exact hs pre c a2 h1 e he

theorem forgiven_snoc (api : ApiClientset) (s : List RunCall) (c : RunCall)
    (hs : forgiven api s)
    (hc : ∀ e, createAnswer api s c = some e → e.IsAlreadyExists = true) :
    forgiven api (s ++ [c]) := by
  intro pre d post h e he
  rcases List.append_eq_append_iff.mp h with ⟨a, h1, h2⟩ | ⟨a, h1, h2⟩
  · cases a with
    | nil =>
      simp only [List.nil_append, List.cons.injEq] at h2
      obtain ⟨rfl, -⟩ := h2
      simp only [List.append_nil] at h1
      rw [h1] at he
      exact hc e he
    | cons d2 a2 =>
      have := congrArg List.length h2
      simp at this
  · cases a with
    | nil =>
      simp only [List.nil_append, List.cons.injEq] at h2
      obtain ⟨rfl, -⟩ := h2
      simp only [List.append_nil] at h1
      rw [← h1] at he
      exact hc e he
    | cons d2 a2 =>
      simp only [List.cons_append, List.cons.injEq] at h2
      obtain ⟨rfl, h3⟩ := h2
      exact hs pre d a2 h1 e he

theorem quietExt_refl (s : List RunCall) : quietExt s s :=
  ⟨[], (List.append_nil s).symm, fun _ h => absurd h (List.not_mem_nil _)⟩

theorem quietExt_trans (a b c : List RunCall) (h1 : quietExt a b) (h2 : quietExt b c) :
    quietExt a c := by
  obtain ⟨x, hx, hxq⟩ := h1
  obtain ⟨y, hy, hyq⟩ := h2
  refine ⟨x ++ y, by rw [hy, hx, List.append_assoc], ?_⟩
  intro d hd
  rcases List.mem_append.mp hd with h | h
  · exact hxq d h
  · exact hyq d h

theorem quietExt_snoc (s : List RunCall) (c : RunCall) (h1 : c.isCreate = false)
    (h2 : c.isUpsert = false) : quietExt s (s ++ [c]) :=
  ⟨[c], rfl, fun d hd => by rw [List.mem_singleton.mp hd]; exact ⟨h1, h2⟩⟩

theorem quietExt_inv (api : ApiClientset) (a b : List RunCall) (h : quietExt a b)
    (hf : forgiven api a) (hu : noUpsert a) : forgiven api b ∧ noUpsert b := by
  obtain ⟨x, hx, hxq⟩ := h
  subst hx
  refine ⟨forgiven_append api a x hf (fun c hc => (hxq c hc).1), ?_⟩
  intro c hc
  rcases List.mem_append.mp hc with h | h
  · exact hu c h
  · exact (hxq c h).2

theorem done_calls (st : RunState) (out : Outcome Unit) : (st.done out).calls = st.calls := rfl

theorem call_quiet (st : RunState) (c : RunCall) (h1 : c.isCreate = false)
    (h2 : c.isUpsert = false) : quietExt st.calls (st.call c).calls :=
  quietExt_snoc st.calls c h1 h2

theorem setup_quiet (h : Handler) (host : Host) :
    (∀ p, h.setup host = .ok p → p.2.2.2.2.2.calls = [RunCall.ConfigParse h.ConfigFile])
    ∧ (∀ r, h.setup host = .error r → r.calls = [RunCall.ConfigParse h.ConfigFile]) := by
  have ha : ∀ f st r, h.apiClientset host f st = .error r → r.calls = st.calls := by
    intro f st r hr
    unfold Handler.apiClientset at hr
    cases hk : h.KubeApiClientset with
    | some a => simp [hk] at hr
    | none =>
      cases f with
      | none =>
        simp only [hk, Except.error.injEq] at hr
        rw [← hr]
        rfl
      | some f =>
        cases hn : host.NewForConfig f with
        | error e =>
          simp only [hk, hn, Except.error.injEq] at hr
          rw [← hr]
          rfl
        | ok a => simp [hk, hn] at hr
  have hd : ∀ f st r, h.defaults f st = .error r → r.calls = st.calls := by
    intro f st r hr
    unfold Handler.defaults at hr
    simp only [] at hr
    have key : ∀ (x : Except Error String), (match x with
        | .error err => (Except.error (st.done (.error (errors.Wrap err "kubeauth")))
            : Except RunResult String)
        | .ok name => .ok name) = .error r → r.calls = st.calls := by
      intro x hx
      cases x with
      | error e => simp only [Except.error.injEq] at hx; rw [← hx]; rfl
      | ok n => simp at hx
    split at hr
    · rename_i r0 hcl
      injection hr with hr
      subst hr
      split_ifs at hcl with hc
      cases f with
      | none => simp only [Except.error.injEq] at hcl; rw [← hcl]; rfl
      | some f => exact key _ hcl
    · split_ifs at hr with hn
      cases f with
      | none => simp only [Except.error.injEq] at hr; rw [← hr]; rfl
      | some f =>
        simp only [] at hr
        cases hcx : f.GetCurrentContext with
        | error e => simp only [hcx, Except.error.injEq] at hr; rw [← hr]; rfl
        | ok p => simp [hcx] at hr
  constructor
  · intro p hp
    obtain ⟨cc, file, api, cluster, ns, st⟩ := p
    rw [(setup_ok h host cc file api cluster ns st hp).1]
  · intro r hr
    unfold Handler.setup at hr
    rcases hp : (h.KubectlConfigClient.getD host.NewDefaultClient).Parse [] h.ConfigFile
      with ⟨f0, err⟩
    have hp1 : (h.KubectlConfigClient.getD host.NewDefaultClient).Parse
        ({} : RunState).calls h.ConfigFile = (f0, err) := hp
    simp only [hp1] at hr
    cases err with
    | some e =>
      simp only [Except.error.injEq] at hr
      rw [← hr]
      rfl
    | none =>
      simp only [] at hr
      cases hac : h.apiClientset host f0 (RunState.call {} (.ConfigParse h.ConfigFile)) with
      | error r1 =>
        simp only [hac, Except.error.injEq] at hr
        rw [← hr, ha _ _ _ hac]
        rfl
      | ok a =>
        cases hdc : h.defaults f0 (RunState.call {} (.ConfigParse h.ConfigFile)) with
        | error r1 =>
          simp only [hac, hdc, Except.error.injEq] at hr
          rw [← hr, hd _ _ _ hdc]
          rfl
        | ok p => simp [hac, hdc] at hr

theorem rolesLookup_quiet (api : ApiClientset) (ns : String)
    (bs : List (Option BindingSelector)) (invalid : List String) (st : RunState) :
    (∀ p, rolesLookup api ns bs invalid st = .ok p → quietExt st.calls p.2.calls)
    ∧ (∀ r, rolesLookup api ns bs invalid st = .error r → quietExt st.calls r.calls) := by
  induction bs generalizing invalid st with
  | nil =>
    constructor
    · intro p hp
      simp only [rolesLookup, Except.ok.injEq] at hp
      rw [← hp]
      exact quietExt_refl _
    · intro r hr
      simp [rolesLookup] at hr
  | cons b rest ih =>
    cases b with
    | none =>
      constructor
      · intro p hp
        simp [rolesLookup] at hp
      · intro r hr
        simp only [rolesLookup, Except.error.injEq] at hr
        rw [← hr]
        exact quietExt_refl _
    | some b =>
      rcases hg : api.RolesGet st.calls ns b.RoleName with ⟨ex, err⟩
      have hq := call_quiet st (.RolesGet ns b.RoleName) rfl rfl
      cases err with
      | some e =>
        constructor
        · intro p hp
          simp [rolesLookup, hg] at hp
        · intro r hr
          simp only [rolesLookup, hg, Except.error.injEq] at hr
          rw [← hr]
          exact hq
      | none =>
        obtain ⟨i1, i2⟩ := ih (if ex = true then invalid else invalid ++ [b.RoleName])
          (st.call (.RolesGet ns b.RoleName))
        constructor
        · intro p hp
          simp only [rolesLookup, hg] at hp
          exact quietExt_trans _ _ _ hq (i1 p hp)
        · intro r hr
          simp only [rolesLookup, hg] at hr
          exact quietExt_trans _ _ _ hq (i2 r hr)

theorem clusterRolesLookup_quiet (api : ApiClientset)
    (bs : List (Option BindingSelector)) (invalid : List String) (st : RunState) :
    (∀ p, clusterRolesLookup api bs invalid st = .ok p → quietExt st.calls p.2.calls)
    ∧ (∀ r, clusterRolesLookup api bs invalid st = .error r → quietExt st.calls r.calls) := by
  induction bs generalizing invalid st with
  | nil =>
    constructor
    · intro p hp
      simp only [clusterRolesLookup, Except.ok.injEq] at hp
      rw [← hp]
      exact quietExt_refl _
    · intro r hr
      simp [clusterRolesLookup] at hr
  | cons b rest ih =>
    cases b with
    | none =>
      constructor
      · intro p hp
        simp [clusterRolesLookup] at hp
      · intro r hr
        simp only [clusterRolesLookup, Except.error.injEq] at hr
        rw [← hr]
        exact quietExt_refl _
    | some b =>
      rcases hg : api.ClusterRolesGet st.calls b.RoleName with ⟨ex, err⟩
      have hq := call_quiet st (.ClusterRolesGet b.RoleName) rfl rfl
      cases err with
      | some e =>
        constructor
        · intro p hp
          simp [clusterRolesLookup, hg] at hp
        · intro r hr
          simp only [clusterRolesLookup, hg, Except.error.injEq] at hr
          rw [← hr]
          exact hq
      | none =>
        obtain ⟨i1, i2⟩ := ih (if ex = true then invalid else invalid ++ [b.RoleName])
          (st.call (.ClusterRolesGet b.RoleName))
        constructor
        · intro p hp
          simp only [clusterRolesLookup, hg] at hp
          exact quietExt_trans _ _ _ hq (i1 p hp)
        · intro r hr
          simp only [clusterRolesLookup, hg] at hr
          exact quietExt_trans _ _ _ hq (i2 r hr)

theorem checkRoles_quiet (h : Handler) (host : Host) (api : ApiClientset) (ns : String)
    (st : RunState) :
    (∀ p, h.checkRoles host api ns st = .ok p → quietExt st.calls p.2.calls)
    ∧ (∀ r, h.checkRoles host api ns st = .error r → quietExt st.calls r.calls) := by
  rcases hp : parseSelectors h.Roles with ⟨rb, inv⟩
  obtain ⟨l1, l2⟩ := rolesLookup_quiet api ns rb [] st
  unfold Handler.checkRoles
  simp only [hp]
  constructor
  · intro p hres
    split_ifs at hres with c1 c2
    · cases hl : rolesLookup api ns rb [] st with
      | error r => simp [hl] at hres
      | ok q =>
        simp only [hl] at hres
        split_ifs at hres with c3
        injection hres with hres
        rw [← hres]
        exact l1 q hl
    · injection hres with hres
      rw [← hres]
      exact quietExt_refl _
  · intro r hres
    split_ifs at hres with c1 c2
    · injection hres with hres
      rw [← hres]
      exact quietExt_refl _
    · cases hl : rolesLookup api ns rb [] st with
      | error r1 =>
        simp only [hl, Except.error.injEq] at hres
        rw [← hres]
        exact l2 r1 hl
      | ok q =>
        simp only [hl] at hres
        split_ifs at hres with c3
        injection hres with hres
        rw [← hres]
        exact l1 q hl

theorem checkClusterRoles_quiet (h : Handler) (host : Host) (api : ApiClientset)
    (st : RunState) :
    (∀ p, h.checkClusterRoles host api st = .ok p → quietExt st.calls p.2.calls)
    ∧ (∀ r, h.checkClusterRoles host api st = .error r → quietExt st.calls r.calls) := by
  rcases hp : parseSelectors h.ClusterRoles with ⟨rb, inv⟩
  obtain ⟨l1, l2⟩ := clusterRolesLookup_quiet api rb [] st
  unfold Handler.checkClusterRoles
  simp only [hp]
  constructor
  · intro p hres
    split_ifs at hres with c1 c2
    · cases hl : clusterRolesLookup api rb [] st with
      | error r => simp [hl] at hres
      | ok q =>
        simp only [hl] at hres
        split_ifs at hres with c3
        injection hres with hres
        rw [← hres]
        exact l1 q hl
    · injection hres with hres
      rw [← hres]
      exact quietExt_refl _
  · intro r hres
    split_ifs at hres with c1 c2
    · injection hres with hres
      rw [← hres]
      exact quietExt_refl _
    · cases hl : clusterRolesLookup api rb [] st with
      | error r1 =>
        simp only [hl, Except.error.injEq] at hres
        rw [← hres]
        exact l2 r1 hl
      | ok q =>
        simp only [hl] at hres
        split_ifs at hres with c3
        injection hres with hres
        rw [← hres]
        exact l1 q hl

theorem ensureAccount_quiet (h : Handler) (api : ApiClientset) (ns : String)
    (st : RunState) :
    (∀ p, h.ensureAccount api ns st = .ok p → quietExt st.calls p.2.calls)
    ∧ (∀ r, h.ensureAccount api ns st = .error r → quietExt st.calls r.calls) := by
  rcases hg : api.ServiceAccountsGet st.calls ns h.ServiceAccountName with ⟨sa, ex, err⟩
  rcases hc : api.ServiceAccountsCreateBasic
      (st.call (.ServiceAccountsGet ns h.ServiceAccountName)).calls ns h.ServiceAccountName
    with ⟨sa2, err2⟩
  have q1 := call_quiet st (.ServiceAccountsGet ns h.ServiceAccountName) rfl rfl
  have q2 := quietExt_trans _ _ _ q1
    (call_quiet (st.call (.ServiceAccountsGet ns h.ServiceAccountName))
      (.ServiceAccountsCreateBasic ns h.ServiceAccountName) rfl rfl)
  unfold Handler.ensureAccount
  simp only [hg, hc]
  cases err with
  | some e =>
    constructor
    · intro p hp
      simp at hp
    · intro r hr
      injection hr with hr
      rw [← hr]
      exact q1
  | none =>
    cases ex with
    | true =>
      constructor
      · intro p hp
        simp only [if_true, Except.ok.injEq] at hp
        rw [← hp]
        simp only [verbose_calls]
        exact q1
      · intro r hr
        simp at hr
    | false =>
      cases err2 with
      | some e =>
        constructor
        · intro p hp
          simp at hp
        · intro r hr
          simp only [Bool.false_eq_true, if_false, Except.error.injEq] at hr
          rw [← hr]
          exact q2
      | none =>
        constructor
        · intro p hp
          simp only [Bool.false_eq_true, if_false, Except.ok.injEq] at hp
          rw [← hp]
          exact q2
        · intro r hr
          simp at hr

theorem replicate_quiet (s : List RunCall) (c : RunCall) (k : Nat) (h1 : c.isCreate = false)
    (h2 : c.isUpsert = false) : quietExt s (s ++ List.replicate k c) :=
  ⟨List.replicate k c, rfl, fun d hd => by
    rw [(List.mem_replicate.mp hd).2]
    exact ⟨h1, h2⟩⟩

theorem waitToken_quiet (h : Handler) (api : ApiClientset) (ns : String)
    (saObj : Option core.ServiceAccount) (st : RunState) :
    (∀ p, h.waitToken api ns saObj st = .ok p → quietExt st.calls p.2.calls)
    ∧ (∀ r, h.waitToken api ns saObj st = .error r → quietExt st.calls r.calls) := by
  obtain ⟨w1, w2⟩ := waitToken_spec h api ns saObj st
  cases hav : saTokenAvail h.ServiceAccountName saObj with
  | none =>
    have hw : h.waitToken api ns saObj st = .error (st.done .fault) := by
      simp only [Handler.waitToken, hav]
    rw [hw]
    constructor
    · intro p hp
      cases hp
    · intro r hr
      injection hr with hr
      rw [← hr]
      exact quietExt_refl _
  | some b =>
    cases b with
    | true =>
      rw [w1 hav]
      constructor
      · intro p hp
        injection hp with hp
        rw [← hp]
        exact quietExt_refl _
      · intro r hr
        cases hr
    | false =>
      obtain ⟨k, -, -, hk⟩ := w2 hav
      rcases hk with ⟨sa, st2, hw, hc, -, -⟩ | ⟨out, hw, -⟩
      · rw [hw]
        constructor
        · intro p hp
          injection hp with hp
          rw [← hp, hc]
          exact replicate_quiet _ _ _ rfl rfl
        · intro r hr
          cases hr
      · rw [hw]
        constructor
        · intro p hp
          cases hp
        · intro r hr
          injection hr with hr
          rw [← hr]
          exact replicate_quiet _ _ _ rfl rfl

theorem fetchSecret_quiet (api : ApiClientset) (ns : String)
    (saObj : Option core.ServiceAccount) (st : RunState) :
    (∀ p, Handler.fetchSecret api ns saObj st = .ok p → quietExt st.calls p.2.2.calls)
    ∧ (∀ r, Handler.fetchSecret api ns saObj st = .error r → quietExt st.calls r.calls) := by
  unfold Handler.fetchSecret
  cases saObj with
  | none =>
    constructor
    · intro p hp
      cases hp
    · intro r hr
      injection hr with hr
      rw [← hr]
      exact quietExt_refl _
  | some acct =>
    simp only []
    cases hsec : acct.Secrets with
    | nil =>
      constructor
      · intro p hp
        cases hp
      · intro r hr
        injection hr with hr
        rw [← hr]
        exact quietExt_refl _
    | cons first rest =>
      rcases hget : api.SecretsGet st.calls ns first.Name with ⟨obj, ex, err⟩
      have q1 := call_quiet st (.SecretsGet ns first.Name) rfl rfl
      simp only [hget]
      constructor
      · intro p hp
        split at hp
        · cases hp
        · split_ifs at hp
          split at hp
          · cases hp
          · split at hp
            · cases hp
            · split at hp
              · cases hp
              · injection hp with hp
                rw [← hp]
                exact q1
      · intro r hr
        split at hr
        · injection hr with hr
          rw [← hr]
          exact q1
        · split_ifs at hr
          · injection hr with hr
            rw [← hr]
            exact q1
          · split at hr
            · injection hr with hr
              rw [← hr]
              exact q1
            · split at hr
              · injection hr with hr
                rw [← hr]
                exact q1
              · split at hr
                · injection hr with hr
                  rw [← hr]
                  exact q1
                · cases hr

theorem bindRoles_trace (h : Handler) (api : ApiClientset) (ns : String)
    (bs : List (Option BindingSelector)) (st : RunState)
    (hf : forgiven api st.calls) (hu : noUpsert st.calls) :
    (∀ s, h.bindRoles api ns bs st = .ok s → forgiven api s.calls ∧ noUpsert s.calls)
    ∧ (∀ r, h.bindRoles api ns bs st = .error r →
        (forgiven api r.calls ∧ noUpsert r.calls) ∨ stoppedByCreate api r) := by
  induction bs generalizing st with
  | nil =>
    constructor
    · intro s hs
      injection hs with hs
      rw [← hs]
      exact ⟨hf, hu⟩
    · intro r hr
      cases hr
  | cons b rest ih =>
    cases b with
    | none =>
      constructor
      · intro s hs
        cases hs
      · intro r hr
        injection hr with hr
        rw [← hr]
        exact Or.inl ⟨hf, hu⟩
    | some b =>
      rw [bindRoles_cons]
      have hu2 : noUpsert (st.calls ++ [RunCall.RoleBindingsCreate ns b.BindingName b.RoleName
          (Subject.mk KindServiceAccount "" h.ServiceAccountName "")]) := by
        intro c hc
        rcases List.mem_append.mp hc with h1 | h1
        · exact hu c h1
        · rw [List.mem_singleton.mp h1]
          rfl
      cases hans : api.RoleBindingsCreate st.calls ns b.BindingName b.RoleName
          (Subject.mk KindServiceAccount "" h.ServiceAccountName "") with
      | none =>
        refine ih (st.call _) (forgiven_snoc api _ _ hf ?_) hu2
        intro e he
        have he2 : api.RoleBindingsCreate st.calls ns b.BindingName b.RoleName
            (Subject.mk KindServiceAccount "" h.ServiceAccountName "") = some e := he
        rw [hans] at he2
        cases he2
      | some e =>
        cases hae : e.IsAlreadyExists with
        | true =>
          simp only [hae, if_true]
          have hcalls : ((st.call (.RoleBindingsCreate ns b.BindingName b.RoleName
              (Subject.mk KindServiceAccount "" h.ServiceAccountName ""))).verbose
              h.Verbosity "role binding(s) already exist").calls
              = st.calls ++ [RunCall.RoleBindingsCreate ns b.BindingName b.RoleName
                  (Subject.mk KindServiceAccount "" h.ServiceAccountName "")] := by
            rw [verbose_calls]
            rfl
          refine ih _ ?_ ?_
          · rw [hcalls]
            refine forgiven_snoc api _ _ hf ?_
            intro e2 he2
            have he3 : api.RoleBindingsCreate st.calls ns b.BindingName b.RoleName
                (Subject.mk KindServiceAccount "" h.ServiceAccountName "") = some e2 := he2
            rw [hans] at he3
            injection he3 with he3
            rw [← he3]
            exact hae
          · rw [hcalls]
            exact hu2
        | false =>
          simp only [hae, Bool.false_eq_true, if_false]
          constructor
          · intro s hs
            cases hs
          · intro r hr
            injection hr with hr
            rw [← hr]
            exact Or.inr ⟨st.calls, _, e, rfl, hf, hu, hans, hae, rfl⟩

theorem bindClusterRoles_trace (h : Handler) (api : ApiClientset) (ns : String)
    (bs : List (Option BindingSelector)) (st : RunState)
    (hf : forgiven api st.calls) (hu : noUpsert st.calls) :
    (∀ s, h.bindClusterRoles api ns bs st = .ok s → forgiven api s.calls ∧ noUpsert s.calls)
    ∧ (∀ r, h.bindClusterRoles api ns bs st = .error r →
        (forgiven api r.calls ∧ noUpsert r.calls) ∨ stoppedByCreate api r) := by
  induction bs generalizing st with
  | nil =>
    constructor
    · intro s hs
      injection hs with hs
      rw [← hs]
      exact ⟨hf, hu⟩
    · intro r hr
      cases hr
  | cons b rest ih =>
    cases b with
    | none =>
      constructor
      · intro s hs
        cases hs
      · intro r hr
        injection hr with hr
        rw [← hr]
        exact Or.inl ⟨hf, hu⟩
    | some b =>
      rw [bindClusterRoles_cons]
      have hu2 : noUpsert (st.calls ++ [RunCall.ClusterRoleBindingsCreate b.BindingName
          b.RoleName (Subject.mk KindServiceAccount "" h.ServiceAccountName ns)]) := by
        intro c hc
        rcases List.mem_append.mp hc with h1 | h1
        · exact hu c h1
        · rw [List.mem_singleton.mp h1]
          rfl
      cases hans : api.ClusterRoleBindingsCreate st.calls b.BindingName b.RoleName
          (Subject.mk KindServiceAccount "" h.ServiceAccountName ns) with
      | none =>
        refine ih (st.call _) (forgiven_snoc api _ _ hf ?_) hu2
        intro e he
        have he2 : api.ClusterRoleBindingsCreate st.calls b.BindingName b.RoleName
            (Subject.mk KindServiceAccount "" h.ServiceAccountName ns) = some e := he
        rw [hans] at he2
        cases he2
      | some e =>
        cases hae : e.IsAlreadyExists with
        | true =>
          simp only [hae, if_true]
          have hcalls : ((st.call (.ClusterRoleBindingsCreate b.BindingName b.RoleName
              (Subject.mk KindServiceAccount "" h.ServiceAccountName ns))).verbose
              h.Verbosity "cluster role binding(s) already exist").calls
              = st.calls ++ [RunCall.ClusterRoleBindingsCreate b.BindingName b.RoleName
                  (Subject.mk KindServiceAccount "" h.ServiceAccountName ns)] := by
            rw [verbose_calls]
            rfl
          refine ih _ ?_ ?_
          · rw [hcalls]
            refine forgiven_snoc api _ _ hf ?_
            intro e2 he2
            have he3 : api.ClusterRoleBindingsCreate st.calls b.BindingName b.RoleName
                (Subject.mk KindServiceAccount "" h.ServiceAccountName ns) = some e2 := he2
            rw [hans] at he3
            injection he3 with he3
            rw [← he3]
            exact hae
          · rw [hcalls]
            exact hu2
        | false =>
          simp only [hae, Bool.false_eq_true, if_false]
          constructor
          · intro s hs
            cases hs
          · intro r hr
            injection hr with hr
            rw [← hr]
            exact Or.inr ⟨st.calls, _, e, rfl, hf, hu, hans, hae, rfl⟩

theorem store_calls (h : Handler) (host : Host) (cc : ConfigClient) (ctx : Context)
    (file : Option File) (cluster ns name : String) (caCrt token : Bytes) (st : RunState) :
    ∃ added, (h.store host cc ctx file cluster ns name caCrt token st).2.calls
        = st.calls ++ added ∧ ∀ c ∈ added, c.isCreate = false := by
  unfold Handler.store
  simp only [RunState.call]
  cases host.FileWrite st.calls name caCrt with
  | some e0 => exact ⟨[RunCall.FileWrite name caCrt], rfl, by simp [RunCall.isCreate]⟩
  | none =>
    simp only []
    cases host.FileSync (st.calls ++ [RunCall.FileWrite name caCrt]) name with
    | some e0 =>
      exact ⟨[RunCall.FileWrite name caCrt, RunCall.FileSync name], by simp,
        by simp [RunCall.isCreate]⟩
    | none =>
      simp only []
      cases host.FileClose
          (st.calls ++ [RunCall.FileWrite name caCrt] ++ [RunCall.FileSync name]) name with
      | some e0 =>
        exact ⟨[RunCall.FileWrite name caCrt, RunCall.FileSync name, RunCall.FileClose name],
          by simp, by simp [RunCall.isCreate]⟩
      | none =>
        simp only []
        cases cc.UpsertUserToken (st.calls ++ [RunCall.FileWrite name caCrt]
            ++ [RunCall.FileSync name] ++ [RunCall.FileClose name]) ctx file h.Username
            token with
        | some e0 =>
          exact ⟨[RunCall.FileWrite name caCrt, RunCall.FileSync name, RunCall.FileClose name,
            RunCall.UpsertUserToken h.Username token], by simp, by simp [RunCall.isCreate]⟩
        | none =>
          exact ⟨[RunCall.FileWrite name caCrt, RunCall.FileSync name, RunCall.FileClose name,
            RunCall.UpsertUserToken h.Username token,
            RunCall.UpsertContext h.Username cluster ns h.Username], by simp,
            by simp [RunCall.isCreate]⟩

theorem persist_trace (h : Handler) (host : Host) (cc : ConfigClient) (ctx : Context)
    (file : Option File) (cluster ns : String) (caCrt token : Bytes) (st : RunState)
    (api : ApiClientset) (hf : forgiven api st.calls) :
    forgiven api (h.persist host cc ctx file cluster ns caCrt token st).calls := by
  unfold Handler.persist
  simp only []
  cases host.TempFile st.calls "" "kubeauth.*.ca.crt" with
  | error e0 =>
    exact forgiven_append api st.calls [_] hf (by simp [RunCall.isCreate])
  | ok name =>
    obtain ⟨added, ha, hq⟩ := store_calls h host cc ctx file cluster ns name caCrt token
      (st.call (.TempFile "" "kubeauth.*.ca.crt"))
    have hcalls : (((h.store host cc ctx file cluster ns name caCrt token
        (st.call (.TempFile "" "kubeauth.*.ca.crt"))).2.call (.RemoveSafer name)).done
        (h.store host cc ctx file cluster ns name caCrt token
          (st.call (.TempFile "" "kubeauth.*.ca.crt"))).1).calls
        = st.calls ++ ([RunCall.TempFile "" "kubeauth.*.ca.crt"] ++ added
            ++ [RunCall.RemoveSafer name]) := by
      simp only [RunState.done, RunState.call] at ha ⊢
      rw [ha]
      simp
    simp only []
    rw [hcalls]
    refine forgiven_append api st.calls _ hf ?_
    intro c hc
    simp only [List.mem_append, List.mem_singleton] at hc
    rcases hc with (hc | hc) | hc
    · rw [hc]; rfl
    · exact hq c hc
    · rw [hc]; rfl

/-- Every run that got its clients either forgave every binding `Create` or was ended by
one. -/
theorem run_trace (h : Handler) (host : Host) (ctx : Context) (cc : ConfigClient)
    (file : Option File) (api : ApiClientset) (cluster ns : String) (st : RunState)
    (hs : h.setup host = .ok (cc, file, api, cluster, ns, st)) :
    forgiven api (h.run host ctx).calls ∨ stoppedByCreate api (h.run host ctx) := by
  have hst := (setup_quiet h host).1 _ hs
  simp only at hst
  have i0 : forgiven api st.calls ∧ noUpsert st.calls := by
    rw [hst]
    refine ⟨forgiven_append api [] [_] (forgiven_nil api) (by simp [RunCall.isCreate]), ?_⟩
    intro c hc
    rw [List.mem_singleton.mp hc]
    rfl
  unfold Handler.run
  simp only [hs]
  cases h1 : h.checkRoles host api ns st with
  | error r =>
    exact Or.inl (quietExt_inv api _ _ ((checkRoles_quiet h host api ns st).2 r h1) i0.1 i0.2).1
  | ok p1 =>
    obtain ⟨roleBindings, st1⟩ := p1
    have i1 := quietExt_inv api _ _ ((checkRoles_quiet h host api ns st).1 _ h1) i0.1 i0.2
    simp only at i1 ⊢
    cases h2 : h.checkClusterRoles host api st1 with
    | error r =>
      exact Or.inl
        (quietExt_inv api _ _ ((checkClusterRoles_quiet h host api st1).2 r h2) i1.1 i1.2).1
    | ok p2 =>
      obtain ⟨clusterRoleBindings, st2⟩ := p2
      have i2 := quietExt_inv api _ _ ((checkClusterRoles_quiet h host api st1).1 _ h2)
        i1.1 i1.2
      simp only at i2 ⊢
      cases h3 : h.ensureAccount api ns st2 with
      | error r =>
        exact Or.inl
          (quietExt_inv api _ _ ((ensureAccount_quiet h api ns st2).2 r h3) i2.1 i2.2).1
      | ok p3 =>
        obtain ⟨saObj, st3⟩ := p3
        have i3 := quietExt_inv api _ _ ((ensureAccount_quiet h api ns st2).1 _ h3) i2.1 i2.2
        simp only at i3 ⊢
        cases h4 : h.waitToken api ns saObj st3 with
        | error r =>
          exact Or.inl
            (quietExt_inv api _ _ ((waitToken_quiet h api ns saObj st3).2 r h4) i3.1 i3.2).1
        | ok p4 =>
          obtain ⟨saObj2, st4⟩ := p4
          have i4 := quietExt_inv api _ _ ((waitToken_quiet h api ns saObj st3).1 _ h4)
            i3.1 i3.2
          simp only at i4 ⊢
          obtain ⟨b1, b2⟩ := bindRoles_trace h api ns roleBindings st4 i4.1 i4.2
          cases h5 : h.bindRoles api ns roleBindings st4 with
          | error r =>
            rcases b2 r h5 with hg | hb
            · exact Or.inl hg.1
            · exact Or.inr hb
          | ok st5 =>
            have i5 := b1 st5 h5
            simp only []
            obtain ⟨c1, c2⟩ := bindClusterRoles_trace h api ns clusterRoleBindings st5 i5.1 i5.2
            cases h6 : h.bindClusterRoles api ns clusterRoleBindings st5 with
            | error r =>
              rcases c2 r h6 with hg | hb
              · exact Or.inl hg.1
              · exact Or.inr hb
            | ok st6 =>
              have i6 := c1 st6 h6
              simp only []
              cases h7 : Handler.fetchSecret api ns saObj2 st6 with
              | error r =>
                exact Or.inl
                  (quietExt_inv api _ _ ((fetchSecret_quiet api ns saObj2 st6).2 r h7)
                    i6.1 i6.2).1
              | ok p7 =>
                obtain ⟨caCrt, token, st7⟩ := p7
                have i7 := quietExt_inv api _ _ ((fetchSecret_quiet api ns saObj2 st6).1 _ h7)
                  i6.1 i6.2
                simp only at i7 ⊢
                exact Or.inl (persist_trace h host cc ctx file cluster ns caCrt token st7 api
                  i7.1)

/-! ### The binding `Create` calls that `run` makes -/

theorem forgivenAfter_tail (api : ApiClientset) (past : List RunCall) (c : RunCall)
    (cs : List RunCall) (h : forgivenAfter api past (c :: cs)) :
    forgivenAfter api (past ++ [c]) cs := by
  intro made d rest hcs e he
  refine h (c :: made) d rest (by rw [hcs]; rfl) e ?_
  rw [List.append_assoc] at he
  exact he

theorem forgivenAfter_append (api : ApiClientset) (past a b : List RunCall)
    (h : forgivenAfter api past (a ++ b)) :
    forgivenAfter api past a ∧ forgivenAfter api (past ++ a) b := by
  constructor
  · intro made d rest hcs e he
    exact h made d (rest ++ b) (by rw [hcs]; simp) e he
  · intro made d rest hcs e he
    refine h (a ++ made) d rest (by rw [hcs]; simp) e ?_
    rw [← List.append_assoc]
    exact he

theorem bindRoles_run (h : Handler) (api : ApiClientset) (ns : String)
    (sels : List BindingSelector) (st : RunState) :
    (forgivenAfter api st.calls (sels.map (fun b => RunCall.RoleBindingsCreate ns
          b.BindingName b.RoleName (Subject.mk KindServiceAccount "" h.ServiceAccountName "")))
      → ∃ st2, h.bindRoles api ns (sels.map some) st = .ok st2
          ∧ st2.calls = st.calls ++ sels.map (fun b => RunCall.RoleBindingsCreate ns
              b.BindingName b.RoleName
              (Subject.mk KindServiceAccount "" h.ServiceAccountName "")))
    ∧ (∀ made c rest e,
        sels.map (fun b => RunCall.RoleBindingsCreate ns b.BindingName b.RoleName
          (Subject.mk KindServiceAccount "" h.ServiceAccountName "")) = made ++ c :: rest →
        forgivenAfter api st.calls made →
        createAnswer api (st.calls ++ made) c = some e → e.IsAlreadyExists = false →
        ∃ err, h.bindRoles api ns (sels.map some) st
          = .error ⟨.error (errors.Wrap e.Message "kubeauth"), st.calls ++ made ++ [c], err⟩) := by
  induction sels generalizing st with
  | nil =>
    constructor
    · intro _
      exact ⟨st, rfl, by simp⟩
    · intro made c rest e hcs
      simp at hcs
  | cons b bs ih =>
    simp only [List.map_cons]
    rw [bindRoles_cons]
    constructor
    · intro hf
      have h0 := hf [] _ _ rfl
      simp only [List.append_nil, createAnswer] at h0
      have hf2 := forgivenAfter_tail api st.calls _ _ hf
      cases ha : api.RoleBindingsCreate st.calls ns b.BindingName b.RoleName
          (Subject.mk KindServiceAccount "" h.ServiceAccountName "") with
      | none =>
        simp only []
        obtain ⟨st2, h1, h2⟩ := (ih (st.call (.RoleBindingsCreate ns b.BindingName b.RoleName
          (Subject.mk KindServiceAccount "" h.ServiceAccountName "")))).1 hf2
        exact ⟨st2, h1, by rw [h2]; simp [RunState.call]⟩
      | some e =>
        simp only [h0 e ha, if_true]
        obtain ⟨st2, h1, h2⟩ := (ih ((st.call (.RoleBindingsCreate ns b.BindingName b.RoleName
          (Subject.mk KindServiceAccount "" h.ServiceAccountName ""))).verbose h.Verbosity
            "role binding(s) already exist")).1 (by rw [verbose_calls]; exact hf2)
        exact ⟨st2, h1, by rw [h2, verbose_calls]; simp [RunState.call]⟩
    · intro made c rest e hcs hf he hae
      cases made with
      | nil =>
        simp only [List.nil_append, List.cons.injEq] at hcs
        rw [← hcs.1] at he
        simp only [List.append_nil, createAnswer] at he
        simp only [he, hae, Bool.false_eq_true, if_false, List.append_nil]
        rw [← hcs.1]
        exact ⟨_, rfl⟩
      | cons m ms =>
        simp only [List.cons_append, List.cons.injEq] at hcs
        obtain ⟨hm, hrest⟩ := hcs
        have h0 := hf [] m ms rfl
        rw [← hm] at h0
        simp only [List.append_nil, createAnswer] at h0
        have hf2 : forgivenAfter api (st.calls ++ [m]) ms := forgivenAfter_tail api _ _ _ hf
        have he2 : createAnswer api ((st.calls ++ [m]) ++ ms) c = some e := by
          rw [List.append_assoc]
          exact he
        cases ha : api.RoleBindingsCreate st.calls ns b.BindingName b.RoleName
            (Subject.mk KindServiceAccount "" h.ServiceAccountName "") with
        | none =>
          simp only []
          obtain ⟨err, h1⟩ := (ih (st.call (.RoleBindingsCreate ns b.BindingName b.RoleName
            (Subject.mk KindServiceAccount "" h.ServiceAccountName "")))).2 ms c rest e hrest
            (by rw [hm]; exact hf2) (by rw [hm]; exact he2) hae
          refine ⟨err, ?_⟩
          rw [h1, ← hm]
          simp [RunState.call]
        | some e0 =>
          simp only [h0 e0 ha, if_true]
          obtain ⟨err, h1⟩ := (ih ((st.call (.RoleBindingsCreate ns b.BindingName b.RoleName
            (Subject.mk KindServiceAccount "" h.ServiceAccountName ""))).verbose h.Verbosity
              "role binding(s) already exist")).2 ms c rest e hrest
            (by rw [verbose_calls, hm]; exact hf2) (by rw [verbose_calls, hm]; exact he2) hae
          refine ⟨err, ?_⟩
          rw [h1, verbose_calls, ← hm]
          simp [RunState.call]

theorem bindClusterRoles_run (h : Handler) (api : ApiClientset) (ns : String)
    (sels : List BindingSelector) (st : RunState) :
    (forgivenAfter api st.calls (sels.map (fun b => RunCall.ClusterRoleBindingsCreate
          b.BindingName b.RoleName (Subject.mk KindServiceAccount "" h.ServiceAccountName ns)))
      → ∃ st2, h.bindClusterRoles api ns (sels.map some) st = .ok st2
          ∧ st2.calls = st.calls ++ sels.map (fun b => RunCall.ClusterRoleBindingsCreate
              b.BindingName b.RoleName
              (Subject.mk KindServiceAccount "" h.ServiceAccountName ns)))
    ∧ (∀ made c rest e,
        sels.map (fun b => RunCall.ClusterRoleBindingsCreate b.BindingName b.RoleName
          (Subject.mk KindServiceAccount "" h.ServiceAccountName ns)) = made ++ c :: rest →
        forgivenAfter api st.calls made →
        createAnswer api (st.calls ++ made) c = some e → e.IsAlreadyExists = false →
        ∃ err, h.bindClusterRoles api ns (sels.map some) st
          = .error ⟨.error (errors.Wrap e.Message "kubeauth"), st.calls ++ made ++ [c], err⟩) := by
  induction sels generalizing st with
  | nil =>
    constructor
    · intro _
      exact ⟨st, rfl, by simp⟩
    · intro made c rest e hcs
      simp at hcs
  | cons b bs ih =>
    simp only [List.map_cons]
    rw [bindClusterRoles_cons]
    constructor
    · intro hf
      have h0 := hf [] _ _ rfl
      simp only [List.append_nil, createAnswer] at h0
      have hf2 := forgivenAfter_tail api st.calls _ _ hf
      cases ha : api.ClusterRoleBindingsCreate st.calls b.BindingName b.RoleName
          (Subject.mk KindServiceAccount "" h.ServiceAccountName ns) with
      | none =>
        simp only []
        obtain ⟨st2, h1, h2⟩ := (ih (st.call (.ClusterRoleBindingsCreate b.BindingName b.RoleName
          (Subject.mk KindServiceAccount "" h.ServiceAccountName ns)))).1 hf2
        exact ⟨st2, h1, by rw [h2]; simp [RunState.call]⟩
      | some e =>
        simp only [h0 e ha, if_true]
        obtain ⟨st2, h1, h2⟩ := (ih ((st.call (.ClusterRoleBindingsCreate b.BindingName b.RoleName
          (Subject.mk KindServiceAccount "" h.ServiceAccountName ns))).verbose h.Verbosity
            "cluster role binding(s) already exist")).1 (by rw [verbose_calls]; exact hf2)
        exact ⟨st2, h1, by rw [h2, verbose_calls]; simp [RunState.call]⟩
    · intro made c rest e hcs hf he hae
      cases made with
      | nil =>
        simp only [List.nil_append, List.cons.injEq] at hcs
        rw [← hcs.1] at he
        simp only [List.append_nil, createAnswer] at he
        simp only [he, hae, Bool.false_eq_true, if_false, List.append_nil]
        rw [← hcs.1]
        exact ⟨_, rfl⟩
      | cons m ms =>
        simp only [List.cons_append, List.cons.injEq] at hcs
        obtain ⟨hm, hrest⟩ := hcs
        have h0 := hf [] m ms rfl
        rw [← hm] at h0
        simp only [List.append_nil, createAnswer] at h0
        have hf2 : forgivenAfter api (st.calls ++ [m]) ms := forgivenAfter_tail api _ _ _ hf
        have he2 : createAnswer api ((st.calls ++ [m]) ++ ms) c = some e := by
          rw [List.append_assoc]
          exact he
        cases ha : api.ClusterRoleBindingsCreate st.calls b.BindingName b.RoleName
            (Subject.mk KindServiceAccount "" h.ServiceAccountName ns) with
        | none =>
          simp only []
          obtain ⟨err, h1⟩ := (ih (st.call (.ClusterRoleBindingsCreate b.BindingName b.RoleName
            (Subject.mk KindServiceAccount "" h.ServiceAccountName ns)))).2 ms c rest e hrest
            (by rw [hm]; exact hf2) (by rw [hm]; exact he2) hae
          refine ⟨err, ?_⟩
          rw [h1, ← hm]
          simp [RunState.call]
        | some e0 =>
          simp only [h0 e0 ha, if_true]
          obtain ⟨err, h1⟩ := (ih ((st.call (.ClusterRoleBindingsCreate b.BindingName b.RoleName
            (Subject.mk KindServiceAccount "" h.ServiceAccountName ns))).verbose h.Verbosity
              "cluster role binding(s) already exist")).2 ms c rest e hrest
            (by rw [verbose_calls, hm]; exact hf2) (by rw [verbose_calls, hm]; exact he2) hae
          refine ⟨err, ?_⟩
          rw [h1, verbose_calls, ← hm]
          simp [RunState.call]

theorem parseSelectors_foldl_inv (selectors : List String)
    (acc : List (Option BindingSelector) × List String) :
    acc.2.length ≤ (selectors.foldl (fun (acc : List (Option BindingSelector) × List String) r =>
        match NewBindingSelector r with
        | (_, some err) => (acc.1, acc.2 ++ [err])
        | (binding, none) => (acc.1 ++ [binding], acc.2)) acc).2.length
    ∧ ((selectors.foldl (fun (acc : List (Option BindingSelector) × List String) r =>
        match NewBindingSelector r with
        | (_, some err) => (acc.1, acc.2 ++ [err])
        | (binding, none) => (acc.1 ++ [binding], acc.2)) acc).2.length = acc.2.length →
      ∀ s ∈ selectors, (NewBindingSelector s).2 = none) := by
  induction selectors generalizing acc with
  | nil => exact ⟨le_refl _, fun _ s hs => by cases hs⟩
  | cons s rest ih =>
    rw [List.foldl_cons]
    rcases hn : NewBindingSelector s with ⟨b, err⟩
    cases err with
    | some e =>
      simp only []
      obtain ⟨h1, -⟩ := ih (acc.1, acc.2 ++ [e])
      simp only [List.length_append, List.length_singleton] at h1
      exact ⟨by omega, fun hh => by omega⟩
    | none =>
      simp only []
      obtain ⟨h1, h2⟩ := ih (acc.1 ++ [b], acc.2)
      refine ⟨h1, fun hh t ht => ?_⟩
      rcases List.mem_cons.1 ht with rfl | ht
      · rw [hn]
      · exact h2 hh t ht

theorem parseSelectors_inv (selectors : List String)
    (h : (parseSelectors selectors).2.length = 0) :
    parseSelectors selectors
      = (selectors.map
          (fun s => some (BindingSelector.mk (selectorRole s) (selectorBinding s))), []) :=
  parseSelectors_ok selectors ((parseSelectors_foldl_inv selectors ([], [])).2 h)

theorem checkRoles_inv (h : Handler) (host : Host) (api : ApiClientset) (ns : String)
    (st st1 : RunState) (rbs : List (Option BindingSelector))
    (hc : h.checkRoles host api ns st = .ok (rbs, st1)) :
    rbs = h.Roles.map
      (fun s => some (BindingSelector.mk (selectorRole s) (selectorBinding s))) := by
  unfold Handler.checkRoles at hc
  split_ifs at hc with h0
  · rcases hp : parseSelectors h.Roles with ⟨bs, invalid⟩
    simp only [hp] at hc
    split_ifs at hc with h1
    have h2 : (parseSelectors h.Roles).2.length = 0 := by
      rw [hp]
      simp only [] at h1 ⊢
      omega
    rw [parseSelectors_inv h.Roles h2] at hp
    simp only [Prod.mk.injEq] at hp
    cases hl : rolesLookup api ns bs [] st with
    | error r => simp [hl] at hc
    | ok p =>
      simp only [hl] at hc
      split_ifs at hc
      simp only [Except.ok.injEq, Prod.mk.injEq] at hc
      rw [← hc.1, ← hp.1]
  · simp only [Except.ok.injEq, Prod.mk.injEq] at hc
    have hr : h.Roles = [] := List.length_eq_zero.1 (by omega)
    rw [← hc.1, hr]
    rfl

theorem checkClusterRoles_inv (h : Handler) (host : Host) (api : ApiClientset)
    (st st1 : RunState) (crbs : List (Option BindingSelector))
    (hc : h.checkClusterRoles host api st = .ok (crbs, st1)) :
    crbs = h.ClusterRoles.map
      (fun s => some (BindingSelector.mk (selectorRole s) (selectorBinding s))) := by
  unfold Handler.checkClusterRoles at hc
  split_ifs at hc with h0
  · rcases hp : parseSelectors h.ClusterRoles with ⟨bs, invalid⟩
    simp only [hp] at hc
    split_ifs at hc with h1
    have h2 : (parseSelectors h.ClusterRoles).2.length = 0 := by
      rw [hp]
      simp only [] at h1 ⊢
      omega
    rw [parseSelectors_inv h.ClusterRoles h2] at hp
    simp only [Prod.mk.injEq] at hp
    cases hl : clusterRolesLookup api bs [] st with
    | error r => simp [hl] at hc
    | ok p =>
      simp only [hl] at hc
      split_ifs at hc
      simp only [Except.ok.injEq, Prod.mk.injEq] at hc
      rw [← hc.1, ← hp.1]
  · simp only [Except.ok.injEq, Prod.mk.injEq] at hc
    have hr : h.ClusterRoles = [] := List.length_eq_zero.1 (by omega)
    rw [← hc.1, hr]
    rfl

/-- The run from the bindings on, once the selectors are validated and the account has its
token: when no `Create` is answered with a fatal error, every binding asked for is created,
in order, and `run` goes on to the credential; otherwise `run` ends with the first `Create`
that is answered with a fatal error. -/
theorem run_creates (h : Handler) (host : Host) (ctx : Context) (cc : ConfigClient)
    (file : Option File) (api : ApiClientset) (cluster ns : String) (st st1 st2 st3 st4 : RunState)
    (rbs crbs : List (Option BindingSelector)) (sa sa2 : Option core.ServiceAccount)
    (hs : h.setup host = .ok (cc, file, api, cluster, ns, st))
    (h1 : h.checkRoles host api ns st = .ok (rbs, st1))
    (h2 : h.checkClusterRoles host api st1 = .ok (crbs, st2))
    (h3 : h.ensureAccount api ns st2 = .ok (sa, st3))
    (h4 : h.waitToken api ns sa st3 = .ok (sa2, st4)) :
    (forgivenAfter api st4.calls (h.creates ns) →
      ∃ st6, st6.calls = st4.calls ++ h.creates ns
        ∧ h.run host ctx = h.materialize host cc ctx file api cluster ns sa2 st6)
    ∧ (∀ made c rest e, h.creates ns = made ++ c :: rest →
        forgivenAfter api st4.calls made →
        createAnswer api (st4.calls ++ made) c = some e → e.IsAlreadyExists = false →
        (h.run host ctx).out = .error (errors.Wrap e.Message "kubeauth")
          ∧ (h.run host ctx).calls = st4.calls ++ made ++ [c]) := by
  have hrbs := checkRoles_inv h host api ns st st1 rbs h1
  have hcrbs := checkClusterRoles_inv h host api st1 st2 crbs h2
  have hrun : h.run host ctx
      = match h.bindRoles api ns rbs st4 with
        | .error r => r
        | .ok st5 =>
          match h.bindClusterRoles api ns crbs st5 with
          | .error r => r
          | .ok st6 => h.materialize host cc ctx file api cluster ns sa2 st6 := by
    unfold Handler.run Handler.materialize
    simp only [hs, h1, h2, h3, h4]
  have hr2 : rbs = (h.Roles.map
      (fun s => BindingSelector.mk (selectorRole s) (selectorBinding s))).map some := by
    rw [hrbs, List.map_map]
    rfl
  have hc2 : crbs = (h.ClusterRoles.map
      (fun s => BindingSelector.mk (selectorRole s) (selectorBinding s))).map some := by
    rw [hcrbs, List.map_map]
    rfl
  have hR : (h.Roles.map
        (fun s => BindingSelector.mk (selectorRole s) (selectorBinding s))).map
        (fun b => RunCall.RoleBindingsCreate ns b.BindingName b.RoleName
          (Subject.mk KindServiceAccount "" h.ServiceAccountName ""))
      = h.Roles.map (fun s => RunCall.RoleBindingsCreate ns (selectorBinding s)
          (selectorRole s) (Subject.mk KindServiceAccount "" h.ServiceAccountName "")) := by
    rw [List.map_map]
    rfl
  have hC : (h.ClusterRoles.map
        (fun s => BindingSelector.mk (selectorRole s) (selectorBinding s))).map
        (fun b => RunCall.ClusterRoleBindingsCreate b.BindingName b.RoleName
          (Subject.mk KindServiceAccount "" h.ServiceAccountName ns))
      = h.ClusterRoles.map (fun s => RunCall.ClusterRoleBindingsCreate (selectorBinding s)
          (selectorRole s) (Subject.mk KindServiceAccount "" h.ServiceAccountName ns)) := by
    rw [List.map_map]
    rfl
  have br := fun s => bindRoles_run h api ns (h.Roles.map
      (fun s => BindingSelector.mk (selectorRole s) (selectorBinding s))) s
  have bc := fun s => bindClusterRoles_run h api ns (h.ClusterRoles.map
      (fun s => BindingSelector.mk (selectorRole s) (selectorBinding s))) s
  simp only [hR, hC, ← hr2, ← hc2] at br bc
  constructor
  · intro hf
    obtain ⟨hfR, hfC⟩ := forgivenAfter_append api st4.calls _ _ hf
    obtain ⟨st5, h5, hc5⟩ := (br st4).1 hfR
    obtain ⟨st6, h6, hc6⟩ := (bc st5).1 (by rw [hc5]; exact hfC)
    refine ⟨st6, ?_, ?_⟩
    · rw [hc6, hc5, Handler.creates, List.append_assoc]
    · rw [hrun, h5]
      simp only [h6]
  · intro made c rest e hcs hf he hae
    unfold Handler.creates at hcs
    rcases List.append_eq_append_iff.1 hcs with ⟨a, ha1, ha2⟩ | ⟨a, ha1, ha2⟩
    · -- the roles are `made` without its end `a`, and `a ++ c :: rest` are the cluster roles
      rw [ha1] at hf he
      obtain ⟨hfR, hfa⟩ := forgivenAfter_append api st4.calls _ _ hf
      obtain ⟨st5, h5, hc5⟩ := (br st4).1 hfR
      obtain ⟨err, h6⟩ := (bc st5).2 a c rest e ha2 (by rw [hc5]; exact hfa)
        (by rw [hc5, List.append_assoc]; exact he) hae
      have hres : h.run host ctx = ⟨.error (errors.Wrap e.Message "kubeauth"),
          st5.calls ++ a ++ [c], err⟩ := by
        rw [hrun, h5]
        simp only [h6]
      rw [hres, hc5, ha1]
      exact ⟨rfl, by simp⟩
    · cases a with
      | nil =>
        simp only [List.nil_append] at ha2
        simp only [List.append_nil] at ha1
        rw [← ha1] at hf he
        obtain ⟨st5, h5, hc5⟩ := (br st4).1 hf
        obtain ⟨err, h6⟩ := (bc st5).2 [] c rest e ha2.symm
          (by intro m d r hm; simp at hm)
          (by rw [hc5, List.append_nil]; exact he) hae
        have hres : h.run host ctx = ⟨.error (errors.Wrap e.Message "kubeauth"),
            st5.calls ++ [] ++ [c], err⟩ := by
          rw [hrun, h5]
          simp only [h6]
        rw [hres, hc5, ← ha1]
        exact ⟨rfl, by simp⟩
      | cons d ds =>
        simp only [List.cons_append, List.cons.injEq] at ha2
        obtain ⟨hd, hrest⟩ := ha2
        obtain ⟨err, h5⟩ := (br st4).2 made c ds e (by rw [ha1, hd]) hf he hae
        rw [hrun, h5]
        exact ⟨rfl, rfl⟩

/-- C20.  An already-exists error of a binding `Create` is not fatal: with clients that
answer with success wherever the clients of `run` answer with an already-exists error,
`run` returns the same outcome after the same calls.  Any other error of a binding `Create`
is fatal: if, in a run that got its clients, a binding `Create` was answered with an error
`e` that is not already-exists, this `Create` is the last call of the run, the run returns
`kubeauth: <e>`, and neither `UpsertUserToken` nor `UpsertContext` was called.  And `run`
creates the bindings it is asked for: once the selectors are validated and the account has
its token, `run` calls `Create` for the binding of every `--role` selector and then of every
`--cluster-role` selector, in order, each after the other whether the answer was success or
already-exists, and then goes on to read the secret and to store the credential; when a
`Create` is answered with another error, the bindings before it have been created, `run`
returns that error and this `Create` is its last call. -/
theorem C20_binding_create_errors (h : Handler) (host : Host) (ctx : Context) :
    ((h.run host ctx).out = (h.forgive.run host.forgive ctx).out
      ∧ (h.run host ctx).calls = (h.forgive.run host.forgive ctx).calls)
    ∧ (∀ cc file api cluster ns st,
        h.setup host = .ok (cc, file, api, cluster, ns, st) →
        ∀ pre c post e, (h.run host ctx).calls = pre ++ c :: post →
          createAnswer api pre c = some e → e.IsAlreadyExists = false →
          (h.run host ctx).out = .error (errors.Wrap e.Message "kubeauth")
            ∧ post = []
            ∧ ∀ d ∈ (h.run host ctx).calls, d.isUpsert = false)
    ∧ (∀ cc file api cluster ns st rbs st1 crbs st2 sa st3 sa2 st4,
        h.setup host = .ok (cc, file, api, cluster, ns, st) →
        h.checkRoles host api ns st = .ok (rbs, st1) →
        h.checkClusterRoles host api st1 = .ok (crbs, st2) →
        h.ensureAccount api ns st2 = .ok (sa, st3) →
        h.waitToken api ns sa st3 = .ok (sa2, st4) →
        (forgivenAfter api st4.calls (h.creates ns) →
          ∃ st6, st6.calls = st4.calls ++ h.creates ns
            ∧ h.run host ctx = h.materialize host cc ctx file api cluster ns sa2 st6)
        ∧ (∀ made c rest e, h.creates ns = made ++ c :: rest →
            forgivenAfter api st4.calls made →
            createAnswer api (st4.calls ++ made) c = some e → e.IsAlreadyExists = false →
            (h.run host ctx).out = .error (errors.Wrap e.Message "kubeauth")
              ∧ (h.run host ctx).calls = st4.calls ++ made ++ [c])) := by
  refine ⟨run_forgive h host ctx, ?_, ?_⟩
  · intro cc file api cluster ns st hs pre c post e hcalls hans hae
    rcases run_trace h host ctx cc file api cluster ns st hs with hg | hb
    · have := hg pre c post hcalls e hans
      rw [hae] at this
      cases this
    · obtain ⟨s, c0, e0, hc0, hf, hu, ha0, hae0, hout⟩ := hb
      rw [hc0] at hcalls
      rcases List.append_eq_append_iff.mp hcalls with ⟨a, h1, h2⟩ | ⟨a, h1, h2⟩
      · cases a with
        | nil =>
          simp only [List.nil_append, List.cons.injEq] at h2
          obtain ⟨hcc, hpost⟩ := h2
          simp only [List.append_nil] at h1
          rw [h1, ← hcc, ha0] at hans
          injection hans with hans
          refine ⟨by rw [hout, hans], hpost.symm, ?_⟩
          intro d hd
          rw [hc0] at hd
          rcases List.mem_append.mp hd with hd | hd
          · exact hu d hd
          · rw [List.mem_singleton.mp hd]
            cases c0 <;> first | rfl | simp [createAnswer] at ha0
        | cons d2 a2 =>
          have := congrArg List.length h2
          simp at this
      · cases a with
        | nil =>
          simp only [List.nil_append, List.cons.injEq] at h2
          obtain ⟨hcc, hpost⟩ := h2
          simp only [List.append_nil] at h1
          rw [← h1, hcc, ha0] at hans
          injection hans with hans
          refine ⟨by rw [hout, hans], hpost, ?_⟩
          intro d hd
          rw [hc0] at hd
          rcases List.mem_append.mp hd with hd | hd
          · exact hu d hd
          · rw [List.mem_singleton.mp hd]
            cases c0 <;> first | rfl | simp [createAnswer] at ha0
        | cons d2 a2 =>
          simp only [List.cons_append, List.cons.injEq] at h2
          obtain ⟨rfl, h3⟩ := h2
          have := hf pre c a2 h1 e hans
          rw [hae] at this
          cases this
  · intro cc file api cluster ns st rbs st1 crbs st2 sa st3 sa2 st4 hs h1 h2 h3 h4
    exact run_creates h host ctx cc file api cluster ns st st1 st2 st3 st4 rbs crbs sa sa2
      hs h1 h2 h3 h4

/-- C20 at a cluster where the role binding `b1` and the cluster role binding `cb1` exist
already: every binding is created or passed over, in the order of the selectors, and the
credential is stored; and at the same cluster when the creation of `cb1` is forbidden: that
`Create` ends the run. -/
theorem C20_binding_create_errors_witness :
    ((fakeHandler (fakeApiClientset ["r1"] ["cr1", "cr2"]
          (fun _ => (some (core.ServiceAccount.mk [core.ObjectReference.mk "sa-token-1abcd"]),
            true)) [("sa-token-1abcd", core.Secret.mk [("ca.crt", [1]), ("token", [2, 3])])]
          ["b1", "cb1"] [])
        ["r1:b1"] ["cr1:cb1", "cr2:cb2"] 1).forgive.run fakeHost.forgive Context.live).calls
      = [RunCall.ConfigParse "", RunCall.RolesGet "current-namespace" "r1",
          RunCall.ClusterRolesGet "cr1", RunCall.ClusterRolesGet "cr2",
          RunCall.ServiceAccountsGet "current-namespace" "sa",
          RunCall.RoleBindingsCreate "current-namespace" "b1" "r1"
            (Subject.mk "ServiceAccount" "" "sa" ""),
          RunCall.ClusterRoleBindingsCreate "cb1" "cr1"
            (Subject.mk "ServiceAccount" "" "sa" "current-namespace"),
          RunCall.ClusterRoleBindingsCreate "cb2" "cr2"
            (Subject.mk "ServiceAccount" "" "sa" "current-namespace"),
          RunCall.SecretsGet "current-namespace" "sa-token-1abcd",
          RunCall.TempFile "" "kubeauth.*.ca.crt",
          RunCall.FileWrite "/tmp/kubeauth.1.ca.crt" [1],
          RunCall.FileSync "/tmp/kubeauth.1.ca.crt",
          RunCall.FileClose "/tmp/kubeauth.1.ca.crt",
          RunCall.UpsertUserToken "user" [2, 3],
          RunCall.UpsertContext "user" "current-cluster" "current-namespace" "user",
          RunCall.RemoveSafer "/tmp/kubeauth.1.ca.crt"]
    ∧ ((fakeHandler (fakeApiClientset ["r1"] ["cr1", "cr2"]
          (fun _ => (some (core.ServiceAccount.mk [core.ObjectReference.mk "sa-token-1abcd"]),
            true)) [("sa-token-1abcd", core.Secret.mk [("ca.crt", [1]), ("token", [2, 3])])]
          ["b1"] ["cb1"])
        ["r1:b1"] ["cr1:cb1", "cr2:cb2"] 1).run fakeHost Context.live).out
      = .error (errors.Wrap "forbidden" "kubeauth")
    ∧ ((fakeHandler (fakeApiClientset ["r1"] ["cr1", "cr2"]
          (fun _ => (some (core.ServiceAccount.mk [core.ObjectReference.mk "sa-token-1abcd"]),
            true)) [("sa-token-1abcd", core.Secret.mk [("ca.crt", [1]), ("token", [2, 3])])]
          ["b1"] ["cb1"])
        ["r1:b1"] ["cr1:cb1", "cr2:cb2"] 1).run fakeHost Context.live).calls
      = [RunCall.ConfigParse "", RunCall.RolesGet "current-namespace" "r1",
          RunCall.ClusterRolesGet "cr1", RunCall.ClusterRolesGet "cr2",
          RunCall.ServiceAccountsGet "current-namespace" "sa"]
        ++ [RunCall.RoleBindingsCreate "current-namespace" "b1" "r1"
            (Subject.mk "ServiceAccount" "" "sa" "")]
        ++ [RunCall.ClusterRoleBindingsCreate "cb1" "cr1"
            (Subject.mk "ServiceAccount" "" "sa" "current-namespace")] := by
  have hrun : (fakeHandler (fakeApiClientset ["r1"] ["cr1", "cr2"]
          (fun _ => (some (core.ServiceAccount.mk [core.ObjectReference.mk "sa-token-1abcd"]),
            true)) [("sa-token-1abcd", core.Secret.mk [("ca.crt", [1]), ("token", [2, 3])])]
          ["b1", "cb1"] [])
        ["r1:b1"] ["cr1:cb1", "cr2:cb2"] 1).run fakeHost Context.live
      = RunResult.mk (.ok ())
          [RunCall.ConfigParse "", RunCall.RolesGet "current-namespace" "r1",
            RunCall.ClusterRolesGet "cr1", RunCall.ClusterRolesGet "cr2",
            RunCall.ServiceAccountsGet "current-namespace" "sa",
            RunCall.RoleBindingsCreate "current-namespace" "b1" "r1"
              (Subject.mk "ServiceAccount" "" "sa" ""),
            RunCall.ClusterRoleBindingsCreate "cb1" "cr1"
              (Subject.mk "ServiceAccount" "" "sa" "current-namespace"),
            RunCall.ClusterRoleBindingsCreate "cb2" "cr2"
              (Subject.mk "ServiceAccount" "" "sa" "current-namespace"),
            RunCall.SecretsGet "current-namespace" "sa-token-1abcd",
            RunCall.TempFile "" "kubeauth.*.ca.crt",
            RunCall.FileWrite "/tmp/kubeauth.1.ca.crt" [1],
            RunCall.FileSync "/tmp/kubeauth.1.ca.crt",
            RunCall.FileClose "/tmp/kubeauth.1.ca.crt",
            RunCall.UpsertUserToken "user" [2, 3],
            RunCall.UpsertContext "user" "current-cluster" "current-namespace" "user",
            RunCall.RemoveSafer "/tmp/kubeauth.1.ca.crt"]
          ["kubeauth: service account already exists",
            "kubeauth: role binding(s) already exist",
            "kubeauth: cluster role binding(s) already exist"] := by
    decide
  refine ⟨?_, ?_⟩
  · rw [← (C20_binding_create_errors _ fakeHost Context.live).1.2, hrun]
  · exact ((C20_binding_create_errors
      (fakeHandler (fakeApiClientset ["r1"] ["cr1", "cr2"]
          (fun _ => (some (core.ServiceAccount.mk [core.ObjectReference.mk "sa-token-1abcd"]),
            true)) [("sa-token-1abcd", core.Secret.mk [("ca.crt", [1]), ("token", [2, 3])])]
          ["b1"] ["cb1"])
        ["r1:b1"] ["cr1:cb1", "cr2:cb2"] 1) fakeHost Context.live).2.2
      (fakeConfigClient fakeFile) (some fakeFile)
      (fakeApiClientset ["r1"] ["cr1", "cr2"]
          (fun _ => (some (core.ServiceAccount.mk [core.ObjectReference.mk "sa-token-1abcd"]),
            true)) [("sa-token-1abcd", core.Secret.mk [("ca.crt", [1]), ("token", [2, 3])])]
          ["b1"] ["cb1"])
      "current-cluster" "current-namespace" (RunState.mk [RunCall.ConfigParse ""] [])
      [some (BindingSelector.mk "r1" "b1")]
      (RunState.mk [RunCall.ConfigParse "", RunCall.RolesGet "current-namespace" "r1"] [])
      [some (BindingSelector.mk "cr1" "cb1"), some (BindingSelector.mk "cr2" "cb2")]
      (RunState.mk [RunCall.ConfigParse "", RunCall.RolesGet "current-namespace" "r1",
        RunCall.ClusterRolesGet "cr1", RunCall.ClusterRolesGet "cr2"] [])
      (some (core.ServiceAccount.mk [core.ObjectReference.mk "sa-token-1abcd"]))
      (RunState.mk [RunCall.ConfigParse "", RunCall.RolesGet "current-namespace" "r1",
        RunCall.ClusterRolesGet "cr1", RunCall.ClusterRolesGet "cr2",
        RunCall.ServiceAccountsGet "current-namespace" "sa"]
        ["kubeauth: service account already exists"])
      (some (core.ServiceAccount.mk [core.ObjectReference.mk "sa-token-1abcd"]))
      (RunState.mk [RunCall.ConfigParse "", RunCall.RolesGet "current-namespace" "r1",
        RunCall.ClusterRolesGet "cr1", RunCall.ClusterRolesGet "cr2",
        RunCall.ServiceAccountsGet "current-namespace" "sa"]
        ["kubeauth: service account already exists"])
      rfl rfl rfl rfl rfl).2
      [RunCall.RoleBindingsCreate "current-namespace" "b1" "r1"
        (Subject.mk "ServiceAccount" "" "sa" "")]
      (RunCall.ClusterRoleBindingsCreate "cb1" "cr1"
        (Subject.mk "ServiceAccount" "" "sa" "current-namespace"))
      [RunCall.ClusterRoleBindingsCreate "cb2" "cr2"
        (Subject.mk "ServiceAccount" "" "sa" "current-namespace")]
      (ApiError.mk "forbidden" false) (by decide)
      (by
        intro made c rest hm e he
        cases made with
        | nil =>
          simp only [List.nil_append, List.cons.injEq] at hm
          rw [← hm.1] at he
          have he2 : some (ApiError.mk "already exists" true) = some e := he
          injection he2 with he2
          rw [← he2]
        | cons m ms =>
          have := congrArg List.length hm
          simp at this)
      rfl rfl

/-! ## The name grammar, continued (claims C26, C27) -/

theorem ParseServiceAccountUser_shape (s ns bn : String) (e : Option Error)
    (h : ParseServiceAccountUser s = (ns, bn, e)) (hb : bn ≠ "") :
    strings.Split s ':' = ["system", "serviceaccount", ns, bn] := by
  unfold ParseServiceAccountUser at h
  simp only [] at h
  split_ifs at h with h1 h2
  · simp only [Prod.mk.injEq] at h
    exact absurd h.2.1.symm hb
  · simp only [Prod.mk.injEq] at h
    exact absurd h.2.1.symm hb
  · simp only [not_or, not_not] at h1 h2
    simp only [Prod.mk.injEq] at h
    rcases hs : strings.Split s ':' with _ | ⟨a, _ | ⟨b, _ | ⟨c, _ | ⟨d, _ | ⟨x, rest⟩⟩⟩⟩⟩
    · rw [hs] at h1; simp at h1
    · rw [hs] at h1; simp at h1
    · rw [hs] at h1; simp at h1
    · rw [hs] at h1; simp at h1
    · rw [hs] at h h2
      simp only [List.getD_cons_zero, List.getD_cons_succ] at h h2
      rw [h2.1, h2.2, h.1, h.2.1]
    · rw [hs] at h1; simp at h1

theorem ParseServiceAccount_user_inv (s ns bn : String)
    (h : ParseServiceAccount s = (ns, bn, false, true)) :
    bn ≠ "" ∧ strings.Split s ':' = ["system", "serviceaccount", ns, bn] := by
  rcases hu : ParseServiceAccountUser s with ⟨n, b, e⟩
  unfold ParseServiceAccount at h
  simp only [hu] at h
  split_ifs at h with hb hg
  · simp at h
  · simp at h
  · simp only [Prod.mk.injEq, and_true] at h
    obtain ⟨rfl, rfl⟩ := h
    exact ⟨hb, ParseServiceAccountUser_shape s n b e hu hb⟩

/-- C26 as stated fails: `system:serviceaccount::b` is reported as a valid service-account
user although its third part, the returned namespace, is empty. -/
theorem C26_counterexample :
    ParseServiceAccount "system:serviceaccount::b" = ("", "b", false, true) ∧
    strings.Split "system:serviceaccount::b" ':' = ["system", "serviceaccount", "", "b"] := by
  constructor <;> decide

/-- C26, amended: whenever `ParseServiceAccount s` reports a valid service-account user,
`s` split on the colon is the four parts `system`, `serviceaccount`, the returned namespace
and the returned basename, so `s` is `system:serviceaccount:<namespace>:<basename>`; the
basename is non-empty, and so are the first two parts; nothing is required of the namespace,
which may be empty. -/
theorem C26_valid_user (s ns bn : String)
    (h : ParseServiceAccount s = (ns, bn, false, true)) :
    strings.Split s ':' = ["system", "serviceaccount", ns, bn]
    ∧ bn ≠ ""
    ∧ s = "system:serviceaccount:" ++ ns ++ ":" ++ bn := by
  obtain ⟨hb, hs⟩ := ParseServiceAccount_user_inv s ns bn h
  refine ⟨hs, hb, ?_⟩
  have hj := intercalate_Split s ':'
  rw [hs] at hj
  apply String.ext
  rw [← hj]
  simp [List.intercalate, List.intersperse, String.data_append]

/-- C26 at a name with a namespace and at the name without one. -/
theorem C26_valid_user_witness :
    strings.Split "system:serviceaccount:ns:sa" ':' = ["system", "serviceaccount", "ns", "sa"]
    ∧ strings.Split "system:serviceaccount::b" ':' = ["system", "serviceaccount", "", "b"] :=
  ⟨(C26_valid_user "system:serviceaccount:ns:sa" "ns" "sa" (by decide)).1,
    (C26_valid_user "system:serviceaccount::b" "" "b" (by decide)).1⟩

/-- C27 as stated fails: for `system:serviceaccount:a:b` the code returns the namespace `a`
and the basename `b`, not the basename `a` and the namespace `b` of the doc comment of
`ParseServiceAccount` (rbac.go:69). -/
theorem C27_counterexample :
    (ParseServiceAccount "system:serviceaccount:a:b").1 = "a" ∧
    (ParseServiceAccount "system:serviceaccount:a:b").2.1 = "b" ∧
    ¬ ((ParseServiceAccount "system:serviceaccount:a:b").2.1 = "a"
      ∧ (ParseServiceAccount "system:serviceaccount:a:b").1 = "b") := by
  refine ⟨?_, ?_, ?_⟩ <;> decide

/-- C27, amended: for the user name `system:serviceaccount:a:b`, `ParseServiceAccount`
returns the namespace `a` and the basename `b` (as the doc comment of
`ParseServiceAccountUser` says, and as `ParseServiceAccountUser` returns); for the group name
`system:serviceaccounts:a` it returns the basename `""` and the namespace `a`. -/
theorem C27_doc_examples :
    ParseServiceAccount "system:serviceaccount:a:b" = ("a", "b", false, true) ∧
    ParseServiceAccountUser "system:serviceaccount:a:b" = ("a", "b", none) ∧
    ParseServiceAccount "system:serviceaccounts:a" = ("a", "", true, true) ∧
    ParseServiceAccountGroup "system:serviceaccounts:a" = ("a", none) := by
  refine ⟨?_, ?_, ?_, ?_⟩ <;> decide

/-! ## The two binding-subject queriers run the same algorithm (claim C28) -/

theorem flatMap_withSourceKind (q : Query) (n : String) (g v : Bool)
    (rbs : List RoleBinding) (crbs : List ClusterRoleBinding)
    (hsame : crbs.map ClusterRoleBinding.content = rbs.map RoleBinding.content) :
    crbs.flatMap (fun r => (r.Subjects.filter (fun s =>
            decide (q.Namespace = "" ∨ q.Namespace = s.Namespace) && subjectMatch q n g v s)).map
          (fun s => Identity.mk s.Kind s.Name s.Namespace
            (some (IdentitySource.mk KindClusterRoleBinding r.Name r.Namespace)) ""))
      = (rbs.flatMap (fun r => (r.Subjects.filter (fun s =>
            decide (q.Namespace = "" ∨ q.Namespace = s.Namespace) && subjectMatch q n g v s)).map
          (fun s => Identity.mk s.Kind s.Name s.Namespace
            (some (IdentitySource.mk KindRoleBinding r.Name r.Namespace)) ""))).map
          (Identity.withSourceKind KindClusterRoleBinding) := by
  induction rbs generalizing crbs with
  | nil =>
    cases crbs with
    | nil => rfl
    | cons c cs => simp at hsame
  | cons r rest ih =>
    cases crbs with
    | nil => simp at hsame
    | cons c cs =>
      simp only [List.map_cons, List.cons.injEq] at hsame
      obtain ⟨hc, hcs⟩ := hsame
      simp only [ClusterRoleBinding.content, RoleBinding.content, Prod.mk.injEq] at hc
      obtain ⟨h1, h2, h3⟩ := hc
      rw [List.flatMap_cons, List.flatMap_cons, List.map_append, ih cs hcs, h1, h2, h3]
      congr 1
      rw [List.map_map]
      rfl

theorem scan_withSourceKind (clientset : Clientset) (q : Query) (n : String) (g v : Bool)
    (calls calls2 : List Call) (rbs : List RoleBinding) (crbs : List ClusterRoleBinding)
    (hr : clientset.RoleBindingsList q.Namespace {} = (some rbs, none))
    (hc : clientset.ClusterRoleBindingsList {} = (some crbs, none))
    (hsame : crbs.map ClusterRoleBinding.content = rbs.map RoleBinding.content) :
    (ClusterRoleSubjectQuerier.scan clientset q n g v calls).out
      = ((RoleSubjectQuerier.scan clientset q n g v calls2).out).withSourceKind
          KindClusterRoleBinding := by
  rw [clusterRoleSubject_scan_out clientset q n g v calls crbs hc,
    roleSubject_scan_out clientset q n g v calls2 rbs hr,
    flatMap_withSourceKind q n g v rbs crbs hsame]
  rfl

theorem scan_asCluster (clientset : Clientset) (q : Query) (n : String) (g v : Bool)
    (calls : List Call) :
    (ClusterRoleSubjectQuerier.scan clientset q n g v (calls.map Call.asCluster)).calls
      = (RoleSubjectQuerier.scan clientset q n g v calls).calls.map Call.asCluster := by
  rw [clusterRoleSubject_scan_calls, roleSubject_scan_calls]
  simp [Call.asCluster]

/-- C28: let `RoleBindings.List(Query.Namespace)` and `ClusterRoleBindings.List` both return
a list and no error, the two lists holding, in the same order, bindings with the same name,
namespace and subjects.  Then, for every state of the context, every query and every answer
of `Namespaces.Get`, the result of `ClusterRoleSubjectQuerier.Do` is the result of
`RoleSubjectQuerier.Do` with every source kind replaced by `ClusterRoleBinding`: the same
error, or the same identities in the same order; and the two make the same calls in the same
order, the `List` call of the one standing where the `List` call of the other stands. -/
theorem C28_cluster_role_same_algorithm (ctx : Context) (clientset : Clientset) (q : Query)
    (rbs : List RoleBinding) (crbs : List ClusterRoleBinding)
    (hr : clientset.RoleBindingsList q.Namespace {} = (some rbs, none))
    (hc : clientset.ClusterRoleBindingsList {} = (some crbs, none))
    (hsame : crbs.map ClusterRoleBinding.content = rbs.map RoleBinding.content) :
    (ClusterRoleSubjectQuerier.Do ctx clientset q).out
        = ((RoleSubjectQuerier.Do ctx clientset q).out).withSourceKind KindClusterRoleBinding
    ∧ (ClusterRoleSubjectQuerier.Do ctx clientset q).calls
        = (RoleSubjectQuerier.Do ctx clientset q).calls.map Call.asCluster := by
  rcases hp : ParseServiceAccount q.Name with ⟨p, n, g, v⟩
  rcases hget : clientset.NamespacesGet p with ⟨ex, err⟩
  have hs1 := scan_withSourceKind clientset q n g v [Call.NamespacesGet p]
    [Call.NamespacesGet p] rbs crbs hr hc hsame
  have hs2 := scan_withSourceKind clientset q n g v [] [] rbs crbs hr hc hsame
  have hc1 := scan_asCluster clientset q n g v [Call.NamespacesGet p]
  have hc2 := scan_asCluster clientset q n g v []
  unfold ClusterRoleSubjectQuerier.Do RoleSubjectQuerier.Do
  cases hctx : ctx.Err with
  | some e => exact ⟨rfl, rfl⟩
  | none =>
    simp only [hp, hget]
    cases err with
    | some e =>
      split_ifs <;> first | exact ⟨hs2, hc2⟩ | exact ⟨rfl, rfl⟩
    | none =>
      cases ex with
      | false =>
        simp only [if_true]
        split_ifs <;> first | exact ⟨hs2, hc2⟩ | exact ⟨rfl, rfl⟩
      | true =>
        simp only [Bool.true_eq_false, if_false]
        split_ifs <;> first | exact ⟨hs1, hc1⟩ | exact ⟨hs2, hc2⟩ | exact ⟨rfl, rfl⟩

/-- C28 at a cluster with two bindings, the second with two subjects, and a query by the
name `alice`. -/
theorem C28_cluster_role_same_algorithm_witness :
    (ClusterRoleSubjectQuerier.Do Context.live
        (fakeClientset ["dev"]
          [RoleBinding.mk "RoleBinding" "rb1" "dev" [Subject.mk "User" "" "alice" ""],
            RoleBinding.mk "RoleBinding" "rb2" "dev"
              [Subject.mk "Group" "" "ops" "", Subject.mk "User" "" "alice" "dev"]]
          [ClusterRoleBinding.mk "ClusterRoleBinding" "rb1" "dev"
              [Subject.mk "User" "" "alice" ""],
            ClusterRoleBinding.mk "ClusterRoleBinding" "rb2" "dev"
              [Subject.mk "Group" "" "ops" "", Subject.mk "User" "" "alice" "dev"]] [])
        (Query.mk "" "alice" "" none)).out
      = Outcome.ok (IdentityList.mk
          [Identity.mk "User" "alice" "" (some (IdentitySource.mk "ClusterRoleBinding" "rb1" "dev")) "",
            Identity.mk "User" "alice" "dev"
              (some (IdentitySource.mk "ClusterRoleBinding" "rb2" "dev")) ""]) :=
  (C28_cluster_role_same_algorithm Context.live
    (fakeClientset ["dev"]
      [RoleBinding.mk "RoleBinding" "rb1" "dev" [Subject.mk "User" "" "alice" ""],
        RoleBinding.mk "RoleBinding" "rb2" "dev"
          [Subject.mk "Group" "" "ops" "", Subject.mk "User" "" "alice" "dev"]]
      [ClusterRoleBinding.mk "ClusterRoleBinding" "rb1" "dev"
          [Subject.mk "User" "" "alice" ""],
        ClusterRoleBinding.mk "ClusterRoleBinding" "rb2" "dev"
          [Subject.mk "Group" "" "ops" "", Subject.mk "User" "" "alice" "dev"]] [])
    (Query.mk "" "alice" "" none)
    [RoleBinding.mk "RoleBinding" "rb1" "dev" [Subject.mk "User" "" "alice" ""],
      RoleBinding.mk "RoleBinding" "rb2" "dev"
        [Subject.mk "Group" "" "ops" "", Subject.mk "User" "" "alice" "dev"]]
    [ClusterRoleBinding.mk "ClusterRoleBinding" "rb1" "dev"
        [Subject.mk "User" "" "alice" ""],
      ClusterRoleBinding.mk "ClusterRoleBinding" "rb2" "dev"
        [Subject.mk "Group" "" "ops" "", Subject.mk "User" "" "alice" "dev"]]
    (by decide) (by decide) (by decide)).1.trans (by decide)

/-! ## A `List` that reports not-found (claim C29) -/

theorem roleSubject_scan_nil (clientset : Clientset) (q : Query) (n : String) (g v : Bool)
    (calls : List Call) (h : clientset.RoleBindingsList q.Namespace {} = (none, none)) :
    RoleSubjectQuerier.scan clientset q n g v calls
      = ⟨.fault, calls ++ [Call.RoleBindingsList q.Namespace {}]⟩ := by
  unfold RoleSubjectQuerier.scan
  rw [h]

theorem clusterRoleSubject_scan_nil (clientset : Clientset) (q : Query) (n : String)
    (g v : Bool) (calls : List Call)
    (h : clientset.ClusterRoleBindingsList {} = (none, none)) :
    ClusterRoleSubjectQuerier.scan clientset q n g v calls
      = ⟨.fault, calls ++ [Call.ClusterRoleBindingsList {}]⟩ := by
  unfold ClusterRoleSubjectQuerier.scan
  rw [h]

theorem serviceAccountUser_scan_nil (clientset : Clientset) (ns n : String)
    (calls : List Call)
    (h : clientset.ServiceAccountsList ns (ListOptions.mk ("metadata.name=" ++ n))
      = (none, none)) :
    ServiceAccountUserQuerier.scan clientset ns n calls
      = ⟨.fault, calls ++ [Call.ServiceAccountsList ns (ListOptions.mk ("metadata.name=" ++ n))]⟩ := by
  unfold ServiceAccountUserQuerier.scan
  simp only [h]

/-- C29 fails on the code.  Let the `List` methods of the cluster client report not-found as
`DefaultClient.List` does, with a nil list and a nil error.  Then each of
`RoleSubjectQuerier.Do`, `ClusterRoleSubjectQuerier.Do` and `ServiceAccountUserQuerier.Do`
ends in a nil dereference exactly in the executions in which it gets as far as its `List`
call: it reads the items of the absent list instead of returning an empty list. -/
theorem C29_nil_list_fault (ctx : Context) (clientset : Clientset) (q : Query)
    (hr : clientset.RoleBindingsList q.Namespace {} = (none, none))
    (hc : clientset.ClusterRoleBindingsList {} = (none, none))
    (hs : ∀ ns opts, clientset.ServiceAccountsList ns opts = (none, none)) :
    ((RoleSubjectQuerier.Do ctx clientset q).out = .fault
      ↔ (RoleSubjectQuerier.Do ctx clientset q).calls.getLast?
          = some (Call.RoleBindingsList q.Namespace {}))
    ∧ ((ClusterRoleSubjectQuerier.Do ctx clientset q).out = .fault
      ↔ (ClusterRoleSubjectQuerier.Do ctx clientset q).calls.getLast?
          = some (Call.ClusterRoleBindingsList {}))
    ∧ ((ServiceAccountUserQuerier.Do ctx clientset q).out = .fault
      ↔ ∃ ns opts, (ServiceAccountUserQuerier.Do ctx clientset q).calls.getLast?
          = some (Call.ServiceAccountsList ns opts)) := by
  rcases hp : ParseServiceAccount q.Name with ⟨p, n, g, v⟩
  rcases hget : clientset.NamespacesGet p with ⟨ex, err⟩
  unfold RoleSubjectQuerier.Do ClusterRoleSubjectQuerier.Do ServiceAccountUserQuerier.Do
  cases hctx : ctx.Err with
  | some e => simp
  | none =>
    simp only [hp, hget, roleSubject_scan_nil clientset q n g v _ hr,
      clusterRoleSubject_scan_nil clientset q n g v _ hc,
      serviceAccountUser_scan_nil clientset p n _ (hs _ _)]
    cases err with
    | some e => refine ⟨?_, ?_, ?_⟩ <;> split_ifs <;> simp
    | none =>
      cases ex with
      | false => refine ⟨?_, ?_, ?_⟩ <;> split_ifs <;> simp
      | true => refine ⟨?_, ?_, ?_⟩ <;> split_ifs <;> simp

/-- C29 at a cluster whose `List` methods report not-found: the three `Do` end in a nil
dereference, right after their `List` call. -/
theorem C29_nil_list_fault_witness :
    RoleSubjectQuerier.Do Context.live (notFoundClientset ["dev"]) (Query.mk "" "alice" "dev" none)
      = ⟨.fault, [Call.RoleBindingsList "dev" (ListOptions.mk "")]⟩
    ∧ ClusterRoleSubjectQuerier.Do Context.live (notFoundClientset ["dev"])
        (Query.mk "" "alice" "dev" none)
      = ⟨.fault, [Call.ClusterRoleBindingsList (ListOptions.mk "")]⟩
    ∧ ServiceAccountUserQuerier.Do Context.live (notFoundClientset ["dev"])
        (Query.mk "" "system:serviceaccount:dev:sa" "dev" none)
      = ⟨.fault, [Call.NamespacesGet "dev",
          Call.ServiceAccountsList "dev" (ListOptions.mk "metadata.name=sa")]⟩
    ∧ (RoleSubjectQuerier.Do Context.live (notFoundClientset ["dev"])
        (Query.mk "" "alice" "dev" none)).out = .fault :=
  ⟨by decide, by decide, by decide,
    (C29_nil_list_fault Context.live (notFoundClientset ["dev"]) (Query.mk "" "alice" "dev" none)
      rfl rfl (fun _ _ => rfl)).1.2 (by decide)⟩

/-! ## add-user: the secret that is read and the context that is stored (claims C21, C22) -/

/-- The run for an account that exists and has its token: the calls, and the nil error,
whatever `UpsertContext` answers. -/
theorem run_existing (h : Handler) (host : Host) (ctx : Context)
    (cc : ConfigClient) (file : Option File) (api : ApiClientset) (cluster ns : String)
    (st : RunState) (acct : core.ServiceAccount) (first : core.ObjectReference)
    (rest : List core.ObjectReference) (secret : core.Secret) (caCrt token : Bytes)
    (name : String)
    (hs : h.setup host = .ok (cc, file, api, cluster, ns, st))
    (hr : h.Roles = []) (hcr : h.ClusterRoles = [])
    (hget : ∀ past, api.ServiceAccountsGet past ns h.ServiceAccountName
      = (some acct, true, none))
    (hsec : acct.Secrets = first :: rest)
    (hav : saTokenAvail h.ServiceAccountName (some acct) = some true)
    (hsg : ∀ past, api.SecretsGet past ns first.Name = (some secret, true, none))
    (hca : secret.Data.lookup "ca.crt" = some caCrt)
    (htok : secret.Data.lookup "token" = some token)
    (htmp : ∀ past, host.TempFile past "" "kubeauth.*.ca.crt" = .ok name)
    (hw : ∀ past, host.FileWrite past name caCrt = none)
    (hsy : ∀ past, host.FileSync past name = none)
    (hcl : ∀ past, host.FileClose past name = none)
    (hut : ∀ past, cc.UpsertUserToken past ctx file h.Username token = none) :
    h.run host ctx
      = ⟨.ok (), [RunCall.ConfigParse h.ConfigFile,
            RunCall.ServiceAccountsGet ns h.ServiceAccountName,
            RunCall.SecretsGet ns first.Name,
            RunCall.TempFile "" "kubeauth.*.ca.crt",
            RunCall.FileWrite name caCrt, RunCall.FileSync name, RunCall.FileClose name,
            RunCall.UpsertUserToken h.Username token,
            RunCall.UpsertContext h.Username cluster ns h.Username,
            RunCall.RemoveSafer name],
          (st.verbose h.Verbosity "service account already exists").stderr⟩ := by
  obtain ⟨hst, -⟩ := setup_ok h host cc file api cluster ns st hs
  have hwt : ∀ s : RunState, h.waitToken api ns (some acct) s = .ok (some acct, s) :=
    fun s => (waitToken_spec h api ns (some acct) s).1 hav
  unfold Handler.run
  simp only [hs]
  rw [checkRoles_nil h host api ns st hr]
  simp only []
  rw [checkClusterRoles_nil h host api st hcr]
  simp only []
  rw [ensureAccount_exists h api ns st (some acct) (hget _)]
  simp only []
  rw [hwt]
  simp only [Handler.bindRoles, Handler.bindClusterRoles]
  rw [fetchSecret_ok api ns acct first rest secret caCrt token _ hsec (hsg _) hca htok]
  simp only []
  rw [persist_ok h host cc ctx file cluster ns name caCrt token _ (htmp _) hw hsy hcl hut,
    hst]
  unfold RunState.verbose RunState.call
  split_ifs <;> rfl

/-- C21 fails on the code.  Let `run` have created its clients and taken its defaults, with
no role selectors, let the account exist and refer to at least one secret whose name begins
with `<account>-token-` (so that there is no polling), and let the environment accept every
call.  Then the one `Secrets.Get` of the run asks for the secret that stands first in the
list of the account, whether or not its name has the prefix, and the token stored by
`UpsertUserToken` is the `token` of that secret. -/
theorem C21_first_secret_fetched (h : Handler) (host : Host) (ctx : Context)
    (cc : ConfigClient) (file : Option File) (api : ApiClientset) (cluster ns : String)
    (st : RunState) (acct : core.ServiceAccount) (first : core.ObjectReference)
    (rest : List core.ObjectReference) (secret : core.Secret) (caCrt token : Bytes)
    (name : String)
    (hs : h.setup host = .ok (cc, file, api, cluster, ns, st))
    (hr : h.Roles = []) (hcr : h.ClusterRoles = [])
    (hget : ∀ past, api.ServiceAccountsGet past ns h.ServiceAccountName
      = (some acct, true, none))
    (hsec : acct.Secrets = first :: rest)
    (hav : saTokenAvail h.ServiceAccountName (some acct) = some true)
    (hsg : ∀ past, api.SecretsGet past ns first.Name = (some secret, true, none))
    (hca : secret.Data.lookup "ca.crt" = some caCrt)
    (htok : secret.Data.lookup "token" = some token)
    (htmp : ∀ past, host.TempFile past "" "kubeauth.*.ca.crt" = .ok name)
    (hw : ∀ past, host.FileWrite past name caCrt = none)
    (hsy : ∀ past, host.FileSync past name = none)
    (hcl : ∀ past, host.FileClose past name = none)
    (hut : ∀ past, cc.UpsertUserToken past ctx file h.Username token = none) :
    (h.run host ctx).calls.filter (fun c => c matches RunCall.SecretsGet _ _)
        = [RunCall.SecretsGet ns first.Name]
    ∧ RunCall.UpsertUserToken h.Username token ∈ (h.run host ctx).calls
    ∧ (h.run host ctx).out = .ok () := by
  rw [run_existing h host ctx cc file api cluster ns st acct first rest secret caCrt token
    name hs hr hcr hget hsec hav hsg hca htok htmp hw hsy hcl hut]
  refine ⟨?_, ?_, rfl⟩
  · simp [List.filter_cons]
  · simp

/-- C21 at an account whose first secret, `other`, is not the token secret
`sa-token-1abcd` that follows it: the run reads `other` and stores its token. -/
theorem C21_first_secret_fetched_witness :
    ((fakeHandler (secretsApiClientset ["other", "sa-token-1abcd"]) [] [] 0).run fakeHost
        Context.live).calls.filter (fun c => c matches RunCall.SecretsGet _ _)
      = [RunCall.SecretsGet "current-namespace" "other"]
    ∧ RunCall.UpsertUserToken "user" [5]
        ∈ ((fakeHandler (secretsApiClientset ["other", "sa-token-1abcd"]) [] [] 0).run fakeHost
            Context.live).calls
    ∧ strings.HasPrefix "other" "sa-token-" = false :=
  ⟨(C21_first_secret_fetched
      (fakeHandler (secretsApiClientset ["other", "sa-token-1abcd"]) [] [] 0)
      fakeHost Context.live (fakeConfigClient fakeFile) (some fakeFile)
      (secretsApiClientset ["other", "sa-token-1abcd"])
      "current-cluster" "current-namespace" (RunState.mk [RunCall.ConfigParse ""] [])
      (core.ServiceAccount.mk [core.ObjectReference.mk "other",
        core.ObjectReference.mk "sa-token-1abcd"])
      (core.ObjectReference.mk "other") [core.ObjectReference.mk "sa-token-1abcd"]
      (core.Secret.mk [("ca.crt", [1]), ("token", [5])]) [1] [5]
      "/tmp/kubeauth.1.ca.crt" rfl rfl rfl (fun _ => rfl) rfl (by decide) (fun _ => rfl)
      (by decide) (by decide) (fun _ => rfl) (fun _ => rfl) (fun _ => rfl) (fun _ => rfl)
      (fun _ => rfl)).1,
    (C21_first_secret_fetched
      (fakeHandler (secretsApiClientset ["other", "sa-token-1abcd"]) [] [] 0)
      fakeHost Context.live (fakeConfigClient fakeFile) (some fakeFile)
      (secretsApiClientset ["other", "sa-token-1abcd"])
      "current-cluster" "current-namespace" (RunState.mk [RunCall.ConfigParse ""] [])
      (core.ServiceAccount.mk [core.ObjectReference.mk "other",
        core.ObjectReference.mk "sa-token-1abcd"])
      (core.ObjectReference.mk "other") [core.ObjectReference.mk "sa-token-1abcd"]
      (core.Secret.mk [("ca.crt", [1]), ("token", [5])]) [1] [5]
      "/tmp/kubeauth.1.ca.crt" rfl rfl rfl (fun _ => rfl) rfl (by decide) (fun _ => rfl)
      (by decide) (by decide) (fun _ => rfl) (fun _ => rfl) (fun _ => rfl) (fun _ => rfl)
      (fun _ => rfl)).2.1,
    by decide⟩

/-- C22 fails on the code.  Let `run` have created its clients and taken its defaults, with
no role selectors, let the account exist with its token secret first, and let the
environment accept every call up to and including `UpsertUserToken`.  When `UpsertContext`
then returns an error, `run` has called it and still returns nil: the error is wrapped and
dropped (add_user.go:359-361). -/
theorem C22_upsert_context_error_dropped (h : Handler) (host : Host) (ctx : Context)
    (cc : ConfigClient) (file : Option File) (api : ApiClientset) (cluster ns : String)
    (st : RunState) (acct : core.ServiceAccount) (first : core.ObjectReference)
    (rest : List core.ObjectReference) (secret : core.Secret) (caCrt token : Bytes)
    (name : String) (e : Error)
    (hs : h.setup host = .ok (cc, file, api, cluster, ns, st))
    (hr : h.Roles = []) (hcr : h.ClusterRoles = [])
    (hget : ∀ past, api.ServiceAccountsGet past ns h.ServiceAccountName
      = (some acct, true, none))
    (hsec : acct.Secrets = first :: rest)
    (hav : saTokenAvail h.ServiceAccountName (some acct) = some true)
    (hsg : ∀ past, api.SecretsGet past ns first.Name = (some secret, true, none))
    (hca : secret.Data.lookup "ca.crt" = some caCrt)
    (htok : secret.Data.lookup "token" = some token)
    (htmp : ∀ past, host.TempFile past "" "kubeauth.*.ca.crt" = .ok name)
    (hw : ∀ past, host.FileWrite past name caCrt = none)
    (hsy : ∀ past, host.FileSync past name = none)
    (hcl : ∀ past, host.FileClose past name = none)
    (hut : ∀ past, cc.UpsertUserToken past ctx file h.Username token = none)
    (_huc : ∀ past, cc.UpsertContext past ctx file h.Username cluster ns h.Username = some e) :
    (h.run host ctx).out = .ok ()
    ∧ RunCall.UpsertContext h.Username cluster ns h.Username ∈ (h.run host ctx).calls := by
  rw [run_existing h host ctx cc file api cluster ns st acct first rest secret caCrt token
    name hs hr hcr hget hsec hav hsg hca htok htmp hw hsy hcl hut]
  exact ⟨rfl, by simp⟩

/-- C22 at the account of the tests, with a configuration client whose `UpsertContext`
fails: `run` returns nil. -/
theorem C22_upsert_context_error_dropped_witness :
    ((Handler.mk (some (secretsApiClientset ["sa-token-1abcd"]))
        (some (contextFailingClient fakeFile "exit status 1")) "" [] "" "" [] "sa" "user" 0).run
      fakeHost Context.live).out = .ok () :=
  (C22_upsert_context_error_dropped
    (Handler.mk (some (secretsApiClientset ["sa-token-1abcd"]))
      (some (contextFailingClient fakeFile "exit status 1")) "" [] "" "" [] "sa" "user" 0)
    fakeHost Context.live (contextFailingClient fakeFile "exit status 1") (some fakeFile)
    (secretsApiClientset ["sa-token-1abcd"])
    "current-cluster" "current-namespace" (RunState.mk [RunCall.ConfigParse ""] [])
    (core.ServiceAccount.mk [core.ObjectReference.mk "sa-token-1abcd"])
    (core.ObjectReference.mk "sa-token-1abcd") []
    (core.Secret.mk [("ca.crt", [1]), ("token", [14])]) [1] [14]
    "/tmp/kubeauth.1.ca.crt" "exit status 1" rfl rfl rfl (fun _ => rfl) rfl (by decide)
    (fun _ => rfl)
    (by decide) (by decide) (fun _ => rfl) (fun _ => rfl) (fun _ => rfl) (fun _ => rfl)
    (fun _ => rfl) (fun _ => rfl)).1

/-! ## ctl: appending to a slice -/

theorem map_getD_range (xs : List String) (d : String) :
    (List.range xs.length).map (fun j => xs.getD j d) = xs := by
  apply List.ext_getElem
  · simp
  · intro i h1 h2
    simp [List.getD_eq_getElem?_getD, List.getElem?_eq_getElem h2]

/-- The slice that `append` returns holds the elements of `s` followed by `xs`. -/
theorem append_read (m : Memory) (s : Slice) (xs : List String) :
    (m.append s xs).1.read (m.append s xs).2 = m.read s ++ xs := by
  unfold Memory.append
  split_ifs with hc
  · simp only [Memory.read]
    rw [List.range_add, List.map_append, List.map_map]
    congr 1
    · apply List.map_congr_left
      intro i hi
      rw [List.mem_range] at hi
      rw [if_neg]
      omega
    · conv_rhs => rw [← map_getD_range xs ""]
      apply List.map_congr_left
      intro j hj
      rw [List.mem_range] at hj
      simp only [Function.comp]
      rw [if_pos ⟨trivial, by omega, by omega⟩]
      congr 1
      omega
  · simp only [Memory.read, if_true, Nat.zero_add]
    have hl : s.len + xs.length
        = ((List.range s.len).map (fun i => m.cell s.array (s.offset + i)) ++ xs).length := by
      simp
    rw [hl]
    exact map_getD_range _ ""

/-- An `append` to `s` leaves the elements of a slice `t` that is apart from `s` as they
are, and the resulting slice is apart from `t` as well. -/
theorem append_frame (m : Memory) (s t : Slice) (xs : List String)
    (ht : t.array < m.next) (hap : s.apart t) :
    (m.append s xs).1.read t = m.read t
    ∧ t.array < (m.append s xs).1.next
    ∧ (m.append s xs).2.apart t := by
  unfold Memory.append
  split_ifs with hc
  · refine ⟨?_, ht, ?_⟩
    · simp only [Memory.read]
      apply List.map_congr_left
      intro i hi
      rw [List.mem_range] at hi
      rw [if_neg]
      rintro ⟨h1, h2, h3⟩
      rcases hap with h | h | h | h
      · exact h h1
      · omega
      · omega
      · omega
    · rcases hap with h | h | h | h
      · exact Or.inl h
      · exact Or.inr (Or.inl h)
      · exact Or.inr (Or.inr (Or.inl (by simp only []; omega)))
      · exact Or.inr (Or.inr (Or.inr (by simp only []; omega)))
  · refine ⟨?_, ?_, ?_⟩
    · simp only [Memory.read]
      apply List.map_congr_left
      intro i _
      rw [if_neg]
      omega
    · simp only []
      omega
    · left
      simp only []
      omega

/-! ## ctl: the validation and the passthrough -/

theorem clients_inv (h : ctl.Handler) (host : ctl.Host) (executor : ctl.Executor)
    (configFile : Option File) (api : Clientset) (reg : Registry) (st : ctl.State)
    (hc : h.clients host = .ok (executor, configFile, api, reg, st)) :
    executor = h.Executor.getD host.CommonExecutor
    ∧ (h.KubectlConfigClient.getD host.NewDefaultClient).Parse [] h.ConfigFile
        = (configFile, none)
    ∧ st = ⟨[ctl.Call.ConfigParse h.ConfigFile], []⟩ := by
  unfold ctl.Handler.clients at hc
  rcases hp : (h.KubectlConfigClient.getD host.NewDefaultClient).Parse [] h.ConfigFile
    with ⟨f0, err⟩
  simp only [hp] at hc
  cases err with
  | some e => simp at hc
  | none =>
    simp only [] at hc
    cases ha : h.apiClientset host f0 (ctl.State.call {} (.ConfigParse h.ConfigFile)) with
    | error r => simp [ha] at hc
    | ok a =>
      simp only [ha, Except.ok.injEq, Prod.mk.injEq] at hc
      obtain ⟨h1, h2, -, -, h5⟩ := hc
      refine ⟨h1.symm, ?_, h5.symm⟩
      rw [h2]

theorem checkNamespace_inv (h : ctl.Handler) (api : Clientset) (effectiveContext : ConfigContext)
    (effectiveContextName ns : String) (st st2 : ctl.State)
    (hnsc : ¬ (h.Namespace ≠ "" ∧ h.AllNamespaces = true))
    (hc : h.checkNamespace api effectiveContext effectiveContextName st = .ok (ns, st2)) :
    ns = h.effectiveNamespace effectiveContext := by
  unfold ctl.Handler.checkNamespace at hc
  unfold ctl.Handler.effectiveNamespace
  cases hall : h.AllNamespaces with
  | true =>
    simp only [hall, Bool.true_eq_false, if_false, Except.ok.injEq, Prod.mk.injEq] at hc
    simp only [hall, not_and, not_true_eq_false, imp_false, not_not] at hnsc
    simp only [if_true]
    rw [← hc.1, hnsc]
  | false =>
    simp only [hall, if_true] at hc
    simp only [Bool.false_eq_true, if_false]
    generalize (if h.Namespace = "" then effectiveContext.Namespace else h.Namespace) = n0 at hc ⊢
    generalize (if h.Namespace = "" then
        st.verbose h.Verbosity ("defaulting to namespace [" ++ n0 ++ "] from context ["
          ++ effectiveContextName ++ "]")
      else st.verbose h.Verbosity ("using --namespace [" ++ n0 ++ "]")) = s0 at hc
    by_cases hn : n0 = ""
    · simp only [hn, ne_eq, not_true_eq_false, if_false, Except.ok.injEq, Prod.mk.injEq] at hc
      rw [hn, ← hc.1]
    · rcases hg : api.NamespacesGet n0 with ⟨ex, err⟩
      simp only [ne_eq, hn, not_false_eq_true, if_true, hg] at hc
      cases err with
      | some e => simp at hc
      | none =>
        cases ex with
        | false => simp at hc
        | true =>
          simp only [Bool.true_eq_false, if_false, Except.ok.injEq, Prod.mk.injEq] at hc
          exact hc.1.symm

theorem GetCurrentContext_lookup (f : File) (name : String) (c : ConfigContext)
    (hc : f.GetCurrentContext = .ok (name, c)) :
    name = f.ClientCmdConfig.CurrentContext ∧ f.ClientCmdConfig.Contexts.lookup name = some c := by
  unfold File.GetCurrentContext at hc
  split_ifs at hc with h0
  cases hl : f.ClientCmdConfig.Contexts.lookup f.ClientCmdConfig.CurrentContext with
  | none => simp [hl] at hc
  | some c0 =>
    simp only [hl, Except.ok.injEq, Prod.mk.injEq] at hc
    rw [← hc.1, ← hc.2]
    exact ⟨rfl, hl⟩

theorem argsInv_start (m0 : Memory) (s0 : Slice) : argsInv m0 s0 (m0, s0) (m0.read s0) :=
  ⟨rfl, fun _ ht hap => ⟨rfl, ht, hap⟩⟩

theorem argsInv_append (m0 : Memory) (s0 : Slice) (p : Memory × Slice) (l xs : List String)
    (hp : argsInv m0 s0 p l) : argsInv m0 s0 (p.1.append p.2 xs) (l ++ xs) := by
  obtain ⟨h1, h2⟩ := hp
  refine ⟨by rw [append_read, h1], ?_⟩
  intro t ht hap
  obtain ⟨a1, a2, a3⟩ := h2 t ht hap
  obtain ⟨b1, b2, b3⟩ := append_frame p.1 p.2 t xs a2 a3
  exact ⟨by rw [b1, a1], b2, b3⟩

theorem argsInv_ite (m0 : Memory) (s0 : Slice) (p : Memory × Slice) (l xs : List String)
    (c : Prop) [Decidable c] (hp : argsInv m0 s0 p l) :
    argsInv m0 s0 (if c then p.1.append p.2 xs else p) (l ++ if c then xs else []) := by
  split_ifs
  · exact argsInv_append m0 s0 p l xs hp
  · rw [List.append_nil]
    exact hp

theorem argsInv_asGroup (m0 : Memory) (s0 : Slice) (groups : List String)
    (p : Memory × Slice) (l : List String) (hp : argsInv m0 s0 p l) :
    argsInv m0 s0
      (groups.foldl (fun (kubectlArgs : Memory × Slice) group =>
        kubectlArgs.1.append kubectlArgs.2 ["--as-group", group]) p)
      (l ++ groups.flatMap (fun g => ["--as-group", g])) := by
  induction groups generalizing p l with
  | nil =>
    simp only [List.foldl_nil, List.flatMap_nil, List.append_nil]
    exact hp
  | cons g rest ih =>
    rw [List.foldl_cons, List.flatMap_cons, ← List.append_assoc]
    exact ih _ _ (argsInv_append m0 s0 p l _ hp)

theorem argsInv_ite2 (m0 : Memory) (s0 : Slice) (p : Memory × Slice)
    (l xs ys : List String) (c d : Prop) [Decidable c] [Decidable d]
    (hp : argsInv m0 s0 p l) :
    argsInv m0 s0 (if c then p.1.append p.2 xs else if d then p.1.append p.2 ys else p)
      (l ++ if c then xs else if d then ys else []) := by
  split_ifs
  · exact argsInv_append m0 s0 p l xs hp
  · exact argsInv_append m0 s0 p l ys hp
  · rw [List.append_nil]
    exact hp

theorem argsInv_groups (m0 : Memory) (s0 : Slice) (groups : List String)
    (p : Memory × Slice) (l : List String) (hp : argsInv m0 s0 p l) :
    argsInv m0 s0
      (if groups.length > 0 then
        groups.foldl (fun (kubectlArgs : Memory × Slice) group =>
          kubectlArgs.1.append kubectlArgs.2 ["--as-group", group]) p
      else p)
      (l ++ groups.flatMap (fun g => ["--as-group", g])) := by
  cases groups with
  | nil =>
    rw [if_neg (by simp)]
    simp only [List.flatMap_nil, List.append_nil]
    exact hp
  | cons g rest =>
    rw [if_pos (by simp)]
    exact argsInv_asGroup _ _ _ _ _ hp

/-- The variable `kubectlArgs` after the append of `--v`: it holds the pre-dash arguments
followed by the flags, and what was apart from the pre-dash slice is untouched. -/
theorem flagArgs_inv (h : ctl.Handler) (input : ctl.Input) (configFile : File)
    (currentContextName : String) (currentContext : ConfigContext)
    (effectiveContextName ns : String) :
    argsInv input.heap input.ArgsBeforeDash
      (h.flagArgs input configFile currentContextName currentContext effectiveContextName ns)
      (input.heap.read input.ArgsBeforeDash ++ ["--kubeconfig", configFile.Name]
        ++ (if h.As ≠ "" then ["--as", h.As] else [])
        ++ h.AsGroup.flatMap (fun g => ["--as-group", g])
        ++ (if (effectiveContextName == currentContextName) = false then
              ["--context", effectiveContextName] else [])
        ++ (if h.Cluster ≠ "" ∧ ((effectiveContextName == currentContextName) = false
                ∨ h.Cluster ≠ currentContext.Cluster) then ["--cluster", h.Cluster] else [])
        ++ (if h.AllNamespaces = true then ["--all-namespaces"]
            else if ns ≠ "" ∧ ns ≠ currentContext.Namespace then ["--namespace", ns] else [])
        ++ ["--v", strconv.Itoa h.Verbosity]) :=
  argsInv_append _ _ _ _ _
    (argsInv_ite2 _ _ _ _ _ _ _ _
      (argsInv_ite _ _ _ _ _ _
        (argsInv_ite _ _ _ _ _ _
          (argsInv_groups _ _ _ _ _
            (argsInv_ite _ _ _ _ _ _
              (argsInv_append _ _ _ _ _ (argsInv_start input.heap input.ArgsBeforeDash)))))))

/-- The arguments that `run` hands to `kubectl` are the arguments of the specification,
with, for the post-dash arguments, what the post-dash slice holds once the flags have been
appended to the pre-dash slice. -/
theorem kubectlArgs_eq (h : ctl.Handler) (input : ctl.Input) (configFile : File)
    (currentContextName : String) (currentContext : ConfigContext)
    (effectiveContextName ns : String) :
    h.kubectlArgs input configFile currentContextName currentContext effectiveContextName ns
      = passthroughArgs (input.heap.read input.ArgsBeforeDash)
          ((h.flagArgs input configFile currentContextName currentContext
            effectiveContextName ns).1.read input.ArgsAfterDash)
          configFile.Name h.As h.AsGroup effectiveContextName currentContextName h.Cluster
          currentContext.Cluster h.AllNamespaces ns currentContext.Namespace h.Verbosity := by
  have hu : ((effectiveContextName == currentContextName) = false)
      ↔ effectiveContextName ≠ currentContextName := by simp
  unfold ctl.Handler.kubectlArgs passthroughArgs
  simp only []
  rw [append_read, (flagArgs_inv h input configFile currentContextName currentContext
    effectiveContextName ns).1]
  simp only [hu, strconv.Itoa]

/-- When no append to the pre-dash slice can write into the post-dash slice, the post-dash
slice holds the caller's post-dash arguments when `run` reads it. -/
theorem flagArgs_apart (h : ctl.Handler) (input : ctl.Input) (configFile : File)
    (currentContextName : String) (currentContext : ConfigContext)
    (effectiveContextName ns : String)
    (ht : input.ArgsAfterDash.array < input.heap.next)
    (hap : input.ArgsBeforeDash.apart input.ArgsAfterDash) :
    (h.flagArgs input configFile currentContextName currentContext
        effectiveContextName ns).1.read input.ArgsAfterDash
      = input.heap.read input.ArgsAfterDash :=
  ((flagArgs_inv h input configFile currentContextName currentContext
    effectiveContextName ns).2 _ ht hap).1

theorem passthrough_calls (h : ctl.Handler) (input : ctl.Input) (ctx : List ctl.Call → Context)
    (v : ctl.Validated) :
    (h.passthrough input ctx v).calls
      = v.st.calls ++ [ctl.Call.Standard "kubectl" (h.kubectlArgs input v.configFile
          v.currentContextName v.currentContext v.effectiveContextName v.Namespace)] := by
  unfold ctl.Handler.passthrough
  simp only []
  have hvc : ∀ m, (v.st.verbose h.Verbosity m).calls = v.st.calls := by
    intro m
    unfold ctl.State.verbose
    split_ifs <;> rfl
  split_ifs <;> simp only [ctl.State.done, ctl.State.call, hvc]

theorem ctl_verbose_calls (st : ctl.State) (verbosity : Int) (msg : String) :
    (st.verbose verbosity msg).calls = st.calls := by
  unfold ctl.State.verbose
  split_ifs <;> rfl

theorem ctl_foldl_verbose_calls {α : Type} (items : List α) (verbosity : Int)
    (msg : α → String) (st : ctl.State) :
    (items.foldl (fun st item => st.verbose verbosity (msg item)) st).calls = st.calls := by
  induction items generalizing st with
  | nil => rfl
  | cons a rest ih => rw [List.foldl_cons, ih, ctl_verbose_calls]

theorem noCommand_snoc (calls : List ctl.Call) (c : ctl.Call) (h : noCommand calls)
    (hc : c.isStandard = false) : noCommand (calls ++ [c]) := by
  intro x hx
  rcases List.mem_append.1 hx with hx | hx
  · exact h x hx
  · rw [List.mem_singleton.1 hx]
    exact hc

theorem checkNamespace_noCommand (h : ctl.Handler) (api : Clientset)
    (effectiveContext : ConfigContext) (effectiveContextName ns : String) (st st2 : ctl.State)
    (hst : noCommand st.calls)
    (hc : h.checkNamespace api effectiveContext effectiveContextName st = .ok (ns, st2)) :
    noCommand st2.calls := by
  unfold ctl.Handler.checkNamespace at hc
  cases hall : h.AllNamespaces with
  | true =>
    simp only [hall, Bool.true_eq_false, if_false, Except.ok.injEq, Prod.mk.injEq] at hc
    rw [← hc.2]
    exact hst
  | false =>
    simp only [hall, if_true] at hc
    generalize (if h.Namespace = "" then effectiveContext.Namespace else h.Namespace) = n0 at hc
    have hs0 : ((if h.Namespace = "" then
        st.verbose h.Verbosity ("defaulting to namespace [" ++ n0 ++ "] from context ["
          ++ effectiveContextName ++ "]")
      else st.verbose h.Verbosity ("using --namespace [" ++ n0 ++ "]"))).calls = st.calls := by
      split_ifs <;> exact ctl_verbose_calls _ _ _
    generalize (if h.Namespace = "" then
        st.verbose h.Verbosity ("defaulting to namespace [" ++ n0 ++ "] from context ["
          ++ effectiveContextName ++ "]")
      else st.verbose h.Verbosity ("using --namespace [" ++ n0 ++ "]")) = s0 at hc hs0
    by_cases hn : n0 = ""
    · simp only [hn, ne_eq, not_true_eq_false, if_false, Except.ok.injEq, Prod.mk.injEq] at hc
      rw [← hc.2, hs0]
      exact hst
    · rcases hg : api.NamespacesGet n0 with ⟨ex, err⟩
      simp only [ne_eq, hn, not_false_eq_true, if_true, hg] at hc
      cases err with
      | some e => simp at hc
      | none =>
        cases ex with
        | false => simp at hc
        | true =>
          simp only [Bool.true_eq_false, if_false, Except.ok.injEq, Prod.mk.injEq] at hc
          rw [← hc.2]
          unfold ctl.State.call
          simp only [hs0]
          exact noCommand_snoc _ _ hst rfl

theorem checkAs_noCommand (h : ctl.Handler) (reg : Registry) (ctx : List ctl.Call → Context)
    (sched : List ctl.Call → List Nat) (file : File) (ns : String) (st st2 : ctl.State)
    (hst : noCommand st.calls) (hc : h.checkAs reg ctx sched file ns st = .ok st2) :
    noCommand st2.calls := by
  unfold ctl.Handler.checkAs at hc
  by_cases has : h.As ≠ ""
  · rw [if_pos has] at hc
    simp only [] at hc
    split at hc
    · simp at hc
    · simp at hc
    · split_ifs at hc
      simp only [Except.ok.injEq] at hc
      rw [← hc, ctl_foldl_verbose_calls]
      unfold ctl.State.call
      simp only [ctl_verbose_calls]
      exact noCommand_snoc _ _ hst rfl
  · rw [if_neg has] at hc
    simp only [Except.ok.injEq] at hc
    rw [← hc]
    exact hst

theorem checkGroups_noCommand (h : ctl.Handler) (reg : Registry)
    (ctx : List ctl.Call → Context) (sched : List ctl.Call → List Nat) (ns : String)
    (groups : List String) (st st2 : ctl.State) (hst : noCommand st.calls)
    (hc : h.checkGroups reg ctx sched ns groups st = .ok st2) : noCommand st2.calls := by
  induction groups generalizing st with
  | nil =>
    simp only [ctl.Handler.checkGroups, Except.ok.injEq] at hc
    rw [← hc]
    exact hst
  | cons g rest ih =>
    unfold ctl.Handler.checkGroups at hc
    simp only [] at hc
    split at hc
    · simp at hc
    · simp at hc
    · split_ifs at hc
      refine ih _ ?_ hc
      rw [ctl_foldl_verbose_calls]
      unfold ctl.State.call
      exact noCommand_snoc _ _ hst rfl

theorem checkAsGroup_noCommand (h : ctl.Handler) (reg : Registry)
    (ctx : List ctl.Call → Context) (sched : List ctl.Call → List Nat) (ns : String)
    (st st2 : ctl.State) (hst : noCommand st.calls)
    (hc : h.checkAsGroup reg ctx sched ns st = .ok st2) : noCommand st2.calls := by
  unfold ctl.Handler.checkAsGroup at hc
  split_ifs at hc
  · refine checkGroups_noCommand h reg ctx sched ns _ _ st2 ?_ hc
    rw [ctl_verbose_calls]
    exact hst
  · simp only [Except.ok.injEq] at hc
    rw [← hc]
    exact hst

/-- What a validation that succeeded has established. -/
theorem validate_inv (h : ctl.Handler) (host : ctl.Host) (ctx : List ctl.Call → Context)
    (sched : List ctl.Call → List Nat) (v : ctl.Validated)
    (hv : h.validate host ctx sched = .ok v) :
    v.executor = h.Executor.getD host.CommonExecutor
    ∧ (h.KubectlConfigClient.getD host.NewDefaultClient).Parse [] h.ConfigFile
        = (some v.configFile, none)
    ∧ ¬ (h.As = "" ∧ h.AsGroup = [])
    ∧ ¬ (h.Namespace ≠ "" ∧ h.AllNamespaces = true)
    ∧ v.configFile.GetCurrentContext = .ok (v.currentContextName, v.currentContext)
    ∧ v.effectiveContextName = h.effectiveName v.currentContextName
    ∧ ∃ effectiveContext,
        v.configFile.ClientCmdConfig.Contexts.lookup v.effectiveContextName
          = some effectiveContext
        ∧ ¬ (h.Cluster ≠ "" ∧ h.Cluster ≠ effectiveContext.Cluster)
        ∧ v.Namespace = h.effectiveNamespace effectiveContext
        ∧ noCommand v.st.calls := by
  unfold ctl.Handler.validate at hv
  cases hcl : h.clients host with
  | error r => simp [hcl] at hv
  | ok p =>
    obtain ⟨executor, configFile, api, reg, st⟩ := p
    obtain ⟨he, hp, hst⟩ := clients_inv h host executor configFile api reg st hcl
    simp only [hcl] at hv
    by_cases hsub : h.As = "" ∧ h.AsGroup.length = 0
    · simp [hsub] at hv
    rw [if_neg hsub] at hv
    by_cases hnsc : h.Namespace ≠ "" ∧ h.AllNamespaces = true
    · simp [hnsc] at hv
    rw [if_neg hnsc] at hv
    cases configFile with
    | none => simp at hv
    | some file =>
      simp only [] at hv
      cases hcur : file.GetCurrentContext with
      | error e => simp [hcur] at hv
      | ok q =>
        obtain ⟨cur, curCtx⟩ := q
        simp only [hcur] at hv
        cases hl : file.ClientCmdConfig.Contexts.lookup
            (if h.Context = "" then cur else h.Context) with
        | none => simp [hl] at hv
        | some effCtx =>
          simp only [hl] at hv
          by_cases hclu : h.Cluster ≠ "" ∧ h.Cluster ≠ effCtx.Cluster
          · simp [hclu] at hv
          rw [if_neg hclu] at hv
          generalize hs1 : (if h.Context = "" then
              st.verbose h.Verbosity ("defaulting to current-context ["
                ++ (if h.Context = "" then cur else h.Context) ++ "] from file ["
                ++ file.Name ++ "]")
            else
              st.verbose h.Verbosity ("using --context ["
                ++ (if h.Context = "" then cur else h.Context)
                ++ "] from file [" ++ file.Name ++ "]")) = s1 at hv
          cases hns : h.checkNamespace api effCtx (if h.Context = "" then cur else h.Context)
              s1 with
          | error r => simp [hns] at hv
          | ok q2 =>
            obtain ⟨ns, s2⟩ := q2
            simp only [hns] at hv
            cases has : h.checkAs reg ctx sched file ns s2 with
            | error r => simp [has] at hv
            | ok s3 =>
              simp only [has] at hv
              cases hag : h.checkAsGroup reg ctx sched ns s3 with
              | error r => simp [hag] at hv
              | ok s4 =>
                simp only [hag, Except.ok.injEq] at hv
                subst hv
                refine ⟨he, hp, ?_, hnsc, hcur, rfl, effCtx, hl, hclu, ?_, ?_⟩
                · intro hh
                  exact hsub ⟨hh.1, by rw [hh.2]; rfl⟩
                · exact checkNamespace_inv h api effCtx _ ns s1 s2 hnsc hns
                · have h0 : noCommand st.calls := by
                    rw [hst]
                    intro c hc
                    rw [List.mem_singleton.1 hc]
                    rfl
                  have h1 : noCommand s1.calls := by
                    rw [← hs1]
                    split_ifs <;> rw [ctl_verbose_calls] <;> exact h0
                  exact checkAsGroup_noCommand h reg ctx sched ns s3 s4
                    (checkAs_noCommand h reg ctx sched file ns s2 s3
                      (checkNamespace_noCommand h api effCtx _ ns s1 s2 h1 hns) has) hag

theorem run_of_validate (h : ctl.Handler) (host : ctl.Host) (input : ctl.Input)
    (ctx : List ctl.Call → Context) (sched : List ctl.Call → List Nat) (v : ctl.Validated)
    (hv : h.validate host ctx sched = .ok v) :
    h.run host input ctx sched = h.passthrough input ctx v := by
  unfold ctl.Handler.run
  rw [hv]

/-! ## ctl: the arguments of `kubectl` (claims C23, C30) -/

/-- C23 fails on the code.  Whenever the validation of `run` succeeds, `run` calls the
executor once, after all the calls of the validation, for the command `kubectl`, and the
arguments are those of the specification (the pre-dash arguments; `--kubeconfig` and the name
of the parsed file; `--as` and the user when `--as` is set; `--as-group` and the group for
each group in order; `--context` and the effective context name only when it differs from
the current-context name; `--cluster` and the cluster only when `--cluster` is set and the
context differs or the cluster differs from the cluster of the current context;
`--all-namespaces` when that flag is set, otherwise `--namespace` and the effective
namespace only when it is non-empty and differs from the namespace of the current context;
`--v` and the decimal verbosity) except for the post-dash arguments: in their place `run`
passes what the slice `ArgsAfterDash` holds once the flags have been appended to the slice
`ArgsBeforeDash`.  These are the post-dash arguments of the caller when no such append can
write into the post-dash slice.  When the two slices are cut from one array, as `argv[:n]`
and `argv[n:]`, the appends are made in place and overwrite the post-dash arguments
(ctl.go:278-301). -/
theorem C23_kubectl_args (h : ctl.Handler) (host : ctl.Host) (input : ctl.Input)
    (ctx : List ctl.Call → Context) (sched : List ctl.Call → List Nat) (v : ctl.Validated)
    (hv : h.validate host ctx sched = .ok v) :
    ∃ effectiveContext,
      (h.KubectlConfigClient.getD host.NewDefaultClient).Parse [] h.ConfigFile
        = (some v.configFile, none)
      ∧ v.configFile.GetCurrentContext = .ok (v.currentContextName, v.currentContext)
      ∧ v.configFile.ClientCmdConfig.Contexts.lookup (h.effectiveName v.currentContextName)
          = some effectiveContext
      ∧ noCommand v.st.calls
      ∧ (h.run host input ctx sched).calls
          = v.st.calls ++ [ctl.Call.Standard "kubectl"
              (passthroughArgs (input.heap.read input.ArgsBeforeDash)
                ((h.flagArgs input v.configFile v.currentContextName v.currentContext
                  (h.effectiveName v.currentContextName)
                  (h.effectiveNamespace effectiveContext)).1.read input.ArgsAfterDash)
                v.configFile.Name
                h.As h.AsGroup (h.effectiveName v.currentContextName) v.currentContextName
                h.Cluster v.currentContext.Cluster h.AllNamespaces
                (h.effectiveNamespace effectiveContext) v.currentContext.Namespace
                h.Verbosity)]
      ∧ (input.ArgsAfterDash.array < input.heap.next →
          input.ArgsBeforeDash.apart input.ArgsAfterDash →
          (h.flagArgs input v.configFile v.currentContextName v.currentContext
              (h.effectiveName v.currentContextName)
              (h.effectiveNamespace effectiveContext)).1.read input.ArgsAfterDash
            = input.heap.read input.ArgsAfterDash) := by
  obtain ⟨-, hp, -, -, hcur, heff, effCtx, hl, -, hns, hq⟩ :=
    validate_inv h host ctx sched v hv
  refine ⟨effCtx, hp, hcur, ?_, hq, ?_, ?_⟩
  · rw [← heff]
    exact hl
  · rw [run_of_validate h host input ctx sched v hv, passthrough_calls, kubectlArgs_eq,
      heff, hns]
  · intro ht hap
    exact flagArgs_apart h input _ _ _ _ _ ht hap

/-- C23 at an input whose two slices are cut from the array `auth can-i -o yaml` at the
dash, for the flag `--as me`: `kubectl` gets `--kubeconfig /kube/config` in the place of the
post-dash arguments `-o yaml`. -/
theorem C23_kubectl_args_witness :
    (sharedInput ["auth", "can-i", "-o", "yaml"] 2).heap.read
        (sharedInput ["auth", "can-i", "-o", "yaml"] 2).ArgsAfterDash = ["-o", "yaml"]
    ∧ ((fakeCtlHandler fakeFileTwo "me" [] "" "" "" false 0).run fakeCtlHost
        (sharedInput ["auth", "can-i", "-o", "yaml"] 2)
        (fun _ => Context.live) (fun _ => [])).calls.getLast?
      = some (ctl.Call.Standard "kubectl" ["auth", "can-i", "--kubeconfig", "/kube/config",
          "--as", "me", "--v", "0", "--kubeconfig", "/kube/config"]) := by
  refine ⟨by decide, ?_⟩
  obtain ⟨effCtx, -, -, hl, -, hc, -⟩ := C23_kubectl_args
    (fakeCtlHandler fakeFileTwo "me" [] "" "" "" false 0)
    fakeCtlHost (sharedInput ["auth", "can-i", "-o", "yaml"] 2)
    (fun _ => Context.live) (fun _ => [])
    (ctl.Validated.mk (fakeExecutor 0 none) fakeFileTwo "ctx"
      (ConfigContext.mk "me" "current-cluster" "current-namespace") "ctx"
      "current-namespace"
      (ctl.State.mk [ctl.Call.ConfigParse "", ctl.Call.NamespacesGet "current-namespace",
        ctl.Call.Query [QueryOption.QueryKind "User",
          QueryOption.QueryNamespace "current-namespace", QueryOption.QueryName "me",
          QueryOption.QueryClientCmdConfig (some fakeFileTwo.ClientCmdConfig)]] []))
    rfl
  have he : effCtx = ConfigContext.mk "me" "current-cluster" "current-namespace" := by
    have hl2 : some (ConfigContext.mk "me" "current-cluster" "current-namespace")
        = some effCtx := hl
    injection hl2 with hl3
    exact hl3.symm
  rw [hc, he]
  decide

/-- C30: in every run of ctl that reaches the assembly of the arguments, the condition under
which `run` passes `--cluster`, namely `--cluster` set and (another context than the current
one, or a cluster that differs from the cluster of the current context), holds if and only
if `--cluster` is set and the effective context name differs from the current-context name:
when the two names are equal, a cluster that is set is the cluster of the current context.
So the arguments of the one `kubectl` command are the pre-dash arguments, `--kubeconfig`,
`--as`, `--as-group` and `--context` as the flags say, `--cluster` and the cluster exactly
when `--cluster` is set and the effective context is not the current one, the namespace
flags, `--v`, and then what the post-dash slice holds at that moment (the post-dash
arguments of the caller when no append to the pre-dash slice can write into it). -/
theorem C30_cluster_flag (h : ctl.Handler) (host : ctl.Host) (input : ctl.Input)
    (ctx : List ctl.Call → Context) (sched : List ctl.Call → List Nat) (v : ctl.Validated)
    (hv : h.validate host ctx sched = .ok v) :
    (v.effectiveContextName = v.currentContextName → h.Cluster ≠ "" →
      h.Cluster = v.currentContext.Cluster)
    ∧ ((h.Cluster ≠ "" ∧ (v.effectiveContextName ≠ v.currentContextName
          ∨ h.Cluster ≠ v.currentContext.Cluster))
        ↔ (h.Cluster ≠ "" ∧ v.effectiveContextName ≠ v.currentContextName))
    ∧ (h.run host input ctx sched).calls
        = v.st.calls ++ [ctl.Call.Standard "kubectl"
            (input.heap.read input.ArgsBeforeDash ++ ["--kubeconfig", v.configFile.Name]
              ++ (if h.As ≠ "" then ["--as", h.As] else [])
              ++ h.AsGroup.flatMap (fun g => ["--as-group", g])
              ++ (if v.effectiveContextName ≠ v.currentContextName then
                    ["--context", v.effectiveContextName] else [])
              ++ (if h.Cluster ≠ "" ∧ v.effectiveContextName ≠ v.currentContextName then
                    ["--cluster", h.Cluster] else [])
              ++ (if h.AllNamespaces = true then ["--all-namespaces"]
                  else if v.Namespace ≠ "" ∧ v.Namespace ≠ v.currentContext.Namespace then
                    ["--namespace", v.Namespace] else [])
              ++ ["--v", toString h.Verbosity]
              ++ (h.flagArgs input v.configFile v.currentContextName v.currentContext
                    v.effectiveContextName v.Namespace).1.read input.ArgsAfterDash)]
    ∧ (input.ArgsAfterDash.array < input.heap.next →
        input.ArgsBeforeDash.apart input.ArgsAfterDash →
        (h.flagArgs input v.configFile v.currentContextName v.currentContext
            v.effectiveContextName v.Namespace).1.read input.ArgsAfterDash
          = input.heap.read input.ArgsAfterDash) := by
  obtain ⟨-, -, -, -, hcur, -, effCtx, hl, hclu, -, -⟩ := validate_inv h host ctx sched v hv
  obtain ⟨-, hlc⟩ := GetCurrentContext_lookup v.configFile _ _ hcur
  have hsame : v.effectiveContextName = v.currentContextName → h.Cluster ≠ "" →
      h.Cluster = v.currentContext.Cluster := by
    intro he hne
    rw [he, hlc] at hl
    injection hl with hl
    by_contra hd
    rw [hl] at hd
    exact hclu ⟨hne, hd⟩
  have hiff : (h.Cluster ≠ "" ∧ (v.effectiveContextName ≠ v.currentContextName
        ∨ h.Cluster ≠ v.currentContext.Cluster))
      ↔ (h.Cluster ≠ "" ∧ v.effectiveContextName ≠ v.currentContextName) := by
    constructor
    · rintro ⟨hne, hd | hd⟩
      · exact ⟨hne, hd⟩
      · refine ⟨hne, fun he => hd (hsame he hne)⟩
    · rintro ⟨hne, hd⟩
      exact ⟨hne, Or.inl hd⟩
  refine ⟨hsame, hiff, ?_, fun ht hap => flagArgs_apart h input _ _ _ _ _ ht hap⟩
  rw [run_of_validate h host input ctx sched v hv, passthrough_calls, kubectlArgs_eq]
  unfold passthroughArgs
  by_cases hc : h.Cluster ≠ "" ∧ v.effectiveContextName ≠ v.currentContextName
  · rw [if_pos (hiff.2 hc), if_pos hc]
  · rw [if_neg (fun hh => hc (hiff.1 hh)), if_neg hc]

/-- C30 at the file with two contexts: with `--cluster current-cluster` and no `--context`
the cluster is not passed on, with `--context other --cluster other-cluster` it is. -/
theorem C30_cluster_flag_witness :
    ((fakeCtlHandler fakeFileTwo "me" [] "" "current-cluster" "" false 0).run fakeCtlHost
        (separateInput ["auth", "can-i"] ["-o", "yaml"]) (fun _ => Context.live)
        (fun _ => [])).calls.getLast?
      = some (ctl.Call.Standard "kubectl" ["auth", "can-i", "--kubeconfig", "/kube/config",
          "--as", "me", "--v", "0", "-o", "yaml"])
    ∧ ((fakeCtlHandler fakeFileTwo "you" [] "other" "other-cluster" "" false 0).run
        fakeCtlHost (separateInput ["auth", "can-i"] ["-o", "yaml"]) (fun _ => Context.live)
        (fun _ => [])).calls.getLast?
      = some (ctl.Call.Standard "kubectl" ["auth", "can-i", "--kubeconfig", "/kube/config",
          "--as", "you", "--context", "other", "--cluster", "other-cluster", "--namespace",
          "other-namespace", "--v", "0", "-o", "yaml"]) := by
  constructor
  · rw [(C30_cluster_flag
      (fakeCtlHandler fakeFileTwo "me" [] "" "current-cluster" "" false 0) fakeCtlHost
      (separateInput ["auth", "can-i"] ["-o", "yaml"]) (fun _ => Context.live) (fun _ => [])
      (ctl.Validated.mk (fakeExecutor 0 none) fakeFileTwo "ctx"
        (ConfigContext.mk "me" "current-cluster" "current-namespace") "ctx"
        "current-namespace"
        (ctl.State.mk [ctl.Call.ConfigParse "", ctl.Call.NamespacesGet "current-namespace",
          ctl.Call.Query [QueryOption.QueryKind "User",
            QueryOption.QueryNamespace "current-namespace", QueryOption.QueryName "me",
            QueryOption.QueryClientCmdConfig (some fakeFileTwo.ClientCmdConfig)]] []))
      rfl).2.2.1]
    decide
  · rw [(C30_cluster_flag
      (fakeCtlHandler fakeFileTwo "you" [] "other" "other-cluster" "" false 0) fakeCtlHost
      (separateInput ["auth", "can-i"] ["-o", "yaml"]) (fun _ => Context.live) (fun _ => [])
      (ctl.Validated.mk (fakeExecutor 0 none) fakeFileTwo "ctx"
        (ConfigContext.mk "me" "current-cluster" "current-namespace") "other"
        "other-namespace"
        (ctl.State.mk [ctl.Call.ConfigParse "", ctl.Call.NamespacesGet "other-namespace",
          ctl.Call.Query [QueryOption.QueryKind "User",
            QueryOption.QueryNamespace "other-namespace", QueryOption.QueryName "you",
            QueryOption.QueryClientCmdConfig (some fakeFileTwo.ClientCmdConfig)]] []))
      rfl).2.2.1]
    decide

/-! ## ctl: the cluster of the effective context (claim C24) -/

theorem clients_ok (h : ctl.Handler) (host : ctl.Host) (file : File)
    (hparse : (h.KubectlConfigClient.getD host.NewDefaultClient).Parse [] h.ConfigFile
      = (some file, none))
    (hapi : h.KubeApiClientset ≠ none ∨ ∃ api, host.NewForConfig file = .ok api) :
    ∃ executor api reg, h.clients host
      = .ok (executor, some file, api, reg, ⟨[ctl.Call.ConfigParse h.ConfigFile], []⟩) := by
  unfold ctl.Handler.clients ctl.Handler.apiClientset
  simp only [hparse]
  cases hk : h.KubeApiClientset with
  | some a => exact ⟨_, _, _, rfl⟩
  | none =>
    rcases hapi with hne | ⟨api, ha⟩
    · exact absurd hk hne
    · simp only [ha]
      exact ⟨_, _, _, rfl⟩

theorem clusterConflict_contains (cluster effective : String) :
    strings.Contains ("kubeauth: selected --cluster [" ++ cluster
        ++ "] differs from effective context\x27s cluster [" ++ effective ++ "]") cluster = true
    ∧ strings.Contains ("kubeauth: selected --cluster [" ++ cluster
        ++ "] differs from effective context\x27s cluster [" ++ effective ++ "]") effective
        = true := by
  unfold strings.Contains
  simp only [decide_eq_true_eq, String.data_append, List.append_assoc]
  constructor
  · exact List.infix_append' _ _ _
  · exact ⟨"kubeauth: selected --cluster [".data ++ (cluster.data
        ++ "] differs from effective context\x27s cluster [".data), "]".data, by simp⟩

/-- C24: in ctl's `run` with a subject selected and no conflict of the namespace scope, if
`--cluster` is set and differs from the cluster of the effective context (the context that
the parsed file holds under the `--context` value, or under the current-context name when
`--context` is empty), `run` returns the error `kubeauth: selected --cluster [<cluster>]
differs from effective context's cluster [<cluster of the effective context>]`, whose
message contains both names, and its only call is the `Parse` of the configuration file: no
`Namespaces.Get`, no `Query` and no command precede the error.  As in every run that gets as
far as the validation of the cluster, `Parse` has returned a file, the cluster clients are
available, and the file resolves its current context, which `DefaultClient.Parse` sees to
(config.go:121-128). -/
theorem C24_cluster_conflict (h : ctl.Handler) (host : ctl.Host) (input : ctl.Input)
    (ctx : List ctl.Call → Context) (sched : List ctl.Call → List Nat) (file : File)
    (cur : String) (curCtx effCtx : ConfigContext)
    (hparse : (h.KubectlConfigClient.getD host.NewDefaultClient).Parse [] h.ConfigFile
      = (some file, none))
    (hapi : h.KubeApiClientset ≠ none ∨ ∃ api, host.NewForConfig file = .ok api)
    (hsub : h.As ≠ "" ∨ h.AsGroup ≠ [])
    (hnsc : h.Namespace = "" ∨ h.AllNamespaces = false)
    (hcur : file.GetCurrentContext = .ok (cur, curCtx))
    (heff : file.ClientCmdConfig.Contexts.lookup (h.effectiveName cur) = some effCtx)
    (hset : h.Cluster ≠ "") (hdiff : h.Cluster ≠ effCtx.Cluster) :
    (h.run host input ctx sched).ending
        = .returned (some ("kubeauth: selected --cluster [" ++ h.Cluster
            ++ "] differs from effective context\x27s cluster [" ++ effCtx.Cluster ++ "]"))
    ∧ strings.Contains ("kubeauth: selected --cluster [" ++ h.Cluster
        ++ "] differs from effective context\x27s cluster [" ++ effCtx.Cluster ++ "]")
        h.Cluster = true
    ∧ strings.Contains ("kubeauth: selected --cluster [" ++ h.Cluster
        ++ "] differs from effective context\x27s cluster [" ++ effCtx.Cluster ++ "]")
        effCtx.Cluster = true
    ∧ (h.run host input ctx sched).calls = [ctl.Call.ConfigParse h.ConfigFile] := by
  obtain ⟨executor, api, reg, hc⟩ := clients_ok h host file hparse hapi
  have hsub2 : ¬ (h.As = "" ∧ h.AsGroup.length = 0) := by
    rintro ⟨h1, h2⟩
    rcases hsub with hs | hs
    · exact hs h1
    · exact hs (List.length_eq_zero.1 h2)
  have hnsc2 : ¬ (h.Namespace ≠ "" ∧ h.AllNamespaces = true) := by
    rintro ⟨h1, h2⟩
    rcases hnsc with hn | hn
    · exact h1 hn
    · rw [hn] at h2
      exact Bool.false_ne_true h2
  have heff2 : file.ClientCmdConfig.Contexts.lookup (if h.Context = "" then cur else h.Context)
      = some effCtx := heff
  have hrun : h.validate host ctx sched
      = .error ((if h.Context = "" then
            (ctl.State.mk [ctl.Call.ConfigParse h.ConfigFile] []).verbose h.Verbosity
              ("defaulting to current-context [" ++ (if h.Context = "" then cur else h.Context)
                ++ "] from file [" ++ file.Name ++ "]")
          else
            (ctl.State.mk [ctl.Call.ConfigParse h.ConfigFile] []).verbose h.Verbosity
              ("using --context [" ++ (if h.Context = "" then cur else h.Context)
                ++ "] from file [" ++ file.Name ++ "]")).done
          (.returned (some ("kubeauth: selected --cluster [" ++ h.Cluster
            ++ "] differs from effective context\x27s cluster [" ++ effCtx.Cluster ++ "]"))))
      := by
    unfold ctl.Handler.validate
    simp only [hc]
    rw [if_neg hsub2, if_neg hnsc2]
    simp only [hcur, heff2]
    rw [if_pos ⟨hset, hdiff⟩]
  obtain ⟨hc1, hc2⟩ := clusterConflict_contains h.Cluster effCtx.Cluster
  unfold ctl.Handler.run
  rw [hrun]
  refine ⟨rfl, hc1, hc2, ?_⟩
  simp only [ctl.State.done]
  split_ifs <;> exact ctl_verbose_calls _ _ _

/-- C24 at the conflict of the tests: `--cluster does-not-exist` against the current context
of the cluster `current-cluster`. -/
theorem C24_cluster_conflict_witness :
    ((fakeCtlHandler fakeFileTwo "me" [] "" "does-not-exist" "" false 0).run fakeCtlHost
        (separateInput ["auth", "can-i"] []) (fun _ => Context.live) (fun _ => [])).ending
      = .returned (some ("kubeauth: selected --cluster [" ++ "does-not-exist"
          ++ "] differs from effective context\x27s cluster [" ++ "current-cluster" ++ "]"))
    ∧ ((fakeCtlHandler fakeFileTwo "me" [] "" "does-not-exist" "" false 0).run fakeCtlHost
        (separateInput ["auth", "can-i"] []) (fun _ => Context.live) (fun _ => [])).calls
      = [ctl.Call.ConfigParse ""] :=
  ⟨(C24_cluster_conflict
    (fakeCtlHandler fakeFileTwo "me" [] "" "does-not-exist" "" false 0) fakeCtlHost
    (separateInput ["auth", "can-i"] []) (fun _ => Context.live) (fun _ => []) fakeFileTwo
    "ctx" (ConfigContext.mk "me" "current-cluster" "current-namespace")
    (ConfigContext.mk "me" "current-cluster" "current-namespace") rfl
    (Or.inl (by simp [fakeCtlHandler])) (Or.inl (by decide)) (Or.inl rfl) rfl
    (by decide) (by decide) (by decide)).1,
  (C24_cluster_conflict
    (fakeCtlHandler fakeFileTwo "me" [] "" "does-not-exist" "" false 0) fakeCtlHost
    (separateInput ["auth", "can-i"] []) (fun _ => Context.live) (fun _ => []) fakeFileTwo
    "ctx" (ConfigContext.mk "me" "current-cluster" "current-namespace")
    (ConfigContext.mk "me" "current-cluster" "current-namespace") rfl
    (Or.inl (by simp [fakeCtlHandler])) (Or.inl (by decide)) (Or.inl rfl) rfl
    (by decide) (by decide) (by decide)).2.2.2⟩

/-! ## ctl: a context cancelled while `kubectl` runs (claim C25) -/

/-- C25 fails on the code.  Let the validation of `run` succeed, let the executor return no
error for the `kubectl` command, and let the caller's context be cancelled by then.  `run`
finds the context cancelled and returns `errors.Wrap(err, ...)` for the error `err` of the
executor, which is nil (ctl.go:311-314): so `run` returns nil, after the one command. -/
theorem C25_cancellation_dropped (h : ctl.Handler) (host : ctl.Host) (input : ctl.Input)
    (ctx : List ctl.Call → Context) (sched : List ctl.Call → List Nat) (v : ctl.Validated)
    (code : Int)
    (hv : h.validate host ctx sched = .ok v)
    (hexec : v.executor.Standard v.st.calls (ctx v.st.calls) "kubectl"
        (h.kubectlArgs input v.configFile v.currentContextName v.currentContext
          v.effectiveContextName v.Namespace) = (code, none))
    (hctx : (ctx (v.st.calls ++ [ctl.Call.Standard "kubectl"
        (h.kubectlArgs input v.configFile v.currentContextName v.currentContext
          v.effectiveContextName v.Namespace)])).Err ≠ none) :
    (h.run host input ctx sched).ending = .returned none
    ∧ (h.run host input ctx sched).calls
        = v.st.calls ++ [ctl.Call.Standard "kubectl"
            (h.kubectlArgs input v.configFile v.currentContextName v.currentContext
              v.effectiveContextName v.Namespace)] := by
  refine ⟨?_, ?_⟩
  · rw [run_of_validate h host input ctx sched v hv]
    unfold ctl.Handler.passthrough
    simp only [ctl_verbose_calls, hexec, ctl.State.call]
    rw [if_neg (by simp), if_pos hctx]
    rfl
  · rw [run_of_validate h host input ctx sched v hv, passthrough_calls]

/-- C25 at a run of the tests in which the caller cancels the context while `kubectl`
runs: `run` returns nil. -/
theorem C25_cancellation_dropped_witness :
    (cancelledAfterKubectl [ctl.Call.ConfigParse "",
        ctl.Call.Standard "kubectl" ["auth", "can-i"]]).Err = some "context canceled"
    ∧ ((fakeCtlHandler fakeFileTwo "me" [] "" "" "" false 0).run fakeCtlHost
        (separateInput ["auth", "can-i"] []) cancelledAfterKubectl (fun _ => [])).ending
      = .returned none :=
  ⟨by decide,
    (C25_cancellation_dropped
      (fakeCtlHandler fakeFileTwo "me" [] "" "" "" false 0) fakeCtlHost
      (separateInput ["auth", "can-i"] []) cancelledAfterKubectl (fun _ => [])
      (ctl.Validated.mk (fakeExecutor 0 none) fakeFileTwo "ctx"
        (ConfigContext.mk "me" "current-cluster" "current-namespace") "ctx"
        "current-namespace"
        (ctl.State.mk [ctl.Call.ConfigParse "", ctl.Call.NamespacesGet "current-namespace",
          ctl.Call.Query [QueryOption.QueryKind "User",
            QueryOption.QueryNamespace "current-namespace", QueryOption.QueryName "me",
            QueryOption.QueryClientCmdConfig (some fakeFileTwo.ClientCmdConfig)]] []))
      0 rfl rfl (by decide)).1⟩

end Kubeauth
